import Mathlib

/-!
# Tizonia OpenMAX IL component kernel: a shallow embedding of `tizkernel.c`

The definitions below follow `src/libtizonia/src/tizkernel.c` function by
function and keep the names of the C source.

Conventions of the embedding.

* The kernel object (`struct tizkernel`) and the parts of its surroundings that
  the C code reads or writes (the buffer headers it points to, the servant
  message queue, the FSM state it queries, the scheduler peer records, the
  resource-manager proxy) are fields of one record, `tizkernel`.
* Buffer headers are referred to by address (a `Nat`, `0` is `NULL`); the
  headers themselves live in `tizkernel.heap`.  The ingress and egress lists
  hold addresses, exactly as the C vectors hold `OMX_BUFFERHEADERTYPE *`.
* Every call that leaves the kernel (events, buffer callbacks, calls into the
  FSM, the processor, a port allocator or the RM proxy) is appended to
  `tizkernel.trace`, in program order.
* `assert (...)` statements are preconditions: the embedding is total, and a
  theorem that needs an asserted fact states it as a hypothesis.
* A `do ... while` loop over the ports is a recursive function with a fuel
  argument of `nports + 1`; the loop condition is the C condition.
-/

namespace Tizonia

/-! ## OpenMAX IL types -/

/-- The error codes of `OMX_ERRORTYPE` that the kernel uses. -/
inductive OMX_ERRORTYPE where
  | OMX_ErrorNone
  | OMX_ErrorInsufficientResources
  | OMX_ErrorUndefined
  | OMX_ErrorBadPortIndex
  | OMX_ErrorSameState
  | OMX_ErrorUnsupportedIndex
  | OMX_ErrorPortUnpopulated
  | OMX_ErrorResourcesPreempted
  | OMX_ErrorNoMore
  | OMX_ErrorNotReady
  | OMX_ErrorNotImplemented
  deriving DecidableEq, Repr, Inhabited

open OMX_ERRORTYPE

/-- Port direction, `OMX_DIRTYPE`. -/
inductive OMX_DIRTYPE where
  | OMX_DirInput
  | OMX_DirOutput
  | OMX_DirMax
  deriving DecidableEq, Repr, Inhabited

open OMX_DIRTYPE

/-- Component states, `OMX_STATETYPE`. -/
inductive OMX_STATETYPE where
  | OMX_StateInvalid
  | OMX_StateLoaded
  | OMX_StateIdle
  | OMX_StateExecuting
  | OMX_StatePause
  | OMX_StateWaitForResources
  | OMX_StateMax
  deriving DecidableEq, Repr, Inhabited

open OMX_STATETYPE

/-- Numeric value of a state, as carried in `param1` of a `SendCommand`. -/
def OMX_STATETYPE.toNat : OMX_STATETYPE → Nat
  | OMX_StateInvalid => 0
  | OMX_StateLoaded => 1
  | OMX_StateIdle => 2
  | OMX_StateExecuting => 3
  | OMX_StatePause => 4
  | OMX_StateWaitForResources => 5
  | OMX_StateMax => 0x7FFFFFFF

/-- The FSM state and sub-state identifiers, `tizfsm_state_id_t`. -/
inductive tizfsm_state_id_t where
  | EStateLoaded
  | EStateIdle
  | EStateExecuting
  | EStatePause
  | EStateWaitForResources
  | ESubStateLoadedToIdle
  | ESubStateIdleToLoaded
  | ESubStateExecutingToIdle
  | ESubStatePauseToIdle
  deriving DecidableEq, Repr, Inhabited

open tizfsm_state_id_t

/-- The commands of `OMX_COMMANDTYPE`, in the order of
`tizkernel_msg_dispatch_sc_to_fnt_tbl`. -/
inductive OMX_COMMANDTYPE where
  | OMX_CommandStateSet
  | OMX_CommandFlush
  | OMX_CommandPortDisable
  | OMX_CommandPortEnable
  | OMX_CommandMarkBuffer
  deriving DecidableEq, Repr, Inhabited

open OMX_COMMANDTYPE

/-- The events of `OMX_EVENTTYPE` that the kernel emits through
`tizservant_issue_event`. -/
inductive OMX_EVENTTYPE where
  | OMX_EventMark
  | OMX_EventPortSettingsChanged
  | OMX_EventBufferFlag
  deriving DecidableEq, Repr, Inhabited

open OMX_EVENTTYPE

/-- Result codes of the resource-manager proxy, `tizrm_error_t`. -/
inductive tizrm_error_t where
  | TIZRM_SUCCESS
  | TIZRM_PREEMPTION_IN_PROGRESS
  | TIZRM_NOT_ENOUGH_RESOURCE_AVAILABLE
  | TIZRM_OTHER_FAILURE
  deriving DecidableEq, Repr, Inhabited

open tizrm_error_t

/-- The port index that stands for all ports, `OMX_ALL`. -/
def OMX_ALL : Nat := 0xFFFFFFFF

/-- The end-of-stream bit of `nFlags`, `OMX_BUFFERFLAG_EOS`. -/
def OMX_BUFFERFLAG_EOS : Nat := 0x00000001

/-- The fields of `OMX_BUFFERHEADERTYPE` that the kernel reads or writes.
Handles and data pointers are addresses, `0` is `NULL`. -/
structure OMX_BUFFERHEADERTYPE where
  nFilledLen : Nat
  nOffset : Nat
  nFlags : Nat
  hMarkTargetComponent : Nat
  pMarkData : Nat
  nInputPortIndex : Nat
  nOutputPortIndex : Nat
  deriving DecidableEq, Repr, Inhabited

/-- A buffer mark, `OMX_MARKTYPE`. -/
structure OMX_MARKTYPE where
  hMarkTargetComponent : Nat
  pMarkData : Nat
  deriving DecidableEq, Repr, Inhabited

/-- Modelled from the spec: `tiz_clear_header` (declared in `tizutils.h`, its
body is not among the sources) zeroes the payload metadata of a header: the
filled length, the offset, the flags and the mark fields.  The port indices
are left alone. -/
def tiz_clear_header (h : OMX_BUFFERHEADERTYPE) : OMX_BUFFERHEADERTYPE :=
  { h with nFilledLen := 0, nOffset := 0, nFlags := 0,
           hMarkTargetComponent := 0, pMarkData := 0 }

/-! ## Ports

`struct tizport` and its macros live in `tizport.c` / `tizport_decls.h`, which
are not among the sources; the record below holds the capability set that the
kernel queries. -/

/-- One entry of a port's mark queue: the mark and whether the port owns it
(third argument of `tizport_store_mark`). -/
structure tizport_mark_info_t where
  hMarkTargetComponent : Nat
  pMarkData : Nat
  owned : Bool
  deriving DecidableEq, Repr, Inhabited

/-- Modelled from the spec: the port capability set of `struct tizport`
(`tizport_decls.h` is not among the sources).  `enabled`, `populated`,
`supplier`, `allocator` are the flags of the same name; `being_enabled`,
`being_disabled` and `flush_in_progress` are the transient flags, each written
by `TIZPORT_SET_GOING_TO_ENABLED` / `TIZPORT_SET_GOING_TO_DISABLED` /
`TIZPORT_SET_FLUSH_IN_PROGRESS` and read by `TIZPORT_IS_BEING_ENABLED` /
`TIZPORT_IS_BEING_DISABLED` / `TIZPORT_IS_BEING_FLUSHED`; `thdl` is the handle
of the tunnelled component (`tizport_get_tunnel_comp`, `0` when the port is not
tunnelled); `p_hdrs_` is the port's list of allocated headers
(`tizport_get_hdrs_list`), whose length is `tizport_buffer_count`.  The mark
queue of a port is kept beside the port records, in `tizkernel.port_marks`. -/
structure tizport where
  dir : OMX_DIRTYPE
  index : Nat
  enabled : Bool
  populated : Bool
  supplier : Bool
  allocator : Bool
  being_enabled : Bool
  being_disabled : Bool
  flush_in_progress : Bool
  claimed_count_ : Int
  thdl : Nat
  p_hdrs_ : List Nat
  deriving DecidableEq, Repr, Inhabited

def tizport_dir (p : tizport) : OMX_DIRTYPE := p.dir

def tizport_index (p : tizport) : Nat := p.index

def tizport_buffer_count (p : tizport) : Nat := p.p_hdrs_.length

def tizport_get_hdrs_list (p : tizport) : List Nat := p.p_hdrs_

def tizport_get_tunnel_comp (p : tizport) : Nat := p.thdl

def TIZPORT_IS_ENABLED (p : tizport) : Bool := p.enabled

def TIZPORT_IS_DISABLED (p : tizport) : Bool := !p.enabled

def TIZPORT_IS_POPULATED (p : tizport) : Bool := p.populated

def TIZPORT_IS_TUNNELED (p : tizport) : Bool := p.thdl != 0

def TIZPORT_IS_SUPPLIER (p : tizport) : Bool := p.supplier

def TIZPORT_IS_ALLOCATOR (p : tizport) : Bool := p.allocator

def TIZPORT_IS_TUNNELED_AND_SUPPLIER (p : tizport) : Bool :=
  TIZPORT_IS_TUNNELED p && TIZPORT_IS_SUPPLIER p

def TIZPORT_IS_ENABLED_TUNNELED_AND_SUPPLIER (p : tizport) : Bool :=
  TIZPORT_IS_ENABLED p && TIZPORT_IS_TUNNELED p && TIZPORT_IS_SUPPLIER p

def TIZPORT_IS_ENABLED_TUNNELED_SUPPLIER_AND_NOT_POPULATED (p : tizport) : Bool :=
  TIZPORT_IS_ENABLED p && TIZPORT_IS_TUNNELED p && TIZPORT_IS_SUPPLIER p
    && !TIZPORT_IS_POPULATED p

def TIZPORT_IS_POPULATED_AND_ENABLED (p : tizport) : Bool :=
  TIZPORT_IS_POPULATED p && TIZPORT_IS_ENABLED p

def TIZPORT_IS_BEING_ENABLED (p : tizport) : Bool := p.being_enabled

def TIZPORT_IS_BEING_DISABLED (p : tizport) : Bool := p.being_disabled

def TIZPORT_IS_BEING_FLUSHED (p : tizport) : Bool := p.flush_in_progress

def TIZPORT_GET_CLAIMED_COUNT (p : tizport) : Int := p.claimed_count_

/-- Modelled from the spec: `TIZPORT_SET_DISABLED` records that the port is
disabled; the disable command is then no longer outstanding. -/
def TIZPORT_SET_DISABLED (p : tizport) : tizport :=
  { p with enabled := false, being_disabled := false }

/-- Modelled from the spec: `TIZPORT_SET_ENABLED` records that the port is
enabled; the enable command is then no longer outstanding. -/
def TIZPORT_SET_ENABLED (p : tizport) : tizport :=
  { p with enabled := true, being_enabled := false }

def TIZPORT_SET_GOING_TO_DISABLED (p : tizport) : tizport :=
  { p with being_disabled := true }

def TIZPORT_SET_GOING_TO_ENABLED (p : tizport) : tizport :=
  { p with being_enabled := true }

def TIZPORT_SET_FLUSH_IN_PROGRESS (p : tizport) : tizport :=
  { p with flush_in_progress := true }

def TIZPORT_CLEAR_FLUSH_IN_PROGRESS (p : tizport) : tizport :=
  { p with flush_in_progress := false }

def TIZPORT_INC_CLAIMED_COUNT (p : tizport) : tizport :=
  { p with claimed_count_ := p.claimed_count_ + 1 }

/-- The macro `TIZPORT_DEC_CLAIMED_COUNT`: decrements the counter; the C
expression has the new value. -/
def TIZPORT_DEC_CLAIMED_COUNT (p : tizport) : tizport × Int :=
  ({ p with claimed_count_ := p.claimed_count_ - 1 }, p.claimed_count_ - 1)

/-- Modelled from the spec: `tizport_store_mark` appends the mark to the port's
mark queue (the first argument), recording whether the port owns it. -/
def tizport_store_mark (marks : List tizport_mark_info_t) (m : OMX_MARKTYPE)
    (owned : Bool) : List tizport_mark_info_t × OMX_ERRORTYPE :=
  (marks ++ [{ hMarkTargetComponent := m.hMarkTargetComponent,
               pMarkData := m.pMarkData, owned := owned }],
   OMX_ErrorNone)

/-- The header `h` stamped with a stored mark. -/
def stamp (h : OMX_BUFFERHEADERTYPE) (m : tizport_mark_info_t) : OMX_BUFFERHEADERTYPE :=
  { h with hMarkTargetComponent := m.hMarkTargetComponent, pMarkData := m.pMarkData }

/-- Modelled from the spec: `tizport_mark_buffer` consumes the next mark of the
port's mark queue (the first argument) and stamps the header with it; it
reports `OMX_ErrorNone` when the port owned the mark, `OMX_ErrorNotReady` when
it did not, and `OMX_ErrorNoMore` (header untouched) when the queue is empty. -/
def tizport_mark_buffer (marks : List tizport_mark_info_t) (h : OMX_BUFFERHEADERTYPE) :
    List tizport_mark_info_t × OMX_BUFFERHEADERTYPE × OMX_ERRORTYPE :=
  match marks with
  | [] => ([], h, OMX_ErrorNoMore)
  | m :: ms => (ms, stamp h m, if m.owned then OMX_ErrorNone else OMX_ErrorNotReady)

/-- The operations of a port that allocate or free its buffers.  Their bodies
(`tizport.c`) are not among the sources and the spec leaves them opaque, so
the kernel functions that call them take them as a parameter. -/
structure tizport_class where
  tizport_populate : tizport → tizport × OMX_ERRORTYPE
  tizport_depopulate : tizport → tizport × OMX_ERRORTYPE

/-! ## Messages, effects and the kernel object -/

/-- Payload of a `SendCommand` message, `tizkernel_msg_sendcommand_t`.  The
command data is a mark (only `OMX_CommandMarkBuffer` carries one). -/
structure tizkernel_msg_sendcommand_t where
  cmd : OMX_COMMANDTYPE
  param1 : Nat
  p_cmd_data : OMX_MARKTYPE
  deriving DecidableEq, Repr, Inhabited

/-- Payload of a `Callback` message, `tizkernel_msg_callback_t`. -/
structure tizkernel_msg_callback_t where
  p_hdr : Nat
  pid : Nat
  dir : OMX_DIRTYPE
  deriving DecidableEq, Repr, Inhabited

/-- A kernel message, `tizkernel_msg_t`: the class tag with its payload. -/
inductive tizkernel_msg_t where
  | ETIZKernelMsgSendCommand (sc : tizkernel_msg_sendcommand_t)
  | ETIZKernelMsgEmptyThisBuffer (p_hdr : Nat)
  | ETIZKernelMsgFillThisBuffer (p_hdr : Nat)
  | ETIZKernelMsgCallback (cb : tizkernel_msg_callback_t)
  | ETIZKernelMsgPluggableEvent (p_event : Nat)
  deriving DecidableEq, Repr, Inhabited

open tizkernel_msg_t

/-- A call that leaves the kernel.  Calls that hand over a header record its
address and its contents at the time of the call. -/
inductive Effect where
  | issue_event (ev : OMX_EVENTTYPE) (nData1 nData2 pEventData : Nat)
  | issue_cmd_event (cmd : OMX_COMMANDTYPE) (pid : Nat) (err : OMX_ERRORTYPE)
  | issue_err_event (err : OMX_ERRORTYPE)
  | issue_buf_callback (p_hdr : Nat) (hdr : OMX_BUFFERHEADERTYPE) (pid : Nat)
      (dir : OMX_DIRTYPE) (thdl : Nat)
  | fsm_complete_command (cmd : OMX_COMMANDTYPE) (pid : Nat)
  | fsm_complete_transition (state : Nat)
  | prc_SendCommand (cmd : OMX_COMMANDTYPE) (pid : Nat)
  | prc_EmptyThisBuffer (p_hdr : Nat) (hdr : OMX_BUFFERHEADERTYPE)
  | prc_FillThisBuffer (p_hdr : Nat) (hdr : OMX_BUFFERHEADERTYPE)
  | prc_remove_from_queue (p_hdr : Nat)
  | port_populate_header (pid : Nat) (p_hdr : Nat)
  | rm_proxy_init
  | rm_proxy_destroy
  | rm_proxy_acquire
  | rm_proxy_release
  deriving DecidableEq, Repr, Inhabited

/-- A scheduler peer record (`peer_info_t`): the peer's handle and the value of
its semaphore as `tiz_sem_getvalue` reads it. -/
structure peer_info_t where
  hdl : Nat
  sem : Nat
  deriving DecidableEq, Repr, Inhabited

/-- The structure `OMX_PORT_PARAM_TYPE`, without size and version. -/
structure OMX_PORT_PARAM_TYPE where
  nPorts : Nat
  nStartPortNumber : Nat
  deriving DecidableEq, Repr, Inhabited

/-- The kernel object `struct tizkernel` (first block of fields) together with
the surroundings that `tizkernel.c` reads and writes (second block).

* `port_marks` gives, for the port at each position of `p_ports_`, the mark
  queue that the port holds.
* `hdl` is the component handle of the enclosing servant (`p_hdl_`).
* `heap` maps a header address to the header.
* `queue` is the servant message queue: `(priority, message)` in arrival order.
* `fsm_state` is what `tizapi_GetState (tiz_get_fsm (hdl))` returns and
  `fsm_substate` what `tizfsm_get_substate` returns; both belong to the
  external FSM and are inputs of every kernel function.
* `peers` is the scheduler's peer list.
* `rm_init_`, `rm_acquire_`, `rm_release_`, `rm_destroy_` are the results the
  resource-manager proxy gives; `cport_version_rc_` and `cport_config_rc_` are
  the results of the two config-port queries made by `init_rm`.
* `vec_oom` tells whether `tiz_vector_push_back` / `tiz_vector_append` fail for
  lack of memory, `msg_oom` whether `tizservant_init_msg` does.
* `trace` lists the calls that left the kernel, oldest first. -/
structure tizkernel where
  p_ports_ : List tizport
  p_ingress_ : List (List Nat)
  p_egress_ : List (List Nat)
  p_cport_ : Option tizport
  eos_ : Bool
  audio_init_ : OMX_PORT_PARAM_TYPE
  image_init_ : OMX_PORT_PARAM_TYPE
  video_init_ : OMX_PORT_PARAM_TYPE
  other_init_ : OMX_PORT_PARAM_TYPE
  cmd_completion_count_ : Nat
  port_marks : Nat → List tizport_mark_info_t
  hdl : Nat
  heap : Nat → OMX_BUFFERHEADERTYPE
  queue : List (Nat × tizkernel_msg_t)
  fsm_state : OMX_STATETYPE
  fsm_substate : tizfsm_state_id_t
  peers : List peer_info_t
  rm_init_ : tizrm_error_t
  rm_acquire_ : tizrm_error_t
  rm_release_ : tizrm_error_t
  rm_destroy_ : tizrm_error_t
  cport_version_rc_ : OMX_ERRORTYPE
  cport_config_rc_ : OMX_ERRORTYPE
  vec_oom : Bool
  msg_oom : Bool
  trace : List Effect

/-- The port at index `pid`: `*tiz_vector_at (p_obj->p_ports_, pid)`. -/
def port_at (k : tizkernel) (pid : Nat) : tizport := k.p_ports_.getD pid default

/-- The ingress list of port `pid`: `*tiz_vector_at (p_obj->p_ingress_, pid)`. -/
def ingress_at (k : tizkernel) (pid : Nat) : List Nat := k.p_ingress_.getD pid []

/-- The egress list of port `pid`: `*tiz_vector_at (p_obj->p_egress_, pid)`. -/
def egress_at (k : tizkernel) (pid : Nat) : List Nat := k.p_egress_.getD pid []

def set_port (k : tizkernel) (pid : Nat) (p : tizport) : tizkernel :=
  { k with p_ports_ := k.p_ports_.set pid p }

def set_ingress (k : tizkernel) (pid : Nat) (l : List Nat) : tizkernel :=
  { k with p_ingress_ := k.p_ingress_.set pid l }

def set_egress (k : tizkernel) (pid : Nat) (l : List Nat) : tizkernel :=
  { k with p_egress_ := k.p_egress_.set pid l }

/-- Replace the mark queue of the port at position `pid`. -/
def set_marks (k : tizkernel) (pid : Nat) (ms : List tizport_mark_info_t) : tizkernel :=
  { k with port_marks := Function.update k.port_marks pid ms }

/-- Assign `p_obj->cmd_completion_count_`. -/
def set_count (k : tizkernel) (n : Nat) : tizkernel :=
  { k with cmd_completion_count_ := n }

/-- Assign `p_obj->eos_`. -/
def set_eos (k : tizkernel) (b : Bool) : tizkernel :=
  { k with eos_ := b }

/-- Replace the servant message queue. -/
def set_queue (k : tizkernel) (q : List (Nat × tizkernel_msg_t)) : tizkernel :=
  { k with queue := q }

/-- Write through a header pointer. -/
def set_hdr (k : tizkernel) (p_hdr : Nat) (h : OMX_BUFFERHEADERTYPE) : tizkernel :=
  { k with heap := Function.update k.heap p_hdr h }

/-- Record a call that leaves the kernel. -/
def emit (k : tizkernel) (e : Effect) : tizkernel :=
  { k with trace := k.trace ++ [e] }

/-- The number of registered data ports: `tiz_vector_length (p_obj->p_ports_)`. -/
def nports (k : tizkernel) : Nat := k.p_ports_.length

/-! ### Calls into the collaborators

The servant base class, the FSM and the processor are external; a call to one
of them is recorded in the trace and is taken to succeed. -/

def tizservant_issue_event (k : tizkernel) (ev : OMX_EVENTTYPE)
    (nData1 nData2 pEventData : Nat) : tizkernel :=
  emit k (Effect.issue_event ev nData1 nData2 pEventData)

def tizservant_issue_cmd_event (k : tizkernel) (cmd : OMX_COMMANDTYPE) (pid : Nat)
    (err : OMX_ERRORTYPE) : tizkernel :=
  emit k (Effect.issue_cmd_event cmd pid err)

def tizservant_issue_err_event (k : tizkernel) (err : OMX_ERRORTYPE) : tizkernel :=
  emit k (Effect.issue_err_event err)

/-- The outgoing buffer callback: with `thdl = 0` it is the IL client's
`EmptyBufferDone` (input port) or `FillBufferDone` (output port), otherwise the
tunnelled component's `FillThisBuffer` / `EmptyThisBuffer`. -/
def tizservant_issue_buf_callback (k : tizkernel) (p_hdr : Nat) (pid : Nat)
    (dir : OMX_DIRTYPE) (thdl : Nat) : tizkernel :=
  emit k (Effect.issue_buf_callback p_hdr (k.heap p_hdr) pid dir thdl)

def tizfsm_complete_command (k : tizkernel) (cmd : OMX_COMMANDTYPE) (pid : Nat) :
    tizkernel :=
  emit k (Effect.fsm_complete_command cmd pid)

def tizfsm_complete_transition (k : tizkernel) (state : Nat) :
    tizkernel × OMX_ERRORTYPE :=
  (emit k (Effect.fsm_complete_transition state), OMX_ErrorNone)

def tizfsm_get_substate (k : tizkernel) : tizfsm_state_id_t := k.fsm_substate

def tizapi_GetState (k : tizkernel) : OMX_STATETYPE := k.fsm_state

/-- The servant enqueue, `tizservant_enqueue (obj, msg, priority)`. -/
def tizservant_enqueue (k : tizkernel) (m : tizkernel_msg_t) (prio : Nat) :
    tizkernel × OMX_ERRORTYPE :=
  (set_queue k (k.queue ++ [(prio, m)]), OMX_ErrorNone)

/-- The predicate `remove_buffer_from_servant_queue`: a queued message is
removed when it is of the class asked for and carries the header. -/
def remove_buffer_from_servant_queue (m : tizkernel_msg_t) (p_hdr : Nat) : Bool :=
  match m with
  | ETIZKernelMsgCallback cb => p_hdr == cb.p_hdr
  | _ => false

/-- The servant call `tizservant_remove_from_queue` on the kernel's own queue
with `remove_buffer_from_servant_queue` and class `ETIZKernelMsgCallback`. -/
def tizservant_remove_from_queue (k : tizkernel) (p_hdr : Nat) : tizkernel :=
  let keep := fun (pm : Nat × tizkernel_msg_t) =>
    !remove_buffer_from_servant_queue pm.2 p_hdr
  set_queue k (k.queue.filter keep)

/-- The vector call `tiz_vector_append (dst, src)`. -/
def tiz_vector_append (k : tizkernel) (dst src : List Nat) :
    List Nat × OMX_ERRORTYPE :=
  if k.vec_oom then (dst, OMX_ErrorInsufficientResources)
  else (dst ++ src, OMX_ErrorNone)

/-- The vector call `tiz_vector_push_back (l, &p_hdr)`. -/
def tiz_vector_push_back (k : tizkernel) (l : List Nat) (p_hdr : Nat) :
    List Nat × OMX_ERRORTYPE :=
  if k.vec_oom then (l, OMX_ErrorInsufficientResources)
  else (l ++ [p_hdr], OMX_ErrorNone)

/-- The port call `tizport_populate_header (p_port, hdl, p_hdr)`: the port
allocates the header's buffer when pre-announcements are disabled.  The buffer
pointer is not among the header fields of the embedding, so only the call is
recorded. -/
def tizport_populate_header (k : tizkernel) (pid : Nat) (p_hdr : Nat) : tizkernel :=
  emit k (Effect.port_populate_header pid p_hdr)

/-! ## The static functions of `tizkernel.c` -/

/-- Source: `complete_mark_buffer` (lines 439-460).  The decrement of the
completion counter and the FSM notification are commented out in the source. -/
def complete_mark_buffer (k : tizkernel) (a_pid : Nat) (a_error : OMX_ERRORTYPE) :
    tizkernel :=
  tizservant_issue_cmd_event k OMX_CommandMarkBuffer a_pid a_error

/-- The loop of `flush_marks`: `do { ... } while (OMX_ErrorNoMore != rc)`.  The
dummy header is a local whose mark fields are reset before every call. -/
def flush_marks_loop : Nat → Nat → tizkernel → OMX_ERRORTYPE → tizkernel × OMX_ERRORTYPE
  | 0, _, k, rc => (k, rc)
  | fuel + 1, pos, k, _ =>
    let r := tizport_mark_buffer (k.port_marks pos) default
    let k1 := set_marks k pos r.1
    let rc := r.2.2
    let k2 := if rc = OMX_ErrorNone then
        complete_mark_buffer k1 (tizport_index (port_at k1 pos)) OMX_ErrorPortUnpopulated
      else k1
    if rc ≠ OMX_ErrorNoMore then flush_marks_loop fuel pos k2 rc else (k2, rc)

/-- Source: `flush_marks` (lines 962-990).  `pos` is the position in `p_ports_`
of the port that `ap_port` points to.  Every iteration but the last consumes
one stored mark, so `length + 1` iterations are enough. -/
def flush_marks (k : tizkernel) (pos : Nat) : tizkernel × OMX_ERRORTYPE :=
  flush_marks_loop ((k.port_marks pos).length + 1) pos k OMX_ErrorNone

/-- Source: `complete_port_disable` (lines 344-377).  At every call site
`ap_port` is the port at index `a_pid`.  The function asserts
`cmd_completion_count_ > 0` (line 357) before it decrements the counter: that
is its precondition, and the definition gives the calls that meet it. -/
def complete_port_disable (k : tizkernel) (a_pid : Nat) (a_error : OMX_ERRORTYPE) :
    tizkernel × OMX_ERRORTYPE :=
  let k1 := set_port k a_pid (TIZPORT_SET_DISABLED (port_at k a_pid))
  let k2 := set_count k1 (k1.cmd_completion_count_ - 1)
  let k3 := if k2.cmd_completion_count_ > 0 then
      tizservant_issue_cmd_event k2 OMX_CommandPortDisable a_pid a_error
    else k2
  let k4 := if k3.cmd_completion_count_ = 0 then
      tizfsm_complete_command k3 OMX_CommandPortDisable a_pid
    else k3
  flush_marks k4 a_pid

/-- Source: `complete_port_enable` (lines 379-411).  The function asserts
`cmd_completion_count_ > 0` (line 392) before it decrements the counter: that
is its precondition, and the definition gives the calls that meet it. -/
def complete_port_enable (k : tizkernel) (a_pid : Nat) (a_error : OMX_ERRORTYPE) :
    tizkernel × OMX_ERRORTYPE :=
  let k1 := set_port k a_pid (TIZPORT_SET_ENABLED (port_at k a_pid))
  let k2 := set_count k1 (k1.cmd_completion_count_ - 1)
  let k3 := if k2.cmd_completion_count_ > 0 then
      tizservant_issue_cmd_event k2 OMX_CommandPortEnable a_pid a_error
    else k2
  let k4 := if k3.cmd_completion_count_ = 0 then
      tizfsm_complete_command k3 OMX_CommandPortEnable a_pid
    else k3
  (k4, OMX_ErrorNone)

/-- Source: `complete_port_flush` (lines 413-437).  The function asserts
`cmd_completion_count_ > 0` (line 429) before it decrements the counter: that
is its precondition, and the definition gives the calls that meet it. -/
def complete_port_flush (k : tizkernel) (a_pid : Nat) (a_error : OMX_ERRORTYPE) :
    tizkernel × OMX_ERRORTYPE :=
  let k1 := set_port k a_pid (TIZPORT_CLEAR_FLUSH_IN_PROGRESS (port_at k a_pid))
  let k2 := tizservant_issue_cmd_event k1 OMX_CommandFlush a_pid a_error
  let k3 := set_count k2 (k2.cmd_completion_count_ - 1)
  let k4 := if k3.cmd_completion_count_ = 0 then
      tizfsm_complete_command k3 OMX_CommandFlush a_pid
    else k3
  (k4, OMX_ErrorNone)

/-- Source: `all_populated` (lines 1244-1283): false as soon as a port is
enabled and not populated. -/
def all_populated (k : tizkernel) : Bool :=
  k.p_ports_.all (fun p => !(TIZPORT_IS_ENABLED p && !TIZPORT_IS_POPULATED p))

/-- Source: `all_depopulated` (lines 1285-1314): false as soon as a port has a
buffer. -/
def all_depopulated (k : tizkernel) : Bool :=
  k.p_ports_.all (fun p => !(tizport_buffer_count p != 0))

/-- Source: `complete_ongoing_transitions` (lines 462-491). -/
def complete_ongoing_transitions (k : tizkernel) : tizkernel × OMX_ERRORTYPE :=
  let cur_state := tizfsm_get_substate k
  if cur_state = ESubStateIdleToLoaded ∧ all_depopulated k = true then
    tizfsm_complete_transition k OMX_StateLoaded.toNat
  else if cur_state = ESubStateLoadedToIdle ∧ all_populated k = true then
    tizfsm_complete_transition k OMX_StateIdle.toNat
  else (k, OMX_ErrorNone)

/-- Source: `init_rm` (lines 268-324): two queries on the config port, then the
initialisation of the RM proxy. -/
def init_rm (k : tizkernel) : tizkernel × OMX_ERRORTYPE :=
  if k.cport_version_rc_ ≠ OMX_ErrorNone then (k, k.cport_version_rc_)
  else if k.cport_config_rc_ ≠ OMX_ErrorNone then (k, k.cport_config_rc_)
  else
    let k1 := emit k Effect.rm_proxy_init
    if k.rm_init_ ≠ TIZRM_SUCCESS then (k1, OMX_ErrorInsufficientResources)
    else (k1, OMX_ErrorNone)

/-- Source: `deinit_rm` (lines 326-342). -/
def deinit_rm (k : tizkernel) : tizkernel × OMX_ERRORTYPE :=
  let k1 := emit k Effect.rm_proxy_destroy
  if k.rm_destroy_ ≠ TIZRM_SUCCESS then (k1, OMX_ErrorUndefined)
  else (k1, OMX_ErrorNone)

/-- Source: `acquire_rm_resources` (lines 493-525).  The `switch` has no
`break`: the `TIZRM_PREEMPTION_IN_PROGRESS` case assigns
`OMX_ErrorResourcesPreempted` and control then falls into the
`TIZRM_NOT_ENOUGH_RESOURCE_AVAILABLE` / `default` block, which assigns
`OMX_ErrorInsufficientResources`. -/
def acquire_rm_resources (k : tizkernel) : tizkernel × OMX_ERRORTYPE :=
  let k1 := emit k Effect.rm_proxy_acquire
  let rmrc := k.rm_acquire_
  if rmrc ≠ TIZRM_SUCCESS then
    let rc := OMX_ErrorNone
    let rc := if rmrc = TIZRM_PREEMPTION_IN_PROGRESS then OMX_ErrorResourcesPreempted
      else rc
    let rc := (fun (_ : OMX_ERRORTYPE) => OMX_ErrorInsufficientResources) rc
    (k1, rc)
  else (k1, OMX_ErrorNone)

/-- Source: `release_rm_resources` (lines 527-542). -/
def release_rm_resources (k : tizkernel) : tizkernel × OMX_ERRORTYPE :=
  (emit k Effect.rm_proxy_release, OMX_ErrorNone)

/-- Source: `move_to_ingress` (lines 544-571).  The egress list is cleared
whether or not the append succeeded. -/
def move_to_ingress (k : tizkernel) (a_pid : Nat) : tizkernel × Int :=
  let p_elist := egress_at k a_pid
  let p_ilist := ingress_at k a_pid
  let r := tiz_vector_append k p_ilist p_elist
  let k1 := set_ingress k a_pid r.1
  let k2 := set_egress k1 a_pid []
  if r.2 ≠ OMX_ErrorNone then (k2, -1) else (k2, (ingress_at k2 a_pid).length)

/-- Source: `move_to_egress` (lines 573-600).  The ingress list is cleared
whether or not the append succeeded. -/
def move_to_egress (k : tizkernel) (a_pid : Nat) : tizkernel × Int :=
  let p_elist := egress_at k a_pid
  let p_ilist := ingress_at k a_pid
  let r := tiz_vector_append k p_elist p_ilist
  let k1 := set_egress k a_pid r.1
  let k2 := set_ingress k1 a_pid []
  if r.2 ≠ OMX_ErrorNone then (k2, -1) else (k2, (egress_at k2 a_pid).length)

/-- Source: `add_to_buflst` (lines 602-639), called with `p_obj->p_ingress_` as
the destination array.  The list is chosen by `tizport_index (ap_port)`; the
asserted precondition is `length (list) < tizport_buffer_count (ap_port)`. -/
def add_to_buflst (k : tizkernel) (p_hdr : Nat) (ap_port : tizport) : tizkernel × Int :=
  let pid := tizport_index ap_port
  let r := tiz_vector_push_back k (ingress_at k pid) p_hdr
  if r.2 ≠ OMX_ErrorNone then (k, -1)
  else
    let k1 := set_ingress k pid r.1
    (k1, (ingress_at k1 pid).length)

/-- The loop of `clear_hdr_lst`: `tiz_clear_header` on every header of a list. -/
def clear_hdrs : List Nat → tizkernel → tizkernel
  | [], k => k
  | p_hdr :: rest, k => clear_hdrs rest (set_hdr k p_hdr (tiz_clear_header (k.heap p_hdr)))

/-- Source: `clear_hdr_lst` (lines 641-665); `ap_hdr_lst` is `p_ingress_` or
`p_egress_`. -/
def clear_hdr_lst (k : tizkernel) (ap_hdr_lst : List (List Nat)) (a_pid : Nat) :
    tizkernel × Int :=
  let p_list := ap_hdr_lst.getD a_pid []
  (clear_hdrs p_list k, p_list.length)

/-- Source: `check_pid` (lines 684-697). -/
def check_pid (k : tizkernel) (a_pid : Nat) : OMX_ERRORTYPE :=
  if a_pid ≥ nports k then OMX_ErrorBadPortIndex else OMX_ErrorNone

/-- Source: `enqueue_callback_msg` (lines 726-759), with `init_kernel_message`
(lines 699-724) failing when no message can be allocated. -/
def enqueue_callback_msg (k : tizkernel) (ap_hdr : Nat) (a_pid : Nat)
    (a_dir : OMX_DIRTYPE) : tizkernel × OMX_ERRORTYPE :=
  if k.msg_oom then (k, OMX_ErrorInsufficientResources)
  else
    tizservant_enqueue k
      (ETIZKernelMsgCallback { p_hdr := ap_hdr, pid := a_pid, dir := a_dir }) 0

/-- The inner loop of `propagate_ingress` (lines 823-847): every header of the
list is cleared and handed to the processor; the list is not changed. -/
def propagate_ingress_hdrs (pdir : OMX_DIRTYPE) : List Nat → tizkernel → tizkernel
  | [], k => k
  | p_hdr :: rest, k =>
    let k1 := set_hdr k p_hdr (tiz_clear_header (k.heap p_hdr))
    let k2 := if pdir = OMX_DirInput then
        emit k1 (Effect.prc_EmptyThisBuffer p_hdr (k1.heap p_hdr))
      else emit k1 (Effect.prc_FillThisBuffer p_hdr (k1.heap p_hdr))
    propagate_ingress_hdrs pdir rest k2

/-- The outer loop of `propagate_ingress` (lines 805-851).  The loop condition
is `OMX_ALL == pid && i < nports`, with `pid` the port index of the iteration
just run. -/
def propagate_ingress_loop (a_pid : Nat) (n : Nat) : Nat → Nat → tizkernel → tizkernel
  | 0, _, k => k
  | fuel + 1, i, k =>
    let pid := if OMX_ALL ≠ a_pid then a_pid else i
    let pdir := tizport_dir (port_at k pid)
    let k1 := propagate_ingress_hdrs pdir (ingress_at k pid) k
    let i := i + 1
    if OMX_ALL = pid ∧ i < n then propagate_ingress_loop a_pid n fuel i k1 else k1

/-- Source: `propagate_ingress` (lines 787-854). -/
def propagate_ingress (k : tizkernel) (a_pid : Nat) : tizkernel × OMX_ERRORTYPE :=
  (propagate_ingress_loop a_pid (nports k) (nports k + 1) 0 k, OMX_ErrorNone)

/-- The loop of `transfer_mark`:
`for (i = 0; i < nports && OMX_ErrorNone == rc; ++i)`. -/
def transfer_mark_loop (ap_mark : OMX_MARKTYPE) (n : Nat) :
    Nat → Nat → tizkernel → OMX_ERRORTYPE → tizkernel × OMX_ERRORTYPE
  | 0, _, k, rc => (k, rc)
  | fuel + 1, i, k, rc =>
    if i < n ∧ rc = OMX_ErrorNone then
      let p_port := port_at k i
      if tizport_dir p_port = OMX_DirOutput then
        let r := tizport_store_mark (k.port_marks i) ap_mark false
        transfer_mark_loop ap_mark n fuel (i + 1) (set_marks k i r.1) r.2
      else transfer_mark_loop ap_mark n fuel (i + 1) k rc
    else (k, rc)

/-- Source: `transfer_mark` (lines 856-878). -/
def transfer_mark (k : tizkernel) (ap_mark : OMX_MARKTYPE) : tizkernel × OMX_ERRORTYPE :=
  transfer_mark_loop ap_mark (nports k) (nports k + 1) 0 k OMX_ErrorNone

/-- Source: `process_marks` (lines 880-960). -/
def process_marks (k : tizkernel) (ap_hdr : Nat) (a_pid : Nat) (ap_hdl : Nat) :
    tizkernel × OMX_ERRORTYPE :=
  let p_port := port_at k a_pid
  let hdr := k.heap ap_hdr
  if hdr.hMarkTargetComponent ≠ 0 then
    if hdr.hMarkTargetComponent = ap_hdl then
      let k1 := tizservant_issue_event k OMX_EventMark 0 0 hdr.pMarkData
      (set_hdr k1 ap_hdr { hdr with hMarkTargetComponent := 0, pMarkData := 0 },
       OMX_ErrorNone)
    else if tizport_dir p_port = OMX_DirInput then
      let mark : OMX_MARKTYPE :=
        { hMarkTargetComponent := hdr.hMarkTargetComponent, pMarkData := hdr.pMarkData }
      let r := transfer_mark k mark
      (set_hdr r.1 ap_hdr { hdr with hMarkTargetComponent := 0, pMarkData := 0 }, r.2)
    else (k, OMX_ErrorNone)
  else if tizport_dir p_port = OMX_DirOutput then
    let r := tizport_mark_buffer (k.port_marks a_pid) hdr
    let k1 := set_hdr (set_marks k a_pid r.1) ap_hdr r.2.1
    if r.2.2 = OMX_ErrorNone then
      (complete_mark_buffer k1 a_pid OMX_ErrorNone, OMX_ErrorNone)
    else if r.2.2 = OMX_ErrorNoMore ∨ r.2.2 = OMX_ErrorNotReady then (k1, OMX_ErrorNone)
    else (k1, r.2.2)
  else (k, OMX_ErrorNone)

/-- The scheduler lookup in `flush_egress` (lines 1052-1065): the peer record
whose handle is `thdl`. -/
def find_peer (k : tizkernel) (thdl : Nat) : Option peer_info_t :=
  k.peers.find? (fun p => p.hdl == thdl)

/-- The value of `scount` in `flush_egress` (lines 1049-1096): the semaphore
count of the tunnelled peer as `tiz_sem_getvalue` reads it, `0` when the port
is not tunnelled or the peer is not in the scheduler's list.  The
`tiz_sem_post` / `tiz_sem_wait` pair that brackets the callback when `scount`
is zero is synchronisation with the peer thread and leaves no mark on the
state here. -/
def peer_scount (k : tizkernel) (thdl : Nat) : Nat :=
  if thdl ≠ 0 then
    match find_peer k thdl with
    | some peer => peer.sem
    | none => 0
  else 0

/-- The `else` branch of the inner loop of `flush_egress` (lines 1109-1153): the
header at the head of the egress list leaves the component. -/
def flush_egress_hdr (pid : Nat) (pdir : OMX_DIRTYPE) (thdl : Nat) (a_clear : Bool)
    (p_hdr : Nat) (k : tizkernel) : tizkernel :=
  let k1 := if pdir = OMX_DirInput ∧ TIZPORT_IS_ALLOCATOR (port_at k pid) = true then
      tizport_populate_header k pid p_hdr
    else k
  let k2 := (process_marks k1 p_hdr pid k1.hdl).1
  let k3 := if a_clear then set_hdr k2 p_hdr (tiz_clear_header (k2.heap p_hdr))
    else if Nat.land (k2.heap p_hdr).nFlags OMX_BUFFERFLAG_EOS ≠ 0
        ∧ pdir = OMX_DirOutput ∧ k2.eos_ = false then
      tizservant_issue_event (set_eos k2 true) OMX_EventBufferFlag pid
        (k2.heap p_hdr).nFlags 0
    else k2
  let k4 := tizservant_issue_buf_callback k3 p_hdr pid pdir thdl
  set_egress k4 pid ((egress_at k4 pid).eraseIdx 0)

/-- The inner loop of `flush_egress` (lines 1035-1163):
`while (tiz_vector_length (p_list) > 0)`.  An iteration either leaves the loop
(`break`, after a dummy callback was enqueued because the peer has waiters) or
erases the head of the list, so `length` iterations are enough. -/
def flush_egress_list (pid : Nat) (pdir : OMX_DIRTYPE) (thdl : Nat) (a_clear : Bool) :
    Nat → tizkernel → tizkernel
  | 0, k => k
  | fuel + 1, k =>
    match egress_at k pid with
    | [] => k
    | p_hdr :: _ =>
      if peer_scount k thdl ≠ 0 then (enqueue_callback_msg k 0 0 OMX_DirMax).1
      else flush_egress_list pid pdir thdl a_clear fuel
        (flush_egress_hdr pid pdir thdl a_clear p_hdr k)

/-- The outer loop of `flush_egress` (lines 1007-1166), with condition
`OMX_ALL == a_pid && i < nports`. -/
def flush_egress_loop (a_pid : Nat) (a_clear : Bool) (n : Nat) : Nat → Nat → tizkernel → tizkernel
  | 0, _, k => k
  | fuel + 1, i, k =>
    let pid := if OMX_ALL ≠ a_pid then a_pid else i
    let p_port := port_at k pid
    let pdir := tizport_dir p_port
    let thdl := tizport_get_tunnel_comp p_port
    let k1 := flush_egress_list pid pdir thdl a_clear (egress_at k pid).length k
    let i := i + 1
    if OMX_ALL = a_pid ∧ i < n then flush_egress_loop a_pid a_clear n fuel i k1 else k1

/-- Source: `flush_egress` (lines 992-1169). -/
def flush_egress (k : tizkernel) (a_pid : Nat) (a_clear : Bool) : tizkernel × OMX_ERRORTYPE :=
  (flush_egress_loop a_pid a_clear (nports k) (nports k + 1) 0 k, OMX_ErrorNone)

/-- The loop of `all_buffers_returned` (lines 1330-1368); `false` is the early
`return OMX_FALSE`. -/
def all_buffers_returned_loop (k : tizkernel) (n : Nat) : Nat → Nat → Bool
  | 0, _ => true
  | fuel + 1, i =>
    if i < n then
      let p_port := port_at k i
      let nbuf := tizport_buffer_count p_port
      if TIZPORT_IS_DISABLED p_port = true ∨ nbuf = 0 then
        all_buffers_returned_loop k n fuel (i + 1)
      else if TIZPORT_IS_TUNNELED_AND_SUPPLIER p_port = true then
        if (ingress_at k i).length ≠ nbuf then false
        else all_buffers_returned_loop k n fuel (i + 1)
      else if TIZPORT_GET_CLAIMED_COUNT p_port > 0 then false
      else all_buffers_returned_loop k n fuel (i + 1)
    else true

/-- Source: `all_buffers_returned` (lines 1316-1376): when every port passes,
the EOS latch is reset before `OMX_TRUE` is returned. -/
def all_buffers_returned (k : tizkernel) : tizkernel × Bool :=
  if all_buffers_returned_loop k (nports k) (nports k + 1) 0 then
    (set_eos k false, true)
  else (k, false)

/-! ## The servant operations implemented by the kernel -/

/-- One iteration of the loop of `kernel_allocate_resources` (lines 3145-3174).
The third component is the value of a `return` inside the loop. -/
def kernel_allocate_resources_body (pc : tizport_class) (pid : Nat) (k : tizkernel)
    (rc : OMX_ERRORTYPE) : tizkernel × OMX_ERRORTYPE × Option OMX_ERRORTYPE :=
  let p_port := port_at k pid
  if TIZPORT_IS_ENABLED_TUNNELED_SUPPLIER_AND_NOT_POPULATED p_port then
    let being_enabled := TIZPORT_IS_BEING_ENABLED p_port
    let r := pc.tizport_populate p_port
    let k1 := set_port k pid r.1
    if r.2 ≠ OMX_ErrorNone then (k1, r.2, some r.2)
    else if being_enabled = true ∧ TIZPORT_IS_POPULATED_AND_ENABLED r.1 = true then
      ((complete_port_enable k1 pid OMX_ErrorNone).1, r.2, none)
    else (k1, r.2, none)
  else (k, rc, none)

/-- The loop of `kernel_allocate_resources`: `do { ... } while (OMX_ALL ==
a_pid && i < nports)`. -/
def kernel_allocate_resources_loop (pc : tizport_class) (a_pid : Nat) (n : Nat) :
    Nat → Nat → tizkernel → OMX_ERRORTYPE → tizkernel × OMX_ERRORTYPE
  | 0, _, k, rc => (k, rc)
  | fuel + 1, i, k, rc =>
    let pid := if OMX_ALL ≠ a_pid then a_pid else i
    let b := kernel_allocate_resources_body pc pid k rc
    match b.2.2 with
    | some e => (b.1, e)
    | none =>
      if OMX_ALL = a_pid ∧ i + 1 < n then
        kernel_allocate_resources_loop pc a_pid n fuel (i + 1) b.1 b.2.1
      else (b.1, b.2.1)

/-- Source: `kernel_allocate_resources` (lines 3116-3181). -/
def kernel_allocate_resources (pc : tizport_class) (k : tizkernel) (a_pid : Nat) :
    tizkernel × OMX_ERRORTYPE :=
  if OMX_ALL ≠ a_pid ∧ check_pid k a_pid ≠ OMX_ErrorNone then (k, OMX_ErrorBadPortIndex)
  else kernel_allocate_resources_loop pc a_pid (nports k) (nports k + 1) 0 k OMX_ErrorNone

/-- The loop of `kernel_deallocate_resources` (lines 3194-3207); a failed
depopulate leaves the loop (`break`). -/
def kernel_deallocate_resources_loop (pc : tizport_class) (n : Nat) :
    Nat → Nat → tizkernel → OMX_ERRORTYPE → tizkernel × OMX_ERRORTYPE
  | 0, _, k, rc => (k, rc)
  | fuel + 1, i, k, rc =>
    if i < n then
      let p_port := port_at k i
      if TIZPORT_IS_ENABLED_TUNNELED_AND_SUPPLIER p_port then
        let r := pc.tizport_depopulate p_port
        let k1 := set_port k i r.1
        if r.2 ≠ OMX_ErrorNone then (k1, r.2)
        else kernel_deallocate_resources_loop pc n fuel (i + 1) k1 r.2
      else kernel_deallocate_resources_loop pc n fuel (i + 1) k rc
    else (k, rc)

/-- Source: `kernel_deallocate_resources` (lines 3183-3217). -/
def kernel_deallocate_resources (pc : tizport_class) (k : tizkernel) :
    tizkernel × OMX_ERRORTYPE :=
  kernel_deallocate_resources_loop pc (nports k) (nports k + 1) 0 k OMX_ErrorNone

/-- Source: `append_buflsts` (lines 667-682) applied to `p_egress_` (`to_egress`)
or to `p_ingress_`; the asserted precondition is that the destination list is
empty. -/
def append_buflsts (k : tizkernel) (to_egress : Bool) (ap_srclst : List Nat)
    (a_pid : Nat) : tizkernel × OMX_ERRORTYPE :=
  if to_egress then
    let r := tiz_vector_append k (egress_at k a_pid) ap_srclst
    (set_egress k a_pid r.1, r.2)
  else
    let r := tiz_vector_append k (ingress_at k a_pid) ap_srclst
    (set_ingress k a_pid r.1, r.2)

/-- One iteration of the loop of `kernel_prepare_to_transfer` (lines
3244-3272).  The second component is the value of a `return` inside the loop. -/
def kernel_prepare_to_transfer_body (pid : Nat) (k : tizkernel) :
    tizkernel × Option OMX_ERRORTYPE :=
  let p_port := port_at k pid
  if TIZPORT_IS_ENABLED_TUNNELED_AND_SUPPLIER p_port then
    let dir := tizport_dir p_port
    let p_srclst := tizport_get_hdrs_list p_port
    let r := append_buflsts k (decide (dir = OMX_DirInput)) p_srclst pid
    if r.2 ≠ OMX_ErrorNone then (r.1, some r.2) else (r.1, none)
  else (k, none)

/-- The loop of `kernel_prepare_to_transfer`. -/
def kernel_prepare_to_transfer_loop (a_pid : Nat) (n : Nat) :
    Nat → Nat → tizkernel → tizkernel × OMX_ERRORTYPE
  | 0, _, k => (k, OMX_ErrorNone)
  | fuel + 1, i, k =>
    let pid := if OMX_ALL ≠ a_pid then a_pid else i
    let b := kernel_prepare_to_transfer_body pid k
    match b.2 with
    | some e => (b.1, e)
    | none =>
      if OMX_ALL = a_pid ∧ i + 1 < n then
        kernel_prepare_to_transfer_loop a_pid n fuel (i + 1) b.1
      else (b.1, OMX_ErrorNone)

/-- Source: `kernel_prepare_to_transfer` (lines 3219-3279). -/
def kernel_prepare_to_transfer (k : tizkernel) (a_pid : Nat) : tizkernel × OMX_ERRORTYPE :=
  if OMX_ALL ≠ a_pid ∧ check_pid k a_pid ≠ OMX_ErrorNone then (k, OMX_ErrorBadPortIndex)
  else kernel_prepare_to_transfer_loop a_pid (nports k) (nports k + 1) 0 k

/-- The loop of `kernel_transfer_and_process` (lines 3302-3309). -/
def kernel_transfer_and_process_loop (a_pid : Nat) (n : Nat) :
    Nat → Nat → tizkernel → tizkernel
  | 0, _, k => k
  | fuel + 1, i, k =>
    let pid := if OMX_ALL ≠ a_pid then a_pid else i
    let k1 := (flush_egress k pid true).1
    let k2 := (propagate_ingress k1 pid).1
    if OMX_ALL = a_pid ∧ i + 1 < n then
      kernel_transfer_and_process_loop a_pid n fuel (i + 1) k2
    else k2

/-- Source: `kernel_transfer_and_process` (lines 3281-3312). -/
def kernel_transfer_and_process (k : tizkernel) (a_pid : Nat) : tizkernel × OMX_ERRORTYPE :=
  if OMX_ALL ≠ a_pid ∧ check_pid k a_pid ≠ OMX_ErrorNone then (k, OMX_ErrorBadPortIndex)
  else (kernel_transfer_and_process_loop a_pid (nports k) (nports k + 1) 0 k, OMX_ErrorNone)

/-- One iteration of the loop of `kernel_stop_and_return` (lines 3330-3367).
The result of `move_to_egress` is overwritten by that of `flush_egress`. -/
def kernel_stop_and_return_body (i : Nat) (k : tizkernel) (rc : OMX_ERRORTYPE) :
    tizkernel × OMX_ERRORTYPE :=
  let p_port := port_at k i
  if TIZPORT_IS_DISABLED p_port = true ∨ tizport_buffer_count p_port = 0 then (k, rc)
  else if TIZPORT_IS_ENABLED_TUNNELED_AND_SUPPLIER p_port then
    let m := move_to_ingress k i
    if m.2 < 0 then (m.1, OMX_ErrorInsufficientResources) else (m.1, rc)
  else
    let m := move_to_egress k i
    let f := flush_egress m.1 i false
    ((flush_marks f.1 i).1, f.2)

/-- The loop of `kernel_stop_and_return`:
`for (i = 0; i < nports && OMX_ErrorNone == rc; ++i)`. -/
def kernel_stop_and_return_loop (n : Nat) :
    Nat → Nat → tizkernel → OMX_ERRORTYPE → tizkernel × OMX_ERRORTYPE
  | 0, _, k, rc => (k, rc)
  | fuel + 1, i, k, rc =>
    if i < n ∧ rc = OMX_ErrorNone then
      let b := kernel_stop_and_return_body i k rc
      kernel_stop_and_return_loop n fuel (i + 1) b.1 b.2
    else (k, rc)

/-- Source: `kernel_stop_and_return` (lines 3314-3371). -/
def kernel_stop_and_return (k : tizkernel) : tizkernel × OMX_ERRORTYPE :=
  kernel_stop_and_return_loop (nports k) (nports k + 1) 0 k OMX_ErrorNone

/-! ## Command dispatch -/

/-- The outcome of the `switch` of `dispatch_state_set`: the state reached, the
status `rc`, the flag `done`, and whether the function returned from inside the
`switch` (then `rc` is the value returned). -/
structure state_set_outcome where
  k : tizkernel
  rc : OMX_ERRORTYPE
  done : Bool
  returned : Bool

/-- The `switch (ap_msg_sc->param1)` of `dispatch_state_set` (lines 1397-1521).
The servant calls `tizservant_deallocate_resources`, `_allocate_resources`,
`_stop_and_return`, `_prepare_to_transfer` and `_transfer_and_process` resolve
to the kernel's implementations.  A branch that ends in `assert (0)` leaves
`rc` and `done` as they are. -/
def dispatch_state_set_switch (pc : tizport_class) (k : tizkernel) (param1 : Nat)
    (now : OMX_STATETYPE) : state_set_outcome :=
  if param1 = OMX_StateLoaded.toNat then
    if now = OMX_StateIdle then
      let d := kernel_deallocate_resources pc k
      let k1 := (release_rm_resources d.1).1
      let k2 := (deinit_rm k1).1
      { k := k2, rc := d.2,
        done := decide (d.2 = OMX_ErrorNone) && all_depopulated k2, returned := false }
    else if now = OMX_StateWaitForResources then
      { k := k, rc := OMX_ErrorNone, done := true, returned := false }
    else if now = OMX_StateLoaded then
      { k := k, rc := OMX_ErrorSameState, done := false, returned := true }
    else { k := k, rc := OMX_ErrorNone, done := false, returned := false }
  else if param1 = OMX_StateWaitForResources.toNat then
    { k := k, rc := OMX_ErrorNone, done := true, returned := false }
  else if param1 = OMX_StateIdle.toNat then
    if now = OMX_StateLoaded then
      let k1 := (init_rm k).1
      let a := acquire_rm_resources k1
      let r := if a.2 = OMX_ErrorNone then kernel_allocate_resources pc a.1 OMX_ALL else a
      { k := r.1, rc := r.2,
        done := decide (r.2 = OMX_ErrorNone) && all_populated r.1, returned := false }
    else if now = OMX_StateExecuting ∨ now = OMX_StatePause then
      let r := kernel_stop_and_return k
      if r.2 = OMX_ErrorNone then
        let b := all_buffers_returned r.1
        { k := b.1, rc := r.2, done := b.2, returned := false }
      else { k := r.1, rc := r.2, done := false, returned := false }
    else { k := k, rc := OMX_ErrorNone, done := false, returned := false }
  else if param1 = OMX_StateExecuting.toNat then
    if now = OMX_StateIdle then
      let r := kernel_prepare_to_transfer k OMX_ALL
      { k := r.1, rc := r.2, done := true, returned := false }
    else if now = OMX_StatePause then
      let r := enqueue_callback_msg k 0 0 OMX_DirMax
      { k := r.1, rc := r.2, done := true, returned := false }
    else if now = OMX_StateExecuting then
      let r := kernel_transfer_and_process k OMX_ALL
      { k := r.1, rc := r.2, done := false, returned := false }
    else { k := k, rc := OMX_ErrorNone, done := false, returned := false }
  else if param1 = OMX_StatePause.toNat then
    { k := k, rc := OMX_ErrorNone, done := true, returned := false }
  else { k := k, rc := OMX_ErrorNone, done := false, returned := false }

/-- Source: `dispatch_state_set` (lines 1378-1533). -/
def dispatch_state_set (pc : tizport_class) (k : tizkernel)
    (ap_msg_sc : tizkernel_msg_sendcommand_t) : tizkernel × OMX_ERRORTYPE :=
  let now := tizapi_GetState k
  let s := dispatch_state_set_switch pc k ap_msg_sc.param1 now
  if s.returned then (s.k, s.rc)
  else if s.rc = OMX_ErrorNone ∧ s.done = true then
    tizfsm_complete_transition s.k ap_msg_sc.param1
  else (s.k, s.rc)

/-- The inner loop that follows a successful depopulate (lines 1630-1657 and
2267-2291): every header the port had is scrubbed from the kernel's queue and
from the processor's queue. -/
def remove_leftovers : List Nat → tizkernel → tizkernel
  | [], k => k
  | p_hdr :: rest, k =>
    remove_leftovers rest
      (emit (tizservant_remove_from_queue k p_hdr) (Effect.prc_remove_from_queue p_hdr))

/-- One iteration of the loop of `dispatch_port_disable` (lines 1573-1743).
`rc` is the function-level status, which survives from one iteration to the
next; the third component is the value of a `return` inside the loop. -/
def dispatch_port_disable_body (pc : tizport_class) (sc : tizkernel_msg_sendcommand_t)
    (pid : Nat) (k : tizkernel) (rc : OMX_ERRORTYPE) :
    tizkernel × OMX_ERRORTYPE × Option OMX_ERRORTYPE :=
  let p_port := port_at k pid
  if TIZPORT_IS_DISABLED p_port then
    ((complete_port_disable k pid OMX_ErrorNone).1, rc, none)
  else if TIZPORT_IS_TUNNELED_AND_SUPPLIER p_port then
    let m := move_to_ingress k pid
    if m.2 < 0 then (m.1, rc, some OMX_ErrorInsufficientResources)
    else if (tizport_buffer_count p_port : Int) ≠ m.2 then
      (set_port m.1 pid (TIZPORT_SET_GOING_TO_DISABLED (port_at m.1 pid)), rc, none)
    else
      let p_hdr_lst_copy := tizport_get_hdrs_list (port_at m.1 pid)
      let d := pc.tizport_depopulate (port_at m.1 pid)
      let k1 := set_port m.1 pid d.1
      if d.2 = OMX_ErrorNone then
        let k2 := remove_leftovers p_hdr_lst_copy k1
        ((complete_port_disable k2 pid OMX_ErrorNone).1, d.2, none)
      else (k1, d.2, some d.2)
  else if tizport_buffer_count p_port > 0 then
    let k1 := set_port k pid (TIZPORT_SET_GOING_TO_DISABLED p_port)
    let c := clear_hdr_lst k1 k1.p_ingress_ pid
    let m := if c.2 ≠ 0 then
        let mv := move_to_egress c.1 pid
        if 0 > mv.2 then (mv.1, OMX_ErrorInsufficientResources) else (mv.1, rc)
      else (c.1, rc)
    let f := if m.2 = OMX_ErrorNone then flush_egress m.1 pid false else m
    if TIZPORT_GET_CLAIMED_COUNT (port_at f.1 pid) > 0 then
      (emit f.1 (Effect.prc_SendCommand sc.cmd pid), OMX_ErrorNone, none)
    else (f.1, f.2, none)
  else
    ((complete_port_disable k pid OMX_ErrorNone).1, rc, none)

/-- The loop of `dispatch_port_disable`:
`do { ... } while (OMX_ALL == ap_msg_sc->param1 && i < nports)`. -/
def dispatch_port_disable_loop (pc : tizport_class) (sc : tizkernel_msg_sendcommand_t)
    (n : Nat) : Nat → Nat → tizkernel → OMX_ERRORTYPE → tizkernel × Option OMX_ERRORTYPE
  | 0, _, k, _ => (k, none)
  | fuel + 1, i, k, rc =>
    let pid := if OMX_ALL ≠ sc.param1 then sc.param1 else i
    let b := dispatch_port_disable_body pc sc pid k rc
    match b.2.2 with
    | some e => (b.1, some e)
    | none =>
      if OMX_ALL = sc.param1 ∧ i + 1 < n then
        dispatch_port_disable_loop pc sc n fuel (i + 1) b.1 b.2.1
      else (b.1, none)

/-- Source: `dispatch_port_disable` (lines 1535-1749). -/
def dispatch_port_disable (pc : tizport_class) (k : tizkernel)
    (ap_msg_sc : tizkernel_msg_sendcommand_t) : tizkernel × OMX_ERRORTYPE :=
  let pid := ap_msg_sc.param1
  if OMX_ALL ≠ pid ∧ check_pid k pid ≠ OMX_ErrorNone then (k, OMX_ErrorBadPortIndex)
  else
    let k1 := set_count k (if OMX_ALL = ap_msg_sc.param1 then nports k else 1)
    let r := dispatch_port_disable_loop pc ap_msg_sc (nports k) (nports k + 1) 0 k1
      OMX_ErrorNone
    match r.2 with
    | some e => (r.1, e)
    | none => complete_ongoing_transitions r.1

/-- One iteration of the loop of `dispatch_port_enable` (lines 1786-1830). -/
def dispatch_port_enable_body (pc : tizport_class) (now : tizfsm_state_id_t)
    (pid : Nat) (k : tizkernel) (rc : OMX_ERRORTYPE) : tizkernel × OMX_ERRORTYPE :=
  let p_port := port_at k pid
  if TIZPORT_IS_ENABLED p_port then
    ((complete_port_enable k pid OMX_ErrorNone).1, rc)
  else if rc = OMX_ErrorNone then
    if now = EStateWaitForResources ∨ now = EStateLoaded then
      ((complete_port_enable k pid OMX_ErrorNone).1, rc)
    else
      let k1 := set_port k pid (TIZPORT_SET_GOING_TO_ENABLED p_port)
      let a := kernel_allocate_resources pc k1 pid
      if a.2 = OMX_ErrorNone then
        if now = ESubStateLoadedToIdle then
          if all_populated a.1 then tizfsm_complete_transition a.1 OMX_StateIdle.toNat
          else a
        else if now = EStateExecuting then kernel_transfer_and_process a.1 pid
        else a
      else a
  else (k, rc)

/-- The loop of `dispatch_port_enable`: `do { ... } while (OMX_ALL ==
ap_msg_sc->param1 && i < nports && OMX_ErrorNone == rc)`. -/
def dispatch_port_enable_loop (pc : tizport_class) (now : tizfsm_state_id_t)
    (param1 : Nat) (n : Nat) :
    Nat → Nat → tizkernel → OMX_ERRORTYPE → tizkernel × OMX_ERRORTYPE
  | 0, _, k, rc => (k, rc)
  | fuel + 1, i, k, rc =>
    let pid := if OMX_ALL ≠ param1 then param1 else i
    let b := dispatch_port_enable_body pc now pid k rc
    if OMX_ALL = param1 ∧ i + 1 < n ∧ b.2 = OMX_ErrorNone then
      dispatch_port_enable_loop pc now param1 n fuel (i + 1) b.1 b.2
    else b

/-- Source: `dispatch_port_enable` (lines 1751-1835). -/
def dispatch_port_enable (pc : tizport_class) (k : tizkernel)
    (ap_msg_sc : tizkernel_msg_sendcommand_t) : tizkernel × OMX_ERRORTYPE :=
  let pid := ap_msg_sc.param1
  let now := tizfsm_get_substate k
  if OMX_ALL ≠ pid ∧ check_pid k pid ≠ OMX_ErrorNone then (k, OMX_ErrorBadPortIndex)
  else
    let k1 := set_count k (if OMX_ALL = ap_msg_sc.param1 then nports k else 1)
    dispatch_port_enable_loop pc now ap_msg_sc.param1 (nports k) (nports k + 1) 0 k1
      OMX_ErrorNone

/-- One iteration of the loop of `dispatch_port_flush` (lines 1891-2029).  In the
branch for a port that is not a tunnelled supplier the egress headers are
cleared when the port direction is `OMX_DirInput`. -/
def dispatch_port_flush_body (sc : tizkernel_msg_sendcommand_t)
    (now : tizfsm_state_id_t) (pid : Nat) (k : tizkernel) (rc : OMX_ERRORTYPE) :
    tizkernel × OMX_ERRORTYPE :=
  let p_port := port_at k pid
  let w : tizkernel × OMX_ERRORTYPE :=
    if tizport_buffer_count p_port ≠ 0 ∧ TIZPORT_IS_ENABLED p_port = true
        ∧ (now = EStateExecuting ∨ now = EStatePause) then
      if TIZPORT_IS_TUNNELED_AND_SUPPLIER p_port then
        if tizport_dir p_port = OMX_DirInput then
          let c := clear_hdr_lst k k.p_ingress_ pid
          let m := if c.2 ≠ 0 then
              let mv := move_to_egress c.1 pid
              if mv.2 < 0 then (mv.1, OMX_ErrorInsufficientResources) else (mv.1, rc)
            else (c.1, rc)
          if m.2 = OMX_ErrorNone then flush_egress m.1 pid false else m
        else
          let c := clear_hdr_lst k k.p_egress_ pid
          if c.2 ≠ 0 then
            let mv := move_to_ingress c.1 pid
            if mv.2 < 0 then (mv.1, OMX_ErrorInsufficientResources) else (mv.1, rc)
          else (c.1, rc)
      else
        let k1 := if tizport_dir p_port = OMX_DirInput then
            (clear_hdr_lst k k.p_egress_ pid).1
          else k
        let mv := move_to_egress k1 pid
        let m := if mv.2 < 0 then (mv.1, OMX_ErrorInsufficientResources) else (mv.1, rc)
        if m.2 = OMX_ErrorNone then flush_egress m.1 pid false else m
    else (k, rc)
  if w.2 ≠ OMX_ErrorNone then
    ((complete_port_flush w.1 pid w.2).1, w.2)
  else if TIZPORT_GET_CLAIMED_COUNT (port_at w.1 pid) = 0 then
    ((complete_port_flush w.1 pid OMX_ErrorNone).1, w.2)
  else
    let k2 := set_port w.1 pid (TIZPORT_SET_FLUSH_IN_PROGRESS (port_at w.1 pid))
    (emit k2 (Effect.prc_SendCommand sc.cmd pid), OMX_ErrorNone)

/-- The loop of `dispatch_port_flush`:
`do { ... } while (OMX_ALL == ap_msg_sc->param1 && i < nports)`. -/
def dispatch_port_flush_loop (sc : tizkernel_msg_sendcommand_t)
    (now : tizfsm_state_id_t) (n : Nat) :
    Nat → Nat → tizkernel → OMX_ERRORTYPE → tizkernel
  | 0, _, k, _ => k
  | fuel + 1, i, k, rc =>
    let pid := if OMX_ALL ≠ sc.param1 then sc.param1 else i
    let b := dispatch_port_flush_body sc now pid k rc
    if OMX_ALL = sc.param1 ∧ i + 1 < n then
      dispatch_port_flush_loop sc now n fuel (i + 1) b.1 b.2
    else b.1

/-- Source: `dispatch_port_flush` (lines 1837-2036). -/
def dispatch_port_flush (k : tizkernel) (ap_msg_sc : tizkernel_msg_sendcommand_t) :
    tizkernel × OMX_ERRORTYPE :=
  let pid := ap_msg_sc.param1
  let now := tizfsm_get_substate k
  if OMX_ALL ≠ pid ∧ check_pid k pid ≠ OMX_ErrorNone then (k, OMX_ErrorBadPortIndex)
  else
    let k1 := set_count k (if OMX_ALL = ap_msg_sc.param1 then nports k else 1)
    (dispatch_port_flush_loop ap_msg_sc now (nports k) (nports k + 1) 0 k1 OMX_ErrorNone,
     OMX_ErrorNone)

/-- Source: `dispatch_mark_buffer` (lines 2038-2061): the mark is stored on the
port, which owns it. -/
def dispatch_mark_buffer (k : tizkernel) (ap_msg_sc : tizkernel_msg_sendcommand_t) :
    tizkernel × OMX_ERRORTYPE :=
  let pid := ap_msg_sc.param1
  let r := tizport_store_mark (k.port_marks pid) ap_msg_sc.p_cmd_data true
  (set_marks k pid r.1, r.2)

/-! ## Buffer dispatch -/

/-- Source: `dispatch_cb` (lines 2063-2179).  `claimed_count` is the local of
the same name, initialised to `0`. -/
def dispatch_cb (k : tizkernel) (p_msg_cb : tizkernel_msg_callback_t) :
    tizkernel × OMX_ERRORTYPE :=
  let now := tizfsm_get_substate k
  let p_port := port_at k p_msg_cb.pid
  if now = EStatePause ∧ TIZPORT_IS_BEING_FLUSHED p_port = false then
    if p_msg_cb.p_hdr = 0 ∧ p_msg_cb.dir = OMX_DirMax then
      enqueue_callback_msg k 0 0 OMX_DirMax
    else (k, OMX_ErrorNone)
  else if p_msg_cb.p_hdr = 0 ∧ p_msg_cb.dir = OMX_DirMax then
    flush_egress k OMX_ALL false
  else
    let r := tiz_vector_push_back k (egress_at k p_msg_cb.pid) p_msg_cb.p_hdr
    let k1 := set_egress k p_msg_cb.pid r.1
    let w : tizkernel × OMX_ERRORTYPE × Int :=
      if r.2 = OMX_ErrorNone then
        let d := TIZPORT_DEC_CLAIMED_COUNT (port_at k1 p_msg_cb.pid)
        let k2 := set_port k1 p_msg_cb.pid d.1
        let f := flush_egress k2 OMX_ALL false
        (f.1, f.2, d.2)
      else (k1, r.2, 0)
    let claimed_count := w.2.2
    if 0 = claimed_count then
      let c := if TIZPORT_IS_BEING_FLUSHED (port_at w.1 p_msg_cb.pid) then
          ((complete_port_flush w.1 p_msg_cb.pid w.2.1).1, w.2.1)
        else (w.1, w.2.1)
      if now = ESubStateExecutingToIdle ∨ now = ESubStatePauseToIdle then
        let b := all_buffers_returned c.1
        if b.2 then tizfsm_complete_transition b.1 OMX_StateIdle.toNat
        else (b.1, c.2)
      else c
    else (w.1, w.2.1)

/-- Source: `dispatch_efb` (lines 2181-2346); `is_etb` tells whether the message
class is `ETIZKernelMsgEmptyThisBuffer`. -/
def dispatch_efb (pc : tizport_class) (k : tizkernel) (p_hdr : Nat) (is_etb : Bool) :
    tizkernel × OMX_ERRORTYPE :=
  let now := tizfsm_get_substate k
  let dir := if is_etb then OMX_DirInput else OMX_DirOutput
  let pid := if is_etb then (k.heap p_hdr).nInputPortIndex
    else (k.heap p_hdr).nOutputPortIndex
  if check_pid k pid ≠ OMX_ErrorNone then (k, OMX_ErrorBadPortIndex)
  else
    let p_port := port_at k pid
    let a := add_to_buflst k p_hdr p_port
    if 0 > a.2 then (a.1, OMX_ErrorInsufficientResources)
    else
      let nbufs := a.2
      let k1 := a.1
      let delegate : tizkernel × OMX_ERRORTYPE :=
        if now ≠ EStatePause ∧ TIZPORT_IS_ENABLED p_port = true then
          if dir = OMX_DirInput then
            (emit k1 (Effect.prc_EmptyThisBuffer p_hdr (k1.heap p_hdr)), OMX_ErrorNone)
          else (emit k1 (Effect.prc_FillThisBuffer p_hdr (k1.heap p_hdr)), OMX_ErrorNone)
        else (k1, OMX_ErrorNone)
      if TIZPORT_IS_TUNNELED_AND_SUPPLIER p_port then
        if TIZPORT_IS_BEING_DISABLED p_port then
          if (tizport_buffer_count p_port : Int) = nbufs then
            let p_hdr_lst_copy := tizport_get_hdrs_list p_port
            let d := pc.tizport_depopulate p_port
            let k2 := set_port k1 pid d.1
            if d.2 = OMX_ErrorNone then
              let k3 := remove_leftovers p_hdr_lst_copy k2
              ((complete_port_disable k3 pid OMX_ErrorNone).1, OMX_ErrorNone)
            else (k2, d.2)
          else (k1, OMX_ErrorNone)
        else if now = ESubStateExecutingToIdle ∨ now = ESubStatePauseToIdle then
          let b := all_buffers_returned k1
          if b.2 then tizfsm_complete_transition b.1 OMX_StateIdle.toNat
          else (b.1, OMX_ErrorNone)
        else delegate
      else delegate

/-- Source: `dispatch_etb` (lines 2348-2352). -/
def dispatch_etb (pc : tizport_class) (k : tizkernel) (p_hdr : Nat) :
    tizkernel × OMX_ERRORTYPE :=
  dispatch_efb pc k p_hdr true

/-- Source: `dispatch_ftb` (lines 2354-2358). -/
def dispatch_ftb (pc : tizport_class) (k : tizkernel) (p_hdr : Nat) :
    tizkernel × OMX_ERRORTYPE :=
  dispatch_efb pc k p_hdr false

/-- Source: `dispatch_pe` (lines 2360-2377): the event's own handler runs; the
handler the kernel installs for RM events (`rm_callback_hdlr`) only frees the
event. -/
def dispatch_pe (k : tizkernel) (_p_event : Nat) : tizkernel × OMX_ERRORTYPE :=
  (k, OMX_ErrorNone)

/-- Source: `dispatch_sc` (lines 2379-2396), the table
`tizkernel_msg_dispatch_sc_to_fnt_tbl` indexed by the command. -/
def dispatch_sc (pc : tizport_class) (k : tizkernel)
    (p_msg_sc : tizkernel_msg_sendcommand_t) : tizkernel × OMX_ERRORTYPE :=
  match p_msg_sc.cmd with
  | OMX_CommandStateSet => dispatch_state_set pc k p_msg_sc
  | OMX_CommandFlush => dispatch_port_flush k p_msg_sc
  | OMX_CommandPortDisable => dispatch_port_disable pc k p_msg_sc
  | OMX_CommandPortEnable => dispatch_port_enable pc k p_msg_sc
  | OMX_CommandMarkBuffer => dispatch_mark_buffer k p_msg_sc

/-- Source: `kernel_dispatch_msg` (lines 3090-3114), the table
`tizkernel_msg_to_fnt_tbl` indexed by the message class. -/
def kernel_dispatch_msg (pc : tizport_class) (k : tizkernel) (p_msg : tizkernel_msg_t) :
    tizkernel × OMX_ERRORTYPE :=
  match p_msg with
  | ETIZKernelMsgSendCommand sc => dispatch_sc pc k sc
  | ETIZKernelMsgEmptyThisBuffer p_hdr => dispatch_etb pc k p_hdr
  | ETIZKernelMsgFillThisBuffer p_hdr => dispatch_ftb pc k p_hdr
  | ETIZKernelMsgCallback cb => dispatch_cb k cb
  | ETIZKernelMsgPluggableEvent p_event => dispatch_pe k p_event

/-! ## The kernel API used by the processor -/

/-- Modelled from the spec: a `tiz_vector_t` (`tizosalvector.c` is not among
the sources) is an ordered sequence stored contiguously; `tiz_vector_at` gives
the address of a slot and `tiz_vector_erase` moves the elements behind the
erased one down by one.  Reading, after position `pos` was erased, through the
address obtained for `pos` before, gives the element that used to follow, or
the erased element itself when nothing followed. -/
def slot_after_erase (l : List Nat) (pos : Nat) : Nat :=
  (l.eraseIdx pos).getD pos (l.getD pos 0)

/-- Source: `kernel_claim_buffer` (lines 3767-3854).  The result carries the
header stored in `*app_hdr`.  `pp_hdr` is the address of slot `a_pos` of the
ingress list; it is dereferenced once before the erase (`*app_hdr = *pp_hdr`,
and the argument of `tizport_populate_header`) and once after it (the argument
of `tizport_mark_buffer`). -/
def kernel_claim_buffer (k : tizkernel) (a_pid : Nat) (a_pos : Nat) :
    tizkernel × OMX_ERRORTYPE × Nat :=
  let p_port := port_at k a_pid
  let p_list := ingress_at k a_pid
  let app_hdr := p_list.getD a_pos 0
  let pdir := tizport_dir p_port
  let k1 := if pdir = OMX_DirOutput ∧ TIZPORT_IS_ALLOCATOR p_port = true then
      tizport_populate_header k a_pid app_hdr
    else k
  let k2 := set_ingress k1 a_pid (p_list.eraseIdx a_pos)
  let k3 := set_port k2 a_pid (TIZPORT_INC_CLAIMED_COUNT (port_at k2 a_pid))
  if pdir = OMX_DirInput then
    let pp_hdr := slot_after_erase p_list a_pos
    let r := tizport_mark_buffer (k3.port_marks a_pid) (k3.heap pp_hdr)
    let k4 := set_hdr (set_marks k3 a_pid r.1) pp_hdr r.2.1
    if r.2.2 = OMX_ErrorNone then
      (complete_mark_buffer k4 a_pid OMX_ErrorNone, OMX_ErrorNone, app_hdr)
    else if r.2.2 = OMX_ErrorNoMore ∨ r.2.2 = OMX_ErrorNotReady then
      (k4, OMX_ErrorNone, app_hdr)
    else (k4, r.2.2, app_hdr)
  else (k3, OMX_ErrorNone, app_hdr)

/-- Source: `kernel_relinquish_buffer` (lines 3875-3909); the asserted
precondition is `length (egress) < tizport_buffer_count (port)`. -/
def kernel_relinquish_buffer (k : tizkernel) (a_pid : Nat) (ap_hdr : Nat) :
    tizkernel × OMX_ERRORTYPE :=
  enqueue_callback_msg k ap_hdr a_pid (tizport_dir (port_at k a_pid))

/-- Source: `init_ports_and_lists` (lines 1171-1198), the state that
`kernel_ctor` gives a new kernel; the surroundings are the arguments. -/
def init_ports_and_lists (k : tizkernel) : tizkernel :=
  { k with p_ports_ := [], p_ingress_ := [], p_egress_ := [], p_cport_ := none,
           eos_ := false,
           audio_init_ := { nPorts := 0, nStartPortNumber := 0 },
           image_init_ := { nPorts := 0, nStartPortNumber := 0 },
           video_init_ := { nPorts := 0, nStartPortNumber := 0 },
           other_init_ := { nPorts := 0, nStartPortNumber := 0 },
           cmd_completion_count_ := 0, port_marks := fun _ => [] }

/-! ## Observations used in the statements -/

/-- The surroundings of the kernel, which no kernel function writes. -/
def env_part (k : tizkernel) :=
  (k.hdl, k.fsm_state, k.fsm_substate, k.peers, k.vec_oom, k.msg_oom, k.rm_init_,
   k.rm_acquire_, k.rm_release_, k.rm_destroy_, k.cport_version_rc_, k.cport_config_rc_)

/-- The part of the kernel object that the processing of marks and of the
egress lists leaves as it is: the ports, the ingress lists, the completion
counter, the number of egress lists, the config port and the surroundings. -/
def egress_fixed (k : tizkernel) :=
  (k.p_ports_, k.p_ingress_, k.cmd_completion_count_, k.p_egress_.length, k.p_cport_,
   env_part k)

/-- The calls that the mark sub-protocol makes: `OMX_EventMark` events and
completions of `OMX_CommandMarkBuffer`. -/
def mark_effect : Effect → Bool
  | Effect.issue_event OMX_EventMark _ _ _ => true
  | Effect.issue_cmd_event OMX_CommandMarkBuffer _ _ => true
  | _ => false

/-- The calls that the processing of an egress list makes: events, completions
of `OMX_CommandMarkBuffer`, buffer callbacks and late header population. -/
def egress_effect : Effect → Bool
  | Effect.issue_event _ _ _ _ => true
  | Effect.issue_cmd_event OMX_CommandMarkBuffer _ _ => true
  | Effect.issue_buf_callback _ _ _ _ _ => true
  | Effect.port_populate_header _ _ => true
  | _ => false

/-- Everything but the mark queues. -/
def marks_fixed (k : tizkernel) :=
  (egress_fixed k, k.p_egress_, k.eos_, k.queue, k.trace, k.heap)


def is_buf_callback : Effect → Bool
  | Effect.issue_buf_callback _ _ _ _ _ => true
  | _ => false

def is_completion (cmd : OMX_COMMANDTYPE) : Effect → Bool
  | Effect.issue_cmd_event c _ _ => c == cmd
  | Effect.fsm_complete_command c _ => c == cmd
  | _ => false

def is_transition : Effect → Bool
  | Effect.fsm_complete_transition _ => true
  | _ => false

/-- Everything but the mark queues and the trace. -/
def buffers_fixed (k : tizkernel) :=
  (egress_fixed k, k.p_egress_, k.eos_, k.queue, k.heap)
/-- Everything but the mark queues, the trace and the headers. -/
def buffers_fixed_but_heap (k : tizkernel) :=
  (egress_fixed k, k.p_egress_, k.eos_, k.queue)

/-! ## Example states -/

/-- A kernel without ports in quiet surroundings: component handle `7`, every
header zeroed, an empty message queue, the FSM in `Loaded`, no scheduler peer,
a resource manager that grants every request, no shortage of memory, and an
empty trace. -/
def kernel0 : tizkernel :=
  { p_ports_ := [], p_ingress_ := [], p_egress_ := [], p_cport_ := none, eos_ := false,
    audio_init_ := { nPorts := 0, nStartPortNumber := 0 },
    image_init_ := { nPorts := 0, nStartPortNumber := 0 },
    video_init_ := { nPorts := 0, nStartPortNumber := 0 },
    other_init_ := { nPorts := 0, nStartPortNumber := 0 },
    cmd_completion_count_ := 0, port_marks := fun _ => [], hdl := 7,
    heap := fun _ => default, queue := [],
    fsm_state := OMX_StateLoaded, fsm_substate := EStateLoaded, peers := [],
    rm_init_ := TIZRM_SUCCESS, rm_acquire_ := TIZRM_SUCCESS, rm_release_ := TIZRM_SUCCESS,
    rm_destroy_ := TIZRM_SUCCESS, cport_version_rc_ := OMX_ErrorNone,
    cport_config_rc_ := OMX_ErrorNone, vec_oom := false, msg_oom := false, trace := [] }

/-- The FSM moves on: the state and sub-state that the kernel will read next. -/
def with_fsm (k : tizkernel) (st : OMX_STATETYPE) (sub : tizfsm_state_id_t) : tizkernel :=
  { k with fsm_state := st, fsm_substate := sub }

/-- An enabled, populated, non-tunnelled output port with index `0` and the two
headers `1` and `2`; the processor holds none of them. -/
def out_port : tizport :=
  { dir := OMX_DirOutput, index := 0, enabled := true, populated := true,
    supplier := false, allocator := false, being_enabled := false,
    being_disabled := false, flush_in_progress := false, claimed_count_ := 0,
    thdl := 0, p_hdrs_ := [1, 2] }

/-- An enabled, populated, non-tunnelled input port with index `0` and the one
header `1`, which the processor holds. -/
def in_port : tizport :=
  { dir := OMX_DirInput, index := 0, enabled := true, populated := true,
    supplier := false, allocator := false, being_enabled := false,
    being_disabled := false, flush_in_progress := false, claimed_count_ := 1,
    thdl := 0, p_hdrs_ := [1] }

/-- A port class whose populate does nothing and whose depopulate frees every
header of the port. -/
def port_class0 : tizport_class :=
  { tizport_populate := fun p => (p, OMX_ErrorNone),
    tizport_depopulate := fun p =>
      ({ p with p_hdrs_ := [], populated := false }, OMX_ErrorNone) }

/-- A header with a payload of 100 bytes. -/
def hdr100 : OMX_BUFFERHEADERTYPE :=
  { nFilledLen := 100, nOffset := 0, nFlags := 0, hMarkTargetComponent := 0,
    pMarkData := 0, nInputPortIndex := 0, nOutputPortIndex := 0 }

/-- The message `SendCommand (cmd, param1)` without command data. -/
def send_command (cmd : OMX_COMMANDTYPE) (param1 : Nat) : tizkernel_msg_sendcommand_t :=
  { cmd := cmd, param1 := param1, p_cmd_data := { hMarkTargetComponent := 0, pMarkData := 0 } }

/-- Scenario "flush mid-Executing": one output port, both of its headers in the
egress list with `nFilledLen = 100`, the FSM in `Executing`. -/
def flush_state : tizkernel :=
  { with_fsm kernel0 OMX_StateExecuting EStateExecuting with
    p_ports_ := [out_port], p_ingress_ := [[]], p_egress_ := [[1, 2]],
    heap := fun _ => hdr100 }

/-- Scenario "pause defers callbacks": one output port whose header `1` is with
the processor, the FSM in `Pause`. -/
def pause_state : tizkernel :=
  { with_fsm kernel0 OMX_StatePause EStatePause with
    p_ports_ := [{ out_port with claimed_count_ := 1 }], p_ingress_ := [[]],
    p_egress_ := [[]] }

/-- The dummy callback message, `Callback (NULL, 0, OMX_DirMax)`. -/
def dummy_callback : tizkernel_msg_callback_t :=
  { p_hdr := 0, pid := 0, dir := OMX_DirMax }

/-- A state with a disabled port: `out_port` disabled, one header in each list. -/
def disabled_state : tizkernel :=
  { with_fsm kernel0 OMX_StateExecuting EStateExecuting with
    p_ports_ := [{ out_port with enabled := false }], p_ingress_ := [[1]],
    p_egress_ := [[2]] }

/-- A state with three headers waiting in the ingress list of an input port. -/
def claim_state : tizkernel :=
  { with_fsm kernel0 OMX_StateExecuting EStateExecuting with
    p_ports_ := [{ in_port with claimed_count_ := 0, p_hdrs_ := [1, 2, 3] }],
    p_ingress_ := [[1, 2, 3]], p_egress_ := [[]] }

/-- Everything but the headers. -/
def heap_free (k : tizkernel) :=
  (egress_fixed k, k.p_egress_, k.eos_, k.queue, k.trace, k.port_marks)

/-- Everything but the ingress and egress lists. -/
def lists_free (k : tizkernel) :=
  (k.p_ports_, k.cmd_completion_count_, k.p_cport_, env_part k, k.eos_, k.queue, k.trace,
   k.port_marks, k.heap)

def is_prc_command : Effect → Bool
  | Effect.prc_SendCommand _ _ => true
  | _ => false

/-- Scenario "disable with the processor holding one buffer": an output port
with two headers, header `1` with the processor and header `2` in the ingress
list, the FSM in `Executing`. -/
def disable_state : tizkernel :=
  { with_fsm kernel0 OMX_StateExecuting EStateExecuting with
    p_ports_ := [{ out_port with claimed_count_ := 1 }], p_ingress_ := [[2]],
    p_egress_ := [[]] }

def is_event (ev : OMX_EVENTTYPE) : Effect → Bool
  | Effect.issue_event e _ _ _ => e == ev
  | _ => false

/-- Scenario "mark on an output port": the output port with its two unmarked
headers in the egress list and an empty mark queue, the FSM in `Executing`. -/
def mark_state : tizkernel :=
  { with_fsm kernel0 OMX_StateExecuting EStateExecuting with
    p_ports_ := [out_port], p_ingress_ := [[]], p_egress_ := [[1, 2]] }

/-- The command `MarkBuffer (0, mark)` whose mark targets the component itself
(handle `7` in the example states) and carries the data `55`. -/
def mark_self : tizkernel_msg_sendcommand_t :=
  { cmd := OMX_CommandMarkBuffer, param1 := 0,
    p_cmd_data := { hMarkTargetComponent := 7, pMarkData := 55 } }

/-- The header carries the end-of-stream flag: `nFlags & OMX_BUFFERFLAG_EOS`. -/
def has_eos (h : OMX_BUFFERHEADERTYPE) : Bool :=
  Nat.land h.nFlags OMX_BUFFERFLAG_EOS != 0

/-- The effect is an `OMX_EventBufferFlag` event. -/
def is_buffer_flag : Effect → Bool
  | Effect.issue_event OMX_EventBufferFlag _ _ _ => true
  | _ => false

/-- The effect is the departure, through an output port, of a header that
carries the end-of-stream flag. -/
def is_eos_departure : Effect → Bool
  | Effect.issue_buf_callback _ hdr _ OMX_DirOutput _ => has_eos hdr
  | _ => false

/-- The port index and the flags that an event or a buffer callback carries. -/
def pid_and_flags : Effect → Nat × Nat
  | Effect.issue_event _ nData1 nData2 _ => (nData1, nData2)
  | Effect.issue_buf_callback _ hdr pid _ _ => (pid, hdr.nFlags)
  | _ => (0, 0)

/-- The `(pid, nFlags)` of the `OMX_EventBufferFlag` events of a trace. -/
def buffer_flag_events (t : List Effect) : List (Nat × Nat) :=
  (t.filter is_buffer_flag).map pid_and_flags

/-- The `(pid, nFlags)` of the EOS-flagged headers that left through an output
port, in the order in which they left. -/
def eos_departures (t : List Effect) : List (Nat × Nat) :=
  (t.filter is_eos_departure).map pid_and_flags

/-- EOS is reported once: the `OMX_EventBufferFlag` events emitted so far are
exactly one event for the first EOS-flagged header that left through an output
port (none when no such header has left), and `eos_` is set exactly when such a
header has left. -/
def eos_reported_once (k : tizkernel) : Prop :=
  buffer_flag_events k.trace = (eos_departures k.trace).take 1 ∧
  (k.eos_ = true ↔ eos_departures k.trace ≠ [])

/-- A run of the kernel made of `flush_egress` calls with `clear = false`,
interleaved with arbitrary other steps that do not write `eos_` (in particular
no `all_buffers_returned` that returns true), emit no `OMX_EventBufferFlag` and
hand no EOS-flagged header to an output port. -/
inductive eos_run : tizkernel → tizkernel → Prop where
  | start (k : tizkernel) : eos_run k k
  | flush (k k1 : tizkernel) (a_pid : Nat) :
      eos_run k k1 → eos_run k (flush_egress k1 a_pid false).1
  | other (k k1 k2 : tizkernel) :
      eos_run k k1 → k2.eos_ = k1.eos_ →
      buffer_flag_events k2.trace = buffer_flag_events k1.trace →
      eos_departures k2.trace = eos_departures k1.trace → eos_run k k2

/-- Scenario "EOS once": one output port, both of its headers in the egress list
with the end-of-stream flag set (`nFlags = 3`), the FSM in `Executing`. -/
def eos_state : tizkernel :=
  { with_fsm kernel0 OMX_StateExecuting EStateExecuting with
    p_ports_ := [out_port], p_ingress_ := [[]], p_egress_ := [[1, 2]],
    heap := fun _ => { hdr100 with nFlags := 3 } }

/-- The rows of the state-set matrix of the specification, as pairs of the
current state `S` and the target state `S'`. -/
def in_matrix : OMX_STATETYPE → OMX_STATETYPE → Bool
  | _, OMX_StateWaitForResources => true
  | _, OMX_StatePause => true
  | OMX_StateIdle, OMX_StateLoaded => true
  | OMX_StateLoaded, OMX_StateIdle => true
  | OMX_StateExecuting, OMX_StateIdle => true
  | OMX_StatePause, OMX_StateIdle => true
  | OMX_StateIdle, OMX_StateExecuting => true
  | OMX_StatePause, OMX_StateExecuting => true
  | OMX_StateExecuting, OMX_StateExecuting => true
  | _, _ => false

/-- The "Action" column of the state-set matrix of the specification, for the
current state `S` and the target `S'`; the status is the one the handler
keeps (that of deallocate for `Idle → Loaded`, that of acquire and then of
allocate for `Loaded → Idle`). -/
def matrix_action (pc : tizport_class) (k : tizkernel) :
    OMX_STATETYPE → OMX_STATETYPE → tizkernel × OMX_ERRORTYPE
  | _, OMX_StateWaitForResources => (k, OMX_ErrorNone)
  | _, OMX_StatePause => (k, OMX_ErrorNone)
  | OMX_StateIdle, OMX_StateLoaded =>
    let d := kernel_deallocate_resources pc k
    ((deinit_rm (release_rm_resources d.1).1).1, d.2)
  | OMX_StateLoaded, OMX_StateIdle =>
    let a := acquire_rm_resources (init_rm k).1
    if a.2 = OMX_ErrorNone then kernel_allocate_resources pc a.1 OMX_ALL else a
  | OMX_StateExecuting, OMX_StateIdle => kernel_stop_and_return k
  | OMX_StatePause, OMX_StateIdle => kernel_stop_and_return k
  | OMX_StateIdle, OMX_StateExecuting => kernel_prepare_to_transfer k OMX_ALL
  | OMX_StatePause, OMX_StateExecuting => enqueue_callback_msg k 0 0 OMX_DirMax
  | OMX_StateExecuting, OMX_StateExecuting => kernel_transfer_and_process k OMX_ALL
  | _, _ => (k, OMX_ErrorNone)

/-- The "done?" column of the state-set matrix of the specification, evaluated
in the state `k` that the action of the row has produced. -/
def matrix_done (k : tizkernel) : OMX_STATETYPE → OMX_STATETYPE → Bool
  | _, OMX_StateWaitForResources => true
  | _, OMX_StatePause => true
  | OMX_StateIdle, OMX_StateLoaded => all_depopulated k
  | OMX_StateLoaded, OMX_StateIdle => all_populated k
  | OMX_StateExecuting, OMX_StateIdle => (all_buffers_returned k).2
  | OMX_StatePause, OMX_StateIdle => (all_buffers_returned k).2
  | OMX_StateIdle, OMX_StateExecuting => true
  | OMX_StatePause, OMX_StateExecuting => true
  | OMX_StateExecuting, OMX_StateExecuting => false
  | _, _ => false

/-- The calls of `tizfsm_complete_transition` recorded in the trace. -/
def transitions (k : tizkernel) : List Effect := k.trace.filter is_transition

/-- The buffers of port `p` that the kernel accounts for: those in its ingress
list, those in its egress list, and those the processor has claimed. -/
def held (k : tizkernel) (p : Nat) : Int :=
  ((ingress_at k p).length : Int) + ((egress_at k p).length : Int)
    + TIZPORT_GET_CLAIMED_COUNT (port_at k p)

/-- The buffer accounting invariant of the specification:
`len (ingress[p]) + len (egress[p]) + claimed_count (p) ≤ buffer_count (p)` for
every port `p`. -/
def buffer_accounting (k : tizkernel) : Prop :=
  ∀ p, p < nports k → held k p ≤ (tizport_buffer_count (port_at k p) : Int)

instance (k : tizkernel) : Decidable (buffer_accounting k) := by
  unfold buffer_accounting; infer_instance

/-- What the kernel never writes in a port record. -/
def port_static (p : tizport) :=
  (p.dir, p.index, p.supplier, p.allocator, p.thdl, p.p_hdrs_)

/-- From `k` to `k1` no port has gained a buffer: the ports are the same up to
their flags and claimed counts, and no port accounts for more buffers. -/
def no_gain (k k1 : tizkernel) : Prop :=
  nports k1 = nports k ∧
  (∀ p, port_static (port_at k1 p) = port_static (port_at k p)) ∧
  (∀ p, p < nports k → held k1 p ≤ held k p)

/-- From `k` to `k1` port `p`, a port of `k`, has not gained a buffer: its record
is the same up to its flags and its claimed count, and it accounts for no more
buffers. -/
def no_gain_at (p : Nat) (k k1 : tizkernel) : Prop :=
  p < nports k ∧ nports k1 = nports k ∧
  port_static (port_at k1 p) = port_static (port_at k p) ∧ held k1 p ≤ held k p

/-- The buffer accounting of port `p`, a port of the kernel that is not a
tunnelled supplier:
`len (ingress[p]) + len (egress[p]) + claimed_count (p) ≤ buffer_count (p)`. -/
def port_accounted (k : tizkernel) (p : Nat) : Prop :=
  p < nports k ∧ TIZPORT_IS_TUNNELED_AND_SUPPLIER (port_at k p) = false ∧
  held k p ≤ (tizport_buffer_count (port_at k p) : Int)

instance (k : tizkernel) (p : Nat) : Decidable (port_accounted k p) := by
  unfold port_accounted; infer_instance

/-- Scenario "a header is submitted twice": an input port with the single
header `1`, nothing queued, nothing claimed, the FSM in `Executing`. -/
def resubmit_state : tizkernel :=
  { with_fsm kernel0 OMX_StateExecuting EStateExecuting with
    p_ports_ := [{ in_port with claimed_count_ := 0 }], p_ingress_ := [[]],
    p_egress_ := [[]] }

/-- The port that a header submitted with `EmptyThisBuffer` (`is_etb`) or
`FillThisBuffer` names: `nInputPortIndex` or `nOutputPortIndex`. -/
def named_port (k : tizkernel) (p_hdr : Nat) (is_etb : Bool) : Nat :=
  if is_etb then (k.heap p_hdr).nInputPortIndex else (k.heap p_hdr).nOutputPortIndex

/-- The header `p_hdr`, submitted with `EmptyThisBuffer` (`is_etb`) or
`FillThisBuffer`, is added to the ingress list of port `p`: the port it names
exists (`check_pid`) and has the index `p`, by which `add_to_buflst` chooses
the list. -/
def lands_on (k : tizkernel) (p_hdr : Nat) (is_etb : Bool) (p : Nat) : Prop :=
  named_port k p_hdr is_etb < nports k ∧
  tizport_index (port_at k (named_port k p_hdr is_etb)) = p

/-- What the environment has to respect, for port `p`, when it sends a message:
a header that is added to the ingress list of `p` arrives only while `p`
accounts for fewer buffers than it has.  Every other message is admissible. -/
def admissible_at (k : tizkernel) (p : Nat) : tizkernel_msg_t → Prop
  | ETIZKernelMsgEmptyThisBuffer p_hdr =>
    lands_on k p_hdr true p → held k p < (tizport_buffer_count (port_at k p) : Int)
  | ETIZKernelMsgFillThisBuffer p_hdr =>
    lands_on k p_hdr false p → held k p < (tizport_buffer_count (port_at k p) : Int)
  | _ => True

/-- An enabled, populated output port with index `0` and the one header `1`,
tunnelled to the component `9` and supplier of the tunnel's buffers; the
processor holds none of them. -/
def tunnel_port : tizport :=
  { dir := OMX_DirOutput, index := 0, enabled := true, populated := true,
    supplier := true, allocator := false, being_enabled := false,
    being_disabled := false, flush_in_progress := false, claimed_count_ := 0,
    thdl := 9, p_hdrs_ := [1] }

/-- Scenario "a tunnelled supplier port with its buffer at home": the port
`tunnel_port`, header `1` in its ingress list, the FSM in `Executing`. -/
def tunnel_home_state : tizkernel :=
  { with_fsm kernel0 OMX_StateExecuting EStateExecuting with
    p_ports_ := [tunnel_port], p_ingress_ := [[1]], p_egress_ := [[]] }

/-- Scenario "a tunnelled supplier port waits for its buffer": the port
`tunnel_port` is being disabled and header `1` is with the tunnelled peer, both
lists being empty; the FSM is in `Executing`. -/
def tunnel_away_state : tizkernel :=
  { with_fsm kernel0 OMX_StateExecuting EStateExecuting with
    p_ports_ := [{ tunnel_port with being_disabled := true }], p_ingress_ := [[]],
    p_egress_ := [[]], cmd_completion_count_ := 1 }

/-! ## Port lookup, population status and select -/

/-- The type `tiz_kernel_population_status_t`. -/
inductive tiz_kernel_population_status_t where
  | ETIZKernelFullyPopulated
  | ETIZKernelUnpopulated
  | ETIZKernelFullyUnpopulated
  deriving DecidableEq, Repr, Inhabited

open tiz_kernel_population_status_t

/-- The loop of `kernel_get_population_status` over all ports (lines 3643-3659):
the flag becomes `OMX_FALSE`, and the loop is left, at the first port that has
buffers, is not a supplier and is tunnelled; it stays `OMX_TRUE` otherwise. -/
def may_be_fully_unpopulated_loop : List tizport → Bool
  | [] => true
  | p :: rest =>
    if tizport_buffer_count p > 0 ∧ TIZPORT_IS_SUPPLIER p = false
        ∧ TIZPORT_IS_TUNNELED p = true then false
    else may_be_fully_unpopulated_loop rest

/-- Source: `kernel_get_population_status` (lines 3614-3697).  The third
argument is the value that `*ap_may_be_fully_unpopulated` has on entry; the
second component of the result is its value on return.  It is written only
when the status is `ETIZKernelUnpopulated`. -/
def kernel_get_population_status (k : tizkernel) (a_pid : Nat)
    (ap_may_be_fully_unpopulated : Bool) : tiz_kernel_population_status_t × Bool :=
  if OMX_ALL = a_pid then
    if all_populated k = true then (ETIZKernelFullyPopulated, ap_may_be_fully_unpopulated)
    else if all_depopulated k = true then
      (ETIZKernelFullyUnpopulated, ap_may_be_fully_unpopulated)
    else (ETIZKernelUnpopulated, may_be_fully_unpopulated_loop k.p_ports_)
  else
    let p_port := port_at k a_pid
    if TIZPORT_IS_POPULATED p_port then
      (ETIZKernelFullyPopulated, ap_may_be_fully_unpopulated)
    else if tizport_buffer_count p_port = 0 then
      (ETIZKernelFullyUnpopulated, ap_may_be_fully_unpopulated)
    else
      (ETIZKernelUnpopulated, if TIZPORT_IS_SUPPLIER p_port = false then false else true)

/-- Modelled from the spec: `tiz_pd_set_t` (declared in the OSAL headers, which
are not among the sources) is the bit set of port indexes that `select` fills
in; it is kept here as the finite set of the indexes whose bit is set. -/
abbrev tiz_pd_set_t := Finset Nat

/-- Modelled from the spec: the macro `TIZ_PD_SET (i, set)` sets bit `i`. -/
def TIZ_PD_SET (i : Nat) (ap_set : tiz_pd_set_t) : tiz_pd_set_t := insert i ap_set

/-- The loop of `kernel_select` (lines 3735-3745):
`for (i = 0; i < nports; ++i)`. -/
def kernel_select_loop (k : tizkernel) (n : Nat) : Nat → Nat → tiz_pd_set_t → tiz_pd_set_t
  | 0, _, ap_set => ap_set
  | fuel + 1, i, ap_set =>
    if i < n then
      let p_list := ingress_at k i
      let s1 := if p_list.length > 0 then TIZ_PD_SET i ap_set else ap_set
      kernel_select_loop k n fuel (i + 1) s1
    else ap_set

/-- Source: `kernel_select` (lines 3720-3748).  The kernel object is `const` and
is not written; the result is the status and the set on return. -/
def kernel_select (k : tizkernel) (a_nports : Nat) (ap_set : tiz_pd_set_t) :
    OMX_ERRORTYPE × tiz_pd_set_t :=
  let n := nports k
  let n := if a_nports < n then a_nports else n
  (OMX_ErrorNone, kernel_select_loop k n n 0 ap_set)

/-- The size in bytes of `OMX_U32`. -/
def sizeof_OMX_U32 : Nat := 4

/-- The size in bytes of `OMX_VERSIONTYPE`, a union of four bytes and one
`OMX_U32`. -/
def sizeof_OMX_VERSIONTYPE : Nat := 4

/-- The port index that `kernel_find_managing_port` reads from the structure
(lines 3579-3581): the `OMX_U32` word at
`(OMX_U32 *) ap_struct + sizeof (OMX_U32) / sizeof (OMX_U32)
  + sizeof (OMX_VERSIONTYPE) / sizeof (OMX_U32)`. -/
def port_index_of_struct (ap_struct : List Nat) : Nat :=
  ap_struct.getD
    (sizeof_OMX_U32 / sizeof_OMX_U32 + sizeof_OMX_VERSIONTYPE / sizeof_OMX_U32) 0

/-- The loop of `kernel_find_managing_port` over the data ports (lines
3566-3574): `OMX_ErrorNone` as soon as a port declares the index, the initial
`OMX_ErrorUnsupportedIndex` otherwise. -/
def find_managing_port_loop (tizport_find_index : tizport → Nat → OMX_ERRORTYPE)
    (a_index : Nat) : List tizport → OMX_ERRORTYPE
  | [] => OMX_ErrorUnsupportedIndex
  | p :: rest =>
    if tizport_find_index p a_index = OMX_ErrorNone then OMX_ErrorNone
    else find_managing_port_loop tizport_find_index a_index rest

/-- Source: `kernel_find_managing_port` (lines 3540-3603).  `tizport_find_index`
(`tizport.c`, not among the sources) tells whether a port declares an index and
is a parameter.  `ap_struct` is the structure of the request, seen as the
array of `OMX_U32` words that the function indexes.  The second component is
the port stored in `*app_port`, `none` when nothing is stored.  A kernel
without config port is outside the precondition; the search then goes on to
the data ports. -/
def kernel_find_managing_port (tizport_find_index : tizport → Nat → OMX_ERRORTYPE)
    (k : tizkernel) (a_index : Nat) (ap_struct : List Nat) :
    OMX_ERRORTYPE × Option tizport :=
  let in_cport := match k.p_cport_ with
    | some c => decide (tizport_find_index c a_index = OMX_ErrorNone)
    | none => false
  if in_cport then (OMX_ErrorNone, k.p_cport_)
  else
    let rc := find_managing_port_loop tizport_find_index a_index k.p_ports_
    if rc = OMX_ErrorNone then
      let p_port_index := port_index_of_struct ap_struct
      let rc := check_pid k p_port_index
      if rc ≠ OMX_ErrorNone then (rc, none)
      else (rc, some (port_at k p_port_index))
    else (rc, none)

/-- The port, if any, declares the index: `tizport_find_index` returns
`OMX_ErrorNone` for it. -/
def declares (tizport_find_index : tizport → Nat → OMX_ERRORTYPE) (a_index : Nat)
    (p : Option tizport) : Bool :=
  match p with
  | some p => decide (tizport_find_index p a_index = OMX_ErrorNone)
  | none => false

/-- Scenario "two data ports": a config port and the data ports `0` and `1`. -/
def two_port_state : tizkernel :=
  { kernel0 with
    p_cport_ := some { out_port with index := 99 },
    p_ports_ := [out_port, { in_port with index := 1 }],
    p_ingress_ := [[], [5]], p_egress_ := [[], []] }

/-- An index table in which the data port `0` alone declares the index `5`. -/
def find_index0 (p : tizport) (a_index : Nat) : OMX_ERRORTYPE :=
  if p.index = 0 ∧ a_index = 5 then OMX_ErrorNone else OMX_ErrorUnsupportedIndex

/-- A mark that the port owns, with target `9` and data `55`. -/
def owned_mark : tizport_mark_info_t :=
  { hMarkTargetComponent := 9, pMarkData := 55, owned := true }

/-- Scenario "claim with a stored mark": `claim_state` (the headers `1`, `2`, `3`
wait in the ingress list of the input port `0`) with one mark stored on the
port. -/
def marked_claim_state : tizkernel :=
  { claim_state with port_marks := fun _ => [owned_mark] }

/-- Scenario "a port that is being populated": one enabled port, not tunnelled
and not a supplier, that has one buffer and is not populated yet. -/
def populating_state : tizkernel :=
  { kernel0 with
    p_ports_ := [{ out_port with populated := false, p_hdrs_ := [1] }],
    p_ingress_ := [[]], p_egress_ := [[]] }

/-- Scenario "the enable of a port is pending": the FSM in `Idle`, one disabled
port, not tunnelled and not a supplier, that has one buffer and is not
populated yet; it is marked as being enabled and its completion is the one
outstanding (`cmd_completion_count_ = 1`), as `dispatch_port_enable (0)` leaves
things. -/
def enabling_state : tizkernel :=
  { with_fsm kernel0 OMX_StateIdle EStateIdle with
    p_ports_ := [{ out_port with enabled := false, populated := false,
                                 being_enabled := true, p_hdrs_ := [1] }],
    p_ingress_ := [[]], p_egress_ := [[]], cmd_completion_count_ := 1 }

/-- Scenario "flush of an input port": one non-tunnelled input port, header `1`
in the ingress list and header `2` in the egress list, both with
`nFilledLen = 100`, nothing claimed, the FSM in `Executing`. -/
def flush_input_state : tizkernel :=
  { with_fsm kernel0 OMX_StateExecuting EStateExecuting with
    p_ports_ := [{ in_port with claimed_count_ := 0, p_hdrs_ := [1, 2] }],
    p_ingress_ := [[1]], p_egress_ := [[2]], heap := fun _ => hdr100 }

/-- The port and the header that a buffer callback carries. -/
def callback_hdr : Effect → Nat × Nat
  | Effect.issue_buf_callback p_hdr _ pid _ _ => (pid, p_hdr)
  | _ => (0, 0)

/-- The headers handed to the outgoing buffer callback so far, each with the
port it left through, in the order in which they left. -/
def delivered (k : tizkernel) : List (Nat × Nat) :=
  (k.trace.filter is_buf_callback).map callback_hdr

/-- The headers waiting in the egress lists of the `m` ports from `i` on, each
with its port, port by port. -/
def egress_queue (k : tizkernel) : Nat → Nat → List (Nat × Nat)
  | 0, _ => []
  | m + 1, i => (egress_at k i).map (fun h => (i, h)) ++ egress_queue k m (i + 1)

/-- Scenario "flush towards a busy peer": the output port `0` is tunnelled to the
component `3` and is not a supplier, its two headers wait in the egress list,
and the peer has a waiter in the scheduler (`sem = 1`); the FSM is in
`Executing`. -/
def busy_peer_state : tizkernel :=
  { with_fsm kernel0 OMX_StateExecuting EStateExecuting with
    p_ports_ := [{ out_port with thdl := 3 }], p_ingress_ := [[]], p_egress_ := [[1, 2]],
    peers := [{ hdl := 3, sem := 1 }] }

/-- The list handling of one iteration of the loop of `dispatch_port_flush`
(lines 1896-1985): the value `w` of `dispatch_port_flush_body`, as a function
of its own; the body is this followed by the completion or the deferral of the
command. -/
def dispatch_port_flush_lists (now : tizfsm_state_id_t) (pid : Nat) (k : tizkernel)
    (rc : OMX_ERRORTYPE) : tizkernel × OMX_ERRORTYPE :=
  let p_port := port_at k pid
  if tizport_buffer_count p_port ≠ 0 ∧ TIZPORT_IS_ENABLED p_port = true
      ∧ (now = EStateExecuting ∨ now = EStatePause) then
    if TIZPORT_IS_TUNNELED_AND_SUPPLIER p_port then
      if tizport_dir p_port = OMX_DirInput then
        let c := clear_hdr_lst k k.p_ingress_ pid
        let m := if c.2 ≠ 0 then
            let mv := move_to_egress c.1 pid
            if mv.2 < 0 then (mv.1, OMX_ErrorInsufficientResources) else (mv.1, rc)
          else (c.1, rc)
        if m.2 = OMX_ErrorNone then flush_egress m.1 pid false else m
      else
        let c := clear_hdr_lst k k.p_egress_ pid
        if c.2 ≠ 0 then
          let mv := move_to_ingress c.1 pid
          if mv.2 < 0 then (mv.1, OMX_ErrorInsufficientResources) else (mv.1, rc)
        else (c.1, rc)
    else
      let k1 := if tizport_dir p_port = OMX_DirInput then
          (clear_hdr_lst k k.p_egress_ pid).1
        else k
      let mv := move_to_egress k1 pid
      let m := if mv.2 < 0 then (mv.1, OMX_ErrorInsufficientResources) else (mv.1, rc)
      if m.2 = OMX_ErrorNone then flush_egress m.1 pid false else m
  else (k, rc)

/-- The state `w` is `k` up to the lists, the headers, the mark queues, the
EOS latch, the message queue and the calls that the processing of an egress
list makes. -/
def flush_frame (k w : tizkernel) : Prop :=
  w.p_ports_ = k.p_ports_ ∧ w.cmd_completion_count_ = k.cmd_completion_count_ ∧
  env_part w = env_part k ∧
  ∀ π : Effect → Bool, (∀ e, egress_effect e = true → π e = false) →
    w.trace.filter π = k.trace.filter π

/-- Scenario "flush with the processor holding one buffer": a non-tunnelled
output port with two headers, header `1` with the processor and header `2` in
the egress list, the FSM in `Executing`. -/
def flush_wait_state : tizkernel :=
  { with_fsm kernel0 OMX_StateExecuting EStateExecuting with
    p_ports_ := [{ out_port with claimed_count_ := 1 }], p_ingress_ := [[]],
    p_egress_ := [[2]] }

/-- The state of `dispatch_cb` after a real callback has put its header at the
tail of `egress[pid]` and has decremented the claimed count of the port (lines
2127-2145, `tiz_vector_push_back` succeeding). -/
def callback_pushed (k : tizkernel) (cb : tizkernel_msg_callback_t) : tizkernel :=
  set_port (set_egress k cb.pid (egress_at k cb.pid ++ [cb.p_hdr])) cb.pid
    (TIZPORT_DEC_CLAIMED_COUNT (port_at k cb.pid)).1

/-- The state of `dispatch_cb` after `flush_egress (OMX_ALL)` has run on
`callback_pushed` (line 2147). -/
def callback_flushed (k : tizkernel) (cb : tizkernel_msg_callback_t) : tizkernel :=
  (flush_egress (callback_pushed k cb) OMX_ALL false).1

/-- The state of `dispatch_cb` after a pending flush of the port, if any, was
completed (lines 2160-2164). -/
def callback_completed (k : tizkernel) (cb : tizkernel_msg_callback_t) : tizkernel :=
  if TIZPORT_IS_BEING_FLUSHED (port_at (callback_flushed k cb) cb.pid) = true then
    (complete_port_flush (callback_flushed k cb) cb.pid OMX_ErrorNone).1
  else callback_flushed k cb

/-- The state `r` is `x` up to the EOS latch and a signalled transition. -/
def transition_frame (x r : tizkernel) : Prop :=
  r.p_ports_ = x.p_ports_ ∧ r.p_ingress_ = x.p_ingress_ ∧ r.p_egress_ = x.p_egress_ ∧
  r.cmd_completion_count_ = x.cmd_completion_count_ ∧ env_part r = env_part x ∧
  ∀ π : Effect → Bool, (∀ s, π (Effect.fsm_complete_transition s) = false) →
    r.trace.filter π = x.trace.filter π

/-- A real callback that returns header `1` of port `0`. -/
def callback_one : tizkernel_msg_callback_t :=
  { p_hdr := 1, pid := 0, dir := OMX_DirOutput }

/-- The test that `all_buffers_returned` makes on the port at position `i`: an
enabled port with buffers has all of them in its ingress list when it is a
tunnelled supplier, and has none with the processor otherwise. -/
def port_returned (k : tizkernel) (i : Nat) : Prop :=
  TIZPORT_IS_ENABLED (port_at k i) = true → 0 < tizport_buffer_count (port_at k i) →
    (TIZPORT_IS_TUNNELED_AND_SUPPLIER (port_at k i) = true ∧
      (ingress_at k i).length = tizport_buffer_count (port_at k i)) ∨
    (TIZPORT_IS_TUNNELED_AND_SUPPLIER (port_at k i) = false ∧
      TIZPORT_GET_CLAIMED_COUNT (port_at k i) ≤ 0)

/-- Scenario "the last of the pending completions": `flush_state` with one
command completion outstanding. -/
def last_completion_state : tizkernel := set_count flush_state 1

/-- Scenario "lists to be merged": one port with the headers `1` and `2` in the
ingress list and the header `3` in the egress list. -/
def merge_state : tizkernel :=
  { kernel0 with
    p_ports_ := [{ out_port with p_hdrs_ := [1, 2, 3] }],
    p_ingress_ := [[1, 2]], p_egress_ := [[3]] }

/-- Source: `kernel_FreeBuffer` (lines 2936-3016).  The port's own `FreeBuffer`
(`tizapi_FreeBuffer (p_port, ap_hdl, a_pid, ap_hdr)`, implemented in
`tizport.c`) is not among the sources; it is the parameter `tizapi_FreeBuffer`,
which gives the port record after the call and the result of the call. -/
def kernel_FreeBuffer (tizapi_FreeBuffer : tizport → Nat → Nat → Nat → tizport × OMX_ERRORTYPE)
    (k : tizkernel) (a_pid : Nat) (ap_hdr : Nat) : tizkernel × OMX_ERRORTYPE :=
  let cur_state := tizfsm_get_substate k
  if check_pid k a_pid ≠ OMX_ErrorNone then (k, OMX_ErrorBadPortIndex)
  else
    let p_port := port_at k a_pid
    if TIZPORT_IS_TUNNELED_AND_SUPPLIER p_port then (k, OMX_ErrorBadPortIndex)
    else
      let issue_unpop : Bool :=
        decide (ESubStateIdleToLoaded ≠ cur_state) && TIZPORT_IS_ENABLED p_port
          && TIZPORT_IS_POPULATED p_port
      let was_being_disabled := TIZPORT_IS_BEING_DISABLED p_port
      let r := tizapi_FreeBuffer p_port k.hdl a_pid ap_hdr
      let k1 := set_port k a_pid r.1
      if r.2 ≠ OMX_ErrorNone then (k1, r.2)
      else
        let k2 := if issue_unpop then tizservant_issue_err_event k1 OMX_ErrorPortUnpopulated
          else k1
        let buf_count := tizport_buffer_count (port_at k2 a_pid)
        let k3 := if buf_count = 0 ∧ was_being_disabled = true then
            (complete_port_disable k2 a_pid OMX_ErrorNone).1
          else k2
        complete_ongoing_transitions k3

/-- The effect is an `OMX_EventError` event. -/
def is_err_event : Effect → Bool
  | Effect.issue_err_event _ => true
  | _ => false

/-- A port `FreeBuffer` that succeeds and drops the first header of the port. -/
def free_first (p : tizport) (_hdl _pid _hdr : Nat) : tizport × OMX_ERRORTYPE :=
  ({ p with p_hdrs_ := p.p_hdrs_.tail }, OMX_ErrorNone)

/-- The entry that `transfer_mark` stores on an output port for the mark `m`:
the mark, not owned by the port. -/
def passed_mark (m : OMX_MARKTYPE) : tizport_mark_info_t :=
  { hMarkTargetComponent := m.hMarkTargetComponent, pMarkData := m.pMarkData, owned := false }

/-- The mark fields of a header. -/
def mark_of (h : OMX_BUFFERHEADERTYPE) : OMX_MARKTYPE :=
  { hMarkTargetComponent := h.hMarkTargetComponent, pMarkData := h.pMarkData }

/-- The header without its mark. -/
def unmarked (h : OMX_BUFFERHEADERTYPE) : OMX_BUFFERHEADERTYPE :=
  { h with hMarkTargetComponent := 0, pMarkData := 0 }

/-- A mark that the port does not own. -/
def passed_on_mark : tizport_mark_info_t :=
  { hMarkTargetComponent := 9, pMarkData := 66, owned := false }

/-- Scenario "a marked header on an input port": port `0` is an input port,
port `1` an output port; the header `1` of port `0` carries a mark for the
component `9`. -/
def marked_input_state : tizkernel :=
  { with_fsm kernel0 OMX_StateExecuting EStateExecuting with
    p_ports_ := [{ in_port with claimed_count_ := 0 }, { out_port with index := 1 }],
    p_ingress_ := [[], []], p_egress_ := [[1], []],
    heap := fun _ => { hdr100 with hMarkTargetComponent := 9, pMarkData := 66 } }

/-- Scenario "marks waiting on a port": the port `0` of `mark_state` holds an
owned mark, a mark it does not own, and another owned mark. -/
def three_marks_state : tizkernel :=
  { mark_state with port_marks := fun _ => [owned_mark, passed_on_mark, owned_mark] }

/-- The headers that have left through port `p` so far, in the order in which
they left. -/
def departures (k : tizkernel) (p : Nat) : List Nat :=
  ((delivered k).filter (fun x => x.1 == p)).map Prod.snd

/-- The departure schedule of port `p`: the headers that have left through `p`,
in the order in which they left, followed by the headers that wait in
`egress[p]`, in list order. -/
def schedule (k : tizkernel) (p : Nat) : List Nat := departures k p ++ egress_at k p

/-- Scenario "no memory for the merge": `merge_state` with `tiz_vector_append`
failing. -/
def oom_merge_state : tizkernel := { merge_state with vec_oom := true }

/-- The call by which `propagate_ingress` hands a header to the processor:
`tizapi_EmptyThisBuffer` for an input port, `tizapi_FillThisBuffer` otherwise. -/
def prc_buffer_call (pdir : OMX_DIRTYPE) (p_hdr : Nat) (hdr : OMX_BUFFERHEADERTYPE) : Effect :=
  if pdir = OMX_DirInput then Effect.prc_EmptyThisBuffer p_hdr hdr
  else Effect.prc_FillThisBuffer p_hdr hdr

/-- The effect is a header handed to the processor. -/
def is_prc_buffer : Effect → Bool
  | Effect.prc_EmptyThisBuffer _ _ => true
  | Effect.prc_FillThisBuffer _ _ => true
  | _ => false

/-- The header that a call to the processor carries, and whether the call is
`EmptyThisBuffer`. -/
def prc_buffer_hdr : Effect → Bool × Nat
  | Effect.prc_EmptyThisBuffer p_hdr _ => (true, p_hdr)
  | Effect.prc_FillThisBuffer p_hdr _ => (false, p_hdr)
  | _ => (false, 0)

/-- The headers handed to the processor so far, in order, each with the kind
of the call (`true` for `EmptyThisBuffer`). -/
def prc_buffers (k : tizkernel) : List (Bool × Nat) :=
  (k.trace.filter is_prc_buffer).map prc_buffer_hdr

/-- Scenario "two ports with waiting headers": the input port `0` and the output
port `1`, headers `1` and `2` in their ingress lists, headers `3` and `4` in
their egress lists, every header with `nFilledLen = 100`; the FSM is in
`Executing`. -/
def two_lists_state : tizkernel :=
  { with_fsm kernel0 OMX_StateExecuting EStateExecuting with
    p_ports_ := [{ in_port with claimed_count_ := 0, p_hdrs_ := [1, 3] },
                 { out_port with index := 1, p_hdrs_ := [2, 4] }],
    p_ingress_ := [[1], [2]], p_egress_ := [[3], [4]], heap := fun _ => hdr100 }

/-- The port is a tunnelled supplier that is enabled and has buffers: the ports
for which `kernel_stop_and_return` calls `move_to_ingress`. -/
def holds_tunnel_buffers (p : tizport) : Prop :=
  tizport_buffer_count p ≠ 0 ∧ TIZPORT_IS_ENABLED_TUNNELED_AND_SUPPLIER p = true

/-- Scenario "stop without memory": the non-tunnelled output port of
`flush_state` with header `1` in the ingress list and header `2` in the egress
list, and `tiz_vector_append` failing. -/
def oom_stop_state : tizkernel :=
  { flush_state with p_ingress_ := [[1]], p_egress_ := [[2]], vec_oom := true }

/-- The state of `kernel_UseBuffer` and `kernel_AllocateBuffer` after the port
call has succeeded and has left the port record `p` (lines 2829-2833 and
2903-2907): the enable of the port is completed when the port was being enabled
before the call and is populated after it. -/
def port_call_done (k : tizkernel) (a_pid : Nat) (p : tizport) : tizkernel :=
  let was_being_enabled := TIZPORT_IS_BEING_ENABLED (port_at k a_pid)
  let k1 := set_port k a_pid p
  if was_being_enabled = true ∧ TIZPORT_IS_POPULATED (port_at k1 a_pid) = true then
    (complete_port_enable k1 a_pid OMX_ErrorNone).1
  else k1

/-- Source: `kernel_UseBuffer` (lines 2788-2858).  The port's own `UseBuffer`
(`tizapi_UseBuffer (p_port, ap_hdl, app_hdr, a_pid, ap_apppriv, a_size,
ap_buf)`, implemented in `tizport.c`) is not among the sources; it is the
parameter `tizapi_UseBuffer`, which gives the port record after the call and
the result of the call.  The header that the port creates stays with the
port. -/
def kernel_UseBuffer
    (tizapi_UseBuffer : tizport → Nat → Nat → Nat → Nat → Nat → tizport × OMX_ERRORTYPE)
    (k : tizkernel) (a_pid ap_apppriv a_size ap_buf : Nat) : tizkernel × OMX_ERRORTYPE :=
  if check_pid k a_pid ≠ OMX_ErrorNone then (k, OMX_ErrorBadPortIndex)
  else
    let p_port := port_at k a_pid
    if TIZPORT_IS_TUNNELED_AND_SUPPLIER p_port then (k, OMX_ErrorBadPortIndex)
    else
      let r := tizapi_UseBuffer p_port k.hdl a_pid ap_apppriv a_size ap_buf
      if r.2 ≠ OMX_ErrorNone then (set_port k a_pid r.1, r.2)
      else
        let k2 := port_call_done k a_pid r.1
        if all_populated k2 then tizfsm_complete_transition k2 OMX_StateIdle.toNat
        else (k2, OMX_ErrorNone)

/-- Source: `kernel_AllocateBuffer` (lines 2860-2934), with the port's own
`AllocateBuffer` as the parameter `tizapi_AllocateBuffer`. -/
def kernel_AllocateBuffer
    (tizapi_AllocateBuffer : tizport → Nat → Nat → Nat → Nat → tizport × OMX_ERRORTYPE)
    (k : tizkernel) (a_pid ap_apppriv a_size : Nat) : tizkernel × OMX_ERRORTYPE :=
  let now := tizfsm_get_substate k
  if check_pid k a_pid ≠ OMX_ErrorNone then (k, OMX_ErrorBadPortIndex)
  else
    let p_port := port_at k a_pid
    if TIZPORT_IS_TUNNELED_AND_SUPPLIER p_port then (k, OMX_ErrorBadPortIndex)
    else
      let r := tizapi_AllocateBuffer p_port k.hdl a_pid ap_apppriv a_size
      if r.2 ≠ OMX_ErrorNone then (set_port k a_pid r.1, r.2)
      else
        let k2 := port_call_done k a_pid r.1
        if all_populated k2 then
          if ESubStateLoadedToIdle = now then tizfsm_complete_transition k2 OMX_StateIdle.toNat
          else (k2, OMX_ErrorNone)
        else (k2, OMX_ErrorNone)

/-- A port `UseBuffer` that succeeds and leaves the port populated. -/
def use_last (p : tizport) (_hdl _pid _priv _size _buf : Nat) : tizport × OMX_ERRORTYPE :=
  ({ p with populated := true }, OMX_ErrorNone)

/-- A port `AllocateBuffer` that succeeds and leaves the port populated. -/
def allocate_last (p : tizport) (_hdl _pid _priv _size : Nat) : tizport × OMX_ERRORTYPE :=
  ({ p with populated := true }, OMX_ErrorNone)

/-! ## The port registry -/

/-- The port domains of `OMX_PORTDOMAINTYPE`; `OMX_PortDomainMax` stands for
every value other than the four domains. -/
inductive OMX_PORTDOMAINTYPE where
  | OMX_PortDomainAudio
  | OMX_PortDomainVideo
  | OMX_PortDomainImage
  | OMX_PortDomainOther
  | OMX_PortDomainMax
  deriving DecidableEq, Repr, Inhabited

open OMX_PORTDOMAINTYPE

/-- Modelled from the spec: `TIZPORT_CONFIG_PORT_INDEX`, the index reserved for
the config port, a sentinel beyond the range of the data ports (`tizport.h` is
not among the sources). -/
def TIZPORT_CONFIG_PORT_INDEX : Nat := OMX_ALL

/-- Modelled from the spec: `tizport_set_index` records the index in the port
(`tizport.c` is not among the sources). -/
def tizport_set_index (p : tizport) (a_pid : Nat) : tizport := { p with index := a_pid }

/-- The vector call `tiz_vector_push_back` on a vector of ports or of lists. -/
def tiz_vector_push_back_elem {α : Type} (k : tizkernel) (l : List α) (x : α) :
    List α × OMX_ERRORTYPE :=
  if k.vec_oom then (l, OMX_ErrorInsufficientResources)
  else (l ++ [x], OMX_ErrorNone)

/-- One `case` of the switch of `kernel_register_port` (lines 3441-3482): the
first port of a domain gives the start index, every port is counted. -/
def count_in_domain (a : OMX_PORT_PARAM_TYPE) (pid : Nat) : OMX_PORT_PARAM_TYPE :=
  { nPorts := a.nPorts + 1,
    nStartPortNumber := if 0 = a.nPorts then pid else a.nStartPortNumber }

/-- Source: `kernel_register_port` (lines 3401-3492).  The results of the two
pushes onto `p_ingress_` and `p_egress_` are not looked at; the `default`
branch of the switch is `assert (0)`.  `tizport_domain` (`tizport.c`, not among
the sources) is a parameter. -/
def kernel_register_port (tizport_domain : tizport → OMX_PORTDOMAINTYPE) (k : tizkernel)
    (ap_port : tizport) (ais_config : Bool) : tizkernel × OMX_ERRORTYPE :=
  if ais_config then
    ({ k with p_cport_ := some (tizport_set_index ap_port TIZPORT_CONFIG_PORT_INDEX) },
     OMX_ErrorNone)
  else
    let p_ingress := (tiz_vector_push_back_elem k k.p_ingress_ []).1
    let p_egress := (tiz_vector_push_back_elem k k.p_egress_ []).1
    let pid := k.p_ports_.length
    let port := tizport_set_index ap_port pid
    let k1 : tizkernel := { k with p_ingress_ := p_ingress, p_egress_ := p_egress }
    let k2 : tizkernel :=
      match tizport_domain port with
      | OMX_PortDomainAudio => { k1 with audio_init_ := count_in_domain k1.audio_init_ pid }
      | OMX_PortDomainVideo => { k1 with video_init_ := count_in_domain k1.video_init_ pid }
      | OMX_PortDomainImage => { k1 with image_init_ := count_in_domain k1.image_init_ pid }
      | OMX_PortDomainOther => { k1 with other_init_ := count_in_domain k1.other_init_ pid }
      | OMX_PortDomainMax => k1
    let r := tiz_vector_push_back_elem k2 k2.p_ports_ port
    ({ k2 with p_ports_ := r.1 }, r.2)

/-- Source: `kernel_get_port` (lines 3512-3530); `none` is `NULL`. -/
def kernel_get_port (k : tizkernel) (a_pid : Nat) : Option tizport :=
  if nports k ≤ a_pid then none else some (port_at k a_pid)

/-- The loops of `deinit_ports_and_lists`:
`while (tiz_vector_length (v) > 0) { ...; tiz_vector_pop_back (v); }`. -/
def pop_all {α : Type} : Nat → List α → List α
  | 0, l => l
  | fuel + 1, l => if l.length > 0 then pop_all fuel l.dropLast else l

/-- Source: `deinit_ports_and_lists` (lines 1200-1242): the config port and the
data ports are deleted, the three vectors are emptied and destroyed. -/
def deinit_ports_and_lists (k : tizkernel) : tizkernel :=
  { k with p_cport_ := none,
           p_ports_ := pop_all k.p_ports_.length k.p_ports_,
           p_ingress_ := pop_all k.p_ingress_.length k.p_ingress_,
           p_egress_ := pop_all k.p_egress_.length k.p_egress_ }

/-- Source: `kernel_deregister_all_ports` (lines 3930-3938). -/
def kernel_deregister_all_ports (k : tizkernel) : tizkernel :=
  init_ports_and_lists (deinit_ports_and_lists k)

/-- The aggregate that the kernel keeps for a domain. -/
def domain_aggregate (k : tizkernel) : OMX_PORTDOMAINTYPE → OMX_PORT_PARAM_TYPE
  | OMX_PortDomainAudio => k.audio_init_
  | OMX_PortDomainVideo => k.video_init_
  | OMX_PortDomainImage => k.image_init_
  | OMX_PortDomainOther => k.other_init_
  | OMX_PortDomainMax => { nPorts := 0, nStartPortNumber := 0 }

/-- The aggregates agree with the registered data ports: each of the four
domains counts its ports, and a domain that has ports starts at the position of
the first of them. -/
def aggregates_ok (dom : tizport → OMX_PORTDOMAINTYPE) (k : tizkernel) : Prop :=
  ∀ D, D ≠ OMX_PortDomainMax →
    (domain_aggregate k D).nPorts = k.p_ports_.countP (fun p => decide (dom p = D)) ∧
    (0 < (domain_aggregate k D).nPorts →
      (domain_aggregate k D).nStartPortNumber =
        k.p_ports_.findIdx (fun p => decide (dom p = D)))

/-- A sequence of registrations, each a port and whether it is the config
port, run in order. -/
def register_all (dom : tizport → OMX_PORTDOMAINTYPE) :
    List (tizport × Bool) → tizkernel → tizkernel
  | [], k => k
  | r :: rest, k => register_all dom rest (kernel_register_port dom k r.1 r.2).1

/-- The data ports of a sequence of registrations, in order. -/
def data_ports (regs : List (tizport × Bool)) : List tizport :=
  (regs.filter (fun r => !r.2)).map Prod.fst

/-- The ports `l` with the indices `n`, `n + 1`, ... -/
def index_from : Nat → List tizport → List tizport
  | _, [] => []
  | n, p :: ps => tizport_set_index p n :: index_from (n + 1) ps

/-- The states that a kernel goes through from its construction by calls of
`kernel_register_port` (a data port being of one of the four domains, as the
switch asserts) and `kernel_deregister_all_ports`, the pushes onto the vectors
succeeding. -/
inductive registry_run (dom : tizport → OMX_PORTDOMAINTYPE) : tizkernel → Prop where
  | ctor (k0 : tizkernel) : k0.vec_oom = false → registry_run dom (init_ports_and_lists k0)
  | register (k : tizkernel) (p : tizport) (cfg : Bool) : registry_run dom k →
      (cfg = false → dom (tizport_set_index p k.p_ports_.length) ≠ OMX_PortDomainMax) →
      registry_run dom (kernel_register_port dom k p cfg).1
  | deregister (k : tizkernel) : registry_run dom k →
      registry_run dom (kernel_deregister_all_ports k)

/-- A domain table for the examples: output ports are audio ports, all others
video ports. -/
def dom_by_dir (p : tizport) : OMX_PORTDOMAINTYPE :=
  if p.dir = OMX_DirOutput then OMX_PortDomainAudio else OMX_PortDomainVideo

/-- The registrations of the examples: a video port, the config port, an audio
port, a video port. -/
def four_registrations : List (tizport × Bool) :=
  [(in_port, false), (out_port, true), (out_port, false), (in_port, false)]

/-! # Theorems -/

/-! ## Reading a state after one of its parts was written -/

@[simp] theorem set_port_other (k : tizkernel) (pid : Nat) (p : tizport) :
    (set_port k pid p).p_ingress_ = k.p_ingress_ ∧
    (set_port k pid p).p_egress_ = k.p_egress_ ∧
    (set_port k pid p).eos_ = k.eos_ ∧
    (set_port k pid p).cmd_completion_count_ = k.cmd_completion_count_ ∧
    (set_port k pid p).port_marks = k.port_marks ∧
    (set_port k pid p).heap = k.heap ∧
    (set_port k pid p).queue = k.queue ∧
    (set_port k pid p).trace = k.trace ∧
    (set_port k pid p).p_cport_ = k.p_cport_ ∧
    env_part (set_port k pid p) = env_part k ∧
    (∀ i, ingress_at (set_port k pid p) i = ingress_at k i) ∧
    (∀ i, egress_at (set_port k pid p) i = egress_at k i) :=
  ⟨rfl, rfl, rfl, rfl, rfl, rfl, rfl, rfl, rfl, rfl, fun _ => rfl, fun _ => rfl⟩

@[simp] theorem set_ingress_other (k : tizkernel) (pid : Nat) (l : List Nat) :
    (set_ingress k pid l).p_ports_ = k.p_ports_ ∧
    (set_ingress k pid l).p_egress_ = k.p_egress_ ∧
    (set_ingress k pid l).eos_ = k.eos_ ∧
    (set_ingress k pid l).cmd_completion_count_ = k.cmd_completion_count_ ∧
    (set_ingress k pid l).port_marks = k.port_marks ∧
    (set_ingress k pid l).heap = k.heap ∧
    (set_ingress k pid l).queue = k.queue ∧
    (set_ingress k pid l).trace = k.trace ∧
    (set_ingress k pid l).p_cport_ = k.p_cport_ ∧
    env_part (set_ingress k pid l) = env_part k ∧
    nports (set_ingress k pid l) = nports k ∧
    (∀ i, port_at (set_ingress k pid l) i = port_at k i) ∧
    (∀ i, egress_at (set_ingress k pid l) i = egress_at k i) :=
  ⟨rfl, rfl, rfl, rfl, rfl, rfl, rfl, rfl, rfl, rfl, rfl, fun _ => rfl, fun _ => rfl⟩

@[simp] theorem set_egress_other (k : tizkernel) (pid : Nat) (l : List Nat) :
    (set_egress k pid l).p_ports_ = k.p_ports_ ∧
    (set_egress k pid l).p_ingress_ = k.p_ingress_ ∧
    (set_egress k pid l).eos_ = k.eos_ ∧
    (set_egress k pid l).cmd_completion_count_ = k.cmd_completion_count_ ∧
    (set_egress k pid l).port_marks = k.port_marks ∧
    (set_egress k pid l).heap = k.heap ∧
    (set_egress k pid l).queue = k.queue ∧
    (set_egress k pid l).trace = k.trace ∧
    (set_egress k pid l).p_cport_ = k.p_cport_ ∧
    env_part (set_egress k pid l) = env_part k ∧
    nports (set_egress k pid l) = nports k ∧
    (∀ i, port_at (set_egress k pid l) i = port_at k i) ∧
    (∀ i, ingress_at (set_egress k pid l) i = ingress_at k i) :=
  ⟨rfl, rfl, rfl, rfl, rfl, rfl, rfl, rfl, rfl, rfl, rfl, fun _ => rfl, fun _ => rfl⟩

@[simp] theorem set_hdr_other (k : tizkernel) (a : Nat) (h : OMX_BUFFERHEADERTYPE) :
    (set_hdr k a h).p_ports_ = k.p_ports_ ∧
    (set_hdr k a h).p_ingress_ = k.p_ingress_ ∧
    (set_hdr k a h).p_egress_ = k.p_egress_ ∧
    (set_hdr k a h).eos_ = k.eos_ ∧
    (set_hdr k a h).cmd_completion_count_ = k.cmd_completion_count_ ∧
    (set_hdr k a h).port_marks = k.port_marks ∧
    (set_hdr k a h).queue = k.queue ∧
    (set_hdr k a h).trace = k.trace ∧
    (set_hdr k a h).p_cport_ = k.p_cport_ ∧
    env_part (set_hdr k a h) = env_part k ∧
    nports (set_hdr k a h) = nports k ∧
    (∀ i, port_at (set_hdr k a h) i = port_at k i) ∧
    (∀ i, ingress_at (set_hdr k a h) i = ingress_at k i) ∧
    (∀ i, egress_at (set_hdr k a h) i = egress_at k i) :=
  ⟨rfl, rfl, rfl, rfl, rfl, rfl, rfl, rfl, rfl, rfl, rfl, fun _ => rfl, fun _ => rfl, fun _ => rfl⟩

@[simp] theorem set_marks_other (k : tizkernel) (pid : Nat) (ms : List tizport_mark_info_t) :
    (set_marks k pid ms).p_ports_ = k.p_ports_ ∧
    (set_marks k pid ms).p_ingress_ = k.p_ingress_ ∧
    (set_marks k pid ms).p_egress_ = k.p_egress_ ∧
    (set_marks k pid ms).eos_ = k.eos_ ∧
    (set_marks k pid ms).cmd_completion_count_ = k.cmd_completion_count_ ∧
    (set_marks k pid ms).heap = k.heap ∧
    (set_marks k pid ms).queue = k.queue ∧
    (set_marks k pid ms).trace = k.trace ∧
    (set_marks k pid ms).p_cport_ = k.p_cport_ ∧
    env_part (set_marks k pid ms) = env_part k ∧
    nports (set_marks k pid ms) = nports k ∧
    (∀ i, port_at (set_marks k pid ms) i = port_at k i) ∧
    (∀ i, ingress_at (set_marks k pid ms) i = ingress_at k i) ∧
    (∀ i, egress_at (set_marks k pid ms) i = egress_at k i) :=
  ⟨rfl, rfl, rfl, rfl, rfl, rfl, rfl, rfl, rfl, rfl, rfl, fun _ => rfl, fun _ => rfl, fun _ => rfl⟩

@[simp] theorem emit_other (k : tizkernel) (e : Effect) :
    (emit k e).p_ports_ = k.p_ports_ ∧
    (emit k e).p_ingress_ = k.p_ingress_ ∧
    (emit k e).p_egress_ = k.p_egress_ ∧
    (emit k e).eos_ = k.eos_ ∧
    (emit k e).cmd_completion_count_ = k.cmd_completion_count_ ∧
    (emit k e).port_marks = k.port_marks ∧
    (emit k e).heap = k.heap ∧
    (emit k e).queue = k.queue ∧
    (emit k e).p_cport_ = k.p_cport_ ∧
    env_part (emit k e) = env_part k ∧
    nports (emit k e) = nports k ∧
    (∀ i, port_at (emit k e) i = port_at k i) ∧
    (∀ i, ingress_at (emit k e) i = ingress_at k i) ∧
    (∀ i, egress_at (emit k e) i = egress_at k i) :=
  ⟨rfl, rfl, rfl, rfl, rfl, rfl, rfl, rfl, rfl, rfl, rfl, fun _ => rfl, fun _ => rfl, fun _ => rfl⟩

@[simp] theorem set_count_other (k : tizkernel) (n : Nat) :
    (set_count k n).p_ports_ = k.p_ports_ ∧
    (set_count k n).p_ingress_ = k.p_ingress_ ∧
    (set_count k n).p_egress_ = k.p_egress_ ∧
    (set_count k n).eos_ = k.eos_ ∧
    (set_count k n).port_marks = k.port_marks ∧
    (set_count k n).heap = k.heap ∧
    (set_count k n).queue = k.queue ∧
    (set_count k n).trace = k.trace ∧
    (set_count k n).p_cport_ = k.p_cport_ ∧
    env_part (set_count k n) = env_part k ∧
    nports (set_count k n) = nports k ∧
    (∀ i, port_at (set_count k n) i = port_at k i) ∧
    (∀ i, ingress_at (set_count k n) i = ingress_at k i) ∧
    (∀ i, egress_at (set_count k n) i = egress_at k i) :=
  ⟨rfl, rfl, rfl, rfl, rfl, rfl, rfl, rfl, rfl, rfl, rfl, fun _ => rfl, fun _ => rfl, fun _ => rfl⟩

@[simp] theorem set_eos_other (k : tizkernel) (b : Bool) :
    (set_eos k b).p_ports_ = k.p_ports_ ∧
    (set_eos k b).p_ingress_ = k.p_ingress_ ∧
    (set_eos k b).p_egress_ = k.p_egress_ ∧
    (set_eos k b).cmd_completion_count_ = k.cmd_completion_count_ ∧
    (set_eos k b).port_marks = k.port_marks ∧
    (set_eos k b).heap = k.heap ∧
    (set_eos k b).queue = k.queue ∧
    (set_eos k b).trace = k.trace ∧
    (set_eos k b).p_cport_ = k.p_cport_ ∧
    env_part (set_eos k b) = env_part k ∧
    nports (set_eos k b) = nports k ∧
    (∀ i, port_at (set_eos k b) i = port_at k i) ∧
    (∀ i, ingress_at (set_eos k b) i = ingress_at k i) ∧
    (∀ i, egress_at (set_eos k b) i = egress_at k i) :=
  ⟨rfl, rfl, rfl, rfl, rfl, rfl, rfl, rfl, rfl, rfl, rfl, fun _ => rfl, fun _ => rfl, fun _ => rfl⟩

@[simp] theorem set_queue_other (k : tizkernel) (q : List (Nat × tizkernel_msg_t)) :
    (set_queue k q).p_ports_ = k.p_ports_ ∧
    (set_queue k q).p_ingress_ = k.p_ingress_ ∧
    (set_queue k q).p_egress_ = k.p_egress_ ∧
    (set_queue k q).eos_ = k.eos_ ∧
    (set_queue k q).cmd_completion_count_ = k.cmd_completion_count_ ∧
    (set_queue k q).port_marks = k.port_marks ∧
    (set_queue k q).heap = k.heap ∧
    (set_queue k q).trace = k.trace ∧
    (set_queue k q).p_cport_ = k.p_cport_ ∧
    env_part (set_queue k q) = env_part k ∧
    nports (set_queue k q) = nports k ∧
    (∀ i, port_at (set_queue k q) i = port_at k i) ∧
    (∀ i, ingress_at (set_queue k q) i = ingress_at k i) ∧
    (∀ i, egress_at (set_queue k q) i = egress_at k i) :=
  ⟨rfl, rfl, rfl, rfl, rfl, rfl, rfl, rfl, rfl, rfl, rfl, fun _ => rfl, fun _ => rfl, fun _ => rfl⟩

theorem getD_set_self {α : Type} (l : List α) (i : Nat) (a d : α) (h : i < l.length) :
    (l.set i a).getD i d = a := by
  simp [List.getD_eq_getElem?_getD, List.getElem?_set_self, h]

theorem getD_set_ne {α : Type} (l : List α) (i j : Nat) (a d : α) (h : i ≠ j) :
    (l.set i a).getD j d = l.getD j d := by
  simp [List.getD_eq_getElem?_getD, List.getElem?_set_ne h]

theorem getD_set {α : Type} (l : List α) (i j : Nat) (a d : α) :
    (l.set i a).getD j d = if i = j ∧ i < l.length then a else l.getD j d := by
  by_cases hij : i = j
  · subst hij
    by_cases hl : i < l.length
    · simp [hl, getD_set_self]
    · simp [hl, List.set_eq_of_length_le (Nat.le_of_not_lt hl)]
  · simp [hij, getD_set_ne]

@[simp] theorem set_port_self (k : tizkernel) (pid : Nat) (p : tizport) :
    (set_port k pid p).p_ports_ = k.p_ports_.set pid p ∧
    nports (set_port k pid p) = nports k ∧
    (∀ i, port_at (set_port k pid p) i = if pid = i ∧ pid < nports k then p else port_at k i) :=
  ⟨rfl, by simp [nports, set_port], fun i => by
    unfold port_at set_port nports; exact getD_set _ _ _ _ _⟩

@[simp] theorem set_ingress_self (k : tizkernel) (pid : Nat) (l : List Nat) :
    (set_ingress k pid l).p_ingress_ = k.p_ingress_.set pid l ∧
    (∀ i, ingress_at (set_ingress k pid l) i =
      if pid = i ∧ pid < k.p_ingress_.length then l else ingress_at k i) :=
  ⟨rfl, fun i => by unfold ingress_at set_ingress; exact getD_set _ _ _ _ _⟩

@[simp] theorem set_egress_self (k : tizkernel) (pid : Nat) (l : List Nat) :
    (set_egress k pid l).p_egress_ = k.p_egress_.set pid l ∧
    (∀ i, egress_at (set_egress k pid l) i =
      if pid = i ∧ pid < k.p_egress_.length then l else egress_at k i) :=
  ⟨rfl, fun i => by unfold egress_at set_egress; exact getD_set _ _ _ _ _⟩

@[simp] theorem set_hdr_self (k : tizkernel) (a : Nat) (h : OMX_BUFFERHEADERTYPE) :
    (set_hdr k a h).heap = Function.update k.heap a h := rfl

@[simp] theorem set_marks_self (k : tizkernel) (pid : Nat) (ms : List tizport_mark_info_t) :
    (set_marks k pid ms).port_marks = Function.update k.port_marks pid ms := rfl

@[simp] theorem emit_self (k : tizkernel) (e : Effect) : (emit k e).trace = k.trace ++ [e] := rfl

@[simp] theorem set_count_self (k : tizkernel) (n : Nat) :
    (set_count k n).cmd_completion_count_ = n := rfl

@[simp] theorem set_eos_self (k : tizkernel) (b : Bool) : (set_eos k b).eos_ = b := rfl

@[simp] theorem set_queue_self (k : tizkernel) (q : List (Nat × tizkernel_msg_t)) :
    (set_queue k q).queue = q := rfl

/-! ## Frame lemmas: what mark and egress processing leave alone -/

theorem transfer_mark_loop_fixed (m : OMX_MARKTYPE) (n : Nat) :
    ∀ (fuel i : Nat) (k : tizkernel) (rc : OMX_ERRORTYPE),
      marks_fixed (transfer_mark_loop m n fuel i k rc).1 = marks_fixed k := by
  intro fuel
  induction fuel with
  | zero => intro i k rc; simp [transfer_mark_loop]
  | succ fuel ih =>
    intro i k rc
    simp only [transfer_mark_loop]
    split
    · split
      · rw [ih]; rfl
      · exact ih _ _ _
    · rfl

theorem transfer_mark_fixed (k : tizkernel) (m : OMX_MARKTYPE) :
    marks_fixed (transfer_mark k m).1 = marks_fixed k :=
  transfer_mark_loop_fixed m _ _ _ _ _

theorem process_marks_fixed (k : tizkernel) (p_hdr pid hdl : Nat) :
    buffers_fixed_but_heap (process_marks k p_hdr pid hdl).1 = buffers_fixed_but_heap k := by
  have ht := transfer_mark_fixed k
  simp only [marks_fixed, egress_fixed, Prod.mk.injEq] at ht
  unfold process_marks
  simp only [buffers_fixed_but_heap, egress_fixed]
  split_ifs <;> simp [ht, tizservant_issue_event, complete_mark_buffer,
    tizservant_issue_cmd_event]

theorem mark_effect_egress : ∀ e, mark_effect e = true → egress_effect e = true := by
  intro e
  cases e <;> simp [mark_effect, egress_effect]
  rename_i c _ _
  cases c <;> simp [mark_effect, egress_effect]

theorem process_marks_trace (k : tizkernel) (p_hdr pid hdl : Nat) (π : Effect → Bool)
    (hπ : ∀ e, mark_effect e = true → π e = false) :
    (process_marks k p_hdr pid hdl).1.trace.filter π = k.trace.filter π := by
  have ht := transfer_mark_fixed k
  simp only [marks_fixed, egress_fixed, Prod.mk.injEq] at ht
  unfold process_marks
  simp only []
  split_ifs <;> simp [ht, tizservant_issue_event, complete_mark_buffer,
    tizservant_issue_cmd_event, List.filter_append, hπ, mark_effect]

theorem enqueue_callback_msg_fixed (k : tizkernel) (h p : Nat) (d : OMX_DIRTYPE) :
    egress_fixed (enqueue_callback_msg k h p d).1 = egress_fixed k ∧
    (enqueue_callback_msg k h p d).1.p_egress_ = k.p_egress_ ∧
    (enqueue_callback_msg k h p d).1.trace = k.trace ∧
    (enqueue_callback_msg k h p d).1.heap = k.heap ∧
    (enqueue_callback_msg k h p d).1.eos_ = k.eos_ ∧
    (enqueue_callback_msg k h p d).1.port_marks = k.port_marks := by
  unfold enqueue_callback_msg; split <;> simp [tizservant_enqueue, egress_fixed]

theorem flush_egress_hdr_fixed (pid : Nat) (pdir : OMX_DIRTYPE) (thdl : Nat) (c : Bool)
    (p_hdr : Nat) (k : tizkernel) :
    egress_fixed (flush_egress_hdr pid pdir thdl c p_hdr k) = egress_fixed k := by
  have hp := fun k' => process_marks_fixed k' p_hdr pid k'.hdl
  simp only [buffers_fixed_but_heap, egress_fixed, Prod.mk.injEq] at hp
  simp only [flush_egress_hdr, egress_fixed]
  split_ifs <;> simp [hp, tizservant_issue_event, tizservant_issue_buf_callback,
    tizport_populate_header]

theorem egress_suffix_set_tail (k : tizkernel) (pid i : Nat) :
    egress_at (set_egress k pid ((egress_at k pid).eraseIdx 0)) i <:+ egress_at k i := by
  simp only [set_egress_self]
  split
  · rename_i h
    rw [← h.1]
    cases egress_at k pid with
    | nil => simp
    | cons a l => simp [List.eraseIdx]
  · exact List.suffix_refl _

theorem egress_at_congr {k k' : tizkernel} (h : k'.p_egress_ = k.p_egress_) (i : Nat) :
    egress_at k' i = egress_at k i := by
  simp [egress_at, h]

theorem flush_egress_hdr_suffix (pid : Nat) (pdir : OMX_DIRTYPE) (thdl : Nat) (c : Bool)
    (p_hdr : Nat) (k : tizkernel) (i : Nat) :
    egress_at (flush_egress_hdr pid pdir thdl c p_hdr k) i <:+ egress_at k i := by
  unfold flush_egress_hdr
  refine List.IsSuffix.trans (egress_suffix_set_tail _ pid i) ?_
  have hp := fun k' => process_marks_fixed k' p_hdr pid k'.hdl
  simp only [buffers_fixed_but_heap, egress_fixed, Prod.mk.injEq] at hp
  rw [egress_at_congr]
  simp only [tizservant_issue_buf_callback, emit_other]
  split_ifs <;> simp [hp, tizservant_issue_event, tizport_populate_header]

theorem flush_egress_hdr_trace (pid : Nat) (pdir : OMX_DIRTYPE) (thdl : Nat) (c : Bool)
    (p_hdr : Nat) (k : tizkernel) (π : Effect → Bool)
    (hπ : ∀ e, egress_effect e = true → π e = false) :
    (flush_egress_hdr pid pdir thdl c p_hdr k).trace.filter π = k.trace.filter π := by
  have hp := fun k' => process_marks_trace k' p_hdr pid k'.hdl π
    (fun e he => hπ e (mark_effect_egress e he))
  simp only [flush_egress_hdr]
  split_ifs <;> simp [hp, hπ, egress_effect, tizservant_issue_event,
    tizservant_issue_buf_callback, tizport_populate_header, List.filter_append]

theorem flush_egress_list_frame (pid : Nat) (pdir : OMX_DIRTYPE) (thdl : Nat) (c : Bool)
    (π : Effect → Bool) (hπ : ∀ e, egress_effect e = true → π e = false) :
    ∀ (fuel : Nat) (k : tizkernel),
      egress_fixed (flush_egress_list pid pdir thdl c fuel k) = egress_fixed k ∧
      (∀ i, egress_at (flush_egress_list pid pdir thdl c fuel k) i <:+ egress_at k i) ∧
      (flush_egress_list pid pdir thdl c fuel k).trace.filter π = k.trace.filter π := by
  intro fuel
  induction fuel with
  | zero => intro k; simp [flush_egress_list]
  | succ fuel ih =>
    intro k
    rw [flush_egress_list]
    split
    · simp
    · rename_i p_hdr rest heq
      split
      · have he := enqueue_callback_msg_fixed k 0 0 OMX_DirMax
        refine ⟨he.1, ?_, ?_⟩
        · intro i; rw [egress_at_congr he.2.1]
        · rw [he.2.2.1]
      · obtain ⟨h1, h2, h3⟩ := ih (flush_egress_hdr pid pdir thdl c p_hdr k)
        refine ⟨?_, ?_, ?_⟩
        · rw [h1, flush_egress_hdr_fixed]
        · intro i
          exact List.IsSuffix.trans (h2 i) (flush_egress_hdr_suffix _ _ _ _ _ _ i)
        · rw [h3, flush_egress_hdr_trace _ _ _ _ _ _ π hπ]

theorem flush_egress_loop_frame (a_pid : Nat) (c : Bool) (n : Nat)
    (π : Effect → Bool) (hπ : ∀ e, egress_effect e = true → π e = false) :
    ∀ (fuel i : Nat) (k : tizkernel),
      egress_fixed (flush_egress_loop a_pid c n fuel i k) = egress_fixed k ∧
      (∀ j, egress_at (flush_egress_loop a_pid c n fuel i k) j <:+ egress_at k j) ∧
      (flush_egress_loop a_pid c n fuel i k).trace.filter π = k.trace.filter π := by
  intro fuel
  induction fuel with
  | zero => intro i k; simp [flush_egress_loop]
  | succ fuel ih =>
    intro i k
    rw [flush_egress_loop]
    obtain ⟨g1, g2, g3⟩ := flush_egress_list_frame
      (if OMX_ALL ≠ a_pid then a_pid else i)
      (tizport_dir (port_at k (if OMX_ALL ≠ a_pid then a_pid else i)))
      (tizport_get_tunnel_comp (port_at k (if OMX_ALL ≠ a_pid then a_pid else i))) c π hπ
      (egress_at k (if OMX_ALL ≠ a_pid then a_pid else i)).length k
    split
    · obtain ⟨h1, h2, h3⟩ := ih (i + 1) (flush_egress_list
        (if OMX_ALL ≠ a_pid then a_pid else i)
        (tizport_dir (port_at k (if OMX_ALL ≠ a_pid then a_pid else i)))
        (tizport_get_tunnel_comp (port_at k (if OMX_ALL ≠ a_pid then a_pid else i))) c
        (egress_at k (if OMX_ALL ≠ a_pid then a_pid else i)).length k)
      refine ⟨by rw [h1, g1], fun j => List.IsSuffix.trans (h2 j) (g2 j), by rw [h3, g3]⟩
    · exact ⟨g1, g2, g3⟩

theorem flush_egress_frame (k : tizkernel) (a_pid : Nat) (c : Bool)
    (π : Effect → Bool) (hπ : ∀ e, egress_effect e = true → π e = false) :
    egress_fixed (flush_egress k a_pid c).1 = egress_fixed k ∧
    (∀ j, egress_at (flush_egress k a_pid c).1 j <:+ egress_at k j) ∧
    (flush_egress k a_pid c).1.trace.filter π = k.trace.filter π :=
  flush_egress_loop_frame a_pid c _ π hπ _ _ _

theorem flush_marks_loop_frame (pos : Nat) (π : Effect → Bool)
    (hπ : ∀ e, mark_effect e = true → π e = false) :
    ∀ (fuel : Nat) (k : tizkernel) (rc : OMX_ERRORTYPE),
      buffers_fixed (flush_marks_loop fuel pos k rc).1 = buffers_fixed k ∧
      (flush_marks_loop fuel pos k rc).1.trace.filter π = k.trace.filter π := by
  intro fuel
  induction fuel with
  | zero => intro k rc; simp [flush_marks_loop]
  | succ fuel ih =>
    intro k rc
    rw [flush_marks_loop]
    split
    · obtain ⟨h1, h2⟩ := ih
        (if (tizport_mark_buffer (k.port_marks pos) default).2.2 = OMX_ErrorNone then
          complete_mark_buffer (set_marks k pos (tizport_mark_buffer (k.port_marks pos) default).1)
            (tizport_index (port_at (set_marks k pos
              (tizport_mark_buffer (k.port_marks pos) default).1) pos)) OMX_ErrorPortUnpopulated
        else set_marks k pos (tizport_mark_buffer (k.port_marks pos) default).1)
        (tizport_mark_buffer (k.port_marks pos) default).2.2
      rw [h1, h2]
      split <;> simp [buffers_fixed, egress_fixed, complete_mark_buffer,
        tizservant_issue_cmd_event, List.filter_append, hπ, mark_effect]
    · split <;> simp [buffers_fixed, egress_fixed, complete_mark_buffer,
        tizservant_issue_cmd_event, List.filter_append, hπ, mark_effect]

theorem flush_marks_frame (k : tizkernel) (pos : Nat) (π : Effect → Bool)
    (hπ : ∀ e, mark_effect e = true → π e = false) :
    buffers_fixed (flush_marks k pos).1 = buffers_fixed k ∧
    (flush_marks k pos).1.trace.filter π = k.trace.filter π :=
  flush_marks_loop_frame pos π hπ _ _ _

theorem mark_effect_not_buf_callback : ∀ e, mark_effect e = true → is_buf_callback e = false := by
  intro e; cases e <;> simp [mark_effect, is_buf_callback]

theorem mark_effect_not_transition : ∀ e, mark_effect e = true → is_transition e = false := by
  intro e; cases e <;> simp [mark_effect, is_transition]

theorem mark_effect_not_completion (cmd : OMX_COMMANDTYPE) (h : cmd ≠ OMX_CommandMarkBuffer) :
    ∀ e, mark_effect e = true → is_completion cmd e = false := by
  intro e; cases e <;> simp [mark_effect, is_completion]
  rename_i c _ _; cases c <;> simp [mark_effect]; exact fun h' => h h'.symm

theorem egress_effect_not_transition :
    ∀ e, egress_effect e = true → is_transition e = false := by
  intro e; cases e <;> simp [egress_effect, is_transition]

theorem egress_effect_not_completion (cmd : OMX_COMMANDTYPE) (h : cmd ≠ OMX_CommandMarkBuffer) :
    ∀ e, egress_effect e = true → is_completion cmd e = false := by
  intro e; cases e <;> simp [egress_effect, is_completion]
  rename_i c _ _; cases c <;> simp [egress_effect]; exact fun h' => h h'.symm

theorem complete_ongoing_transitions_frame (k : tizkernel) (π : Effect → Bool)
    (hπ : ∀ s, π (Effect.fsm_complete_transition s) = false) :
    buffers_fixed (complete_ongoing_transitions k).1 = buffers_fixed k ∧
    (complete_ongoing_transitions k).1.port_marks = k.port_marks ∧
    (complete_ongoing_transitions k).1.trace.filter π = k.trace.filter π := by
  unfold complete_ongoing_transitions
  simp only []
  split_ifs <;> simp [tizfsm_complete_transition, buffers_fixed, egress_fixed,
    List.filter_append, hπ]

theorem complete_port_disable_last (k : tizkernel) (p : Nat) (err : OMX_ERRORTYPE)
    (hc : k.cmd_completion_count_ = 1) :
    (complete_port_disable k p err).1.cmd_completion_count_ = 0 ∧
    (complete_port_disable k p err).1.p_ingress_ = k.p_ingress_ ∧
    (complete_port_disable k p err).1.p_egress_ = k.p_egress_ ∧
    (complete_port_disable k p err).1.heap = k.heap ∧
    (complete_port_disable k p err).1.queue = k.queue ∧
    (complete_port_disable k p err).1.eos_ = k.eos_ ∧
    env_part (complete_port_disable k p err).1 = env_part k ∧
    (complete_port_disable k p err).1.p_ports_ =
      k.p_ports_.set p (TIZPORT_SET_DISABLED (port_at k p)) ∧
    (complete_port_disable k p err).1.trace.filter (is_completion OMX_CommandPortDisable) =
      k.trace.filter (is_completion OMX_CommandPortDisable) ++
        [Effect.fsm_complete_command OMX_CommandPortDisable p] ∧
    (complete_port_disable k p err).1.trace.filter is_buf_callback =
      k.trace.filter is_buf_callback ∧
    (complete_port_disable k p err).1.trace.filter is_transition =
      k.trace.filter is_transition := by
  have h1 := flush_marks_frame
  simp only [buffers_fixed, egress_fixed, Prod.mk.injEq] at h1
  simp only [complete_port_disable]
  simp [hc, tizfsm_complete_command, h1, List.filter_append, is_completion,
    is_buf_callback, is_transition,
    (h1 _ _ _ mark_effect_not_buf_callback).2, (h1 _ _ _ mark_effect_not_transition).2,
    (h1 _ _ _ (mark_effect_not_completion OMX_CommandPortDisable (by decide))).2]

/-! ## C4: disabling a port that is already disabled -/

theorem dispatch_port_disable_single (pc : tizport_class) (k : tizkernel)
    (sc : tizkernel_msg_sendcommand_t) (hall : sc.param1 ≠ OMX_ALL)
    (hlt : sc.param1 < nports k) :
    dispatch_port_disable pc k sc =
      match (dispatch_port_disable_body pc sc sc.param1 (set_count k 1) OMX_ErrorNone).2.2 with
      | some e => ((dispatch_port_disable_body pc sc sc.param1 (set_count k 1) OMX_ErrorNone).1, e)
      | none => complete_ongoing_transitions
          (dispatch_port_disable_body pc sc sc.param1 (set_count k 1) OMX_ErrorNone).1 := by
  have hne : OMX_ALL ≠ sc.param1 := fun h => hall h.symm
  have hck : check_pid k sc.param1 = OMX_ErrorNone := by
    simp [check_pid, Nat.not_le.mpr hlt]
  unfold dispatch_port_disable
  simp only [hck, hne, ne_eq, not_true_eq_false, and_false, if_false, if_neg hne.symm]
  rw [dispatch_port_disable_loop]
  simp only [hne, ne_eq, not_false_eq_true, if_true, false_and, if_false]
  generalize dispatch_port_disable_body pc sc sc.param1 (set_count k 1) OMX_ErrorNone = b
  cases b.2.2 <;> rfl

/-- Claim C4 (idempotent disable).  For every kernel state and every valid port
index `p` whose port is already disabled, `dispatch_port_disable (p)` brings
`cmd_completion_count_` (set to `1` on entry) back to `0`, signals the
completion of `OMX_CommandPortDisable` exactly once, for `p`, through the FSM
and issues no other completion of that command (hence none with an error),
and moves no buffer: the ingress and egress lists of every port and every
claimed count are as before, and no buffer callback is issued. -/
theorem C4_idempotent_disable (pc : tizport_class) (k : tizkernel)
    (sc : tizkernel_msg_sendcommand_t) (hall : sc.param1 ≠ OMX_ALL)
    (hlt : sc.param1 < nports k) (hdis : TIZPORT_IS_DISABLED (port_at k sc.param1) = true) :
    (dispatch_port_disable pc k sc).1.cmd_completion_count_ = 0 ∧
    (dispatch_port_disable pc k sc).1.p_ingress_ = k.p_ingress_ ∧
    (dispatch_port_disable pc k sc).1.p_egress_ = k.p_egress_ ∧
    (∀ i, (port_at (dispatch_port_disable pc k sc).1 i).claimed_count_ =
      (port_at k i).claimed_count_) ∧
    (dispatch_port_disable pc k sc).1.trace.filter (is_completion OMX_CommandPortDisable) =
      k.trace.filter (is_completion OMX_CommandPortDisable) ++
        [Effect.fsm_complete_command OMX_CommandPortDisable sc.param1] ∧
    (dispatch_port_disable pc k sc).1.trace.filter is_buf_callback =
      k.trace.filter is_buf_callback := by
  rw [dispatch_port_disable_single pc k sc hall hlt]
  have hb : dispatch_port_disable_body pc sc sc.param1 (set_count k 1) OMX_ErrorNone =
      ((complete_port_disable (set_count k 1) sc.param1 OMX_ErrorNone).1, OMX_ErrorNone, none) := by
    unfold dispatch_port_disable_body
    simp [hdis]
  rw [hb]
  simp only []
  obtain ⟨c1, c2, c3, c4, c5, c6, c7, c8, c9, c10, c11⟩ :=
    complete_port_disable_last (set_count k 1) sc.param1 OMX_ErrorNone rfl
  have ho := complete_ongoing_transitions_frame
    (complete_port_disable (set_count k 1) sc.param1 OMX_ErrorNone).1
  simp only [buffers_fixed, egress_fixed, Prod.mk.injEq] at ho
  have ho1 := ho is_buf_callback (fun _ => rfl)
  have ho2 := ho (is_completion OMX_CommandPortDisable) (fun _ => rfl)
  refine ⟨?_, ?_, ?_, ?_, ?_, ?_⟩
  · rw [ho1.1.1.2.2.1, c1]
  · rw [ho1.1.1.2.1, c2]; rfl
  · rw [ho1.1.2.1, c3]; rfl
  · intro i
    simp only [port_at, ho1.1.1.1, c8, set_count_other]
    rw [getD_set]
    split
    · rename_i h; rw [← h.1]; rfl
    · rfl
  · rw [ho2.2.2, c9]; rfl
  · rw [ho1.2.2, c10]; rfl

/-! ## C10: `kernel_claim_buffer` -/

/-- Claim C10.  For every kernel state, every port index `a_pid` that has a port
and an ingress list, and every `a_pos` below the length of that list,
`kernel_claim_buffer` succeeds and returns the header that was at
`ingress[a_pid][a_pos]`; afterwards `ingress[a_pid]` is the old list without
the element at `a_pos` (the others in their order), the claimed count of the
port is larger by exactly one, every egress list is unchanged, and the ingress
list and the port record (hence the claimed count) of every other port are
unchanged.  The C function asserts in addition that the FSM is not in
`Pause` and that the port is enabled; the property does not depend on it. -/
theorem C10_claim_buffer (k : tizkernel) (a_pid a_pos : Nat) (hpid : a_pid < nports k)
    (hin : a_pid < k.p_ingress_.length) (hpos : a_pos < (ingress_at k a_pid).length) :
    (kernel_claim_buffer k a_pid a_pos).2.1 = OMX_ErrorNone ∧
    (ingress_at k a_pid)[a_pos]? = some (kernel_claim_buffer k a_pid a_pos).2.2 ∧
    ingress_at (kernel_claim_buffer k a_pid a_pos).1 a_pid =
      (ingress_at k a_pid).eraseIdx a_pos ∧
    (port_at (kernel_claim_buffer k a_pid a_pos).1 a_pid).claimed_count_ =
      (port_at k a_pid).claimed_count_ + 1 ∧
    (kernel_claim_buffer k a_pid a_pos).1.p_egress_ = k.p_egress_ ∧
    (∀ i, i ≠ a_pid →
      ingress_at (kernel_claim_buffer k a_pid a_pos).1 i = ingress_at k i ∧
      port_at (kernel_claim_buffer k a_pid a_pos).1 i = port_at k i) := by
  have hget : (ingress_at k a_pid)[a_pos]? = some ((ingress_at k a_pid).getD a_pos 0) := by
    simp [List.getD_eq_getElem?_getD, List.getElem?_eq_getElem hpos]
  have hmb : ∀ (ms : List tizport_mark_info_t) (h : OMX_BUFFERHEADERTYPE),
      (tizport_mark_buffer ms h).2.2 = OMX_ErrorNone ∨
      (tizport_mark_buffer ms h).2.2 = OMX_ErrorNoMore ∨
      (tizport_mark_buffer ms h).2.2 = OMX_ErrorNotReady := by
    intro ms h
    cases ms with
    | nil => simp [tizport_mark_buffer]
    | cons m ms => cases hm : m.owned <;> simp [tizport_mark_buffer, hm]
  unfold kernel_claim_buffer
  simp only []
  split_ifs <;>
    simp_all [tizport_populate_header, complete_mark_buffer, tizservant_issue_cmd_event,
      TIZPORT_INC_CLAIMED_COUNT] <;>
    first
    | (intro i hi; constructor <;> (intro h; exact absurd h.symm hi) )
    | skip
  rename_i h1 h2 h3
  rcases hmb (k.port_marks a_pid)
    (k.heap (slot_after_erase (ingress_at k a_pid) a_pos)) with h | h | h
  · exact h2 h
  · exact h3.1 h
  · exact h3.2 h

/-! ## C1, C2, C7: the code at the failing inputs -/

/-- Claim C1 (code bug): `dispatch_port_flush` at the claim's own witness.  The
two egress headers of the non-tunnelled output port are handed to
`FillBufferDone` with `nFilledLen = 100`, not `0`: the branch for a port that
is not a tunnelled supplier clears the egress headers when the direction is
`OMX_DirInput`, although its comment and the flush matrix say output. -/
theorem C1_flush_output_keeps_nFilledLen :
    (dispatch_port_flush flush_state (send_command OMX_CommandFlush 0)).1.trace =
      [Effect.issue_buf_callback 1 hdr100 0 OMX_DirOutput 0,
       Effect.issue_buf_callback 2 hdr100 0 OMX_DirOutput 0,
       Effect.issue_cmd_event OMX_CommandFlush 0 OMX_ErrorNone,
       Effect.fsm_complete_command OMX_CommandFlush 0] := by
  decide

/-- Claim C2 (code bug): in `Pause`, with the port not being flushed, the
dispatch of `Callback (1, 0, Output)` leaves every list, the queue and the
trace as they were, so the header is dropped rather than deferred; after
`StateSet (Executing)` from `Pause` and the dispatch of the dummy callback in
`Executing` no buffer callback has been issued, the lists are empty and the
claimed count is still `1`. -/
theorem C2_pause_drops_the_header :
    (dispatch_cb pause_state { p_hdr := 1, pid := 0, dir := OMX_DirOutput }).1.p_egress_ = [[]] ∧
    (dispatch_cb pause_state { p_hdr := 1, pid := 0, dir := OMX_DirOutput }).1.queue = [] ∧
    (dispatch_cb pause_state { p_hdr := 1, pid := 0, dir := OMX_DirOutput }).1.trace = [] ∧
    (dispatch_state_set port_class0
      (dispatch_cb pause_state { p_hdr := 1, pid := 0, dir := OMX_DirOutput }).1
      (send_command OMX_CommandStateSet 3)).1.queue =
        [(0, ETIZKernelMsgCallback dummy_callback)] ∧
    (dispatch_cb (with_fsm (dispatch_state_set port_class0
      (dispatch_cb pause_state { p_hdr := 1, pid := 0, dir := OMX_DirOutput }).1
      (send_command OMX_CommandStateSet 3)).1 OMX_StateExecuting EStateExecuting)
      dummy_callback).1.trace = [Effect.fsm_complete_transition 3] ∧
    (dispatch_cb (with_fsm (dispatch_state_set port_class0
      (dispatch_cb pause_state { p_hdr := 1, pid := 0, dir := OMX_DirOutput }).1
      (send_command OMX_CommandStateSet 3)).1 OMX_StateExecuting EStateExecuting)
      dummy_callback).1.p_egress_ = [[]] ∧
    (port_at (dispatch_cb (with_fsm (dispatch_state_set port_class0
      (dispatch_cb pause_state { p_hdr := 1, pid := 0, dir := OMX_DirOutput }).1
      (send_command OMX_CommandStateSet 3)).1 OMX_StateExecuting EStateExecuting)
      dummy_callback).1 0).claimed_count_ = 1 := by
  decide

/-- Claim C7 (code bug): whatever failure the RM proxy reports,
`TIZRM_PREEMPTION_IN_PROGRESS` included, `acquire_rm_resources` returns
`OMX_ErrorInsufficientResources`; `OMX_ErrorResourcesPreempted` is never
returned. -/
theorem C7_acquire_failure_is_always_insufficient (k : tizkernel) :
    (acquire_rm_resources k).2 =
      if k.rm_acquire_ = TIZRM_SUCCESS then OMX_ErrorNone
      else OMX_ErrorInsufficientResources := by
  unfold acquire_rm_resources
  by_cases h : k.rm_acquire_ = TIZRM_SUCCESS <;> simp [h]

/-- Witness for `C4_idempotent_disable`: port `0` of `disabled_state`. -/
theorem C4_idempotent_disable_witness :
    (send_command OMX_CommandPortDisable 0).param1 ≠ OMX_ALL ∧
    (send_command OMX_CommandPortDisable 0).param1 < nports disabled_state ∧
    TIZPORT_IS_DISABLED (port_at disabled_state
      (send_command OMX_CommandPortDisable 0).param1) = true ∧
    (dispatch_port_disable port_class0 disabled_state
      (send_command OMX_CommandPortDisable 0)).1.p_egress_ = [[2]] :=
  ⟨by decide, by decide, by decide,
   (C4_idempotent_disable port_class0 disabled_state (send_command OMX_CommandPortDisable 0)
      (by decide) (by decide) (by decide)).2.2.1⟩

/-- Witness for `C10_claim_buffer`: position `1` of the ingress list `[1, 2, 3]`. -/
theorem C10_claim_buffer_witness :
    0 < nports claim_state ∧ 0 < claim_state.p_ingress_.length ∧
    1 < (ingress_at claim_state 0).length ∧
    ingress_at (kernel_claim_buffer claim_state 0 1).1 0 = [1, 3] :=
  ⟨by decide, by decide, by decide,
   (C10_claim_buffer claim_state 0 1 (by decide) (by decide) (by decide)).2.2.1⟩

/-! ## C3: a port disable that waits for the processor -/

theorem clear_hdrs_fixed : ∀ (l : List Nat) (k : tizkernel),
    heap_free (clear_hdrs l k) = heap_free k := by
  intro l
  induction l with
  | nil => intro k; rfl
  | cons a l ih => intro k; rw [clear_hdrs, ih]; rfl

theorem clear_hdr_lst_fixed (k : tizkernel) (lst : List (List Nat)) (pid : Nat) :
    heap_free (clear_hdr_lst k lst pid).1 = heap_free k :=
  clear_hdrs_fixed _ _

theorem move_to_egress_fixed (k : tizkernel) (pid : Nat) :
    lists_free (move_to_egress k pid).1 = lists_free k := by
  unfold move_to_egress
  simp only []
  split <;> rfl

theorem move_to_ingress_fixed (k : tizkernel) (pid : Nat) :
    lists_free (move_to_ingress k pid).1 = lists_free k := by
  unfold move_to_ingress
  simp only []
  split <;> rfl

theorem egress_effect_not_prc_command :
    ∀ e, egress_effect e = true → is_prc_command e = false := by
  intro e; cases e <;> simp [egress_effect, is_prc_command]

/-- The branch of `dispatch_port_disable` for an enabled port with buffers that
is not a tunnelled supplier, while the processor holds a buffer. -/
theorem dispatch_port_disable_body_waiting (pc : tizport_class)
    (sc : tizkernel_msg_sendcommand_t) (k : tizkernel) (p : Nat) (hlt : p < nports k)
    (hen : TIZPORT_IS_DISABLED (port_at k p) = false)
    (hts : TIZPORT_IS_TUNNELED_AND_SUPPLIER (port_at k p) = false)
    (hbc : tizport_buffer_count (port_at k p) > 0)
    (hcl : TIZPORT_GET_CLAIMED_COUNT (port_at k p) > 0) :
    (dispatch_port_disable_body pc sc p k OMX_ErrorNone).2.2 = none ∧
    (dispatch_port_disable_body pc sc p k OMX_ErrorNone).1.p_ports_ =
      k.p_ports_.set p (TIZPORT_SET_GOING_TO_DISABLED (port_at k p)) ∧
    (dispatch_port_disable_body pc sc p k OMX_ErrorNone).1.cmd_completion_count_ =
      k.cmd_completion_count_ ∧
    env_part (dispatch_port_disable_body pc sc p k OMX_ErrorNone).1 = env_part k ∧
    (dispatch_port_disable_body pc sc p k OMX_ErrorNone).1.trace.filter is_prc_command =
      k.trace.filter is_prc_command ++ [Effect.prc_SendCommand sc.cmd p] ∧
    (dispatch_port_disable_body pc sc p k OMX_ErrorNone).1.trace.filter
        (is_completion OMX_CommandPortDisable) =
      k.trace.filter (is_completion OMX_CommandPortDisable) := by
  have hc := fun k' lst => clear_hdr_lst_fixed k' lst p
  simp only [heap_free, egress_fixed, Prod.mk.injEq] at hc
  have hm := fun k' => move_to_egress_fixed k' p
  simp only [lists_free, Prod.mk.injEq] at hm
  have hf := fun k' π hπ => flush_egress_frame k' p false π hπ
  simp only [egress_fixed, Prod.mk.injEq] at hf
  have hf1 := fun k' => hf k' is_prc_command egress_effect_not_prc_command
  have hf2 := fun k' => hf k' (is_completion OMX_CommandPortDisable)
    (egress_effect_not_completion _ (by decide))
  have hcl' : TIZPORT_GET_CLAIMED_COUNT (TIZPORT_SET_GOING_TO_DISABLED (port_at k p)) > 0 := hcl
  unfold dispatch_port_disable_body
  simp only [hen, hts, hbc, Bool.false_eq_true, if_false, if_true]
  split_ifs <;>
    simp_all [port_at, nports, getD_set_self, List.filter_append, is_prc_command, is_completion]

theorem port_at_of_ports {k' : tizkernel} {l : List tizport} {i : Nat} {p : tizport}
    (h : k'.p_ports_ = l.set i p) (hl : i < l.length) : port_at k' i = p := by
  unfold port_at; rw [h]; exact getD_set_self _ _ _ _ hl

theorem port_at_of_ports_ne {k' : tizkernel} {l : List tizport} {i j : Nat} {p : tizport}
    (h : k'.p_ports_ = l.set i p) (hl : i ≠ j) : port_at k' j = l.getD j default := by
  unfold port_at; rw [h]; exact getD_set_ne _ _ _ _ _ hl

theorem all_buffers_returned_fixed (k : tizkernel) :
    (all_buffers_returned k).1 = k ∨ (all_buffers_returned k).1 = set_eos k false := by
  unfold all_buffers_returned
  split <;> simp

/-- The dispatch of a real callback, outside `Pause`, that takes the claimed
count of a port that is not being flushed from `1` to `0`. -/
theorem dispatch_cb_last_claimed (k : tizkernel) (cb : tizkernel_msg_callback_t)
    (hlt : cb.pid < nports k) (hh : cb.p_hdr ≠ 0) (hoom : k.vec_oom = false)
    (hps : k.fsm_substate ≠ EStatePause)
    (hfl : TIZPORT_IS_BEING_FLUSHED (port_at k cb.pid) = false)
    (hcl : (port_at k cb.pid).claimed_count_ = 1) :
    (dispatch_cb k cb).1.p_ports_ =
      k.p_ports_.set cb.pid (TIZPORT_DEC_CLAIMED_COUNT (port_at k cb.pid)).1 ∧
    (dispatch_cb k cb).1.cmd_completion_count_ = k.cmd_completion_count_ ∧
    (dispatch_cb k cb).1.trace.filter (is_completion OMX_CommandPortDisable) =
      k.trace.filter (is_completion OMX_CommandPortDisable) := by
  have hf := fun k' π hπ => flush_egress_frame k' OMX_ALL false π hπ
  simp only [egress_fixed, Prod.mk.injEq] at hf
  have hf2 := fun k' => hf k' (is_completion OMX_CommandPortDisable)
    (egress_effect_not_completion _ (by decide))
  have hfl' : TIZPORT_IS_BEING_FLUSHED (TIZPORT_DEC_CLAIMED_COUNT (port_at k cb.pid)).1 = false :=
    hfl
  have hd : (TIZPORT_DEC_CLAIMED_COUNT (port_at k cb.pid)).2 = 0 := by
    simp [TIZPORT_DEC_CLAIMED_COUNT, hcl]
  unfold dispatch_cb
  simp only [tizfsm_get_substate, hps, false_and, if_false, hh, tiz_vector_push_back, hoom,
    Bool.false_eq_true, if_true, set_egress_other, hd]
  have hport : port_at (flush_egress (set_port (set_egress k cb.pid (egress_at k cb.pid ++ [cb.p_hdr]))
      cb.pid (TIZPORT_DEC_CLAIMED_COUNT (port_at k cb.pid)).1) OMX_ALL false).1 cb.pid =
      (TIZPORT_DEC_CLAIMED_COUNT (port_at k cb.pid)).1 := by
    exact port_at_of_ports ((hf2 _).1.1.trans (by simp)) hlt
  rcases all_buffers_returned_fixed (flush_egress (set_port (set_egress k cb.pid
      (egress_at k cb.pid ++ [cb.p_hdr])) cb.pid
      (TIZPORT_DEC_CLAIMED_COUNT (port_at k cb.pid)).1) OMX_ALL false).1 with hb | hb <;>
  · simp only [hport, hfl', Bool.false_eq_true, if_false]
    split_ifs <;> simp [hb, hf2, tizfsm_complete_transition, List.filter_append, is_completion]

theorem env_part_fields {k k' : tizkernel} (h : env_part k' = env_part k) :
    k'.hdl = k.hdl ∧ k'.fsm_state = k.fsm_state ∧ k'.fsm_substate = k.fsm_substate ∧
    k'.peers = k.peers ∧ k'.vec_oom = k.vec_oom ∧ k'.msg_oom = k.msg_oom := by
  simp only [env_part, Prod.mk.injEq] at h
  exact ⟨h.1, h.2.1, h.2.2.1, h.2.2.2.1, h.2.2.2.2.1, h.2.2.2.2.2.1⟩

/-- Claim C3, amended.  For a non-tunnelled enabled port `p` with two buffers, one
of them held by the processor, `dispatch_port_disable (p)` forwards
`OMX_CommandPortDisable` to the processor and leaves the command pending
(`cmd_completion_count_` is `1`, no completion is signalled).  The dispatch of
the next real callback for `p` (outside `Pause`, the port not being flushed)
brings the claimed count of `p` to `0` and completes nothing: the port stays
enabled and marked as being disabled, `cmd_completion_count_` stays `1`, and
no completion of `OMX_CommandPortDisable` is signalled. -/
theorem C3_disable_stays_pending_after_callback (pc : tizport_class) (k : tizkernel)
    (sc : tizkernel_msg_sendcommand_t) (cb : tizkernel_msg_callback_t)
    (hall : sc.param1 ≠ OMX_ALL) (hlt : sc.param1 < nports k)
    (hen : TIZPORT_IS_ENABLED (port_at k sc.param1) = true)
    (hnt : TIZPORT_IS_TUNNELED (port_at k sc.param1) = false)
    (hbc : tizport_buffer_count (port_at k sc.param1) = 2)
    (hcl : TIZPORT_GET_CLAIMED_COUNT (port_at k sc.param1) = 1)
    (hfl : TIZPORT_IS_BEING_FLUSHED (port_at k sc.param1) = false)
    (hoom : k.vec_oom = false) (hps : k.fsm_substate ≠ EStatePause)
    (hpid : cb.pid = sc.param1) (hh : cb.p_hdr ≠ 0) :
    (dispatch_port_disable pc k sc).1.trace.filter is_prc_command =
      k.trace.filter is_prc_command ++ [Effect.prc_SendCommand sc.cmd sc.param1] ∧
    (dispatch_port_disable pc k sc).1.cmd_completion_count_ = 1 ∧
    (dispatch_port_disable pc k sc).1.trace.filter (is_completion OMX_CommandPortDisable) =
      k.trace.filter (is_completion OMX_CommandPortDisable) ∧
    TIZPORT_GET_CLAIMED_COUNT
      (port_at (dispatch_cb (dispatch_port_disable pc k sc).1 cb).1 sc.param1) = 0 ∧
    TIZPORT_IS_DISABLED
      (port_at (dispatch_cb (dispatch_port_disable pc k sc).1 cb).1 sc.param1) = false ∧
    TIZPORT_IS_BEING_DISABLED
      (port_at (dispatch_cb (dispatch_port_disable pc k sc).1 cb).1 sc.param1) = true ∧
    (dispatch_cb (dispatch_port_disable pc k sc).1 cb).1.cmd_completion_count_ = 1 ∧
    (dispatch_cb (dispatch_port_disable pc k sc).1 cb).1.trace.filter
        (is_completion OMX_CommandPortDisable) =
      k.trace.filter (is_completion OMX_CommandPortDisable) := by
  have hen' : TIZPORT_IS_DISABLED (port_at k sc.param1) = false := by
    simp [TIZPORT_IS_DISABLED, TIZPORT_IS_ENABLED] at hen ⊢; exact hen
  have hts : TIZPORT_IS_TUNNELED_AND_SUPPLIER (port_at k sc.param1) = false := by
    simp [TIZPORT_IS_TUNNELED_AND_SUPPLIER, hnt]
  obtain ⟨b1, b2, b3, b4, b5, b6⟩ := dispatch_port_disable_body_waiting pc sc (set_count k 1)
    sc.param1 (by simpa using hlt) (by simpa using hen') (by simpa using hts)
    (by simp [hbc]) (by simp [hcl])
  have hd1 : dispatch_port_disable pc k sc = complete_ongoing_transitions
      (dispatch_port_disable_body pc sc sc.param1 (set_count k 1) OMX_ErrorNone).1 := by
    rw [dispatch_port_disable_single pc k sc hall hlt, b1]
  have ho := complete_ongoing_transitions_frame
    (dispatch_port_disable_body pc sc sc.param1 (set_count k 1) OMX_ErrorNone).1
  simp only [buffers_fixed, egress_fixed, Prod.mk.injEq] at ho
  have ho1 := ho is_prc_command (fun _ => rfl)
  have ho2 := ho (is_completion OMX_CommandPortDisable) (fun _ => rfl)
  simp only [set_count_other, set_count_self] at b2 b3 b4 b5 b6
  have e1 : (dispatch_port_disable pc k sc).1.p_ports_ =
      k.p_ports_.set sc.param1 (TIZPORT_SET_GOING_TO_DISABLED (port_at k sc.param1)) := by
    rw [hd1, ho1.1.1.1, b2]
  have e2 : env_part (dispatch_port_disable pc k sc).1 = env_part k := by
    rw [hd1, ho1.1.1.2.2.2.2.2, b4]
  have e3 : (dispatch_port_disable pc k sc).1.cmd_completion_count_ = 1 := by
    rw [hd1, ho1.1.1.2.2.1, b3]
  have e4 : (dispatch_port_disable pc k sc).1.trace.filter (is_completion OMX_CommandPortDisable) =
      k.trace.filter (is_completion OMX_CommandPortDisable) := by
    rw [hd1, ho2.2.2, b6]
  have e5 : port_at (dispatch_port_disable pc k sc).1 sc.param1 =
      TIZPORT_SET_GOING_TO_DISABLED (port_at k sc.param1) := port_at_of_ports e1 hlt
  have hn1 : nports (dispatch_port_disable pc k sc).1 = nports k := by
    simp [nports, e1]
  obtain ⟨_, _, f3, _, f5, _⟩ := env_part_fields e2
  obtain ⟨c1, c2, c3⟩ := dispatch_cb_last_claimed (dispatch_port_disable pc k sc).1 cb
    (by rw [hpid, hn1]; exact hlt) hh (by rw [f5]; exact hoom) (by rw [f3]; exact hps)
    (by rw [hpid, e5]; exact hfl) (by rw [hpid, e5]; exact hcl)
  have e6 : port_at (dispatch_cb (dispatch_port_disable pc k sc).1 cb).1 sc.param1 =
      (TIZPORT_DEC_CLAIMED_COUNT (TIZPORT_SET_GOING_TO_DISABLED (port_at k sc.param1))).1 := by
    rw [hpid, e5] at c1
    exact port_at_of_ports c1 (by rw [← hn1] at hlt; exact hlt)
  refine ⟨?_, e3, e4, ?_, ?_, ?_, ?_, ?_⟩
  · rw [hd1, ho1.2.2, b5]
  · rw [e6]
    simp only [TIZPORT_GET_CLAIMED_COUNT, TIZPORT_DEC_CLAIMED_COUNT,
      TIZPORT_SET_GOING_TO_DISABLED] at hcl ⊢
    omega
  · rw [e6]; exact hen'
  · rw [e6]; rfl
  · rw [c2, e3]
  · rw [c3, e4]

/-- Claim C3 is false as stated: in the claim's own scenario the dispatch of the
callback brings the claimed count to `0` but the port is still enabled, the
command is still pending and no completion of it has been signalled. -/
theorem C3_callback_does_not_complete_disable :
    ¬ (TIZPORT_IS_DISABLED (port_at (dispatch_cb (dispatch_port_disable port_class0
          disable_state (send_command OMX_CommandPortDisable 0)).1
          { p_hdr := 1, pid := 0, dir := OMX_DirOutput }).1 0) = true ∧
       (dispatch_cb (dispatch_port_disable port_class0 disable_state
          (send_command OMX_CommandPortDisable 0)).1
          { p_hdr := 1, pid := 0, dir := OMX_DirOutput }).1.cmd_completion_count_ = 0 ∧
       ((dispatch_cb (dispatch_port_disable port_class0 disable_state
          (send_command OMX_CommandPortDisable 0)).1
          { p_hdr := 1, pid := 0, dir := OMX_DirOutput }).1.trace.filter
            (is_completion OMX_CommandPortDisable)).length = 1) := by
  decide

/-- Witness for `C3_disable_stays_pending_after_callback`: the scenario of the
claim. -/
theorem C3_disable_stays_pending_after_callback_witness :
    (send_command OMX_CommandPortDisable 0).param1 ≠ OMX_ALL ∧
    (send_command OMX_CommandPortDisable 0).param1 < nports disable_state ∧
    tizport_buffer_count (port_at disable_state 0) = 2 ∧
    TIZPORT_GET_CLAIMED_COUNT (port_at disable_state 0) = 1 ∧
    (dispatch_cb (dispatch_port_disable port_class0 disable_state
      (send_command OMX_CommandPortDisable 0)).1
      { p_hdr := 1, pid := 0, dir := OMX_DirOutput }).1.cmd_completion_count_ = 1 :=
  ⟨by decide, by decide, by decide, by decide,
   (C3_disable_stays_pending_after_callback port_class0 disable_state
      (send_command OMX_CommandPortDisable 0) { p_hdr := 1, pid := 0, dir := OMX_DirOutput }
      (by decide) (by decide) (by decide) (by decide) (by decide) (by decide) (by decide)
      (by decide) (by decide) (by decide) (by decide)).2.2.2.2.2.2.1⟩

/-! ## C6: a mark stored on an output port -/

theorem flush_egress_single (k : tizkernel) (pid : Nat) (c : Bool) (hall : pid ≠ OMX_ALL) :
    (flush_egress k pid c).1 =
      flush_egress_list pid (tizport_dir (port_at k pid))
        (tizport_get_tunnel_comp (port_at k pid)) c (egress_at k pid).length k := by
  have hne : OMX_ALL ≠ pid := fun h => hall h.symm
  unfold flush_egress
  simp only [flush_egress_loop, hne, ne_eq, not_false_eq_true, if_true, false_and, if_false]

/-- Claim C6, amended.  After `dispatch_mark_buffer (pid, mark)` on a non-tunnelled
output port `pid` whose mark queue was empty, with `mark.hMarkTargetComponent`
the component's own handle, the next header without a mark that leaves through
the egress list of `pid` is stamped with the mark and leaves carrying it; the
kernel completes `OMX_CommandMarkBuffer` for `pid` once, with no error, emits
no `OMX_EventMark`, and the mark queue of the port is empty again. -/
theorem C6_output_mark_is_stamped_not_reported (k : tizkernel)
    (sc : tizkernel_msg_sendcommand_t) (p_hdr : Nat) (hall : sc.param1 ≠ OMX_ALL)
    (hdir : tizport_dir (port_at k sc.param1) = OMX_DirOutput)
    (hnt : tizport_get_tunnel_comp (port_at k sc.param1) = 0)
    (hq : k.port_marks sc.param1 = [])
    (hself : sc.p_cmd_data.hMarkTargetComponent = k.hdl)
    (heg : egress_at k sc.param1 = [p_hdr])
    (hun : (k.heap p_hdr).hMarkTargetComponent = 0) :
    ((flush_egress (dispatch_mark_buffer k sc).1 sc.param1 false).1.trace.filter
        (is_event OMX_EventMark) = k.trace.filter (is_event OMX_EventMark)) ∧
    ((flush_egress (dispatch_mark_buffer k sc).1 sc.param1 false).1.trace.filter
        (is_completion OMX_CommandMarkBuffer) =
      k.trace.filter (is_completion OMX_CommandMarkBuffer) ++
        [Effect.issue_cmd_event OMX_CommandMarkBuffer sc.param1 OMX_ErrorNone]) ∧
    ((flush_egress (dispatch_mark_buffer k sc).1 sc.param1 false).1.trace.filter
        is_buf_callback =
      k.trace.filter is_buf_callback ++
        [Effect.issue_buf_callback p_hdr
          { k.heap p_hdr with
              hMarkTargetComponent := k.hdl, pMarkData := sc.p_cmd_data.pMarkData }
          sc.param1 OMX_DirOutput 0]) ∧
    (flush_egress (dispatch_mark_buffer k sc).1 sc.param1 false).1.port_marks sc.param1 = [] := by
  have hlen : sc.param1 < k.p_egress_.length := by
    by_contra hc
    have : egress_at k sc.param1 = [] := by
      simp [egress_at, List.getD_eq_getElem?_getD, List.getElem?_eq_none (Nat.le_of_not_lt hc)]
    rw [this] at heg; exact absurd heg (by simp)
  rw [flush_egress_single _ _ _ hall]
  simp only [dispatch_mark_buffer, set_marks_other, heg, List.length_singleton, hdir, hnt]
  rw [flush_egress_list]
  simp only [set_marks_other, heg, peer_scount, ne_eq, not_true_eq_false, if_false,
    flush_egress_list]
  simp [flush_egress_hdr, process_marks, hdir, hun, hq, tizport_store_mark,
    tizport_mark_buffer, stamp, complete_mark_buffer, tizservant_issue_cmd_event,
    tizservant_issue_buf_callback, tizservant_issue_event, hself]
  split_ifs <;>
    simp [List.filter_append, is_event, is_completion, is_buf_callback, hlen, hself]

/-- Claim C6 is false as stated: in `mark_state`, after `MarkBuffer (0, mark)` with
the component itself as target, both headers leave through egress on port `0`
and the kernel has emitted no `OMX_EventMark` at all, not exactly one. -/
theorem C6_no_mark_event_on_output_port :
    ¬ (((flush_egress (dispatch_mark_buffer mark_state mark_self).1 0 false).1.trace.filter
        (is_event OMX_EventMark)).length = 1) := by
  decide

/-- Witness for `C6_output_mark_is_stamped_not_reported`: `mark_state` with header
`1` alone in the egress list. -/
theorem C6_output_mark_is_stamped_not_reported_witness :
    mark_self.param1 ≠ OMX_ALL ∧
    tizport_dir (port_at (set_egress mark_state 0 [1]) mark_self.param1) = OMX_DirOutput ∧
    egress_at (set_egress mark_state 0 [1]) mark_self.param1 = [1] ∧
    (flush_egress (dispatch_mark_buffer (set_egress mark_state 0 [1]) mark_self).1
      mark_self.param1 false).1.port_marks mark_self.param1 = [] :=
  ⟨by decide, by decide, by decide,
   (C6_output_mark_is_stamped_not_reported (set_egress mark_state 0 [1]) mark_self 1
      (by decide) (by decide) (by decide) (by decide) (by decide) (by decide)
      (by decide)).2.2.2⟩

/-! ## C5: EOS is reported once -/

theorem process_marks_nFlags (k : tizkernel) (p_hdr pid hdl a : Nat) :
    ((process_marks k p_hdr pid hdl).1.heap a).nFlags = (k.heap a).nFlags := by
  have ht := transfer_mark_fixed k
  simp only [marks_fixed, egress_fixed, Prod.mk.injEq] at ht
  unfold process_marks
  simp only []
  split_ifs <;>
    simp [ht, tizservant_issue_event, complete_mark_buffer, tizservant_issue_cmd_event,
      Function.update_apply, tizport_mark_buffer] <;>
    split <;> simp_all [stamp] <;> split <;> simp_all [stamp]

theorem mark_effect_not_buffer_flag : ∀ e, mark_effect e = true → is_buffer_flag e = false := by
  intro e
  cases e <;> simp [mark_effect, is_buffer_flag]
  rename_i ev _ _ _
  cases ev <;> simp [mark_effect, is_buffer_flag]

theorem mark_effect_not_eos_departure :
    ∀ e, mark_effect e = true → is_eos_departure e = false := by
  intro e; cases e <;> simp [mark_effect, is_eos_departure]

/-- The invariant of C5 when a departure is appended to the trace. -/
theorem eos_once_step (t : List Effect) (eos : Bool) (d : Nat × Nat)
    (h1 : buffer_flag_events t = (eos_departures t).take 1)
    (h2 : eos = true ↔ eos_departures t ≠ []) :
    (if eos = false then buffer_flag_events t ++ [d] else buffer_flag_events t) =
      (eos_departures t ++ [d]).take 1 := by
  cases heos : eos
  · have : eos_departures t = [] := by
      by_contra hc; exact absurd (h2.mpr hc) (by simp [heos])
    simp [h1, this]
  · have : eos_departures t ≠ [] := h2.mp heos
    cases hd : eos_departures t with
    | nil => exact absurd hd this
    | cons a l => simp [h1, hd]

theorem eos_once_congr {k k' : tizkernel}
    (h1 : k'.trace.filter is_buffer_flag = k.trace.filter is_buffer_flag)
    (h2 : k'.trace.filter is_eos_departure = k.trace.filter is_eos_departure)
    (h3 : k'.eos_ = k.eos_) (h : eos_reported_once k) : eos_reported_once k' := by
  unfold eos_reported_once buffer_flag_events eos_departures at *
  rw [h1, h2, h3]; exact h

/-- Lines 1127-1152 of `flush_egress` for `a_clear = false`: the EOS report, the
buffer callback and the removal from the list. -/
theorem eos_once_leave (pid : Nat) (pdir : OMX_DIRTYPE) (thdl : Nat) (p_hdr : Nat)
    (k : tizkernel) (h : eos_reported_once k) (l : List Nat) :
    eos_reported_once (set_egress (tizservant_issue_buf_callback
      (if Nat.land (k.heap p_hdr).nFlags OMX_BUFFERFLAG_EOS ≠ 0
          ∧ pdir = OMX_DirOutput ∧ k.eos_ = false then
        tizservant_issue_event (set_eos k true) OMX_EventBufferFlag pid
          (k.heap p_hdr).nFlags 0
      else k) p_hdr pid pdir thdl) pid l) := by
  obtain ⟨h1, h2⟩ := h
  have hstep := eos_once_step k.trace k.eos_ (pid, (k.heap p_hdr).nFlags) h1 h2
  unfold eos_reported_once buffer_flag_events eos_departures at *
  by_cases hflag : Nat.land (k.heap p_hdr).nFlags OMX_BUFFERFLAG_EOS = 0
  · simp [hflag, tizservant_issue_buf_callback, List.filter_append, is_buffer_flag,
      is_eos_departure, has_eos]
    cases pdir <;> simp [is_eos_departure, has_eos, hflag, h1, h2]
  · cases pdir
    · simp [hflag, tizservant_issue_buf_callback, List.filter_append, is_buffer_flag,
        is_eos_departure, h1, h2]
    · cases heos : k.eos_
      · simp [heos] at hstep
        simp [hflag, heos, tizservant_issue_buf_callback, tizservant_issue_event,
          List.filter_append, is_buffer_flag, is_eos_departure, has_eos, pid_and_flags,
          hstep]
      · simp [heos] at hstep
        simp [hflag, heos, tizservant_issue_buf_callback, List.filter_append,
          is_buffer_flag, is_eos_departure, has_eos, pid_and_flags, hstep]
    · simp [hflag, tizservant_issue_buf_callback, List.filter_append, is_buffer_flag,
        is_eos_departure, h1, h2]

theorem flush_egress_hdr_eos (pid : Nat) (pdir : OMX_DIRTYPE) (thdl : Nat) (p_hdr : Nat)
    (k : tizkernel) (h : eos_reported_once k) :
    eos_reported_once (flush_egress_hdr pid pdir thdl false p_hdr k) := by
  have hp := fun k' => process_marks_fixed k' p_hdr pid k'.hdl
  simp only [buffers_fixed_but_heap, egress_fixed, Prod.mk.injEq] at hp
  have hf1 := fun k' => process_marks_trace k' p_hdr pid k'.hdl is_buffer_flag
    mark_effect_not_buffer_flag
  have hf2 := fun k' => process_marks_trace k' p_hdr pid k'.hdl is_eos_departure
    mark_effect_not_eos_departure
  unfold flush_egress_hdr
  simp only [Bool.false_eq_true, if_false]
  apply eos_once_leave
  refine eos_once_congr (hf1 _) (hf2 _) (hp _).2.2.1 ?_
  split
  · exact eos_once_congr (by simp [tizport_populate_header, List.filter_append, is_buffer_flag])
      (by simp [tizport_populate_header, List.filter_append, is_eos_departure])
      (by simp [tizport_populate_header]) h
  · exact h

theorem flush_egress_list_eos (pid : Nat) (pdir : OMX_DIRTYPE) (thdl : Nat) :
    ∀ (fuel : Nat) (k : tizkernel), eos_reported_once k →
      eos_reported_once (flush_egress_list pid pdir thdl false fuel k) := by
  intro fuel
  induction fuel with
  | zero => intro k h; exact h
  | succ fuel ih =>
    intro k h
    rw [flush_egress_list]
    split
    · exact h
    · split
      · have he := enqueue_callback_msg_fixed k 0 0 OMX_DirMax
        exact eos_once_congr (by rw [he.2.2.1]) (by rw [he.2.2.1]) he.2.2.2.2.1 h
      · exact ih _ (flush_egress_hdr_eos _ _ _ _ _ h)

theorem flush_egress_loop_eos (a_pid : Nat) (n : Nat) :
    ∀ (fuel i : Nat) (k : tizkernel), eos_reported_once k →
      eos_reported_once (flush_egress_loop a_pid false n fuel i k) := by
  intro fuel
  induction fuel with
  | zero => intro i k h; exact h
  | succ fuel ih =>
    intro i k h
    rw [flush_egress_loop]
    split
    · exact ih _ _ (flush_egress_list_eos _ _ _ _ _ h)
    · exact flush_egress_list_eos _ _ _ _ _ h

/-- Claim C5 (EOS is reported once).  Start from a state with `eos_ = false` in
whose trace no EOS-flagged header has left through an output port and no
`OMX_EventBufferFlag` has been emitted.  After any run made of `flush_egress`
calls with `clear = false` (for single ports or `OMX_ALL`), interleaved with
arbitrary steps that do not write `eos_`, emit no `OMX_EventBufferFlag` and
hand no EOS-flagged header to an output port, the
`OMX_EventBufferFlag` events emitted are exactly one event, carrying the port
index and the flags of the first EOS-flagged header that left through an
output port, or none when no such header has left; `eos_` is true exactly in
the first case.  So two EOS-flagged output headers give one event, and
EOS-flagged headers on input ports give none. -/
theorem C5_eos_reported_once (k k' : tizkernel) (h0 : k.eos_ = false)
    (h1 : eos_departures k.trace = []) (h2 : buffer_flag_events k.trace = [])
    (hrun : eos_run k k') :
    buffer_flag_events k'.trace = (eos_departures k'.trace).take 1 ∧
    (k'.eos_ = true ↔ eos_departures k'.trace ≠ []) := by
  induction hrun with
  | start => simp [h0, h1, h2]
  | flush k1 a_pid _ ih => exact flush_egress_loop_eos a_pid _ _ _ _ ih
  | other k1 k2 _ he hb hd ih =>
    unfold eos_reported_once at *
    rw [he, hb, hd]; exact ih

/-- Witness of C5 in the scenario "EOS once": both EOS-flagged headers of
`eos_state` leave through the output port `0`, and the one event emitted is
`OMX_EventBufferFlag (0, 3)`. -/
theorem C5_eos_reported_once_witness :
    eos_state.eos_ = false ∧ eos_departures eos_state.trace = [] ∧
    buffer_flag_events eos_state.trace = [] ∧
    eos_departures (flush_egress eos_state 0 false).1.trace = [(0, 3), (0, 3)] ∧
    (buffer_flag_events (flush_egress eos_state 0 false).1.trace =
        (eos_departures (flush_egress eos_state 0 false).1.trace).take 1 ∧
      ((flush_egress eos_state 0 false).1.eos_ = true ↔
        eos_departures (flush_egress eos_state 0 false).1.trace ≠ [])) :=
  ⟨by decide, by decide, by decide, by decide,
    C5_eos_reported_once eos_state (flush_egress eos_state 0 false).1 (by decide) (by decide)
      (by decide) (eos_run.flush _ _ _ (eos_run.start _))⟩

/-! ## C8: the state-set matrix -/

theorem transitions_congr {k k' : tizkernel} (h : k'.trace = k.trace) :
    transitions k' = transitions k := by
  unfold transitions; rw [h]

theorem kernel_deallocate_resources_loop_trace (pc : tizport_class) (n : Nat) :
    ∀ (fuel i : Nat) (k : tizkernel) (rc : OMX_ERRORTYPE),
      (kernel_deallocate_resources_loop pc n fuel i k rc).1.trace = k.trace := by
  intro fuel
  induction fuel with
  | zero => intro i k rc; rfl
  | succ fuel ih =>
    intro i k rc
    rw [kernel_deallocate_resources_loop]
    simp only []
    split_ifs <;> first | rfl | exact ih _ _ _

theorem rm_transitions (k : tizkernel) :
    transitions (init_rm k).1 = transitions k ∧
    transitions (deinit_rm k).1 = transitions k ∧
    transitions (acquire_rm_resources k).1 = transitions k ∧
    transitions (release_rm_resources k).1 = transitions k := by
  refine ⟨?_, ?_, ?_, ?_⟩
  · unfold init_rm transitions; split_ifs <;> simp [List.filter_append, is_transition]
  · unfold deinit_rm transitions; simp only []
    split_ifs <;> simp [List.filter_append, is_transition]
  · unfold acquire_rm_resources transitions; simp only []
    split_ifs <;> simp [List.filter_append, is_transition]
  · unfold release_rm_resources transitions; simp [List.filter_append, is_transition]

theorem complete_port_enable_transitions (k : tizkernel) (pid : Nat) (e : OMX_ERRORTYPE) :
    transitions (complete_port_enable k pid e).1 = transitions k := by
  unfold complete_port_enable transitions
  simp only []
  split_ifs <;> simp [tizservant_issue_cmd_event, tizfsm_complete_command,
    List.filter_append, is_transition]

theorem kernel_allocate_resources_body_transitions (pc : tizport_class) (pid : Nat)
    (k : tizkernel) (rc : OMX_ERRORTYPE) :
    transitions (kernel_allocate_resources_body pc pid k rc).1 = transitions k := by
  unfold kernel_allocate_resources_body
  simp only []
  split_ifs
  · exact transitions_congr (by simp)
  · rw [complete_port_enable_transitions]; exact transitions_congr (by simp)
  · exact transitions_congr (by simp)
  · rfl

theorem kernel_allocate_resources_loop_transitions (pc : tizport_class) (a_pid n : Nat) :
    ∀ (fuel i : Nat) (k : tizkernel) (rc : OMX_ERRORTYPE),
      transitions (kernel_allocate_resources_loop pc a_pid n fuel i k rc).1 =
        transitions k := by
  intro fuel
  induction fuel with
  | zero => intro i k rc; rfl
  | succ fuel ih =>
    intro i k rc
    rw [kernel_allocate_resources_loop]
    split
    · exact kernel_allocate_resources_body_transitions _ _ _ _
    · split
      · rw [ih]; exact kernel_allocate_resources_body_transitions _ _ _ _
      · exact kernel_allocate_resources_body_transitions _ _ _ _

theorem kernel_allocate_resources_transitions (pc : tizport_class) (k : tizkernel)
    (a_pid : Nat) : transitions (kernel_allocate_resources pc k a_pid).1 = transitions k := by
  unfold kernel_allocate_resources
  split
  · rfl
  · exact kernel_allocate_resources_loop_transitions _ _ _ _ _ _ _

theorem lists_free_trace {k k' : tizkernel} (h : lists_free k' = lists_free k) :
    k'.trace = k.trace := by
  simp only [lists_free, Prod.mk.injEq] at h
  exact h.2.2.2.2.2.2.1

theorem kernel_stop_and_return_body_transitions (i : Nat) (k : tizkernel)
    (rc : OMX_ERRORTYPE) :
    transitions (kernel_stop_and_return_body i k rc).1 = transitions k := by
  unfold kernel_stop_and_return_body
  simp only []
  split_ifs
  · rfl
  · exact transitions_congr (lists_free_trace (move_to_ingress_fixed k i))
  · exact transitions_congr (lists_free_trace (move_to_ingress_fixed k i))
  · unfold transitions
    rw [(flush_marks_frame _ _ is_transition mark_effect_not_transition).2,
      (flush_egress_frame _ _ _ is_transition egress_effect_not_transition).2.2,
      lists_free_trace (move_to_egress_fixed k i)]

theorem kernel_stop_and_return_loop_transitions (n : Nat) :
    ∀ (fuel i : Nat) (k : tizkernel) (rc : OMX_ERRORTYPE),
      transitions (kernel_stop_and_return_loop n fuel i k rc).1 = transitions k := by
  intro fuel
  induction fuel with
  | zero => intro i k rc; rfl
  | succ fuel ih =>
    intro i k rc
    rw [kernel_stop_and_return_loop]
    split
    · rw [ih]; exact kernel_stop_and_return_body_transitions _ _ _
    · rfl

theorem kernel_prepare_to_transfer_body_trace (pid : Nat) (k : tizkernel) :
    (kernel_prepare_to_transfer_body pid k).1.trace = k.trace := by
  unfold kernel_prepare_to_transfer_body append_buflsts
  simp only []
  split_ifs <;> simp

theorem kernel_prepare_to_transfer_loop_trace (a_pid n : Nat) :
    ∀ (fuel i : Nat) (k : tizkernel),
      (kernel_prepare_to_transfer_loop a_pid n fuel i k).1.trace = k.trace := by
  intro fuel
  induction fuel with
  | zero => intro i k; rfl
  | succ fuel ih =>
    intro i k
    rw [kernel_prepare_to_transfer_loop]
    split
    · exact kernel_prepare_to_transfer_body_trace _ _
    · split
      · rw [ih]; exact kernel_prepare_to_transfer_body_trace _ _
      · exact kernel_prepare_to_transfer_body_trace _ _

theorem propagate_ingress_hdrs_transitions (pdir : OMX_DIRTYPE) :
    ∀ (l : List Nat) (k : tizkernel),
      transitions (propagate_ingress_hdrs pdir l k) = transitions k := by
  intro l
  induction l with
  | nil => intro k; rfl
  | cons a l ih =>
    intro k
    rw [propagate_ingress_hdrs, ih]
    unfold transitions
    split <;> simp [List.filter_append, is_transition]

theorem propagate_ingress_loop_transitions (a_pid n : Nat) :
    ∀ (fuel i : Nat) (k : tizkernel),
      transitions (propagate_ingress_loop a_pid n fuel i k) = transitions k := by
  intro fuel
  induction fuel with
  | zero => intro i k; rfl
  | succ fuel ih =>
    intro i k
    rw [propagate_ingress_loop]
    split_ifs <;> first
      | exact propagate_ingress_hdrs_transitions _ _ _
      | (rw [ih]; exact propagate_ingress_hdrs_transitions _ _ _)

theorem kernel_transfer_and_process_loop_transitions (a_pid n : Nat) :
    ∀ (fuel i : Nat) (k : tizkernel),
      transitions (kernel_transfer_and_process_loop a_pid n fuel i k) = transitions k := by
  have step : ∀ (pid : Nat) (k : tizkernel),
      transitions (propagate_ingress (flush_egress k pid true).1 pid).1 = transitions k := by
    intro pid k
    unfold propagate_ingress
    rw [propagate_ingress_loop_transitions]
    exact (flush_egress_frame _ _ _ is_transition egress_effect_not_transition).2.2
  intro fuel
  induction fuel with
  | zero => intro i k; rfl
  | succ fuel ih =>
    intro i k
    rw [kernel_transfer_and_process_loop]
    split_ifs <;> first | exact step _ _ | (rw [ih]; exact step _ _)

/-- The actions of the state-set matrix signal no transition themselves. -/
theorem matrix_action_transitions (pc : tizport_class) (k : tizkernel)
    (now target : OMX_STATETYPE) :
    transitions (matrix_action pc k now target).1 = transitions k := by
  have hrm := rm_transitions
  cases now <;> cases target <;> simp only [matrix_action]
  all_goals first
    | rfl
    | exact kernel_stop_and_return_loop_transitions _ _ _ _ _
    | exact transitions_congr (kernel_prepare_to_transfer_loop_trace _ _ _ _ _)
    | exact transitions_congr (enqueue_callback_msg_fixed _ _ _ _).2.2.1
    | skip
  · split
    · rw [kernel_allocate_resources_transitions, (hrm _).2.2.1, (hrm _).1]
    · rw [(hrm _).2.2.1, (hrm _).1]
  · rw [(hrm _).2.1, (hrm _).2.2.2]
    exact transitions_congr (kernel_deallocate_resources_loop_trace _ _ _ _ _ _)
  · unfold kernel_transfer_and_process
    split
    · rfl
    · exact kernel_transfer_and_process_loop_transitions _ _ _ _ _


theorem all_buffers_returned_trace (k : tizkernel) :
    (all_buffers_returned k).1.trace = k.trace := by
  unfold all_buffers_returned; split <;> rfl

/-- On a row of the matrix, the `switch` of `dispatch_state_set` runs the action
of the row, keeps its status, and computes the "done?" column of the row. -/
theorem dispatch_state_set_switch_row (pc : tizport_class) (k : tizkernel)
    (now target : OMX_STATETYPE) (hrow : in_matrix now target = true) :
    (dispatch_state_set_switch pc k target.toNat now).returned = false ∧
    (dispatch_state_set_switch pc k target.toNat now).rc = (matrix_action pc k now target).2 ∧
    (dispatch_state_set_switch pc k target.toNat now).k.trace =
      (matrix_action pc k now target).1.trace ∧
    ((matrix_action pc k now target).2 = OMX_ErrorNone →
      (dispatch_state_set_switch pc k target.toNat now).done =
        matrix_done (matrix_action pc k now target).1 now target) := by
  cases now <;> cases target <;> simp [in_matrix] at hrow <;>
    simp only [dispatch_state_set_switch, OMX_STATETYPE.toNat, matrix_action, matrix_done] <;>
    simp <;> first
      | (intro h _; exact h)
      | (split <;> simp_all [all_buffers_returned_trace])

/-- Claim C8 (state-set completion follows the matrix).  For every row `(S, S')`
of the matrix, with `S` the state the FSM reports and `S'` the target carried
in `param1`, the calls of `tizfsm_complete_transition` made by
`dispatch_state_set` are: one call, for `S'`, when the action of the row
returned `OMX_ErrorNone` and the "done?" column of the row holds in the state
the action produced; no call otherwise.  For the targets `WaitForResources` and
`Pause` the handler does nothing but that call (no port, list, header or queue
is touched); `Executing → Executing` never completes and leaves the state that
`kernel_transfer_and_process (OMX_ALL)` produced; for `Idle → Executing` the
call is made in the state produced by `kernel_prepare_to_transfer (OMX_ALL)`;
for `Pause → Executing` a completed transition has appended exactly one dummy
callback to the queue. -/
theorem C8_state_set_matrix (pc : tizport_class) (k : tizkernel)
    (sc : tizkernel_msg_sendcommand_t) (target : OMX_STATETYPE)
    (htarget : sc.param1 = target.toNat) (hrow : in_matrix k.fsm_state target = true) :
    transitions (dispatch_state_set pc k sc).1 = transitions k ++
      (if (matrix_action pc k k.fsm_state target).2 = OMX_ErrorNone ∧
          matrix_done (matrix_action pc k k.fsm_state target).1 k.fsm_state target = true
        then [Effect.fsm_complete_transition target.toNat] else []) ∧
    (target = OMX_StateWaitForResources ∨ target = OMX_StatePause →
      dispatch_state_set pc k sc =
        (emit k (Effect.fsm_complete_transition target.toNat), OMX_ErrorNone)) ∧
    (k.fsm_state = OMX_StateExecuting → target = OMX_StateExecuting →
      dispatch_state_set pc k sc = kernel_transfer_and_process k OMX_ALL) ∧
    (k.fsm_state = OMX_StateIdle → target = OMX_StateExecuting →
      (kernel_prepare_to_transfer k OMX_ALL).2 = OMX_ErrorNone →
      dispatch_state_set pc k sc =
        (emit (kernel_prepare_to_transfer k OMX_ALL).1
          (Effect.fsm_complete_transition target.toNat), OMX_ErrorNone)) ∧
    (k.fsm_state = OMX_StatePause → target = OMX_StateExecuting →
      (enqueue_callback_msg k 0 0 OMX_DirMax).2 = OMX_ErrorNone →
      (dispatch_state_set pc k sc).1.queue =
        k.queue ++ [(0, ETIZKernelMsgCallback dummy_callback)]) := by
  have hact := matrix_action_transitions pc k k.fsm_state target
  unfold transitions at hact
  have hsw := dispatch_state_set_switch_row pc k k.fsm_state target hrow
  obtain ⟨hret, hrc, htr, hdone⟩ := hsw
  refine ⟨?_, ?_, ?_, ?_, ?_⟩
  · unfold dispatch_state_set tizapi_GetState
    simp only [htarget, hret, hrc, Bool.false_eq_true, if_false]
    by_cases ha : (matrix_action pc k k.fsm_state target).2 = OMX_ErrorNone
    · rw [← hdone ha]
      split_ifs <;>
        simp [transitions, tizfsm_complete_transition, List.filter_append, is_transition,
          htr, hact]
    · simp [ha, transitions, htr, hact]
  · rintro (h | h) <;> subst h <;>
      simp [dispatch_state_set, dispatch_state_set_switch, htarget, OMX_STATETYPE.toNat,
        tizfsm_complete_transition]
  · intro hn ht
    subst ht
    simp [dispatch_state_set, dispatch_state_set_switch, htarget, OMX_STATETYPE.toNat,
      tizapi_GetState, hn]
  · intro hn ht ha
    subst ht
    simp [dispatch_state_set, dispatch_state_set_switch, htarget, OMX_STATETYPE.toNat,
      tizapi_GetState, hn, ha, tizfsm_complete_transition]
  · intro hn ht ha
    subst ht
    have hq : (enqueue_callback_msg k 0 0 OMX_DirMax).1.queue =
        k.queue ++ [(0, ETIZKernelMsgCallback dummy_callback)] := by
      revert ha
      unfold enqueue_callback_msg
      split <;> simp [tizservant_enqueue, dummy_callback]
    simp [dispatch_state_set, dispatch_state_set_switch, htarget, OMX_STATETYPE.toNat,
      tizapi_GetState, hn, ha, tizfsm_complete_transition, hq]

/-- Witness of C8 on the row `Pause → Executing`, in the scenario
`pause_state`: the handler appends the dummy callback and signals the
transition to `Executing` once. -/
theorem C8_state_set_matrix_witness :
    (send_command OMX_CommandStateSet 3).param1 = OMX_StateExecuting.toNat ∧
    in_matrix pause_state.fsm_state OMX_StateExecuting = true ∧
    transitions
        (dispatch_state_set port_class0 pause_state (send_command OMX_CommandStateSet 3)).1 =
      transitions pause_state ++
        (if (matrix_action port_class0 pause_state pause_state.fsm_state
                OMX_StateExecuting).2 = OMX_ErrorNone ∧
            matrix_done
              (matrix_action port_class0 pause_state pause_state.fsm_state
                OMX_StateExecuting).1 pause_state.fsm_state OMX_StateExecuting = true
          then [Effect.fsm_complete_transition OMX_StateExecuting.toNat] else []) ∧
    transitions
        (dispatch_state_set port_class0 pause_state (send_command OMX_CommandStateSet 3)).1 =
      [Effect.fsm_complete_transition 3] :=
  ⟨by decide, by decide,
    (C8_state_set_matrix port_class0 pause_state (send_command OMX_CommandStateSet 3)
      OMX_StateExecuting (by decide) (by decide)).1, by decide⟩

/-! ## C9: buffer accounting -/

theorem no_gain_refl (k : tizkernel) : no_gain k k :=
  ⟨rfl, fun _ => rfl, fun _ _ => le_refl _⟩

theorem no_gain_trans {k k1 k2 : tizkernel} (h1 : no_gain k k1) (h2 : no_gain k1 k2) :
    no_gain k k2 :=
  ⟨h2.1.trans h1.1, fun p => (h2.2.1 p).trans (h1.2.1 p),
    fun p hp => le_trans (h2.2.2 p (h1.1 ▸ hp)) (h1.2.2 p hp)⟩

/-- A step that writes neither the ports nor the lists. -/
theorem no_gain_of_fixed {k k1 : tizkernel} (hp : k1.p_ports_ = k.p_ports_)
    (hi : k1.p_ingress_ = k.p_ingress_) (he : k1.p_egress_ = k.p_egress_) :
    no_gain k k1 := by
  have h1 : ∀ p, port_at k1 p = port_at k p := fun p => by unfold port_at; rw [hp]
  have h2 : ∀ p, ingress_at k1 p = ingress_at k p := fun p => by unfold ingress_at; rw [hi]
  have h3 : ∀ p, egress_at k1 p = egress_at k p := fun p => by unfold egress_at; rw [he]
  refine ⟨by unfold nports; rw [hp], fun p => by rw [h1], fun p _ => ?_⟩
  unfold held; rw [h1, h2, h3]

theorem ng_emit {k k1 : tizkernel} (e : Effect) (h : no_gain k k1) :
    no_gain k (emit k1 e) :=
  no_gain_trans h (no_gain_of_fixed rfl rfl rfl)

theorem ng_set_hdr {k k1 : tizkernel} (a : Nat) (x : OMX_BUFFERHEADERTYPE)
    (h : no_gain k k1) : no_gain k (set_hdr k1 a x) :=
  no_gain_trans h (no_gain_of_fixed rfl rfl rfl)

theorem ng_set_marks {k k1 : tizkernel} (a : Nat) (x : List tizport_mark_info_t)
    (h : no_gain k k1) : no_gain k (set_marks k1 a x) :=
  no_gain_trans h (no_gain_of_fixed rfl rfl rfl)

theorem ng_set_count {k k1 : tizkernel} (n : Nat) (h : no_gain k k1) :
    no_gain k (set_count k1 n) :=
  no_gain_trans h (no_gain_of_fixed rfl rfl rfl)

theorem ng_set_eos {k k1 : tizkernel} (b : Bool) (h : no_gain k k1) :
    no_gain k (set_eos k1 b) :=
  no_gain_trans h (no_gain_of_fixed rfl rfl rfl)

theorem ng_set_queue {k k1 : tizkernel} (q : List (Nat × tizkernel_msg_t))
    (h : no_gain k k1) : no_gain k (set_queue k1 q) :=
  no_gain_trans h (no_gain_of_fixed rfl rfl rfl)

/-- A port record is replaced by one with the same static part and a claimed
count that is not larger. -/
theorem ng_set_port {k k1 : tizkernel} (pid : Nat) (x : tizport)
    (hs : port_static x = port_static (port_at k1 pid))
    (hc : x.claimed_count_ ≤ (port_at k1 pid).claimed_count_) (h : no_gain k k1) :
    no_gain k (set_port k1 pid x) := by
  refine no_gain_trans h ⟨by simp, fun p => ?_, fun p _ => ?_⟩
  · simp only [set_port_self]
    split
    · rename_i hh; rw [hs, hh.1]
    · rfl
  · unfold held TIZPORT_GET_CLAIMED_COUNT
    simp only [set_port_self, set_port_other]
    split
    · rename_i hh; rw [← hh.1]; omega
    · exact le_refl _

/-- An ingress list is replaced by one that is not longer. -/
theorem ng_set_ingress {k k1 : tizkernel} (pid : Nat) (l : List Nat)
    (hl : l.length ≤ (ingress_at k1 pid).length) (h : no_gain k k1) :
    no_gain k (set_ingress k1 pid l) := by
  refine no_gain_trans h ⟨by simp, fun p => by simp, fun p _ => ?_⟩
  unfold held
  simp only [set_ingress_self, set_ingress_other]
  split
  · rename_i hh; rw [← hh.1]; omega
  · exact le_refl _

/-- An egress list is replaced by one that is not longer. -/
theorem ng_set_egress {k k1 : tizkernel} (pid : Nat) (l : List Nat)
    (hl : l.length ≤ (egress_at k1 pid).length) (h : no_gain k k1) :
    no_gain k (set_egress k1 pid l) := by
  refine no_gain_trans h ⟨by simp, fun p => by simp, fun p _ => ?_⟩
  unfold held
  simp only [set_egress_self, set_egress_other]
  split
  · rename_i hh; rw [← hh.1]; omega
  · exact le_refl _

theorem ng_flush_egress {k k1 : tizkernel} (a_pid : Nat) (c : Bool) (h : no_gain k k1) :
    no_gain k (flush_egress k1 a_pid c).1 := by
  have hf := flush_egress_frame k1 a_pid c (fun _ => false) (fun _ _ => rfl)
  obtain ⟨hfix, hsuf, _⟩ := hf
  simp only [egress_fixed, Prod.mk.injEq] at hfix
  have h1 : ∀ p, port_at (flush_egress k1 a_pid c).1 p = port_at k1 p :=
    fun p => by unfold port_at; rw [hfix.1]
  have h2 : ∀ p, ingress_at (flush_egress k1 a_pid c).1 p = ingress_at k1 p :=
    fun p => by unfold ingress_at; rw [hfix.2.1]
  refine no_gain_trans h ⟨by unfold nports; rw [hfix.1], fun p => by rw [h1], fun p _ => ?_⟩
  unfold held; rw [h1, h2]
  have := (hsuf p).length_le
  omega

theorem ng_flush_marks {k k1 : tizkernel} (pos : Nat) (h : no_gain k k1) :
    no_gain k (flush_marks k1 pos).1 := by
  have hf := (flush_marks_frame k1 pos (fun _ => false) (fun _ _ => rfl)).1
  simp only [buffers_fixed, egress_fixed, Prod.mk.injEq] at hf
  exact no_gain_trans h (no_gain_of_fixed hf.1.1 hf.1.2.1 hf.2.1)

theorem ingress_at_nil (k : tizkernel) (pid : Nat) (h : k.p_ingress_.length ≤ pid) :
    ingress_at k pid = [] := by
  unfold ingress_at; exact List.getD_eq_default _ _ h

theorem egress_at_nil (k : tizkernel) (pid : Nat) (h : k.p_egress_.length ≤ pid) :
    egress_at k pid = [] := by
  unfold egress_at; exact List.getD_eq_default _ _ h

theorem move_to_egress_lists (k : tizkernel) (pid p : Nat) :
    (ingress_at (move_to_egress k pid).1 p).length
        + (egress_at (move_to_egress k pid).1 p).length ≤
      (ingress_at k p).length + (egress_at k p).length := by
  have hi := ingress_at_nil k pid
  have he := egress_at_nil k pid
  unfold move_to_egress tiz_vector_append
  by_cases hp : pid = p
  · subst hp
    by_cases h1 : pid < k.p_ingress_.length <;> by_cases h2 : pid < k.p_egress_.length <;>
      cases hv : k.vec_oom <;>
      simp [h1, h2, hv, hi, he, Nat.le_of_not_lt] <;> omega
  · cases hv : k.vec_oom <;> simp [hp, hv]

theorem move_to_ingress_lists (k : tizkernel) (pid p : Nat) :
    (ingress_at (move_to_ingress k pid).1 p).length
        + (egress_at (move_to_ingress k pid).1 p).length ≤
      (ingress_at k p).length + (egress_at k p).length := by
  have hi := ingress_at_nil k pid
  have he := egress_at_nil k pid
  unfold move_to_ingress tiz_vector_append
  by_cases hp : pid = p
  · subst hp
    by_cases h1 : pid < k.p_ingress_.length <;> by_cases h2 : pid < k.p_egress_.length <;>
      cases hv : k.vec_oom <;>
      simp [h1, h2, hv, hi, he, Nat.le_of_not_lt]
  · cases hv : k.vec_oom <;> simp [hp, hv]

theorem ng_move_to_egress {k k1 : tizkernel} (pid : Nat) (h : no_gain k k1) :
    no_gain k (move_to_egress k1 pid).1 := by
  have hm := move_to_egress_fixed k1 pid
  simp only [lists_free, Prod.mk.injEq] at hm
  have h1 : ∀ p, port_at (move_to_egress k1 pid).1 p = port_at k1 p :=
    fun p => by unfold port_at; rw [hm.1]
  refine no_gain_trans h ⟨by unfold nports; rw [hm.1], fun p => by rw [h1], fun p _ => ?_⟩
  unfold held; rw [h1]
  have := move_to_egress_lists k1 pid p
  omega

theorem ng_move_to_ingress {k k1 : tizkernel} (pid : Nat) (h : no_gain k k1) :
    no_gain k (move_to_ingress k1 pid).1 := by
  have hm := move_to_ingress_fixed k1 pid
  simp only [lists_free, Prod.mk.injEq] at hm
  have h1 : ∀ p, port_at (move_to_ingress k1 pid).1 p = port_at k1 p :=
    fun p => by unfold port_at; rw [hm.1]
  refine no_gain_trans h ⟨by unfold nports; rw [hm.1], fun p => by rw [h1], fun p _ => ?_⟩
  unfold held; rw [h1]
  have := move_to_ingress_lists k1 pid p
  omega

theorem ng_clear_hdr_lst {k k1 : tizkernel} (l : List (List Nat)) (pid : Nat)
    (h : no_gain k k1) : no_gain k (clear_hdr_lst k1 l pid).1 := by
  have hf := clear_hdr_lst_fixed k1 l pid
  simp only [heap_free, egress_fixed, Prod.mk.injEq] at hf
  exact no_gain_trans h (no_gain_of_fixed hf.1.1 hf.1.2.1 hf.2.1)

theorem ng_flag {k k1 : tizkernel} (pid : Nat) (h : no_gain k k1) :
    no_gain k (set_port k1 pid (TIZPORT_SET_DISABLED (port_at k1 pid))) ∧
    no_gain k (set_port k1 pid (TIZPORT_SET_ENABLED (port_at k1 pid))) ∧
    no_gain k (set_port k1 pid (TIZPORT_SET_GOING_TO_DISABLED (port_at k1 pid))) ∧
    no_gain k (set_port k1 pid (TIZPORT_SET_GOING_TO_ENABLED (port_at k1 pid))) ∧
    no_gain k (set_port k1 pid (TIZPORT_SET_FLUSH_IN_PROGRESS (port_at k1 pid))) ∧
    no_gain k (set_port k1 pid (TIZPORT_CLEAR_FLUSH_IN_PROGRESS (port_at k1 pid))) ∧
    no_gain k (set_port k1 pid (TIZPORT_DEC_CLAIMED_COUNT (port_at k1 pid)).1) := by
  refine ⟨?_, ?_, ?_, ?_, ?_, ?_, ?_⟩ <;>
    exact ng_set_port pid _ rfl (by simp [TIZPORT_SET_DISABLED, TIZPORT_SET_ENABLED,
      TIZPORT_SET_GOING_TO_DISABLED, TIZPORT_SET_GOING_TO_ENABLED,
      TIZPORT_SET_FLUSH_IN_PROGRESS, TIZPORT_CLEAR_FLUSH_IN_PROGRESS,
      TIZPORT_DEC_CLAIMED_COUNT]) h

theorem ng_complete_port_disable {k k1 : tizkernel} (pid : Nat) (e : OMX_ERRORTYPE)
    (h : no_gain k k1) : no_gain k (complete_port_disable k1 pid e).1 := by
  unfold complete_port_disable tizservant_issue_cmd_event tizfsm_complete_command
  simp only []
  apply ng_flush_marks
  split_ifs <;>
    repeat first
    | exact (ng_flag pid h).1
    | apply ng_emit
    | apply ng_set_count

theorem ng_complete_port_enable {k k1 : tizkernel} (pid : Nat) (e : OMX_ERRORTYPE)
    (h : no_gain k k1) : no_gain k (complete_port_enable k1 pid e).1 := by
  unfold complete_port_enable tizservant_issue_cmd_event tizfsm_complete_command
  simp only []
  split_ifs <;>
    repeat first
    | exact (ng_flag pid h).2.1
    | apply ng_emit
    | apply ng_set_count

theorem ng_complete_port_flush {k k1 : tizkernel} (pid : Nat) (e : OMX_ERRORTYPE)
    (h : no_gain k k1) : no_gain k (complete_port_flush k1 pid e).1 := by
  unfold complete_port_flush tizservant_issue_cmd_event tizfsm_complete_command
  simp only []
  split_ifs <;>
    repeat first
    | exact (ng_flag pid h).2.2.2.2.2.1
    | apply ng_emit
    | apply ng_set_count

theorem ng_all_buffers_returned {k k1 : tizkernel} (h : no_gain k k1) :
    no_gain k (all_buffers_returned k1).1 := by
  unfold all_buffers_returned
  split
  · exact ng_set_eos _ h
  · exact h

theorem ng_complete_transition {k k1 : tizkernel} (s : Nat) (h : no_gain k k1) :
    no_gain k (tizfsm_complete_transition k1 s).1 :=
  ng_emit _ h

theorem ng_complete_ongoing_transitions {k k1 : tizkernel} (h : no_gain k k1) :
    no_gain k (complete_ongoing_transitions k1).1 := by
  unfold complete_ongoing_transitions
  simp only []
  split_ifs <;> first | exact ng_complete_transition _ h | exact h

theorem ng_enqueue_callback_msg {k k1 : tizkernel} (a b : Nat) (d : OMX_DIRTYPE)
    (h : no_gain k k1) : no_gain k (enqueue_callback_msg k1 a b d).1 := by
  unfold enqueue_callback_msg tizservant_enqueue
  split
  · exact h
  · exact ng_set_queue _ h

theorem ng_propagate_ingress_hdrs (pdir : OMX_DIRTYPE) :
    ∀ (l : List Nat) {k k1 : tizkernel}, no_gain k k1 →
      no_gain k (propagate_ingress_hdrs pdir l k1) := by
  intro l
  induction l with
  | nil => intro k k1 h; exact h
  | cons a l ih =>
    intro k k1 h
    rw [propagate_ingress_hdrs]
    apply ih
    split <;> exact ng_emit _ (ng_set_hdr _ _ h)

theorem ng_propagate_ingress_loop (a_pid n : Nat) :
    ∀ (fuel i : Nat) {k k1 : tizkernel}, no_gain k k1 →
      no_gain k (propagate_ingress_loop a_pid n fuel i k1) := by
  intro fuel
  induction fuel with
  | zero => intro i k k1 h; exact h
  | succ fuel ih =>
    intro i k k1 h
    rw [propagate_ingress_loop]
    split_ifs <;> first
      | exact ng_propagate_ingress_hdrs _ _ h
      | exact ih _ (ng_propagate_ingress_hdrs _ _ h)

theorem ng_propagate_ingress {k k1 : tizkernel} (a_pid : Nat) (h : no_gain k k1) :
    no_gain k (propagate_ingress k1 a_pid).1 :=
  ng_propagate_ingress_loop _ _ _ _ h

theorem ng_transfer_and_process_loop (a_pid n : Nat) :
    ∀ (fuel i : Nat) {k k1 : tizkernel}, no_gain k k1 →
      no_gain k (kernel_transfer_and_process_loop a_pid n fuel i k1) := by
  intro fuel
  induction fuel with
  | zero => intro i k k1 h; exact h
  | succ fuel ih =>
    intro i k k1 h
    rw [kernel_transfer_and_process_loop]
    split_ifs <;> first
      | exact ng_propagate_ingress _ (ng_flush_egress _ _ h)
      | exact ih _ (ng_propagate_ingress _ (ng_flush_egress _ _ h))

theorem ng_transfer_and_process {k k1 : tizkernel} (a_pid : Nat) (h : no_gain k k1) :
    no_gain k (kernel_transfer_and_process k1 a_pid).1 := by
  unfold kernel_transfer_and_process
  split
  · exact h
  · exact ng_transfer_and_process_loop _ _ _ _ h

theorem ng_stop_and_return_body {k k1 : tizkernel} (i : Nat) (rc : OMX_ERRORTYPE)
    (h : no_gain k k1) : no_gain k (kernel_stop_and_return_body i k1 rc).1 := by
  unfold kernel_stop_and_return_body
  simp only []
  split_ifs <;> first
    | exact h
    | exact ng_move_to_ingress _ h
    | exact ng_flush_marks _ (ng_flush_egress _ _ (ng_move_to_egress _ h))

theorem ng_stop_and_return_loop (n : Nat) :
    ∀ (fuel i : Nat) (rc : OMX_ERRORTYPE) {k k1 : tizkernel}, no_gain k k1 →
      no_gain k (kernel_stop_and_return_loop n fuel i k1 rc).1 := by
  intro fuel
  induction fuel with
  | zero => intro i rc k k1 h; exact h
  | succ fuel ih =>
    intro i rc k k1 h
    rw [kernel_stop_and_return_loop]
    split
    · exact ih _ _ (ng_stop_and_return_body _ _ h)
    · exact h

theorem ng_stop_and_return {k k1 : tizkernel} (h : no_gain k k1) :
    no_gain k (kernel_stop_and_return k1).1 :=
  ng_stop_and_return_loop _ _ _ _ h

theorem ng_rm {k k1 : tizkernel} (h : no_gain k k1) :
    no_gain k (init_rm k1).1 ∧ no_gain k (deinit_rm k1).1 ∧
    no_gain k (acquire_rm_resources k1).1 ∧ no_gain k (release_rm_resources k1).1 := by
  refine ⟨?_, ?_, ?_, ?_⟩
  · unfold init_rm; split_ifs <;> first | with_reducible exact h | exact ng_emit _ h
  · unfold deinit_rm; simp only []; split_ifs <;> exact ng_emit _ h
  · unfold acquire_rm_resources; simp only []; split_ifs <;> exact ng_emit _ h
  · exact ng_emit _ h

/-- A header comes back from the processor: the egress list gains it and the
claimed count loses it. -/
theorem ng_return_header (k : tizkernel) (pid : Nat) (l : List Nat)
    (hl : l.length ≤ (egress_at k pid).length + 1) :
    no_gain k (set_port (set_egress k pid l) pid
      (TIZPORT_DEC_CLAIMED_COUNT (port_at (set_egress k pid l) pid)).1) := by
  refine ⟨by simp, fun p => ?_, fun p hp => ?_⟩
  · simp only [set_port_self, set_egress_other]
    split
    · rename_i hh; rw [← hh.1]; rfl
    · rfl
  · unfold held TIZPORT_GET_CLAIMED_COUNT TIZPORT_DEC_CLAIMED_COUNT
    simp only [set_port_self, set_port_other, set_egress_self, set_egress_other]
    by_cases hpp : pid = p
    · subst hpp
      simp only [true_and, hp, if_true]
      split <;> omega
    · simp [hpp]

theorem ng_dispatch_cb (k : tizkernel) (cb : tizkernel_msg_callback_t) :
    no_gain k (dispatch_cb k cb).1 := by
  have h0 := no_gain_refl k
  have hret := ng_return_header k cb.pid
  unfold dispatch_cb tiz_vector_push_back
  cases hv : k.vec_oom <;> simp only [Bool.false_eq_true, if_false, if_true] <;>
    split_ifs <;> (try simp only []) <;>
    repeat first
    | with_reducible exact h0
    | with_reducible apply ng_enqueue_callback_msg
    | with_reducible apply ng_complete_transition
    | with_reducible apply ng_all_buffers_returned
    | with_reducible apply ng_complete_port_flush
    | with_reducible apply ng_flush_egress
    | with_reducible exact hret _ (by simp)
    | with_reducible exact ng_set_egress _ _ (le_refl _) h0

/-- The processor claims a header: the ingress list loses it and the claimed
count gains it. -/
theorem ng_take_header (k : tizkernel) (pid : Nat) (l : List Nat)
    (hl : l.length + 1 ≤ (ingress_at k pid).length) :
    no_gain k (set_port (set_ingress k pid l) pid
      (TIZPORT_INC_CLAIMED_COUNT (port_at (set_ingress k pid l) pid))) := by
  have hlt : pid < k.p_ingress_.length := by
    by_contra hc
    rw [ingress_at_nil k pid (Nat.le_of_not_lt hc)] at hl
    simp at hl
  refine ⟨by simp, fun p => ?_, fun p hp => ?_⟩
  · simp only [set_port_self, set_ingress_other]
    split
    · rename_i hh; rw [← hh.1]; rfl
    · rfl
  · unfold held TIZPORT_GET_CLAIMED_COUNT TIZPORT_INC_CLAIMED_COUNT
    simp only [set_port_self, set_port_other, set_ingress_self, set_ingress_other]
    by_cases hpp : pid = p
    · subst hpp
      simp only [true_and, hp, hlt, if_true]
      omega
    · simp [hpp]

theorem ng_kernel_claim_buffer (k : tizkernel) (a_pid a_pos : Nat)
    (hpos : a_pos < (ingress_at k a_pid).length) :
    no_gain k (kernel_claim_buffer k a_pid a_pos).1 := by
  have ht := ng_take_header k a_pid ((ingress_at k a_pid).eraseIdx a_pos)
    (by rw [List.length_eraseIdx]; simp [hpos]; omega)
  have ht1 := fun e => no_gain_trans (ng_emit e (no_gain_refl k))
    (ng_take_header (emit k e) a_pid ((ingress_at k a_pid).eraseIdx a_pos)
      (by rw [List.length_eraseIdx]; simp [hpos]; omega))
  unfold kernel_claim_buffer tizport_populate_header complete_mark_buffer
    tizservant_issue_cmd_event
  simp only []
  split_ifs <;> (try simp only []) <;>
    repeat first
    | with_reducible exact ht
    | with_reducible exact ht1 _
    | with_reducible apply ng_emit
    | with_reducible apply ng_set_hdr
    | with_reducible apply ng_set_marks

/-! ## C9: the accounting of one port -/

theorem nga_refl {p : Nat} {k : tizkernel} (hp : p < nports k) : no_gain_at p k k :=
  ⟨hp, rfl, rfl, le_refl _⟩

/-- A step that gives no port a buffer gives none to `p`. -/
theorem nga_step {p : Nat} {k k1 k2 : tizkernel} (h : no_gain_at p k k1)
    (h2 : no_gain k1 k2) : no_gain_at p k k2 :=
  ⟨h.1, h2.1.trans h.2.1, (h2.2.1 p).trans h.2.2.1,
    le_trans (h2.2.2 p (h.2.1 ▸ h.1)) h.2.2.2⟩

theorem nga_accounted {p : Nat} {k k1 : tizkernel} (h : no_gain_at p k k1)
    (hk : port_accounted k p) : port_accounted k1 p := by
  obtain ⟨hp, hn, hs, hh⟩ := h
  simp only [port_static, Prod.mk.injEq] at hs
  refine ⟨hn ▸ hp, ?_, ?_⟩
  · have := hk.2.1
    simp only [TIZPORT_IS_TUNNELED_AND_SUPPLIER, TIZPORT_IS_TUNNELED, TIZPORT_IS_SUPPLIER] at *
    rw [hs.2.2.1, hs.2.2.2.2.1]; exact this
  · have hb : tizport_buffer_count (port_at k1 p) = tizport_buffer_count (port_at k p) := by
      unfold tizport_buffer_count; rw [hs.2.2.2.2.2]
    rw [hb]
    exact le_trans hh hk.2.2

/-- The port `p` keeps not being a tunnelled supplier. -/
theorem nga_flags {p : Nat} {k k1 : tizkernel} (h : no_gain_at p k k1)
    (hts : TIZPORT_IS_TUNNELED_AND_SUPPLIER (port_at k p) = false) :
    TIZPORT_IS_TUNNELED_AND_SUPPLIER (port_at k1 p) = false := by
  have hs := h.2.2.1
  simp only [port_static, Prod.mk.injEq] at hs
  simp only [TIZPORT_IS_TUNNELED_AND_SUPPLIER, TIZPORT_IS_TUNNELED, TIZPORT_IS_SUPPLIER] at *
  rw [hs.2.2.1, hs.2.2.2.2.1]; exact hts

/-- A port that passes one of the tests for tunnelled suppliers is not `p`. -/
theorem supplier_ne {p pid : Nat} {k1 : tizkernel}
    (hts : TIZPORT_IS_TUNNELED_AND_SUPPLIER (port_at k1 p) = false)
    (h : TIZPORT_IS_TUNNELED_AND_SUPPLIER (port_at k1 pid) = true ∨
      TIZPORT_IS_ENABLED_TUNNELED_AND_SUPPLIER (port_at k1 pid) = true ∨
      TIZPORT_IS_ENABLED_TUNNELED_SUPPLIER_AND_NOT_POPULATED (port_at k1 pid) = true) :
    pid ≠ p := by
  rintro rfl
  simp only [TIZPORT_IS_TUNNELED_AND_SUPPLIER, TIZPORT_IS_ENABLED_TUNNELED_AND_SUPPLIER,
    TIZPORT_IS_ENABLED_TUNNELED_SUPPLIER_AND_NOT_POPULATED] at *
  cases h1 : TIZPORT_IS_TUNNELED (port_at k1 pid) <;>
    cases h2 : TIZPORT_IS_SUPPLIER (port_at k1 pid) <;> simp_all

/-- The record of another port is replaced. -/
theorem nga_set_port_other {p pid : Nat} {k k1 : tizkernel} (x : tizport) (hne : pid ≠ p)
    (h : no_gain_at p k k1) : no_gain_at p k (set_port k1 pid x) := by
  have hp : port_at (set_port k1 pid x) p = port_at k1 p := by
    simp only [set_port_self]; rw [if_neg (fun hh => hne hh.1)]
  refine ⟨h.1, ?_, ?_, ?_⟩
  · simp only [set_port_self]; exact h.2.1
  · rw [hp]; exact h.2.2.1
  · unfold held; simp only [set_port_other, hp]; exact h.2.2.2

/-- The ingress list of another port is replaced. -/
theorem nga_set_ingress_other {p pid : Nat} {k k1 : tizkernel} (l : List Nat) (hne : pid ≠ p)
    (h : no_gain_at p k k1) : no_gain_at p k (set_ingress k1 pid l) := by
  refine ⟨h.1, ?_, ?_, ?_⟩
  · simp only [set_ingress_other]; exact h.2.1
  · simp only [set_ingress_other]; exact h.2.2.1
  · unfold held
    simp only [set_ingress_other, set_ingress_self]
    rw [if_neg (fun hh => hne hh.1)]; exact h.2.2.2

/-- The egress list of another port is replaced. -/
theorem nga_set_egress_other {p pid : Nat} {k k1 : tizkernel} (l : List Nat) (hne : pid ≠ p)
    (h : no_gain_at p k k1) : no_gain_at p k (set_egress k1 pid l) := by
  refine ⟨h.1, ?_, ?_, ?_⟩
  · simp only [set_egress_other]; exact h.2.1
  · simp only [set_egress_other]; exact h.2.2.1
  · unfold held
    simp only [set_egress_other, set_egress_self]
    rw [if_neg (fun hh => hne hh.1)]; exact h.2.2.2

theorem ng_remove_leftovers :
    ∀ (l : List Nat) {k k1 : tizkernel}, no_gain k k1 → no_gain k (remove_leftovers l k1) := by
  intro l
  induction l with
  | nil => intro k k1 h; exact h
  | cons a l ih =>
    intro k k1 h
    rw [remove_leftovers]
    exact ih (ng_emit _ (ng_set_queue _ h))

theorem nga_emit {p : Nat} {k k1 : tizkernel} (e : Effect) (h : no_gain_at p k k1) :
    no_gain_at p k (emit k1 e) :=
  nga_step h (ng_emit e (no_gain_refl k1))

theorem nga_set_count {p : Nat} {k k1 : tizkernel} (n : Nat) (h : no_gain_at p k k1) :
    no_gain_at p k (set_count k1 n) :=
  nga_step h (ng_set_count n (no_gain_refl k1))

theorem nga_complete_port_disable {p : Nat} {k k1 : tizkernel} (pid : Nat)
    (e : OMX_ERRORTYPE) (h : no_gain_at p k k1) :
    no_gain_at p k (complete_port_disable k1 pid e).1 :=
  nga_step h (ng_complete_port_disable pid e (no_gain_refl k1))

theorem nga_complete_port_enable {p : Nat} {k k1 : tizkernel} (pid : Nat)
    (e : OMX_ERRORTYPE) (h : no_gain_at p k k1) :
    no_gain_at p k (complete_port_enable k1 pid e).1 :=
  nga_step h (ng_complete_port_enable pid e (no_gain_refl k1))

theorem nga_complete_transition {p : Nat} {k k1 : tizkernel} (s : Nat)
    (h : no_gain_at p k k1) : no_gain_at p k (tizfsm_complete_transition k1 s).1 :=
  nga_step h (ng_complete_transition s (no_gain_refl k1))

theorem nga_complete_ongoing_transitions {p : Nat} {k k1 : tizkernel}
    (h : no_gain_at p k k1) : no_gain_at p k (complete_ongoing_transitions k1).1 :=
  nga_step h (ng_complete_ongoing_transitions (no_gain_refl k1))

theorem nga_all_buffers_returned {p : Nat} {k k1 : tizkernel} (h : no_gain_at p k k1) :
    no_gain_at p k (all_buffers_returned k1).1 :=
  nga_step h (ng_all_buffers_returned (no_gain_refl k1))

theorem nga_remove_leftovers {p : Nat} {k k1 : tizkernel} (l : List Nat)
    (h : no_gain_at p k k1) : no_gain_at p k (remove_leftovers l k1) :=
  nga_step h (ng_remove_leftovers l (no_gain_refl k1))

theorem nga_move_to_ingress {p : Nat} {k k1 : tizkernel} (pid : Nat)
    (h : no_gain_at p k k1) : no_gain_at p k (move_to_ingress k1 pid).1 :=
  nga_step h (ng_move_to_ingress pid (no_gain_refl k1))

theorem nga_move_to_egress {p : Nat} {k k1 : tizkernel} (pid : Nat)
    (h : no_gain_at p k k1) : no_gain_at p k (move_to_egress k1 pid).1 :=
  nga_step h (ng_move_to_egress pid (no_gain_refl k1))

theorem nga_flush_egress {p : Nat} {k k1 : tizkernel} (pid : Nat) (c : Bool)
    (h : no_gain_at p k k1) : no_gain_at p k (flush_egress k1 pid c).1 :=
  nga_step h (ng_flush_egress pid c (no_gain_refl k1))

theorem nga_clear_hdr_lst {p : Nat} {k k1 : tizkernel} (l : List (List Nat)) (pid : Nat)
    (h : no_gain_at p k k1) : no_gain_at p k (clear_hdr_lst k1 l pid).1 :=
  nga_step h (ng_clear_hdr_lst l pid (no_gain_refl k1))

theorem nga_transfer_and_process {p : Nat} {k k1 : tizkernel} (pid : Nat)
    (h : no_gain_at p k k1) : no_gain_at p k (kernel_transfer_and_process k1 pid).1 :=
  nga_step h (ng_transfer_and_process pid (no_gain_refl k1))

theorem nga_going_to_disabled {p : Nat} {k k1 : tizkernel} (pid : Nat)
    (h : no_gain_at p k k1) :
    no_gain_at p k (set_port k1 pid (TIZPORT_SET_GOING_TO_DISABLED (port_at k1 pid))) :=
  nga_step h (ng_flag pid (no_gain_refl k1)).2.2.1

theorem nga_going_to_enabled {p : Nat} {k k1 : tizkernel} (pid : Nat)
    (h : no_gain_at p k k1) :
    no_gain_at p k (set_port k1 pid (TIZPORT_SET_GOING_TO_ENABLED (port_at k1 pid))) :=
  nga_step h (ng_flag pid (no_gain_refl k1)).2.2.2.1

/-! ### The servant operations that populate and depopulate -/

theorem nga_kernel_allocate_resources_body (pc : tizport_class) (pid : Nat)
    (rc : OMX_ERRORTYPE) {p : Nat} {k k1 : tizkernel}
    (hts : TIZPORT_IS_TUNNELED_AND_SUPPLIER (port_at k p) = false)
    (h : no_gain_at p k k1) :
    no_gain_at p k (kernel_allocate_resources_body pc pid k1 rc).1 := by
  unfold kernel_allocate_resources_body
  by_cases h1 : TIZPORT_IS_ENABLED_TUNNELED_SUPPLIER_AND_NOT_POPULATED (port_at k1 pid) = true
  · have hne := supplier_ne (nga_flags h hts) (Or.inr (Or.inr h1))
    have hs := nga_set_port_other (pc.tizport_populate (port_at k1 pid)).1 hne h
    simp only [h1, if_true]
    split_ifs <;> first
      | with_reducible exact hs
      | exact nga_complete_port_enable _ _ hs
  · simp only [(Bool.not_eq_true _).mp h1, Bool.false_eq_true, if_false]
    exact h

theorem nga_kernel_allocate_resources_loop (pc : tizport_class) (a_pid n : Nat)
    {p : Nat} {k : tizkernel}
    (hts : TIZPORT_IS_TUNNELED_AND_SUPPLIER (port_at k p) = false) :
    ∀ (fuel i : Nat) (rc : OMX_ERRORTYPE) {k1 : tizkernel}, no_gain_at p k k1 →
      no_gain_at p k (kernel_allocate_resources_loop pc a_pid n fuel i k1 rc).1 := by
  intro fuel
  induction fuel with
  | zero => intro i rc k1 h; exact h
  | succ fuel ih =>
    intro i rc k1 h
    rw [kernel_allocate_resources_loop]
    have hb := fun pid => nga_kernel_allocate_resources_body pc pid rc hts h
    split
    · exact hb _
    · split
      · exact ih _ _ (hb _)
      · exact hb _

theorem nga_kernel_allocate_resources (pc : tizport_class) (a_pid : Nat)
    {p : Nat} {k k1 : tizkernel}
    (hts : TIZPORT_IS_TUNNELED_AND_SUPPLIER (port_at k p) = false)
    (h : no_gain_at p k k1) :
    no_gain_at p k (kernel_allocate_resources pc k1 a_pid).1 := by
  unfold kernel_allocate_resources
  split
  · exact h
  · exact nga_kernel_allocate_resources_loop pc a_pid _ hts _ _ _ h

theorem nga_kernel_deallocate_resources_loop (pc : tizport_class) (n : Nat)
    {p : Nat} {k : tizkernel}
    (hts : TIZPORT_IS_TUNNELED_AND_SUPPLIER (port_at k p) = false) :
    ∀ (fuel i : Nat) (rc : OMX_ERRORTYPE) {k1 : tizkernel}, no_gain_at p k k1 →
      no_gain_at p k (kernel_deallocate_resources_loop pc n fuel i k1 rc).1 := by
  intro fuel
  induction fuel with
  | zero => intro i rc k1 h; exact h
  | succ fuel ih =>
    intro i rc k1 h
    rw [kernel_deallocate_resources_loop]
    by_cases h1 : TIZPORT_IS_ENABLED_TUNNELED_AND_SUPPLIER (port_at k1 i) = true
    · have hne := supplier_ne (nga_flags h hts) (Or.inr (Or.inl h1))
      have hs := nga_set_port_other (pc.tizport_depopulate (port_at k1 i)).1 hne h
      simp only [h1, if_true]
      split_ifs <;> first
        | with_reducible exact hs
        | with_reducible exact h
        | exact ih _ _ hs
    · simp only [(Bool.not_eq_true _).mp h1, Bool.false_eq_true, if_false]
      split_ifs <;> first
        | with_reducible exact h
        | exact ih _ _ h

theorem nga_kernel_deallocate_resources (pc : tizport_class)
    {p : Nat} {k k1 : tizkernel}
    (hts : TIZPORT_IS_TUNNELED_AND_SUPPLIER (port_at k p) = false)
    (h : no_gain_at p k k1) :
    no_gain_at p k (kernel_deallocate_resources pc k1).1 :=
  nga_kernel_deallocate_resources_loop pc _ hts _ _ _ h

theorem nga_kernel_prepare_to_transfer_body (pid : Nat) {p : Nat} {k k1 : tizkernel}
    (hts : TIZPORT_IS_TUNNELED_AND_SUPPLIER (port_at k p) = false)
    (h : no_gain_at p k k1) :
    no_gain_at p k (kernel_prepare_to_transfer_body pid k1).1 := by
  unfold kernel_prepare_to_transfer_body append_buflsts
  by_cases h1 : TIZPORT_IS_ENABLED_TUNNELED_AND_SUPPLIER (port_at k1 pid) = true
  · have hne := supplier_ne (nga_flags h hts) (Or.inr (Or.inl h1))
    simp only [h1, if_true]
    split_ifs <;> (try simp only []) <;> first
      | with_reducible exact nga_set_egress_other _ hne h
      | with_reducible exact nga_set_ingress_other _ hne h
  · simp only [(Bool.not_eq_true _).mp h1, Bool.false_eq_true, if_false]
    exact h

theorem nga_kernel_prepare_to_transfer_loop (a_pid n : Nat) {p : Nat} {k : tizkernel}
    (hts : TIZPORT_IS_TUNNELED_AND_SUPPLIER (port_at k p) = false) :
    ∀ (fuel i : Nat) {k1 : tizkernel}, no_gain_at p k k1 →
      no_gain_at p k (kernel_prepare_to_transfer_loop a_pid n fuel i k1).1 := by
  intro fuel
  induction fuel with
  | zero => intro i k1 h; exact h
  | succ fuel ih =>
    intro i k1 h
    rw [kernel_prepare_to_transfer_loop]
    have hb := fun pid => nga_kernel_prepare_to_transfer_body pid hts h
    split
    · exact hb _
    · split
      · exact ih _ (hb _)
      · exact hb _

theorem nga_kernel_prepare_to_transfer (a_pid : Nat) {p : Nat} {k k1 : tizkernel}
    (hts : TIZPORT_IS_TUNNELED_AND_SUPPLIER (port_at k p) = false)
    (h : no_gain_at p k k1) :
    no_gain_at p k (kernel_prepare_to_transfer k1 a_pid).1 := by
  unfold kernel_prepare_to_transfer
  split
  · exact h
  · exact nga_kernel_prepare_to_transfer_loop a_pid _ hts _ _ h

/-! ### The commands -/

theorem nga_dispatch_state_set_switch (pc : tizport_class) (k : tizkernel)
    (param1 : Nat) (now : OMX_STATETYPE) {p : Nat} (hp : p < nports k)
    (hts : TIZPORT_IS_TUNNELED_AND_SUPPLIER (port_at k p) = false) :
    no_gain_at p k (dispatch_state_set_switch pc k param1 now).k := by
  have h0 := nga_refl hp
  have hg := no_gain_refl k
  unfold dispatch_state_set_switch
  split_ifs
  · exact nga_step (nga_kernel_deallocate_resources pc hts h0)
      (ng_rm (ng_rm (no_gain_refl _)).2.2.2).2.1
  · exact h0
  · exact h0
  · exact h0
  · exact h0
  · simp only []
    split
    · exact nga_kernel_allocate_resources pc _ hts (nga_step h0 (ng_rm (ng_rm hg).1).2.2.1)
    · exact nga_step h0 (ng_rm (ng_rm hg).1).2.2.1
  · simp only []
    split
    · exact nga_step h0 (ng_all_buffers_returned (ng_stop_and_return hg))
    · exact nga_step h0 (ng_stop_and_return hg)
  · exact h0
  · exact nga_kernel_prepare_to_transfer _ hts h0
  · exact nga_step h0 (ng_enqueue_callback_msg _ _ _ hg)
  · exact nga_step h0 (ng_transfer_and_process _ hg)
  · exact h0
  · exact h0
  · exact h0

theorem nga_dispatch_state_set (pc : tizport_class) (k : tizkernel)
    (sc : tizkernel_msg_sendcommand_t) {p : Nat} (hp : p < nports k)
    (hts : TIZPORT_IS_TUNNELED_AND_SUPPLIER (port_at k p) = false) :
    no_gain_at p k (dispatch_state_set pc k sc).1 := by
  have hs := nga_dispatch_state_set_switch pc k sc.param1 (tizapi_GetState k) hp hts
  unfold dispatch_state_set
  simp only []
  split_ifs <;> first | with_reducible exact hs | exact nga_complete_transition _ hs

theorem nga_dispatch_port_disable_body (pc : tizport_class)
    (sc : tizkernel_msg_sendcommand_t) (pid : Nat) (rc : OMX_ERRORTYPE)
    {p : Nat} {k k1 : tizkernel}
    (hts : TIZPORT_IS_TUNNELED_AND_SUPPLIER (port_at k p) = false)
    (h : no_gain_at p k k1) :
    no_gain_at p k (dispatch_port_disable_body pc sc pid k1 rc).1 := by
  unfold dispatch_port_disable_body
  by_cases h1 : TIZPORT_IS_TUNNELED_AND_SUPPLIER (port_at k1 pid) = true
  · have hne := supplier_ne (nga_flags h hts) (Or.inl h1)
    simp only [h1, if_true]
    split_ifs <;> (try simp only []) <;>
      repeat first
      | with_reducible exact h
      | with_reducible apply nga_complete_port_disable
      | with_reducible apply nga_remove_leftovers
      | with_reducible apply nga_set_port_other _ hne
      | with_reducible apply nga_move_to_ingress
  · simp only [(Bool.not_eq_true _).mp h1, Bool.false_eq_true, if_false]
    split_ifs <;> (try simp only []) <;>
      repeat first
      | with_reducible exact h
      | with_reducible exact nga_going_to_disabled pid h
      | with_reducible apply nga_complete_port_disable
      | with_reducible apply nga_emit
      | with_reducible apply nga_flush_egress
      | with_reducible apply nga_move_to_egress
      | with_reducible apply nga_clear_hdr_lst

theorem nga_dispatch_port_disable_loop (pc : tizport_class)
    (sc : tizkernel_msg_sendcommand_t) (n : Nat) {p : Nat} {k : tizkernel}
    (hts : TIZPORT_IS_TUNNELED_AND_SUPPLIER (port_at k p) = false) :
    ∀ (fuel i : Nat) (rc : OMX_ERRORTYPE) {k1 : tizkernel}, no_gain_at p k k1 →
      no_gain_at p k (dispatch_port_disable_loop pc sc n fuel i k1 rc).1 := by
  intro fuel
  induction fuel with
  | zero => intro i rc k1 h; exact h
  | succ fuel ih =>
    intro i rc k1 h
    rw [dispatch_port_disable_loop]
    have hb := fun pid => nga_dispatch_port_disable_body pc sc pid rc hts h
    split
    · exact hb _
    · split
      · exact ih _ _ (hb _)
      · exact hb _

theorem nga_dispatch_port_disable (pc : tizport_class) (k : tizkernel)
    (sc : tizkernel_msg_sendcommand_t) {p : Nat} (hp : p < nports k)
    (hts : TIZPORT_IS_TUNNELED_AND_SUPPLIER (port_at k p) = false) :
    no_gain_at p k (dispatch_port_disable pc k sc).1 := by
  unfold dispatch_port_disable
  simp only []
  have hl := fun c => nga_dispatch_port_disable_loop pc sc (nports k) hts (nports k + 1) 0
    OMX_ErrorNone (nga_set_count c (nga_refl hp))
  split
  · exact nga_refl hp
  · split
    · exact hl _
    · exact nga_complete_ongoing_transitions (hl _)

theorem nga_dispatch_port_enable_body (pc : tizport_class) (now : tizfsm_state_id_t)
    (pid : Nat) (rc : OMX_ERRORTYPE) {p : Nat} {k k1 : tizkernel}
    (hts : TIZPORT_IS_TUNNELED_AND_SUPPLIER (port_at k p) = false)
    (h : no_gain_at p k k1) :
    no_gain_at p k (dispatch_port_enable_body pc now pid k1 rc).1 := by
  have ha := nga_kernel_allocate_resources pc pid hts (nga_going_to_enabled pid h)
  unfold dispatch_port_enable_body
  simp only []
  split_ifs <;>
    repeat first
    | with_reducible exact h
    | with_reducible exact ha
    | with_reducible apply nga_complete_port_enable
    | with_reducible apply nga_complete_transition
    | with_reducible apply nga_transfer_and_process

theorem nga_dispatch_port_enable_loop (pc : tizport_class) (now : tizfsm_state_id_t)
    (param1 n : Nat) {p : Nat} {k : tizkernel}
    (hts : TIZPORT_IS_TUNNELED_AND_SUPPLIER (port_at k p) = false) :
    ∀ (fuel i : Nat) (rc : OMX_ERRORTYPE) {k1 : tizkernel}, no_gain_at p k k1 →
      no_gain_at p k (dispatch_port_enable_loop pc now param1 n fuel i k1 rc).1 := by
  intro fuel
  induction fuel with
  | zero => intro i rc k1 h; exact h
  | succ fuel ih =>
    intro i rc k1 h
    rw [dispatch_port_enable_loop]
    have hb := fun pid => nga_dispatch_port_enable_body pc now pid rc hts h
    split_ifs <;> first | exact hb _ | exact ih _ _ (hb _)

theorem nga_dispatch_port_enable (pc : tizport_class) (k : tizkernel)
    (sc : tizkernel_msg_sendcommand_t) {p : Nat} (hp : p < nports k)
    (hts : TIZPORT_IS_TUNNELED_AND_SUPPLIER (port_at k p) = false) :
    no_gain_at p k (dispatch_port_enable pc k sc).1 := by
  unfold dispatch_port_enable
  simp only []
  split
  · exact nga_refl hp
  · exact nga_dispatch_port_enable_loop pc _ _ _ hts _ _ _ (nga_set_count _ (nga_refl hp))

/-- A flush gives no port a buffer: the port is a tunnelled supplier. -/
theorem ng_port_flush_body_supplier (sc : tizkernel_msg_sendcommand_t)
    (now : tizfsm_state_id_t) (pid : Nat) (rc : OMX_ERRORTYPE)
    {k k1 : tizkernel} (h : no_gain k k1)
    (h1 : TIZPORT_IS_TUNNELED_AND_SUPPLIER (port_at k1 pid) = true) :
    no_gain k (dispatch_port_flush_body sc now pid k1 rc).1 := by
  unfold dispatch_port_flush_body
  simp only [h1, if_true]
  split_ifs <;> (try simp only []) <;>
    repeat first
    | with_reducible exact h
    | with_reducible apply ng_complete_port_flush
    | with_reducible apply ng_emit
    | with_reducible apply (ng_flag pid ?_).2.2.2.2.1
    | with_reducible apply ng_flush_egress
    | with_reducible apply ng_move_to_egress
    | with_reducible apply ng_move_to_ingress
    | with_reducible apply ng_clear_hdr_lst

/-- A flush gives no port a buffer: the port is not a tunnelled supplier. -/
theorem ng_port_flush_body_other (sc : tizkernel_msg_sendcommand_t)
    (now : tizfsm_state_id_t) (pid : Nat) (rc : OMX_ERRORTYPE)
    {k k1 : tizkernel} (h : no_gain k k1)
    (h1 : TIZPORT_IS_TUNNELED_AND_SUPPLIER (port_at k1 pid) = false) :
    no_gain k (dispatch_port_flush_body sc now pid k1 rc).1 := by
  unfold dispatch_port_flush_body
  simp only [h1, Bool.false_eq_true, if_false]
  split_ifs <;> (try simp only []) <;>
    repeat first
    | with_reducible exact h
    | with_reducible apply ng_complete_port_flush
    | with_reducible apply ng_emit
    | with_reducible apply (ng_flag pid ?_).2.2.2.2.1
    | with_reducible apply ng_flush_egress
    | with_reducible apply ng_move_to_egress
    | with_reducible apply ng_clear_hdr_lst

/-- A flush gives no port a buffer, tunnelled suppliers included. -/
theorem ng_port_flush_body (sc : tizkernel_msg_sendcommand_t)
    (now : tizfsm_state_id_t) (pid : Nat) (rc : OMX_ERRORTYPE)
    {k k1 : tizkernel} (h : no_gain k k1) :
    no_gain k (dispatch_port_flush_body sc now pid k1 rc).1 := by
  cases h1 : TIZPORT_IS_TUNNELED_AND_SUPPLIER (port_at k1 pid)
  · exact ng_port_flush_body_other sc now pid rc h h1
  · exact ng_port_flush_body_supplier sc now pid rc h h1

theorem ng_port_flush_loop (sc : tizkernel_msg_sendcommand_t)
    (now : tizfsm_state_id_t) (n : Nat) {k : tizkernel} :
    ∀ (fuel i : Nat) (rc : OMX_ERRORTYPE) {k1 : tizkernel}, no_gain k k1 →
      no_gain k (dispatch_port_flush_loop sc now n fuel i k1 rc) := by
  intro fuel
  induction fuel with
  | zero => intro i rc k1 h; exact h
  | succ fuel ih =>
    intro i rc k1 h
    rw [dispatch_port_flush_loop]
    have hb := fun pid => ng_port_flush_body sc now pid rc h
    split_ifs <;> first | exact hb _ | exact ih _ _ (hb _)

theorem ng_port_flush (k : tizkernel) (sc : tizkernel_msg_sendcommand_t) :
    no_gain k (dispatch_port_flush k sc).1 := by
  unfold dispatch_port_flush
  simp only []
  split
  · exact no_gain_refl k
  · exact ng_port_flush_loop sc _ _ _ _ _ (ng_set_count _ (no_gain_refl k))

theorem nga_dispatch_sc (pc : tizport_class) (k : tizkernel)
    (sc : tizkernel_msg_sendcommand_t) {p : Nat} (hp : p < nports k)
    (hts : TIZPORT_IS_TUNNELED_AND_SUPPLIER (port_at k p) = false) :
    no_gain_at p k (dispatch_sc pc k sc).1 := by
  unfold dispatch_sc
  split
  · exact nga_dispatch_state_set pc k sc hp hts
  · exact nga_step (nga_refl hp) (ng_port_flush k sc)
  · exact nga_dispatch_port_disable pc k sc hp hts
  · exact nga_dispatch_port_enable pc k sc hp hts
  · exact nga_step (nga_refl hp) (ng_set_marks _ _ (no_gain_refl k))

/-! ### A header arrives -/

/-- The header is in the ingress list chosen by `add_to_buflst`; port `p` is
still accounted for when the header went to another list or `p` had room. -/
theorem add_to_buflst_accounted (k : tizkernel) (p_hdr q p : Nat)
    (hk : port_accounted k p)
    (hroom : q = p → held k p < (tizport_buffer_count (port_at k p) : Int)) :
    port_accounted (set_ingress k q (ingress_at k q ++ [p_hdr])) p := by
  obtain ⟨hp, hts, hacc⟩ := hk
  refine ⟨by simp only [set_ingress_other]; exact hp,
    by simp only [set_ingress_other]; exact hts, ?_⟩
  unfold held at *
  simp only [set_ingress_self, set_ingress_other]
  split
  · rename_i hh
    have := hroom hh.1
    rw [← hh.1] at this ⊢
    simp only [List.length_append, List.length_singleton]
    push_cast
    omega
  · exact hacc

theorem dispatch_efb_accounted (pc : tizport_class) (k : tizkernel) (p_hdr : Nat)
    (is_etb : Bool) (p : Nat) (hk : port_accounted k p)
    (hroom : lands_on k p_hdr is_etb p →
      held k p < (tizport_buffer_count (port_at k p) : Int)) :
    port_accounted (dispatch_efb pc k p_hdr is_etb).1 p := by
  have hpid : (if is_etb = true then (k.heap p_hdr).nInputPortIndex
      else (k.heap p_hdr).nOutputPortIndex) = named_port k p_hdr is_etb := rfl
  unfold dispatch_efb
  simp only [hpid]
  generalize hq : named_port k p_hdr is_etb = pid at hroom ⊢
  by_cases hck : check_pid k pid = OMX_ErrorNone
  · have hlt : pid < nports k := by
      unfold check_pid at hck
      by_contra hh
      rw [if_pos (Nat.le_of_not_lt hh)] at hck
      cases hck
    simp only [hck, ne_eq, not_true_eq_false, if_false]
    unfold add_to_buflst tiz_vector_push_back
    cases hv : k.vec_oom
    · have hk1 := add_to_buflst_accounted k p_hdr (tizport_index (port_at k pid)) p hk
        (fun he => hroom ⟨hq ▸ hlt, by rw [hq]; exact he⟩)
      have h0 := nga_refl (k := set_ingress k (tizport_index (port_at k pid))
        (ingress_at k (tizport_index (port_at k pid)) ++ [p_hdr])) hk1.1
      simp only [Bool.false_eq_true, if_false, ne_eq, not_true_eq_false]
      by_cases h1 : TIZPORT_IS_TUNNELED_AND_SUPPLIER (port_at k pid) = true
      · have hne := supplier_ne hk.2.1 (Or.inl h1)
        simp only [h1, if_true]
        split_ifs <;> (try simp only []) <;>
          refine nga_accounted ?_ hk1 <;>
          repeat first
          | with_reducible exact h0
          | with_reducible apply nga_complete_port_disable
          | with_reducible apply nga_remove_leftovers
          | with_reducible apply nga_set_port_other _ hne
          | with_reducible apply nga_complete_transition
          | with_reducible apply nga_all_buffers_returned
          | with_reducible apply nga_emit
      · simp only [(Bool.not_eq_true _).mp h1, Bool.false_eq_true, if_false]
        split_ifs <;> (try simp only []) <;>
          refine nga_accounted ?_ hk1 <;>
          repeat first
          | with_reducible exact h0
          | with_reducible apply nga_emit
    · simp only [if_true, ne_eq, reduceCtorEq, not_false_eq_true]
      split_ifs <;> first
        | with_reducible exact hk
        | (exfalso; omega)
  · simp only [hck, ne_eq, not_false_eq_true, if_true]
    exact hk

/-- A step that gives no port a buffer keeps the accounting of every port. -/
theorem no_gain_accounting {k k1 : tizkernel} (h : no_gain k k1)
    (hacc : buffer_accounting k) : buffer_accounting k1 := by
  intro p hp
  rw [h.1] at hp
  have hs := h.2.1 p
  simp only [port_static, Prod.mk.injEq] at hs
  have hb : tizport_buffer_count (port_at k1 p) = tizport_buffer_count (port_at k p) := by
    unfold tizport_buffer_count; rw [hs.2.2.2.2.2]
  rw [hb]
  exact le_trans (h.2.2 p hp) (hacc p hp)

/-- Claim C11 (code bug): `kernel_claim_buffer (0, 0)` in `marked_claim_state`.
The header returned is `1`, the one that was at position `0`; the port's mark
is applied to header `2`, which followed it and is still in the ingress list,
and header `1` leaves unmarked.  The mark is read through `pp_hdr` after
`tiz_vector_erase` has moved the following header into that slot.  The
command is completed, the mark being owned by the port. -/
theorem C11_mark_goes_to_the_following_header :
    (kernel_claim_buffer marked_claim_state 0 0).2.2 = 1 ∧
    ingress_at (kernel_claim_buffer marked_claim_state 0 0).1 0 = [2, 3] ∧
    ((kernel_claim_buffer marked_claim_state 0 0).1.heap 1).pMarkData = 0 ∧
    ((kernel_claim_buffer marked_claim_state 0 0).1.heap 1).hMarkTargetComponent = 0 ∧
    ((kernel_claim_buffer marked_claim_state 0 0).1.heap 2).pMarkData = 55 ∧
    ((kernel_claim_buffer marked_claim_state 0 0).1.heap 2).hMarkTargetComponent = 9 ∧
    (kernel_claim_buffer marked_claim_state 0 0).1.port_marks 0 = [] ∧
    (kernel_claim_buffer marked_claim_state 0 0).1.trace =
      [Effect.issue_cmd_event OMX_CommandMarkBuffer 0 OMX_ErrorNone] := by
  decide

/-- Claim C12 (code bug): `kernel_get_population_status` for the single port `0`
of `populating_state`.  The status is `ETIZKernelUnpopulated` and the flag is
`OMX_FALSE` although the port is not tunnelled; the call for `OMX_ALL` on the
same state leaves the flag `OMX_TRUE`, because the loop over all ports tests
`TIZPORT_IS_TUNNELED` and the branch for one port does not. -/
theorem C12_single_port_flag_ignores_tunnel :
    TIZPORT_IS_TUNNELED (port_at populating_state 0) = false ∧
    kernel_get_population_status populating_state 0 true =
      (ETIZKernelUnpopulated, false) ∧
    kernel_get_population_status populating_state OMX_ALL true =
      (ETIZKernelUnpopulated, true) := by
  decide

/-- Claim C17 (code bug): `dispatch_port_flush` on the non-tunnelled input port of
`flush_input_state`.  Header `2`, which was in the egress list, is handed to
`EmptyBufferDone` with `nFilledLen = 0` instead of `100`; header `1`, which was
in the ingress list, leaves untouched.  This is the direction test of C1: the
egress headers are cleared when the port direction is `OMX_DirInput`. -/
theorem C17_flush_input_zeroes_egress_headers :
    (dispatch_port_flush flush_input_state (send_command OMX_CommandFlush 0)).1.trace =
      [Effect.issue_buf_callback 2 (tiz_clear_header hdr100) 0 OMX_DirInput 0,
       Effect.issue_buf_callback 1 hdr100 0 OMX_DirInput 0,
       Effect.issue_cmd_event OMX_CommandFlush 0 OMX_ErrorNone,
       Effect.fsm_complete_command OMX_CommandFlush 0] ∧
    (tiz_clear_header hdr100).nFilledLen = 0 ∧ hdr100.nFilledLen = 100 := by
  decide

/-! ## C13: the population status for `OMX_ALL` -/

theorem all_populated_iff (k : tizkernel) :
    all_populated k = true ↔
      ∀ p ∈ k.p_ports_, TIZPORT_IS_ENABLED p = true → TIZPORT_IS_POPULATED p = true := by
  unfold all_populated
  simp only [List.all_eq_true]
  constructor
  · intro h p hp he
    have := h p hp
    simp [he] at this
    exact this
  · intro h p hp
    have := h p hp
    cases he : TIZPORT_IS_ENABLED p <;> simp_all

theorem all_depopulated_iff (k : tizkernel) :
    all_depopulated k = true ↔ ∀ p ∈ k.p_ports_, tizport_buffer_count p = 0 := by
  unfold all_depopulated
  simp [List.all_eq_true]

/-- Claim C13.  `kernel_get_population_status (OMX_ALL)` returns
`ETIZKernelFullyPopulated` iff every enabled port is populated; when that is
not so it returns `ETIZKernelFullyUnpopulated` iff every port has
`buffer_count = 0`; when neither holds it returns `ETIZKernelUnpopulated`.  So
`ETIZKernelFullyUnpopulated` is never returned while a port has a buffer, and
`ETIZKernelFullyPopulated` never while an enabled port is unpopulated. -/
theorem C13_population_status_all (k : tizkernel) (flag : Bool) :
    ((kernel_get_population_status k OMX_ALL flag).1 = ETIZKernelFullyPopulated ↔
      ∀ p ∈ k.p_ports_, TIZPORT_IS_ENABLED p = true → TIZPORT_IS_POPULATED p = true) ∧
    ((kernel_get_population_status k OMX_ALL flag).1 = ETIZKernelFullyUnpopulated ↔
      (¬ ∀ p ∈ k.p_ports_, TIZPORT_IS_ENABLED p = true → TIZPORT_IS_POPULATED p = true) ∧
      ∀ p ∈ k.p_ports_, tizport_buffer_count p = 0) ∧
    ((kernel_get_population_status k OMX_ALL flag).1 = ETIZKernelUnpopulated ↔
      (¬ ∀ p ∈ k.p_ports_, TIZPORT_IS_ENABLED p = true → TIZPORT_IS_POPULATED p = true) ∧
      ¬ ∀ p ∈ k.p_ports_, tizport_buffer_count p = 0) := by
  rw [← all_populated_iff, ← all_depopulated_iff]
  unfold kernel_get_population_status
  cases all_populated k <;> cases all_depopulated k <;> simp

/-- Witness of C13 in `populating_state`: the one port is enabled, not populated
and has a buffer, and the status is `ETIZKernelUnpopulated`. -/
theorem C13_population_status_all_witness :
    (kernel_get_population_status populating_state OMX_ALL true).1 = ETIZKernelUnpopulated ∧
    ¬ ∀ p ∈ populating_state.p_ports_, tizport_buffer_count p = 0 :=
  ⟨by decide,
    ((C13_population_status_all populating_state true).2.2.mp (by decide)).2⟩

/-! ## C14: `kernel_select` -/

theorem kernel_select_loop_eq (k : tizkernel) (n : Nat) :
    ∀ (fuel i : Nat) (s : tiz_pd_set_t), n ≤ i + fuel →
      kernel_select_loop k n fuel i s =
        s ∪ (Finset.range n).filter (fun j => i ≤ j ∧ ingress_at k j ≠ []) := by
  intro fuel
  induction fuel with
  | zero =>
    intro i s h
    rw [kernel_select_loop]
    ext j
    simp only [Finset.mem_union, Finset.mem_filter, Finset.mem_range]
    constructor
    · intro hj; exact Or.inl hj
    · rintro (hj | ⟨h1, h2, _⟩)
      · exact hj
      · omega
  | succ fuel ih =>
    intro i s h
    rw [kernel_select_loop]
    split
    · rename_i hlt
      rw [ih (i + 1) _ (by omega)]
      ext j
      by_cases hne : ingress_at k i = []
      · simp only [hne, List.length_nil, gt_iff_lt, lt_self_iff_false, if_false,
          Finset.mem_union, Finset.mem_filter, Finset.mem_range]
        constructor
        · rintro (hj | ⟨h1, h2, h3⟩)
          · exact Or.inl hj
          · exact Or.inr ⟨h1, by omega, h3⟩
        · rintro (hj | ⟨h1, h2, h3⟩)
          · exact Or.inl hj
          · refine Or.inr ⟨h1, ?_, h3⟩
            rcases Nat.eq_or_lt_of_le h2 with heq | hlt2
            · subst heq; exact absurd hne h3
            · exact hlt2
      · have hpos : (ingress_at k i).length > 0 := List.length_pos.mpr hne
        simp only [hpos, if_true, TIZ_PD_SET, Finset.mem_union, Finset.mem_insert,
          Finset.mem_filter, Finset.mem_range]
        constructor
        · rintro ((hj | hj) | ⟨h1, h2, h3⟩)
          · subst hj; exact Or.inr ⟨hlt, le_refl _, hne⟩
          · exact Or.inl hj
          · exact Or.inr ⟨h1, by omega, h3⟩
        · rintro (hj | ⟨h1, h2, h3⟩)
          · exact Or.inl (Or.inr hj)
          · rcases Nat.eq_or_lt_of_le h2 with heq | hlt2
            · exact Or.inl (Or.inl heq.symm)
            · exact Or.inr ⟨h1, hlt2, h3⟩
    · rename_i hge
      ext j
      simp only [Finset.mem_union, Finset.mem_filter, Finset.mem_range]
      constructor
      · intro hj; exact Or.inl hj
      · rintro (hj | ⟨h1, h2, _⟩)
        · exact hj
        · omega

/-- Claim C14.  For every kernel, every `a_nports` and every input set `S`,
`kernel_select` returns `OMX_ErrorNone` and the set
`S ∪ { i | i < min (a_nports, N) and ingress[i] is not empty }`, with `N` the
number of data ports: an index is in the result iff it was in `S` or it is
below `min (a_nports, N)` and its ingress list is not empty.  No bit is
cleared (`S` is a subset of the result).  The function takes the kernel as a
`const` object and returns no new state. -/
theorem C14_select (k : tizkernel) (a_nports : Nat) (S : tiz_pd_set_t) :
    (kernel_select k a_nports S).1 = OMX_ErrorNone ∧
    (kernel_select k a_nports S).2 =
      S ∪ (Finset.range (min a_nports (nports k))).filter (fun i => ingress_at k i ≠ []) ∧
    S ⊆ (kernel_select k a_nports S).2 ∧
    (∀ i, i ∈ (kernel_select k a_nports S).2 ↔
      i ∈ S ∨ (i < min a_nports (nports k) ∧ ingress_at k i ≠ [])) := by
  have hmin : (if a_nports < nports k then a_nports else nports k) =
      min a_nports (nports k) := by
    split <;> omega
  have h2 : (kernel_select k a_nports S).2 =
      S ∪ (Finset.range (min a_nports (nports k))).filter
        (fun i => ingress_at k i ≠ []) := by
    unfold kernel_select
    simp only [hmin]
    rw [kernel_select_loop_eq k _ _ 0 S (by omega)]
    simp
  refine ⟨rfl, h2, ?_, ?_⟩
  · rw [h2]; exact Finset.subset_union_left
  · intro i; rw [h2]; simp

/-! ## C15: `kernel_find_managing_port` -/

theorem find_managing_port_loop_eq (find : tizport → Nat → OMX_ERRORTYPE) (a_index : Nat) :
    ∀ l : List tizport,
      (find_managing_port_loop find a_index l = OMX_ErrorNone ↔
        ∃ p ∈ l, find p a_index = OMX_ErrorNone) ∧
      (find_managing_port_loop find a_index l ≠ OMX_ErrorNone →
        find_managing_port_loop find a_index l = OMX_ErrorUnsupportedIndex) := by
  intro l
  induction l with
  | nil => simp [find_managing_port_loop]
  | cons p rest ih =>
    rw [find_managing_port_loop]
    by_cases h : find p a_index = OMX_ErrorNone
    · simp [h]
    · simp only [h, if_false, List.mem_cons, exists_eq_or_imp, false_or]
      exact ih

/-- Claim C15 is false as stated: in `two_port_state`, with the data port `0` the
only port that declares the index `5` and a structure that names port `1`,
`kernel_find_managing_port` succeeds and the port it returns does not declare
the index. -/
theorem C15_returned_port_need_not_declare_index :
    ¬ ((kernel_find_managing_port find_index0 two_port_state 5 [12, 1, 1]).1 = OMX_ErrorNone →
        declares find_index0 5
          (kernel_find_managing_port find_index0 two_port_state 5 [12, 1, 1]).2 = true) := by
  decide

/-- Claim C15, amended.  When the config port declares the index it is returned
with `OMX_ErrorNone` and the data ports are not consulted.  When it does not:
if no data port declares the index the result is `OMX_ErrorUnsupportedIndex`;
if some data port declares it and the port index read from the structure is
`≥ N` the result is `OMX_ErrorBadPortIndex`; if some data port declares it and
the port index read from the structure is `< N` the call succeeds and returns
the data port at that index, whether or not that port declares the index
itself. -/
theorem C15_find_managing_port (find : tizport → Nat → OMX_ERRORTYPE) (k : tizkernel)
    (a_index : Nat) (ap_struct : List Nat) :
    (declares find a_index k.p_cport_ = true →
      kernel_find_managing_port find k a_index ap_struct = (OMX_ErrorNone, k.p_cport_)) ∧
    (declares find a_index k.p_cport_ = false →
      (∀ p ∈ k.p_ports_, find p a_index ≠ OMX_ErrorNone) →
      kernel_find_managing_port find k a_index ap_struct =
        (OMX_ErrorUnsupportedIndex, none)) ∧
    (declares find a_index k.p_cport_ = false →
      (∃ p ∈ k.p_ports_, find p a_index = OMX_ErrorNone) →
      nports k ≤ port_index_of_struct ap_struct →
      kernel_find_managing_port find k a_index ap_struct = (OMX_ErrorBadPortIndex, none)) ∧
    (declares find a_index k.p_cport_ = false →
      (∃ p ∈ k.p_ports_, find p a_index = OMX_ErrorNone) →
      port_index_of_struct ap_struct < nports k →
      kernel_find_managing_port find k a_index ap_struct =
        (OMX_ErrorNone, some (port_at k (port_index_of_struct ap_struct)))) := by
  have hl := find_managing_port_loop_eq find a_index k.p_ports_
  have hc : (match k.p_cport_ with
      | some c => decide (find c a_index = OMX_ErrorNone)
      | none => false) = declares find a_index k.p_cport_ := rfl
  unfold kernel_find_managing_port
  simp only [hc]
  refine ⟨fun h => ?_, fun h hn => ?_, fun h he hge => ?_, fun h he hlt => ?_⟩
  · simp [h]
  · have h1 : find_managing_port_loop find a_index k.p_ports_ ≠ OMX_ErrorNone := by
      intro hh
      obtain ⟨p, hp, hf⟩ := hl.1.mp hh
      exact hn p hp hf
    simp [h, h1, hl.2 h1]
  · have h1 := hl.1.mpr he
    simp [h, h1, check_pid, hge]
  · have h1 := hl.1.mpr he
    simp [h, h1, check_pid, Nat.not_le.mpr hlt]

/-- Witness of C15, amended, in `two_port_state`: the structure names port `1`,
which is returned. -/
theorem C15_find_managing_port_witness :
    declares find_index0 5 two_port_state.p_cport_ = false ∧
    (∃ p ∈ two_port_state.p_ports_, find_index0 p 5 = OMX_ErrorNone) ∧
    port_index_of_struct [12, 1, 1] < nports two_port_state ∧
    kernel_find_managing_port find_index0 two_port_state 5 [12, 1, 1] =
      (OMX_ErrorNone, some (port_at two_port_state (port_index_of_struct [12, 1, 1]))) :=
  ⟨by decide, ⟨out_port, by decide, by decide⟩, by decide,
    (C15_find_managing_port find_index0 two_port_state 5 [12, 1, 1]).2.2.2 (by decide)
      ⟨out_port, by decide, by decide⟩ (by decide)⟩

/-! ## Draining the egress lists -/

theorem list_set_getD_self {α : Type} (l : List α) (i : Nat) (d : α) (h : l.getD i d = d) :
    l.set i d = l := by
  by_cases hi : i < l.length
  · rw [List.getD_eq_getElem _ _ hi] at h
    apply List.ext_getElem (by simp)
    intro j h1 h2
    by_cases hij : i = j
    · subst hij; simp [h]
    · simp [List.getElem_set_ne hij]
  · exact List.set_eq_of_length_le (Nat.le_of_not_lt hi)

theorem port_at_congr {k k1 : tizkernel} (h : k1.p_ports_ = k.p_ports_) (i : Nat) :
    port_at k1 i = port_at k i := by
  simp [port_at, h]

theorem egress_at_of_set {k k1 : tizkernel} {i : Nat} {l : List Nat}
    (h : k1.p_egress_ = k.p_egress_.set i l) (j : Nat) :
    egress_at k1 j = if i = j ∧ i < k.p_egress_.length then l else egress_at k j := by
  unfold egress_at; rw [h]; exact getD_set _ _ _ _ _

theorem peer_scount_congr {k k1 : tizkernel} (h : k1.peers = k.peers) (thdl : Nat) :
    peer_scount k1 thdl = peer_scount k thdl := by
  unfold peer_scount find_peer; rw [h]

theorem flush_egress_hdr_delivered (pid : Nat) (pdir : OMX_DIRTYPE) (thdl : Nat) (c : Bool)
    (p_hdr : Nat) (k : tizkernel) :
    delivered (flush_egress_hdr pid pdir thdl c p_hdr k) = delivered k ++ [(pid, p_hdr)] := by
  have hp := fun k1 => process_marks_trace k1 p_hdr pid k1.hdl is_buf_callback
    mark_effect_not_buf_callback
  unfold delivered
  simp only [flush_egress_hdr]
  split_ifs <;> simp [hp, tizservant_issue_event, tizservant_issue_buf_callback,
    tizport_populate_header, List.filter_append, is_buf_callback, callback_hdr]

theorem flush_egress_hdr_egress (pid : Nat) (pdir : OMX_DIRTYPE) (thdl : Nat) (c : Bool)
    (p_hdr : Nat) (k : tizkernel) :
    (flush_egress_hdr pid pdir thdl c p_hdr k).p_egress_ =
      k.p_egress_.set pid ((egress_at k pid).eraseIdx 0) := by
  have hp := fun k1 => process_marks_fixed k1 p_hdr pid k1.hdl
  simp only [buffers_fixed_but_heap, egress_fixed, Prod.mk.injEq] at hp
  have he : ∀ k1 : tizkernel, k1.p_egress_ = k.p_egress_ →
      (set_egress k1 pid ((egress_at k1 pid).eraseIdx 0)).p_egress_ =
        k.p_egress_.set pid ((egress_at k pid).eraseIdx 0) := by
    intro k1 h
    simp only [set_egress_self, egress_at_congr h, h]
  unfold flush_egress_hdr
  apply he
  simp only [tizservant_issue_buf_callback, emit_other]
  split_ifs <;> simp [hp, tizservant_issue_event, tizport_populate_header]

/-- The inner loop of `flush_egress` on a port whose peer, if any, has no
waiters: the egress list of the port is emptied, the other egress lists are
untouched, and the headers leave in the order of the list. -/
theorem flush_egress_list_drain (pid : Nat) (pdir : OMX_DIRTYPE) (thdl : Nat) (c : Bool) :
    ∀ (fuel : Nat) (k : tizkernel), peer_scount k thdl = 0 →
      (egress_at k pid).length ≤ fuel →
      (flush_egress_list pid pdir thdl c fuel k).p_egress_ = k.p_egress_.set pid [] ∧
      delivered (flush_egress_list pid pdir thdl c fuel k) =
        delivered k ++ (egress_at k pid).map (fun h => (pid, h)) := by
  intro fuel
  induction fuel with
  | zero =>
    intro k _ hl
    have hnil : egress_at k pid = [] := List.length_eq_zero.mp (Nat.le_zero.mp hl)
    rw [flush_egress_list]
    refine ⟨(list_set_getD_self _ _ _ hnil).symm, by simp [hnil]⟩
  | succ fuel ih =>
    intro k hs hl
    rw [flush_egress_list]
    split
    · rename_i hnil
      refine ⟨(list_set_getD_self _ _ _ hnil).symm, by simp [hnil]⟩
    · rename_i p_hdr rest heq
      simp only [hs, ne_eq, not_true_eq_false, if_false]
      have hlen : pid < k.p_egress_.length := by
        by_contra hc
        rw [egress_at_nil k pid (Nat.le_of_not_lt hc)] at heq
        exact absurd heq (by simp)
      have hfix := flush_egress_hdr_fixed pid pdir thdl c p_hdr k
      simp only [egress_fixed, Prod.mk.injEq] at hfix
      have heg := flush_egress_hdr_egress pid pdir thdl c p_hdr k
      rw [heq] at heg
      simp only [List.eraseIdx_cons_zero] at heg
      have hat : egress_at (flush_egress_hdr pid pdir thdl c p_hdr k) pid = rest := by
        rw [egress_at_of_set heg]; simp [hlen]
      obtain ⟨h1, h2⟩ := ih (flush_egress_hdr pid pdir thdl c p_hdr k)
        (by rw [peer_scount_congr (env_part_fields hfix.2.2.2.2.2).2.2.2.1]; exact hs)
        (by rw [hat]; rw [heq] at hl; simpa using hl)
      refine ⟨?_, ?_⟩
      · rw [h1, heg, List.set_set]
      · rw [h2, hat, flush_egress_hdr_delivered, heq]
        simp

theorem egress_queue_congr (k k1 : tizkernel) :
    ∀ (m i : Nat), (∀ j, i ≤ j → egress_at k1 j = egress_at k j) →
      egress_queue k1 m i = egress_queue k m i := by
  intro m
  induction m with
  | zero => intro i _; rfl
  | succ m ih =>
    intro i h
    rw [egress_queue, egress_queue, h i (le_refl _), ih (i + 1) (fun j hj => h j (by omega))]

/-- The outer loop of `flush_egress (OMX_ALL)` when no port is tunnelled: from
port `i` on every egress list is emptied, port by port. -/
theorem flush_egress_loop_drain (c : Bool) (n : Nat) :
    ∀ (fuel i : Nat) (k : tizkernel),
      (∀ j, tizport_get_tunnel_comp (port_at k j) = 0) → i < n → n ≤ i + fuel →
      (flush_egress_loop OMX_ALL c n fuel i k).p_ports_ = k.p_ports_ ∧
      (∀ j, egress_at (flush_egress_loop OMX_ALL c n fuel i k) j =
        if i ≤ j ∧ j < n then [] else egress_at k j) ∧
      delivered (flush_egress_loop OMX_ALL c n fuel i k) =
        delivered k ++ egress_queue k (n - i) i := by
  intro fuel
  induction fuel with
  | zero => intro i k _ h1 h2; omega
  | succ fuel ih =>
    intro i k hnt hi hn
    rw [flush_egress_loop]
    simp only [ne_eq, not_true_eq_false, if_false, hnt]
    have hs : peer_scount k 0 = 0 := by simp [peer_scount]
    obtain ⟨d1, d2⟩ := flush_egress_list_drain i (tizport_dir (port_at k i)) 0 c
      (egress_at k i).length k hs (le_refl _)
    have hfix := (flush_egress_list_frame i (tizport_dir (port_at k i)) 0 c
      (fun _ => false) (fun _ _ => rfl) (egress_at k i).length k).1
    simp only [egress_fixed, Prod.mk.injEq] at hfix
    have hat : ∀ j, egress_at (flush_egress_list i (tizport_dir (port_at k i)) 0 c
        (egress_at k i).length k) j = if i = j then [] else egress_at k j := by
      intro j
      rw [egress_at_of_set d1]
      by_cases hij : i = j
      · subst hij
        by_cases hl : i < k.p_egress_.length
        · simp [hl]
        · simp [hl, egress_at_nil k i (Nat.le_of_not_lt hl)]
      · simp [hij]
    split
    · rename_i hlt
      obtain ⟨h0, h1, h2⟩ := ih (i + 1) (flush_egress_list i (tizport_dir (port_at k i)) 0 c
        (egress_at k i).length k)
        (fun j => by rw [port_at_congr hfix.1]; exact hnt j) hlt.2 (by omega)
      refine ⟨h0.trans hfix.1, fun j => ?_, ?_⟩
      · rw [h1 j, hat j]
        by_cases hij : i = j
        · subst hij; simp [hi]
        · by_cases hj : i + 1 ≤ j ∧ j < n
          · have : i ≤ j ∧ j < n := ⟨by omega, hj.2⟩
            simp [hj, this]
          · have : ¬ (i ≤ j ∧ j < n) := by omega
            simp [hj, this, hij]
      · rw [h2, d2, egress_queue_congr k _ _ _
          (fun j hj => by rw [hat j]; simp; omega)]
        have hm : n - i = (n - (i + 1)) + 1 := by omega
        rw [hm, egress_queue]
        simp
    · rename_i hge
      have hn1 : n = i + 1 := by
        simp only [true_and, not_lt] at hge; omega
      refine ⟨hfix.1, fun j => ?_, ?_⟩
      · rw [hat j]
        by_cases hij : i = j
        · subst hij; simp [hi]
        · have : ¬ (i ≤ j ∧ j < n) := by omega
          simp [hij, this]
      · rw [d2, hn1]
        simp [egress_queue]

/-- With no port tunnelled, `flush_egress (OMX_ALL)` empties the egress list of
every port and hands out the headers port by port in list order. -/
theorem flush_egress_all_drain (k : tizkernel) (c : Bool)
    (hnt : ∀ j, tizport_get_tunnel_comp (port_at k j) = 0) (hn : 0 < nports k) :
    (flush_egress k OMX_ALL c).1.p_ports_ = k.p_ports_ ∧
    (∀ j, egress_at (flush_egress k OMX_ALL c).1 j =
      if j < nports k then [] else egress_at k j) ∧
    delivered (flush_egress k OMX_ALL c).1 = delivered k ++ egress_queue k (nports k) 0 := by
  have h := flush_egress_loop_drain c (nports k) (nports k + 1) 0 k hnt hn (by omega)
  simpa [flush_egress] using h

/-! ## C16: the egress list after a flush -/

theorem complete_port_flush_frame (k : tizkernel) (p : Nat) (e : OMX_ERRORTYPE) :
    (complete_port_flush k p e).1.p_ports_ =
      k.p_ports_.set p (TIZPORT_CLEAR_FLUSH_IN_PROGRESS (port_at k p)) ∧
    (complete_port_flush k p e).1.p_ingress_ = k.p_ingress_ ∧
    (complete_port_flush k p e).1.p_egress_ = k.p_egress_ ∧
    (complete_port_flush k p e).1.cmd_completion_count_ = k.cmd_completion_count_ - 1 ∧
    env_part (complete_port_flush k p e).1 = env_part k ∧
    (complete_port_flush k p e).1.trace = k.trace ++
      (Effect.issue_cmd_event OMX_CommandFlush p e ::
        if k.cmd_completion_count_ - 1 = 0 then [Effect.fsm_complete_command OMX_CommandFlush p]
        else []) := by
  unfold complete_port_flush
  simp only []
  split_ifs <;>
    simp_all [tizservant_issue_cmd_event, tizfsm_complete_command]

theorem dispatch_port_flush_single (k : tizkernel) (sc : tizkernel_msg_sendcommand_t)
    (hall : sc.param1 ≠ OMX_ALL) (hlt : sc.param1 < nports k) :
    dispatch_port_flush k sc =
      ((dispatch_port_flush_body sc (tizfsm_get_substate k) sc.param1 (set_count k 1)
        OMX_ErrorNone).1, OMX_ErrorNone) := by
  have hne : OMX_ALL ≠ sc.param1 := fun h => hall h.symm
  have hck : check_pid k sc.param1 = OMX_ErrorNone := by
    simp [check_pid, Nat.not_le.mpr hlt]
  unfold dispatch_port_flush
  simp only [hck, hne, ne_eq, not_true_eq_false, and_false, if_false, if_neg hne.symm]
  rw [dispatch_port_flush_loop]
  simp only [hne, ne_eq, not_false_eq_true, if_true, false_and, if_false]

theorem flush_egress_rc (k : tizkernel) (p : Nat) (c : Bool) :
    (flush_egress k p c).2 = OMX_ErrorNone := rfl

/-- A single non-tunnelled port: `flush_egress` empties its egress list. -/
theorem flush_egress_single_drain (k : tizkernel) (p : Nat) (c : Bool) (hall : p ≠ OMX_ALL)
    (hnt : tizport_get_tunnel_comp (port_at k p) = 0) :
    egress_at (flush_egress k p c).1 p = [] := by
  rw [flush_egress_single k p c hall, hnt]
  have h := (flush_egress_list_drain p (tizport_dir (port_at k p)) 0 c
    (egress_at k p).length k (by simp [peer_scount]) (le_refl _)).1
  rw [egress_at_of_set h]
  by_cases hl : p < k.p_egress_.length
  · simp [hl]
  · simp [hl, egress_at_nil k p (Nat.le_of_not_lt hl)]

theorem dispatch_port_flush_body_eq (sc : tizkernel_msg_sendcommand_t)
    (now : tizfsm_state_id_t) (pid : Nat) (k : tizkernel) (rc : OMX_ERRORTYPE) :
    dispatch_port_flush_body sc now pid k rc =
      if (dispatch_port_flush_lists now pid k rc).2 ≠ OMX_ErrorNone then
        ((complete_port_flush (dispatch_port_flush_lists now pid k rc).1 pid
          (dispatch_port_flush_lists now pid k rc).2).1,
         (dispatch_port_flush_lists now pid k rc).2)
      else if TIZPORT_GET_CLAIMED_COUNT
          (port_at (dispatch_port_flush_lists now pid k rc).1 pid) = 0 then
        ((complete_port_flush (dispatch_port_flush_lists now pid k rc).1 pid
          OMX_ErrorNone).1, (dispatch_port_flush_lists now pid k rc).2)
      else
        (emit (set_port (dispatch_port_flush_lists now pid k rc).1 pid
            (TIZPORT_SET_FLUSH_IN_PROGRESS
              (port_at (dispatch_port_flush_lists now pid k rc).1 pid)))
          (Effect.prc_SendCommand sc.cmd pid), OMX_ErrorNone) := rfl

theorem flush_frame_refl (k : tizkernel) : flush_frame k k :=
  ⟨rfl, rfl, rfl, fun _ _ => rfl⟩

theorem ff_clear_hdr_lst {k k1 : tizkernel} (l : List (List Nat)) (p : Nat)
    (h : flush_frame k k1) : flush_frame k (clear_hdr_lst k1 l p).1 := by
  have hc := clear_hdr_lst_fixed k1 l p
  simp only [heap_free, egress_fixed, Prod.mk.injEq] at hc
  exact ⟨hc.1.1.trans h.1, hc.1.2.2.1.trans h.2.1, hc.1.2.2.2.2.2.trans h.2.2.1,
    fun π hπ => by rw [hc.2.2.2.2.1]; exact h.2.2.2 π hπ⟩

theorem ff_move_to_egress {k k1 : tizkernel} (p : Nat)
    (h : flush_frame k k1) : flush_frame k (move_to_egress k1 p).1 := by
  have hm := move_to_egress_fixed k1 p
  simp only [lists_free, Prod.mk.injEq] at hm
  exact ⟨hm.1.trans h.1, hm.2.1.trans h.2.1, hm.2.2.2.1.trans h.2.2.1,
    fun π hπ => by rw [hm.2.2.2.2.2.2.1]; exact h.2.2.2 π hπ⟩

theorem ff_move_to_ingress {k k1 : tizkernel} (p : Nat)
    (h : flush_frame k k1) : flush_frame k (move_to_ingress k1 p).1 := by
  have hm := move_to_ingress_fixed k1 p
  simp only [lists_free, Prod.mk.injEq] at hm
  exact ⟨hm.1.trans h.1, hm.2.1.trans h.2.1, hm.2.2.2.1.trans h.2.2.1,
    fun π hπ => by rw [hm.2.2.2.2.2.2.1]; exact h.2.2.2 π hπ⟩

theorem ff_flush_egress {k k1 : tizkernel} (p : Nat) (c : Bool)
    (h : flush_frame k k1) : flush_frame k (flush_egress k1 p c).1 := by
  have hf := fun π hπ => flush_egress_frame k1 p c π hπ
  simp only [egress_fixed, Prod.mk.injEq] at hf
  have h0 := (hf (fun _ => false) (fun _ _ => rfl)).1
  exact ⟨h0.1.trans h.1, h0.2.2.1.trans h.2.1, h0.2.2.2.2.2.trans h.2.2.1,
    fun π hπ => by rw [(hf π hπ).2.2]; exact h.2.2.2 π hπ⟩

theorem dispatch_port_flush_lists_frame (now : tizfsm_state_id_t) (p : Nat) (k : tizkernel)
    (rc : OMX_ERRORTYPE) : flush_frame k (dispatch_port_flush_lists now p k rc).1 := by
  have h0 := flush_frame_refl k
  unfold dispatch_port_flush_lists
  simp only []
  split_ifs <;> (try simp only []) <;>
    repeat first
    | with_reducible exact h0
    | with_reducible apply ff_flush_egress
    | with_reducible apply ff_move_to_egress
    | with_reducible apply ff_move_to_ingress
    | with_reducible apply ff_clear_hdr_lst

theorem move_to_egress_rc (k : tizkernel) (p : Nat) (h : k.vec_oom = false) :
    ((move_to_egress k p).2 < 0) = False := by
  simp [move_to_egress, tiz_vector_append, h]

theorem move_to_ingress_rc (k : tizkernel) (p : Nat) (h : k.vec_oom = false) :
    ((move_to_ingress k p).2 < 0) = False := by
  simp [move_to_ingress, tiz_vector_append, h]

theorem clear_hdr_lst_oom (k : tizkernel) (l : List (List Nat)) (p : Nat) :
    (clear_hdr_lst k l p).1.vec_oom = k.vec_oom := by
  have hc := clear_hdr_lst_fixed k l p
  simp only [heap_free, egress_fixed, Prod.mk.injEq] at hc
  exact (env_part_fields hc.1.2.2.2.2.2).2.2.2.2.1

/-- Without allocation failure the list handling of a flush reports no error. -/
theorem dispatch_port_flush_lists_rc (now : tizfsm_state_id_t) (p : Nat) (k : tizkernel)
    (hoom : k.vec_oom = false) :
    (dispatch_port_flush_lists now p k OMX_ErrorNone).2 = OMX_ErrorNone := by
  have h1 := move_to_egress_rc k p hoom
  have h2 := fun l => move_to_egress_rc (clear_hdr_lst k l p).1 p
    ((clear_hdr_lst_oom k l p).trans hoom)
  have h3 := fun l => move_to_ingress_rc (clear_hdr_lst k l p).1 p
    ((clear_hdr_lst_oom k l p).trans hoom)
  unfold dispatch_port_flush_lists
  have e1 : ¬ (move_to_egress k p).2 < 0 := by rw [h1]; exact not_false
  have e2 : ¬ (move_to_egress (clear_hdr_lst k k.p_egress_ p).1 p).2 < 0 := by
    rw [h2]; exact not_false
  have e3 : ¬ (move_to_egress (clear_hdr_lst k k.p_ingress_ p).1 p).2 < 0 := by
    rw [h2]; exact not_false
  have e4 : ¬ (move_to_ingress (clear_hdr_lst k k.p_egress_ p).1 p).2 < 0 := by
    rw [h3]; exact not_false
  simp only [h1, h2, h3, if_false, if_true, flush_egress_rc]
  split_ifs <;> rfl

/-- A real callback whose header may leave (the FSM is not in `Pause`, or the
port is being flushed), without allocation failure: the body of `dispatch_cb`
after the early returns. -/
theorem dispatch_cb_real (k : tizkernel) (cb : tizkernel_msg_callback_t)
    (hgate : ¬ (k.fsm_substate = EStatePause ∧
      TIZPORT_IS_BEING_FLUSHED (port_at k cb.pid) = false))
    (hh : cb.p_hdr ≠ 0) (hoom : k.vec_oom = false) :
    dispatch_cb k cb =
      if 0 = (TIZPORT_DEC_CLAIMED_COUNT (port_at k cb.pid)).2 then
        if k.fsm_substate = ESubStateExecutingToIdle ∨
            k.fsm_substate = ESubStatePauseToIdle then
          if (all_buffers_returned (callback_completed k cb)).2 = true then
            tizfsm_complete_transition (all_buffers_returned (callback_completed k cb)).1
              OMX_StateIdle.toNat
          else ((all_buffers_returned (callback_completed k cb)).1, OMX_ErrorNone)
        else (callback_completed k cb, OMX_ErrorNone)
      else (callback_flushed k cb, OMX_ErrorNone) := by
  unfold dispatch_cb callback_completed callback_flushed callback_pushed
  simp only [tizfsm_get_substate, hgate, if_false, hh, false_and, tiz_vector_push_back, hoom,
    Bool.false_eq_true, if_true, set_egress_other, flush_egress_rc]
  split_ifs <;> rfl

theorem transition_frame_refl (x : tizkernel) : transition_frame x x :=
  ⟨rfl, rfl, rfl, rfl, rfl, fun _ _ => rfl⟩

/-- What a real callback leaves behind: the state after the completion step, up
to the EOS latch and a signalled transition, when the claimed count has reached
`0`; the state after the flush of the egress lists otherwise. -/
theorem dispatch_cb_real_cases (k : tizkernel) (cb : tizkernel_msg_callback_t)
    (hgate : ¬ (k.fsm_substate = EStatePause ∧
      TIZPORT_IS_BEING_FLUSHED (port_at k cb.pid) = false))
    (hh : cb.p_hdr ≠ 0) (hoom : k.vec_oom = false) :
    (0 = (TIZPORT_DEC_CLAIMED_COUNT (port_at k cb.pid)).2 →
      transition_frame (callback_completed k cb) (dispatch_cb k cb).1) ∧
    (0 ≠ (TIZPORT_DEC_CLAIMED_COUNT (port_at k cb.pid)).2 →
      (dispatch_cb k cb).1 = callback_flushed k cb) := by
  rw [dispatch_cb_real k cb hgate hh hoom]
  refine ⟨fun h0 => ?_, fun h0 => by simp [h0]⟩
  simp only [h0, if_true]
  have hb := all_buffers_returned_fixed (callback_completed k cb)
  split_ifs
  · rcases hb with hb | hb <;> rw [hb] <;>
      exact ⟨rfl, rfl, rfl, rfl, rfl, fun π hπ => by
        simp [tizfsm_complete_transition, List.filter_append, hπ]⟩
  · rcases hb with hb | hb <;> simp only [hb] <;>
      exact ⟨rfl, rfl, rfl, rfl, rfl, fun _ _ => rfl⟩
  · exact transition_frame_refl _

/-- The state after the flush step of a real callback, seen from the state
before the callback. -/
theorem callback_flushed_frame (k : tizkernel) (cb : tizkernel_msg_callback_t) :
    (callback_flushed k cb).p_ports_ =
      k.p_ports_.set cb.pid (TIZPORT_DEC_CLAIMED_COUNT (port_at k cb.pid)).1 ∧
    (callback_flushed k cb).p_ingress_ = k.p_ingress_ ∧
    (callback_flushed k cb).cmd_completion_count_ = k.cmd_completion_count_ ∧
    env_part (callback_flushed k cb) = env_part k ∧
    ∀ π : Effect → Bool, (∀ e, egress_effect e = true → π e = false) →
      (callback_flushed k cb).trace.filter π = k.trace.filter π := by
  have hf := fun π hπ => flush_egress_frame (callback_pushed k cb) OMX_ALL false π hπ
  simp only [egress_fixed, Prod.mk.injEq] at hf
  have h0 := (hf (fun _ => false) (fun _ _ => rfl)).1
  unfold callback_flushed
  refine ⟨h0.1.trans ?_, h0.2.1.trans ?_, h0.2.2.1.trans ?_, h0.2.2.2.2.2.trans ?_,
    fun π hπ => ((hf π hπ).2.2).trans ?_⟩ <;> simp [callback_pushed]

theorem is_completion_not_transition (cmd : OMX_COMMANDTYPE) :
    ∀ s, is_completion cmd (Effect.fsm_complete_transition s) = false := fun _ => rfl

/-- Claim C18.  Let `p` be a valid port and let no list operation run out of
memory.  If `claimed_count (p) > 0` when `dispatch_port_flush (p)` runs, the
port record only gains `flush_in_progress`, the command is forwarded to the
processor, no completion of `OMX_CommandFlush` is issued and
`cmd_completion_count_` stays at the `1` it was set to.  If
`claimed_count (p) = 0` the command is completed there: one
`CommandComplete (Flush, p, OMX_ErrorNone)`, the FSM is told, the counter is
`0`.  In any state in which `p` is being flushed, the dispatch of a real
callback for `p` completes the flush exactly when it brings the claimed count
to `0`: then, `cmd_completion_count_` being positive as `complete_port_flush`
asserts (line 429), `flush_in_progress` is cleared, exactly one
`CommandComplete (Flush, p, OMX_ErrorNone)` is issued and the counter is
decremented (the FSM being told when it reaches `0`); otherwise the port stays
in flush with its claimed count one lower and nothing is completed. -/
theorem C18_flush_deferred (k : tizkernel) (sc : tizkernel_msg_sendcommand_t)
    (hall : sc.param1 ≠ OMX_ALL) (hlt : sc.param1 < nports k) (hoom : k.vec_oom = false) :
    (0 < TIZPORT_GET_CLAIMED_COUNT (port_at k sc.param1) →
      port_at (dispatch_port_flush k sc).1 sc.param1 =
        TIZPORT_SET_FLUSH_IN_PROGRESS (port_at k sc.param1) ∧
      (dispatch_port_flush k sc).1.trace.filter is_prc_command =
        k.trace.filter is_prc_command ++ [Effect.prc_SendCommand sc.cmd sc.param1] ∧
      (dispatch_port_flush k sc).1.trace.filter (is_completion OMX_CommandFlush) =
        k.trace.filter (is_completion OMX_CommandFlush) ∧
      (dispatch_port_flush k sc).1.cmd_completion_count_ = 1) ∧
    (TIZPORT_GET_CLAIMED_COUNT (port_at k sc.param1) = 0 →
      port_at (dispatch_port_flush k sc).1 sc.param1 =
        TIZPORT_CLEAR_FLUSH_IN_PROGRESS (port_at k sc.param1) ∧
      (dispatch_port_flush k sc).1.trace.filter (is_completion OMX_CommandFlush) =
        k.trace.filter (is_completion OMX_CommandFlush) ++
          [Effect.issue_cmd_event OMX_CommandFlush sc.param1 OMX_ErrorNone,
           Effect.fsm_complete_command OMX_CommandFlush sc.param1] ∧
      (dispatch_port_flush k sc).1.cmd_completion_count_ = 0) ∧
    (∀ (k2 : tizkernel) (cb : tizkernel_msg_callback_t), k2.vec_oom = false →
      cb.pid < nports k2 → cb.p_hdr ≠ 0 →
      TIZPORT_IS_BEING_FLUSHED (port_at k2 cb.pid) = true →
      (TIZPORT_GET_CLAIMED_COUNT (port_at k2 cb.pid) = 1 → 0 < k2.cmd_completion_count_ →
        TIZPORT_IS_BEING_FLUSHED (port_at (dispatch_cb k2 cb).1 cb.pid) = false ∧
        TIZPORT_GET_CLAIMED_COUNT (port_at (dispatch_cb k2 cb).1 cb.pid) = 0 ∧
        (dispatch_cb k2 cb).1.trace.filter (is_completion OMX_CommandFlush) =
          k2.trace.filter (is_completion OMX_CommandFlush) ++
            (Effect.issue_cmd_event OMX_CommandFlush cb.pid OMX_ErrorNone ::
              if k2.cmd_completion_count_ - 1 = 0 then
                [Effect.fsm_complete_command OMX_CommandFlush cb.pid]
              else []) ∧
        (dispatch_cb k2 cb).1.cmd_completion_count_ = k2.cmd_completion_count_ - 1) ∧
      (TIZPORT_GET_CLAIMED_COUNT (port_at k2 cb.pid) ≠ 1 →
        TIZPORT_IS_BEING_FLUSHED (port_at (dispatch_cb k2 cb).1 cb.pid) = true ∧
        TIZPORT_GET_CLAIMED_COUNT (port_at (dispatch_cb k2 cb).1 cb.pid) =
          TIZPORT_GET_CLAIMED_COUNT (port_at k2 cb.pid) - 1 ∧
        (dispatch_cb k2 cb).1.trace.filter (is_completion OMX_CommandFlush) =
          k2.trace.filter (is_completion OMX_CommandFlush) ∧
        (dispatch_cb k2 cb).1.cmd_completion_count_ = k2.cmd_completion_count_)) := by
  have hw := dispatch_port_flush_lists_frame (tizfsm_get_substate k) sc.param1
    (set_count k 1) OMX_ErrorNone
  have hrc := dispatch_port_flush_lists_rc (tizfsm_get_substate k) sc.param1
    (set_count k 1) hoom
  obtain ⟨hw1, hw2, _, hw4⟩ := hw
  have hport : port_at (dispatch_port_flush_lists (tizfsm_get_substate k) sc.param1
      (set_count k 1) OMX_ErrorNone).1 sc.param1 = port_at k sc.param1 :=
    port_at_congr hw1 _
  have hn : sc.param1 < (dispatch_port_flush_lists (tizfsm_get_substate k) sc.param1
      (set_count k 1) OMX_ErrorNone).1.p_ports_.length := by
    rw [hw1]; exact hlt
  have hcomp := hw4 (is_completion OMX_CommandFlush)
    (egress_effect_not_completion _ (by decide))
  have hprc := hw4 is_prc_command egress_effect_not_prc_command
  refine ⟨fun hc => ?_, fun hc => ?_, fun k2 cb hoom2 hlt2 hh hfl => ?_⟩
  · have hne : ¬ TIZPORT_GET_CLAIMED_COUNT (port_at k sc.param1) = 0 := by omega
    rw [dispatch_port_flush_single k sc hall hlt, dispatch_port_flush_body_eq]
    simp only [hrc, ne_eq, not_true_eq_false, if_false, hport, hne]
    refine ⟨?_, ?_, ?_, ?_⟩
    · simp [nports, hn]
    · simp only [emit_self, set_port_other, List.filter_append, hprc]
      rfl
    · simp only [emit_self, set_port_other, List.filter_append, hcomp]
      simp [is_completion]
    · simp only [emit_other, set_port_other, hw2]
      rfl
  · rw [dispatch_port_flush_single k sc hall hlt, dispatch_port_flush_body_eq]
    simp only [hrc, ne_eq, not_true_eq_false, if_false, hport, hc, if_true]
    obtain ⟨c1, _, _, c4, _, c6⟩ := complete_port_flush_frame
      (dispatch_port_flush_lists (tizfsm_get_substate k) sc.param1 (set_count k 1)
        OMX_ErrorNone).1 sc.param1 OMX_ErrorNone
    have hcnt : (dispatch_port_flush_lists (tizfsm_get_substate k) sc.param1 (set_count k 1)
        OMX_ErrorNone).1.cmd_completion_count_ = 1 := hw2
    refine ⟨?_, ?_, ?_⟩
    · rw [port_at_of_ports c1 hn, hport]
    · rw [c6, hcnt, List.filter_append, hcomp]
      simp [is_completion]
    · rw [c4, hcnt]
  · have hgate : ¬ (k2.fsm_substate = EStatePause ∧
        TIZPORT_IS_BEING_FLUSHED (port_at k2 cb.pid) = false) := by
      simp [hfl]
    obtain ⟨hz, hnz⟩ := dispatch_cb_real_cases k2 cb hgate hh hoom2
    obtain ⟨f1, _, f3, _, f5⟩ := callback_flushed_frame k2 cb
    have hpf : port_at (callback_flushed k2 cb) cb.pid =
        (TIZPORT_DEC_CLAIMED_COUNT (port_at k2 cb.pid)).1 := port_at_of_ports f1 hlt2
    have hfc := f5 (is_completion OMX_CommandFlush)
      (egress_effect_not_completion _ (by decide))
    have hfl2 : TIZPORT_IS_BEING_FLUSHED
        (TIZPORT_DEC_CLAIMED_COUNT (port_at k2 cb.pid)).1 = true := hfl
    refine ⟨fun h1 _ => ?_, fun h1 => ?_⟩
    · have hd : 0 = (TIZPORT_DEC_CLAIMED_COUNT (port_at k2 cb.pid)).2 := by
        simp only [TIZPORT_DEC_CLAIMED_COUNT, TIZPORT_GET_CLAIMED_COUNT] at h1 ⊢
        omega
      obtain ⟨t1, _, _, t4, _, t6⟩ := hz hd
      have hcc : callback_completed k2 cb =
          (complete_port_flush (callback_flushed k2 cb) cb.pid OMX_ErrorNone).1 := by
        unfold callback_completed
        rw [hpf, hfl2]; rfl
      obtain ⟨c1, _, _, c4, _, c6⟩ := complete_port_flush_frame (callback_flushed k2 cb)
        cb.pid OMX_ErrorNone
      have hlen : cb.pid < (callback_flushed k2 cb).p_ports_.length := by
        rw [f1]; simpa [nports] using hlt2
      have hpr : port_at (dispatch_cb k2 cb).1 cb.pid =
          TIZPORT_CLEAR_FLUSH_IN_PROGRESS
            (TIZPORT_DEC_CLAIMED_COUNT (port_at k2 cb.pid)).1 := by
        rw [port_at_congr t1, hcc, port_at_of_ports c1 hlen, hpf]
      refine ⟨?_, ?_, ?_, ?_⟩
      · rw [hpr]; rfl
      · rw [hpr]
        simp only [TIZPORT_DEC_CLAIMED_COUNT, TIZPORT_GET_CLAIMED_COUNT,
          TIZPORT_CLEAR_FLUSH_IN_PROGRESS] at h1 ⊢
        omega
      · rw [t6 _ (is_completion_not_transition _), hcc, c6, f3, List.filter_append, hfc]
        split <;> simp [is_completion]
      · rw [t4, hcc, c4, f3]
    · have hd : 0 ≠ (TIZPORT_DEC_CLAIMED_COUNT (port_at k2 cb.pid)).2 := by
        simp only [TIZPORT_DEC_CLAIMED_COUNT, TIZPORT_GET_CLAIMED_COUNT] at h1 ⊢
        omega
      rw [hnz hd]
      refine ⟨?_, ?_, hfc, f3⟩
      · rw [hpf]; exact hfl2
      · rw [hpf]; rfl

/-- Witness of C18 in `flush_wait_state`: the processor holds header `1`, the
flush is deferred, and the callback that returns header `1` completes it: the
port is then being flushed with a claimed count of `1`, the counter is `1`, and
the callback leaves it at `0`. -/
theorem C18_flush_deferred_witness :
    0 < TIZPORT_GET_CLAIMED_COUNT (port_at flush_wait_state 0) ∧
    (dispatch_port_flush flush_wait_state (send_command OMX_CommandFlush 0)).1.trace =
      [Effect.issue_buf_callback 2 default 0 OMX_DirOutput 0,
       Effect.prc_SendCommand OMX_CommandFlush 0] ∧
    (dispatch_cb (dispatch_port_flush flush_wait_state (send_command OMX_CommandFlush 0)).1
      { p_hdr := 1, pid := 0, dir := OMX_DirOutput }).1.trace =
      [Effect.issue_buf_callback 2 default 0 OMX_DirOutput 0,
       Effect.prc_SendCommand OMX_CommandFlush 0,
       Effect.issue_buf_callback 1 default 0 OMX_DirOutput 0,
       Effect.issue_cmd_event OMX_CommandFlush 0 OMX_ErrorNone,
       Effect.fsm_complete_command OMX_CommandFlush 0] ∧
    (dispatch_port_flush flush_wait_state
      (send_command OMX_CommandFlush 0)).1.cmd_completion_count_ = 1 ∧
    TIZPORT_IS_BEING_FLUSHED
      (port_at (dispatch_port_flush flush_wait_state (send_command OMX_CommandFlush 0)).1 0)
      = true ∧
    TIZPORT_GET_CLAIMED_COUNT
      (port_at (dispatch_port_flush flush_wait_state (send_command OMX_CommandFlush 0)).1 0)
      = 1 ∧
    0 < (dispatch_port_flush flush_wait_state
      (send_command OMX_CommandFlush 0)).1.cmd_completion_count_ ∧
    (dispatch_cb (dispatch_port_flush flush_wait_state (send_command OMX_CommandFlush 0)).1
      { p_hdr := 1, pid := 0, dir := OMX_DirOutput }).1.cmd_completion_count_ =
      (dispatch_port_flush flush_wait_state
        (send_command OMX_CommandFlush 0)).1.cmd_completion_count_ - 1 :=
  ⟨by decide, by decide, by decide,
    ((C18_flush_deferred flush_wait_state (send_command OMX_CommandFlush 0) (by decide)
      (by decide) (by decide)).1 (by decide)).2.2.2,
    by decide, by decide, by decide,
    (((C18_flush_deferred flush_wait_state (send_command OMX_CommandFlush 0) (by decide)
      (by decide) (by decide)).2.2
        (dispatch_port_flush flush_wait_state (send_command OMX_CommandFlush 0)).1
        { p_hdr := 1, pid := 0, dir := OMX_DirOutput }
        (by decide) (by decide) (by decide) (by decide)).1 (by decide) (by decide)).2.2.2⟩

/-! ## C19: a callback outside Pause -/

theorem dispatch_cb_dummy (k : tizkernel) (cb : tizkernel_msg_callback_t)
    (hgate : ¬ (k.fsm_substate = EStatePause ∧
      TIZPORT_IS_BEING_FLUSHED (port_at k cb.pid) = false))
    (hh : cb.p_hdr = 0) (hd : cb.dir = OMX_DirMax) :
    dispatch_cb k cb = flush_egress k OMX_ALL false := by
  unfold dispatch_cb
  simp only [tizfsm_get_substate, hgate, if_false, hh, hd, and_self, if_true]

theorem callback_completed_frame (k : tizkernel) (cb : tizkernel_msg_callback_t) :
    (callback_completed k cb).p_egress_ = (callback_flushed k cb).p_egress_ ∧
    delivered (callback_completed k cb) = delivered (callback_flushed k cb) ∧
    ∀ j, TIZPORT_GET_CLAIMED_COUNT (port_at (callback_completed k cb) j) =
      TIZPORT_GET_CLAIMED_COUNT (port_at (callback_flushed k cb) j) := by
  unfold callback_completed
  split_ifs
  · obtain ⟨c1, _, c3, _, _, c6⟩ := complete_port_flush_frame (callback_flushed k cb)
      cb.pid OMX_ErrorNone
    refine ⟨c3, ?_, fun j => ?_⟩
    · unfold delivered
      rw [c6, List.filter_append]
      split_ifs <;> simp [is_buf_callback]
    · unfold port_at
      rw [c1, getD_set]
      split_ifs with h
      · rw [← h.1]; rfl
      · rfl
  · exact ⟨rfl, rfl, fun _ => rfl⟩

/-- What a real callback leaves behind, seen from the state after the flush of
the egress lists: the same egress lists, the same deliveries and the same
claimed counts. -/
theorem dispatch_cb_real_frame (k : tizkernel) (cb : tizkernel_msg_callback_t)
    (hgate : ¬ (k.fsm_substate = EStatePause ∧
      TIZPORT_IS_BEING_FLUSHED (port_at k cb.pid) = false))
    (hh : cb.p_hdr ≠ 0) (hoom : k.vec_oom = false) :
    (dispatch_cb k cb).1.p_egress_ = (callback_flushed k cb).p_egress_ ∧
    delivered (dispatch_cb k cb).1 = delivered (callback_flushed k cb) ∧
    ∀ j, TIZPORT_GET_CLAIMED_COUNT (port_at (dispatch_cb k cb).1 j) =
      TIZPORT_GET_CLAIMED_COUNT (port_at (callback_flushed k cb) j) := by
  obtain ⟨hz, hnz⟩ := dispatch_cb_real_cases k cb hgate hh hoom
  obtain ⟨c1, c2, c3⟩ := callback_completed_frame k cb
  by_cases h0 : 0 = (TIZPORT_DEC_CLAIMED_COUNT (port_at k cb.pid)).2
  · obtain ⟨t1, _, t3, _, _, t6⟩ := hz h0
    refine ⟨t3.trans c1, ?_, fun j => ?_⟩
    · rw [← c2]
      unfold delivered
      rw [t6 is_buf_callback (fun _ => rfl)]
    · rw [port_at_congr t1, c3]
  · rw [hnz h0]
    exact ⟨rfl, rfl, fun _ => rfl⟩

theorem egress_queue_count_zero (k : tizkernel) (h : Nat) :
    ∀ (m i : Nat), (∀ j, i ≤ j → h ∉ egress_at k j) →
      ((egress_queue k m i).map Prod.snd).count h = 0 := by
  intro m
  induction m with
  | zero => intro i _; simp [egress_queue]
  | succ m ih =>
    intro i hn
    have hid : (Prod.snd ∘ fun x : Nat => (i, x)) = id := rfl
    rw [egress_queue, List.map_append, List.count_append, ih (i + 1)
      (fun j hj => hn j (by omega)), List.map_map, hid, List.map_id,
      List.count_eq_zero_of_not_mem (hn i (le_refl _))]

theorem egress_queue_count_one (k : tizkernel) (h p : Nat)
    (hp : (egress_at k p).count h = 1) (hn : ∀ j, j ≠ p → h ∉ egress_at k j) :
    ∀ (m i : Nat), i ≤ p → p < i + m →
      ((egress_queue k m i).map Prod.snd).count h = 1 := by
  intro m
  induction m with
  | zero => intro i h1 h2; omega
  | succ m ih =>
    intro i h1 h2
    have hid : (Prod.snd ∘ fun x : Nat => (i, x)) = id := rfl
    rw [egress_queue, List.map_append, List.count_append, List.map_map, hid, List.map_id]
    by_cases hip : i = p
    · subst hip
      rw [hp, egress_queue_count_zero k h m (i + 1) (fun j hj => hn j (by omega))]
    · rw [List.count_eq_zero_of_not_mem (hn i hip), ih (i + 1) (by omega) (by omega)]

theorem callback_pushed_egress (k : tizkernel) (cb : tizkernel_msg_callback_t) (j : Nat) :
    egress_at (callback_pushed k cb) j =
      if cb.pid = j ∧ cb.pid < k.p_egress_.length then egress_at k cb.pid ++ [cb.p_hdr]
      else egress_at k j := by
  simp [callback_pushed]

theorem callback_pushed_port (k : tizkernel) (cb : tizkernel_msg_callback_t) (j : Nat) :
    port_at (callback_pushed k cb) j =
      if cb.pid = j ∧ cb.pid < nports k then (TIZPORT_DEC_CLAIMED_COUNT (port_at k cb.pid)).1
      else port_at k j := by
  simp [callback_pushed]

/-- Claim C19.  Let the gate of `dispatch_cb` be open (the substate is not
`Pause`, or the port of the callback is being flushed), let `pid` be a port of
the kernel with its egress list, and let no list operation run out of memory.
For a callback with a non-null header: the header is put at the tail of
`egress[pid]` and no other egress list changes (state `callback_pushed`); the
egress lists and the deliveries after `dispatch_cb` are those of
`flush_egress (OMX_ALL)` run on that state; the claimed count of `pid` is one
lower and that of every other port is the same.  When no port is tunnelled,
afterwards every egress list is empty, the headers delivered are those that
were delivered before followed by the egress lists port by port, and if the
header was in no egress list before it is delivered exactly once.  A dummy
callback is `flush_egress (OMX_ALL)` and nothing else, and it changes no port
record. -/
theorem C19_callback_outside_pause (k : tizkernel) (cb : tizkernel_msg_callback_t)
    (hgate : k.fsm_substate ≠ EStatePause ∨
      TIZPORT_IS_BEING_FLUSHED (port_at k cb.pid) = true)
    (hlt : cb.pid < nports k) (hal : k.p_egress_.length = nports k)
    (hoom : k.vec_oom = false) :
    (cb.p_hdr ≠ 0 →
      egress_at (callback_pushed k cb) cb.pid = egress_at k cb.pid ++ [cb.p_hdr] ∧
      (∀ j, j ≠ cb.pid → egress_at (callback_pushed k cb) j = egress_at k j) ∧
      (dispatch_cb k cb).1.p_egress_ =
        (flush_egress (callback_pushed k cb) OMX_ALL false).1.p_egress_ ∧
      delivered (dispatch_cb k cb).1 =
        delivered (flush_egress (callback_pushed k cb) OMX_ALL false).1 ∧
      (∀ j, TIZPORT_GET_CLAIMED_COUNT (port_at (dispatch_cb k cb).1 j) =
        if j = cb.pid then TIZPORT_GET_CLAIMED_COUNT (port_at k j) - 1
        else TIZPORT_GET_CLAIMED_COUNT (port_at k j)) ∧
      ((∀ j, tizport_get_tunnel_comp (port_at k j) = 0) →
        (∀ j, j < nports k → egress_at (dispatch_cb k cb).1 j = []) ∧
        delivered (dispatch_cb k cb).1 =
          delivered k ++ egress_queue (callback_pushed k cb) (nports k) 0 ∧
        ((∀ j, cb.p_hdr ∉ egress_at k j) →
          ((egress_queue (callback_pushed k cb) (nports k) 0).map Prod.snd).count
            cb.p_hdr = 1))) ∧
    (cb.p_hdr = 0 → cb.dir = OMX_DirMax →
      dispatch_cb k cb = flush_egress k OMX_ALL false ∧
      (dispatch_cb k cb).1.p_ports_ = k.p_ports_) := by
  have hg : ¬ (k.fsm_substate = EStatePause ∧
      TIZPORT_IS_BEING_FLUSHED (port_at k cb.pid) = false) := by
    rcases hgate with h | h
    · exact fun hc => h hc.1
    · rw [h]; simp
  have hle : cb.pid < k.p_egress_.length := by rw [hal]; exact hlt
  refine ⟨fun hh => ?_, fun hh hd => ?_⟩
  · obtain ⟨r1, r2, r3⟩ := dispatch_cb_real_frame k cb hg hh hoom
    obtain ⟨f1, _, _, _, _⟩ := callback_flushed_frame k cb
    have hself : egress_at (callback_pushed k cb) cb.pid = egress_at k cb.pid ++ [cb.p_hdr] := by
      rw [callback_pushed_egress]; simp [hle]
    have hother : ∀ j, j ≠ cb.pid → egress_at (callback_pushed k cb) j = egress_at k j := by
      intro j hj
      rw [callback_pushed_egress, if_neg (fun hc => hj hc.1.symm)]
    have hnp : nports (callback_pushed k cb) = nports k := by simp [callback_pushed]
    refine ⟨hself, hother, r1, r2, fun j => ?_, fun hnt => ?_⟩
    · rw [r3]
      unfold port_at
      rw [f1, getD_set]
      by_cases hj : j = cb.pid
      · subst hj
        have hl2 : cb.pid < k.p_ports_.length := hlt
        simp only [true_and, hl2, if_true]
        rfl
      · rw [if_neg (fun hc => hj hc.1.symm), if_neg hj]
    · have hnt2 : ∀ j, tizport_get_tunnel_comp (port_at (callback_pushed k cb) j) = 0 := by
        intro j
        rw [callback_pushed_port]
        split_ifs
        · exact hnt cb.pid
        · exact hnt j
      obtain ⟨_, d2, d3⟩ := flush_egress_all_drain (callback_pushed k cb) false hnt2
        (by rw [hnp]; omega)
      rw [hnp] at d2 d3
      refine ⟨fun j hj => ?_, ?_, fun hnew => ?_⟩
      · rw [egress_at_congr r1]
        exact (d2 j).trans (if_pos hj)
      · rw [r2]; exact d3
      · refine egress_queue_count_one (callback_pushed k cb) cb.p_hdr cb.pid ?_ ?_
          (nports k) 0 (Nat.zero_le _) (by omega)
        · rw [hself, List.count_append, List.count_eq_zero_of_not_mem (hnew cb.pid)]
          simp
        · intro j hj
          rw [hother j hj]
          exact hnew j
  · have hd1 := dispatch_cb_dummy k cb hg hh hd
    refine ⟨hd1, ?_⟩
    rw [hd1]
    have hf := (flush_egress_frame k OMX_ALL false (fun _ => false) (fun _ _ => rfl)).1
    simp only [egress_fixed, Prod.mk.injEq] at hf
    exact hf.1

/-- Witness of C19 in `flush_wait_state`: header `2` waits in the egress list
and the callback returns header `1`; both leave, header `1` once. -/
theorem C19_callback_outside_pause_witness :
    (flush_wait_state.fsm_substate ≠ EStatePause ∨
      TIZPORT_IS_BEING_FLUSHED (port_at flush_wait_state callback_one.pid) = true) ∧
    delivered (dispatch_cb flush_wait_state callback_one).1 = [(0, 2), (0, 1)] ∧
    egress_at (dispatch_cb flush_wait_state callback_one).1 0 = [] ∧
    TIZPORT_GET_CLAIMED_COUNT (port_at (dispatch_cb flush_wait_state callback_one).1 0) = 0 ∧
    ((egress_queue (callback_pushed flush_wait_state callback_one)
      (nports flush_wait_state) 0).map Prod.snd).count callback_one.p_hdr = 1 :=
  ⟨by decide, by decide, by decide, by decide,
    ((C19_callback_outside_pause flush_wait_state callback_one (by decide) (by decide)
      (by decide) (by decide)).1 (by decide)).2.2.2.2.2
        (fun j => by cases j <;> rfl) |>.2.2
        (fun j => by
          cases j with
          | zero => decide
          | succ n => exact List.not_mem_nil _)⟩

/-! ## C20: EmptyThisBuffer and FillThisBuffer -/

/-- Claim C20.  Let the port `pid` that the header names be a port of the
kernel that keeps its own index and has its ingress list, let it not be a
tunnelled supplier, and let no list operation run out of memory.  Then
`dispatch_efb` succeeds, the header is put at the tail of `ingress[pid]`, no
other ingress list, no egress list and no port record changes, and the trace
gains exactly one call, `EmptyThisBuffer` to the processor for an ETB message
and `FillThisBuffer` for an FTB message, if the substate is not `Pause` and the
port is enabled, and nothing otherwise. -/
theorem C20_dispatch_efb (pc : tizport_class) (k : tizkernel) (p_hdr : Nat) (is_etb : Bool)
    (hlt : named_port k p_hdr is_etb < nports k)
    (hidx : tizport_index (port_at k (named_port k p_hdr is_etb)) = named_port k p_hdr is_etb)
    (hal : named_port k p_hdr is_etb < k.p_ingress_.length)
    (hts : TIZPORT_IS_TUNNELED_AND_SUPPLIER (port_at k (named_port k p_hdr is_etb)) = false)
    (hoom : k.vec_oom = false) :
    (dispatch_efb pc k p_hdr is_etb).2 = OMX_ErrorNone ∧
    ingress_at (dispatch_efb pc k p_hdr is_etb).1 (named_port k p_hdr is_etb) =
      ingress_at k (named_port k p_hdr is_etb) ++ [p_hdr] ∧
    (∀ j, j ≠ named_port k p_hdr is_etb →
      ingress_at (dispatch_efb pc k p_hdr is_etb).1 j = ingress_at k j) ∧
    (dispatch_efb pc k p_hdr is_etb).1.p_egress_ = k.p_egress_ ∧
    (dispatch_efb pc k p_hdr is_etb).1.p_ports_ = k.p_ports_ ∧
    (dispatch_efb pc k p_hdr is_etb).1.heap = k.heap ∧
    (dispatch_efb pc k p_hdr is_etb).1.trace = k.trace ++
      (if tizfsm_get_substate k ≠ EStatePause ∧
          TIZPORT_IS_ENABLED (port_at k (named_port k p_hdr is_etb)) = true then
        [if is_etb = true then Effect.prc_EmptyThisBuffer p_hdr (k.heap p_hdr)
         else Effect.prc_FillThisBuffer p_hdr (k.heap p_hdr)]
      else []) := by
  have hck : check_pid k (named_port k p_hdr is_etb) = OMX_ErrorNone := by
    simp [check_pid, Nat.not_le.mpr hlt]
  have hadd : add_to_buflst k p_hdr (port_at k (named_port k p_hdr is_etb)) =
      (set_ingress k (named_port k p_hdr is_etb)
        (ingress_at k (named_port k p_hdr is_etb) ++ [p_hdr]),
       ((ingress_at k (named_port k p_hdr is_etb) ++ [p_hdr]).length : Int)) := by
    simp [add_to_buflst, tiz_vector_push_back, hoom, hidx, hal]
  have hpos : ¬ (0 : Int) > ((ingress_at k (named_port k p_hdr is_etb) ++ [p_hdr]).length : Int) :=
    by omega
  unfold dispatch_efb
  unfold named_port at hck hadd hts hal hlt hidx hpos ⊢
  cases is_etb
  · simp only [Bool.false_eq_true, if_false] at hck hadd hts hal hlt hidx hpos ⊢
    simp only [hck, ne_eq, not_true_eq_false, if_false, hadd, hts, Bool.false_eq_true, hpos,
      reduceCtorEq]
    split_ifs <;> simp [hal] <;> (intro j hj hc; exact absurd hc.symm hj)
  · simp only [if_true] at hck hadd hts hal hlt hidx hpos ⊢
    simp only [hck, ne_eq, not_true_eq_false, if_false, hadd, hts, Bool.false_eq_true, hpos,
      if_true]
    split_ifs <;> simp [hal] <;> (intro j hj hc; exact absurd hc.symm hj)

/-- Witness of C20 in `resubmit_state`: the header `1` submitted with
`EmptyThisBuffer` joins the ingress list of port `0` and goes to the
processor. -/
theorem C20_dispatch_efb_witness :
    named_port resubmit_state 1 true < nports resubmit_state ∧
    ingress_at (dispatch_efb port_class0 resubmit_state 1 true).1 0 = [1] ∧
    (dispatch_efb port_class0 resubmit_state 1 true).1.trace =
      [Effect.prc_EmptyThisBuffer 1 (resubmit_state.heap 1)] :=
  ⟨by decide, by decide,
    (C20_dispatch_efb port_class0 resubmit_state 1 true (by decide) (by decide) (by decide)
      (by decide) (by decide)).2.2.2.2.2.2⟩

/-! ## C21: a bad port index -/

/-- Claim C23 is false as stated.  In `last_completion_state` one completion is
outstanding (`cmd_completion_count_ = 1`); `complete_port_enable` and
`complete_port_disable` bring the counter to `0` and tell the FSM, and neither
issues a `CommandComplete` event for the port. -/
theorem C23_last_completion_issues_no_event :
    last_completion_state.cmd_completion_count_ = 1 ∧
    (complete_port_enable last_completion_state 0 OMX_ErrorNone).1.trace =
      [Effect.fsm_complete_command OMX_CommandPortEnable 0] ∧
    (complete_port_disable last_completion_state 0 OMX_ErrorNone).1.trace =
      [Effect.fsm_complete_command OMX_CommandPortDisable 0] ∧
    ¬ (Effect.issue_cmd_event OMX_CommandPortEnable 0 OMX_ErrorNone ∈
        (complete_port_enable last_completion_state 0 OMX_ErrorNone).1.trace) ∧
    ¬ (Effect.issue_cmd_event OMX_CommandPortDisable 0 OMX_ErrorNone ∈
        (complete_port_disable last_completion_state 0 OMX_ErrorNone).1.trace) := by
  decide

/-- Claim C23, amended.  Called with `cmd_completion_count_ = c > 0` for a port
`pid` of the kernel, `complete_port_enable` and `complete_port_disable` set the
enabled (resp. disabled) flag of the port and leave the counter at `c - 1`; they
make exactly one completion call for their command: the event
`CommandComplete (cmd, pid, err)` when `c - 1 > 0`, the FSM's
`complete_command (cmd, pid)` when `c - 1 = 0`. -/
theorem C23_complete_port_command (k : tizkernel) (pid : Nat) (err : OMX_ERRORTYPE)
    (_hc : 0 < k.cmd_completion_count_) (hlt : pid < nports k) :
    (port_at (complete_port_enable k pid err).1 pid = TIZPORT_SET_ENABLED (port_at k pid) ∧
      (complete_port_enable k pid err).1.cmd_completion_count_ =
        k.cmd_completion_count_ - 1 ∧
      (complete_port_enable k pid err).1.trace = k.trace ++
        [if 0 < k.cmd_completion_count_ - 1 then
            Effect.issue_cmd_event OMX_CommandPortEnable pid err
          else Effect.fsm_complete_command OMX_CommandPortEnable pid]) ∧
    (port_at (complete_port_disable k pid err).1 pid = TIZPORT_SET_DISABLED (port_at k pid) ∧
      (complete_port_disable k pid err).1.cmd_completion_count_ =
        k.cmd_completion_count_ - 1 ∧
      (complete_port_disable k pid err).1.trace.filter
          (is_completion OMX_CommandPortDisable) =
        k.trace.filter (is_completion OMX_CommandPortDisable) ++
          [if 0 < k.cmd_completion_count_ - 1 then
              Effect.issue_cmd_event OMX_CommandPortDisable pid err
            else Effect.fsm_complete_command OMX_CommandPortDisable pid]) := by
  have hl : pid < k.p_ports_.length := hlt
  constructor
  · unfold complete_port_enable
    by_cases h1 : 0 < k.cmd_completion_count_ - 1
    · have h2 : ¬ k.cmd_completion_count_ - 1 = 0 := by omega
      simp [h1, h2, tizservant_issue_cmd_event, tizfsm_complete_command, nports, hl]
    · have h2 : k.cmd_completion_count_ - 1 = 0 := by omega
      simp [h2, tizservant_issue_cmd_event, tizfsm_complete_command, nports, hl]
  · have hf := fun k1 => flush_marks_frame k1 pid (is_completion OMX_CommandPortDisable)
      (mark_effect_not_completion _ (by decide))
    simp only [buffers_fixed, egress_fixed, Prod.mk.injEq] at hf
    unfold complete_port_disable
    simp only []
    refine ⟨?_, ?_, ?_⟩
    · rw [port_at_congr (hf _).1.1.1]
      by_cases h1 : 0 < k.cmd_completion_count_ - 1
      · have h2 : ¬ k.cmd_completion_count_ - 1 = 0 := by omega
        simp [h1, h2, tizservant_issue_cmd_event, tizfsm_complete_command, nports, hl]
      · have h2 : k.cmd_completion_count_ - 1 = 0 := by omega
        simp [h2, tizservant_issue_cmd_event, tizfsm_complete_command, nports, hl]
    · rw [(hf _).1.1.2.2.1]
      by_cases h1 : 0 < k.cmd_completion_count_ - 1
      · have h2 : ¬ k.cmd_completion_count_ - 1 = 0 := by omega
        simp [h1, h2, tizservant_issue_cmd_event, tizfsm_complete_command]
      · have h2 : k.cmd_completion_count_ - 1 = 0 := by omega
        simp [h2, tizservant_issue_cmd_event, tizfsm_complete_command]
    · rw [(hf _).2]
      by_cases h1 : 0 < k.cmd_completion_count_ - 1
      · have h2 : ¬ k.cmd_completion_count_ - 1 = 0 := by omega
        simp [h1, h2, tizservant_issue_cmd_event, tizfsm_complete_command,
          List.filter_append, is_completion]
      · have h2 : k.cmd_completion_count_ - 1 = 0 := by omega
        simp [h2, tizservant_issue_cmd_event, tizfsm_complete_command,
          List.filter_append, is_completion]

/-- Witness of C23 (amended): from a counter of `2` the completion of the
enable of port `0` issues the event and leaves the counter at `1`. -/
theorem C23_complete_port_command_witness :
    0 < (set_count flush_state 2).cmd_completion_count_ ∧
    (complete_port_enable (set_count flush_state 2) 0 OMX_ErrorNone).1.trace =
      [Effect.issue_cmd_event OMX_CommandPortEnable 0 OMX_ErrorNone] ∧
    (complete_port_enable (set_count flush_state 2) 0 OMX_ErrorNone).1.cmd_completion_count_
      = (set_count flush_state 2).cmd_completion_count_ - 1 :=
  ⟨by decide, by decide,
    (C23_complete_port_command (set_count flush_state 2) 0 OMX_ErrorNone (by decide)
      (by decide)).1.2.1⟩

/-! ## C24: `all_buffers_returned` -/

theorem all_buffers_returned_loop_iff (k : tizkernel) (n : Nat) :
    ∀ (fuel i : Nat), n ≤ i + fuel →
      (all_buffers_returned_loop k n fuel i = true ↔
        ∀ j, i ≤ j → j < n → port_returned k j) := by
  intro fuel
  induction fuel with
  | zero =>
    intro i h
    simp only [all_buffers_returned_loop, true_iff]
    intro j h1 h2; omega
  | succ fuel ih =>
    intro i h
    rw [all_buffers_returned_loop]
    by_cases hi : i < n
    · have hstep : (∀ j, i ≤ j → j < n → port_returned k j) ↔
          (port_returned k i ∧ ∀ j, i + 1 ≤ j → j < n → port_returned k j) := by
        constructor
        · intro hall
          exact ⟨hall i (le_refl _) hi, fun j hj hn => hall j (by omega) hn⟩
        · rintro ⟨h0, hrest⟩ j hj hn
          by_cases hij : j = i
          · rw [hij]; exact h0
          · exact hrest j (by omega) hn
      rw [hstep, ← ih (i + 1) (by omega)]
      simp only [hi, if_true]
      unfold port_returned TIZPORT_IS_DISABLED TIZPORT_IS_ENABLED
      cases he : (port_at k i).enabled <;>
        cases hts : TIZPORT_IS_TUNNELED_AND_SUPPLIER (port_at k i) <;>
        by_cases hb : tizport_buffer_count (port_at k i) = 0 <;>
        by_cases hlen : (ingress_at k i).length = tizport_buffer_count (port_at k i) <;>
        by_cases hcl : TIZPORT_GET_CLAIMED_COUNT (port_at k i) > 0 <;>
        simp [hb, hlen, hcl, Nat.pos_iff_ne_zero] <;> omega
    · simp only [hi, if_false, true_iff]
      intro j h1 h2; omega

/-- Claim C24.  `all_buffers_returned` returns true exactly when every port
that is enabled and has buffers passes: a tunnelled supplier has all its
buffers in its ingress list, any other port has no buffer with the processor
(the code tests `claimed_count > 0`).  Disabled ports and ports without buffers
are skipped.  With claimed counts that are not negative, "none with the
processor" is `claimed_count = 0`. -/
theorem C24_all_buffers_returned (k : tizkernel) :
    ((all_buffers_returned k).2 = true ↔
      ∀ i, i < nports k → TIZPORT_IS_ENABLED (port_at k i) = true →
        0 < tizport_buffer_count (port_at k i) →
        (TIZPORT_IS_TUNNELED_AND_SUPPLIER (port_at k i) = true ∧
          (ingress_at k i).length = tizport_buffer_count (port_at k i)) ∨
        (TIZPORT_IS_TUNNELED_AND_SUPPLIER (port_at k i) = false ∧
          TIZPORT_GET_CLAIMED_COUNT (port_at k i) ≤ 0)) ∧
    ((∀ i, i < nports k → 0 ≤ TIZPORT_GET_CLAIMED_COUNT (port_at k i)) →
      ((all_buffers_returned k).2 = true ↔
        ∀ i, i < nports k → TIZPORT_IS_ENABLED (port_at k i) = true →
          0 < tizport_buffer_count (port_at k i) →
          (TIZPORT_IS_TUNNELED_AND_SUPPLIER (port_at k i) = true ∧
            (ingress_at k i).length = tizport_buffer_count (port_at k i)) ∨
          (TIZPORT_IS_TUNNELED_AND_SUPPLIER (port_at k i) = false ∧
            TIZPORT_GET_CLAIMED_COUNT (port_at k i) = 0))) := by
  have hloop := all_buffers_returned_loop_iff k (nports k) (nports k + 1) 0 (by omega)
  have hval : (all_buffers_returned k).2 =
      all_buffers_returned_loop k (nports k) (nports k + 1) 0 := by
    unfold all_buffers_returned
    split_ifs with h
    · exact h.symm
    · simpa using h
  have hmain : (all_buffers_returned k).2 = true ↔
      ∀ i, i < nports k → port_returned k i := by
    rw [hval, hloop]
    exact ⟨fun h i hi => h i (Nat.zero_le _) hi, fun h i _ hi => h i hi⟩
  refine ⟨hmain, fun hpos => ?_⟩
  rw [hmain]
  constructor
  · intro h i hi he hb
    rcases h i hi he hb with h1 | h1
    · exact Or.inl h1
    · exact Or.inr ⟨h1.1, le_antisymm h1.2 (hpos i hi)⟩
  · intro h i hi he hb
    rcases h i hi he hb with h1 | h1
    · exact Or.inl h1
    · exact Or.inr ⟨h1.1, le_of_eq h1.2⟩

/-- Witness of C24 in `disable_state`, where the processor holds one buffer of
the only port: `all_buffers_returned` is false. -/
theorem C24_all_buffers_returned_witness :
    (∀ i, i < nports disable_state → 0 ≤ TIZPORT_GET_CLAIMED_COUNT (port_at disable_state i)) ∧
    (all_buffers_returned disable_state).2 = false ∧
    ¬ (∀ i, i < nports disable_state → TIZPORT_IS_ENABLED (port_at disable_state i) = true →
        0 < tizport_buffer_count (port_at disable_state i) →
        (TIZPORT_IS_TUNNELED_AND_SUPPLIER (port_at disable_state i) = true ∧
          (ingress_at disable_state i).length = tizport_buffer_count (port_at disable_state i)) ∨
        (TIZPORT_IS_TUNNELED_AND_SUPPLIER (port_at disable_state i) = false ∧
          TIZPORT_GET_CLAIMED_COUNT (port_at disable_state i) = 0)) :=
  ⟨by decide, by decide, fun h =>
    absurd (((C24_all_buffers_returned disable_state).2 (by decide)).mpr h) (by decide)⟩

/-! ## C30: `move_to_egress` and `move_to_ingress` -/

/-- Claim C30.  When `tiz_vector_append` succeeds, for a port `pid` that has its
two lists: `move_to_egress` leaves `egress[pid] = egress[pid] ++ ingress[pid]`
(old values) and `ingress[pid] = []` and returns the new length of
`egress[pid]`; `move_to_ingress` leaves `ingress[pid] = ingress[pid] ++
egress[pid]` and `egress[pid] = []` and returns the new length of
`ingress[pid]`.  Both leave the lists of every other port as they are, and the
headers held in the two lists of `pid` together are the same before and
after, up to order. -/
theorem C30_move_between_lists (k : tizkernel) (pid : Nat) (hoom : k.vec_oom = false)
    (hi : pid < k.p_ingress_.length) (he : pid < k.p_egress_.length) :
    (egress_at (move_to_egress k pid).1 pid = egress_at k pid ++ ingress_at k pid ∧
      ingress_at (move_to_egress k pid).1 pid = [] ∧
      (move_to_egress k pid).2 = ((egress_at (move_to_egress k pid).1 pid).length : Int) ∧
      (∀ j, j ≠ pid → ingress_at (move_to_egress k pid).1 j = ingress_at k j ∧
        egress_at (move_to_egress k pid).1 j = egress_at k j) ∧
      (ingress_at (move_to_egress k pid).1 pid ++ egress_at (move_to_egress k pid).1 pid).Perm
        (ingress_at k pid ++ egress_at k pid)) ∧
    (ingress_at (move_to_ingress k pid).1 pid = ingress_at k pid ++ egress_at k pid ∧
      egress_at (move_to_ingress k pid).1 pid = [] ∧
      (move_to_ingress k pid).2 = ((ingress_at (move_to_ingress k pid).1 pid).length : Int) ∧
      (∀ j, j ≠ pid → ingress_at (move_to_ingress k pid).1 j = ingress_at k j ∧
        egress_at (move_to_ingress k pid).1 j = egress_at k j) ∧
      (ingress_at (move_to_ingress k pid).1 pid ++ egress_at (move_to_ingress k pid).1 pid).Perm
        (ingress_at k pid ++ egress_at k pid)) := by
  have e1 : (move_to_egress k pid).1 =
      set_ingress (set_egress k pid (egress_at k pid ++ ingress_at k pid)) pid [] := by
    simp [move_to_egress, tiz_vector_append, hoom]
  have e2 : (move_to_egress k pid).2 =
      ((egress_at (set_ingress (set_egress k pid (egress_at k pid ++ ingress_at k pid))
        pid []) pid).length : Int) := by
    simp [move_to_egress, tiz_vector_append, hoom]
  have i1 : (move_to_ingress k pid).1 =
      set_egress (set_ingress k pid (ingress_at k pid ++ egress_at k pid)) pid [] := by
    simp [move_to_ingress, tiz_vector_append, hoom]
  have i2 : (move_to_ingress k pid).2 =
      ((ingress_at (set_egress (set_ingress k pid (ingress_at k pid ++ egress_at k pid))
        pid []) pid).length : Int) := by
    simp [move_to_ingress, tiz_vector_append, hoom]
  have hne : ∀ j, j ≠ pid → ¬ (pid = j) := fun j hj hc => hj hc.symm
  refine ⟨?_, ?_⟩
  · rw [e2, e1]
    refine ⟨by simp [he], by simp [hi], rfl, fun j hj => by simp [hne j hj], ?_⟩
    simp [hi, he]
    exact List.perm_append_comm
  · rw [i2, i1]
    refine ⟨by simp [hi], by simp [he], rfl, fun j hj => by simp [hne j hj], ?_⟩
    simp [hi, he]

/-- Witness of C30 in `merge_state`: `move_to_egress (0)` leaves
`egress[0] = [3, 1, 2]` and returns `3`. -/
theorem C30_move_between_lists_witness :
    merge_state.vec_oom = false ∧
    egress_at (move_to_egress merge_state 0).1 0 = [3, 1, 2] ∧
    (move_to_egress merge_state 0).2 = 3 ∧
    ingress_at (move_to_egress merge_state 0).1 0 = [] :=
  ⟨by decide, by decide, by decide,
    (C30_move_between_lists merge_state 0 (by decide) (by decide) (by decide)).1.2.1⟩

/-! ## C22: `kernel_FreeBuffer` -/

theorem mark_effect_not_err_event : ∀ e, mark_effect e = true → is_err_event e = false := by
  intro e; cases e <;> simp [mark_effect, is_err_event]

/-- What `complete_port_disable` leaves alone: the port records but for the
disabled flag of `p`, and every call that is neither a mark effect nor a
completion of `OMX_CommandPortDisable`. -/
theorem complete_port_disable_frame (k : tizkernel) (p : Nat) (err : OMX_ERRORTYPE)
    (π : Effect → Bool) (hm : ∀ e, mark_effect e = true → π e = false)
    (hc : ∀ e, is_completion OMX_CommandPortDisable e = true → π e = false) :
    (complete_port_disable k p err).1.p_ports_ =
      k.p_ports_.set p (TIZPORT_SET_DISABLED (port_at k p)) ∧
    (complete_port_disable k p err).1.trace.filter π = k.trace.filter π := by
  have hf := fun k1 => flush_marks_frame k1 p π hm
  simp only [buffers_fixed, egress_fixed, Prod.mk.injEq] at hf
  have h1 := hc (Effect.issue_cmd_event OMX_CommandPortDisable p err) (by simp [is_completion])
  have h2 := hc (Effect.fsm_complete_command OMX_CommandPortDisable p) (by simp [is_completion])
  unfold complete_port_disable
  simp only []
  refine ⟨?_, ?_⟩
  · rw [(hf _).1.1.1]
    split_ifs <;> simp [tizservant_issue_cmd_event, tizfsm_complete_command]
  · rw [(hf _).2]
    split_ifs <;> simp [tizservant_issue_cmd_event, tizfsm_complete_command,
      List.filter_append, h1, h2]

/-- The end of `kernel_FreeBuffer` (lines 3002-3015) from the state `k2` that
precedes it: the disable of the port is completed when `b` holds, then ongoing
transitions are completed. -/
theorem free_buffer_tail (k2 : tizkernel) (pid : Nat) (b : Prop) [Decidable b]
    (hl : pid < k2.p_ports_.length) :
    port_at (complete_ongoing_transitions
        (if b then (complete_port_disable k2 pid OMX_ErrorNone).1 else k2)).1 pid =
      (if b then TIZPORT_SET_DISABLED (port_at k2 pid) else port_at k2 pid) ∧
    (complete_ongoing_transitions
        (if b then (complete_port_disable k2 pid OMX_ErrorNone).1 else k2)).1.trace.filter
        is_err_event = k2.trace.filter is_err_event := by
  have hco := fun k1 => complete_ongoing_transitions_frame k1 is_err_event (fun _ => rfl)
  simp only [buffers_fixed, egress_fixed, Prod.mk.injEq] at hco
  have hcd := complete_port_disable_frame k2 pid OMX_ErrorNone is_err_event
    mark_effect_not_err_event (by intro e; cases e <;> simp [is_completion, is_err_event])
  refine ⟨?_, ?_⟩
  · rw [port_at_congr (hco _).1.1.1]
    split_ifs
    · exact port_at_of_ports hcd.1 hl
    · rfl
  · rw [(hco _).2.2]
    split_ifs
    · exact hcd.2
    · rfl

/-- Claim C22.  For a port `pid` of the kernel.  On a tunnelled supplier port
`kernel_FreeBuffer` returns `OMX_ErrorBadPortIndex` and leaves the state as it
was, the port's `FreeBuffer` not being called.  On any other port the port's
`FreeBuffer` is called: the port record afterwards is the one it gave (with the
disabled flag set when the port was being disabled and has no buffer left), a
failure of the call is returned, and the `OMX_EventError` events gain exactly
one `OMX_ErrorPortUnpopulated` when the call succeeded and, at entry, the
substate was not `IdleToLoaded` and the port was enabled and populated, and
none otherwise. -/
theorem C22_free_buffer (fb : tizport → Nat → Nat → Nat → tizport × OMX_ERRORTYPE)
    (k : tizkernel) (pid p_hdr : Nat) (hlt : pid < nports k) :
    (TIZPORT_IS_TUNNELED_AND_SUPPLIER (port_at k pid) = true →
      kernel_FreeBuffer fb k pid p_hdr = (k, OMX_ErrorBadPortIndex)) ∧
    (TIZPORT_IS_TUNNELED_AND_SUPPLIER (port_at k pid) = false →
      port_at (kernel_FreeBuffer fb k pid p_hdr).1 pid =
        (if (fb (port_at k pid) k.hdl pid p_hdr).2 = OMX_ErrorNone ∧
            tizport_buffer_count (fb (port_at k pid) k.hdl pid p_hdr).1 = 0 ∧
            TIZPORT_IS_BEING_DISABLED (port_at k pid) = true then
          TIZPORT_SET_DISABLED (fb (port_at k pid) k.hdl pid p_hdr).1
        else (fb (port_at k pid) k.hdl pid p_hdr).1) ∧
      ((fb (port_at k pid) k.hdl pid p_hdr).2 ≠ OMX_ErrorNone →
        (kernel_FreeBuffer fb k pid p_hdr).2 = (fb (port_at k pid) k.hdl pid p_hdr).2) ∧
      (kernel_FreeBuffer fb k pid p_hdr).1.trace.filter is_err_event =
        k.trace.filter is_err_event ++
          (if (fb (port_at k pid) k.hdl pid p_hdr).2 = OMX_ErrorNone ∧
              tizfsm_get_substate k ≠ ESubStateIdleToLoaded ∧
              TIZPORT_IS_ENABLED (port_at k pid) = true ∧
              TIZPORT_IS_POPULATED (port_at k pid) = true then
            [Effect.issue_err_event OMX_ErrorPortUnpopulated]
          else [])) := by
  have hck : check_pid k pid = OMX_ErrorNone := by
    simp [check_pid, Nat.not_le.mpr hlt]
  have hl : pid < k.p_ports_.length := hlt
  refine ⟨fun hts => ?_, fun hts => ?_⟩
  · unfold kernel_FreeBuffer
    simp only [hck, ne_eq, not_true_eq_false, if_false, hts, if_true]
  · unfold kernel_FreeBuffer
    simp only [hck, ne_eq, not_true_eq_false, if_false, hts, Bool.false_eq_true]
    by_cases hrc : (fb (port_at k pid) k.hdl pid p_hdr).2 = OMX_ErrorNone
    · simp only [hrc, not_true_eq_false, if_false, true_and, IsEmpty.forall_iff]
      cases hu : (decide (¬ ESubStateIdleToLoaded = tizfsm_get_substate k) &&
          TIZPORT_IS_ENABLED (port_at k pid) && TIZPORT_IS_POPULATED (port_at k pid))
      · have hcond : ¬ (tizfsm_get_substate k ≠ ESubStateIdleToLoaded ∧
            TIZPORT_IS_ENABLED (port_at k pid) = true ∧
            TIZPORT_IS_POPULATED (port_at k pid) = true) := by
          intro hc
          have hn : ¬ ESubStateIdleToLoaded = tizfsm_get_substate k := fun h => hc.1 h.symm
          simp [hn, hc.2.1, hc.2.2] at hu
        simp only [Bool.false_eq_true, if_false, hcond, List.append_nil]
        have hp : port_at (set_port k pid (fb (port_at k pid) k.hdl pid p_hdr).1) pid =
            (fb (port_at k pid) k.hdl pid p_hdr).1 := by simp [hlt]
        obtain ⟨t1, t2⟩ := free_buffer_tail
          (set_port k pid (fb (port_at k pid) k.hdl pid p_hdr).1) pid
          (tizport_buffer_count (port_at (set_port k pid
            (fb (port_at k pid) k.hdl pid p_hdr).1) pid) = 0 ∧
            TIZPORT_IS_BEING_DISABLED (port_at k pid) = true) (by simpa using hl)
        rw [t1, t2, hp]
        exact ⟨rfl, rfl⟩
      · have hcond : tizfsm_get_substate k ≠ ESubStateIdleToLoaded ∧
            TIZPORT_IS_ENABLED (port_at k pid) = true ∧
            TIZPORT_IS_POPULATED (port_at k pid) = true := by
          simp only [Bool.and_eq_true, decide_eq_true_eq] at hu
          exact ⟨fun h => hu.1.1 h.symm, hu.1.2, hu.2⟩
        simp only [if_true, hcond, and_self, ne_eq, not_false_eq_true]
        have hp : port_at (tizservant_issue_err_event (set_port k pid
            (fb (port_at k pid) k.hdl pid p_hdr).1) OMX_ErrorPortUnpopulated) pid =
            (fb (port_at k pid) k.hdl pid p_hdr).1 := by
          simp [tizservant_issue_err_event, hlt]
        obtain ⟨t1, t2⟩ := free_buffer_tail
          (tizservant_issue_err_event (set_port k pid
            (fb (port_at k pid) k.hdl pid p_hdr).1) OMX_ErrorPortUnpopulated) pid
          (tizport_buffer_count (port_at (tizservant_issue_err_event (set_port k pid
            (fb (port_at k pid) k.hdl pid p_hdr).1) OMX_ErrorPortUnpopulated) pid) = 0 ∧
            TIZPORT_IS_BEING_DISABLED (port_at k pid) = true)
          (by simpa [tizservant_issue_err_event] using hl)
        rw [t1, t2, hp]
        refine ⟨rfl, ?_⟩
        simp [tizservant_issue_err_event, List.filter_append, is_err_event]
    · simp only [hrc, not_false_eq_true, if_true, false_and, if_false, List.append_nil,
        forall_true_left]
      refine ⟨by simp [hlt], by simp⟩

/-- Witness of C22 in `flush_state` (`Executing`, the port enabled and
populated) with a port `FreeBuffer` that succeeds: the error event is emitted
and the port has lost the header. -/
theorem C22_free_buffer_witness :
    0 < nports flush_state ∧
    TIZPORT_IS_TUNNELED_AND_SUPPLIER (port_at flush_state 0) = false ∧
    (kernel_FreeBuffer free_first flush_state 0 1).1.trace =
      [Effect.issue_err_event OMX_ErrorPortUnpopulated] ∧
    (port_at (kernel_FreeBuffer free_first flush_state 0 1).1 0).p_hdrs_ = [2] ∧
    (kernel_FreeBuffer free_first flush_state 0 1).1.trace.filter is_err_event =
      [Effect.issue_err_event OMX_ErrorPortUnpopulated] :=
  ⟨by decide, by decide, by decide, by decide,
    ((C22_free_buffer free_first flush_state 0 1 (by decide)).2 (by decide)).2.2⟩

/-! ## C27: marks on the way in -/

theorem transfer_mark_loop_marks (m : OMX_MARKTYPE) (n : Nat) :
    ∀ (fuel i : Nat) (k : tizkernel), n ≤ i + fuel →
      (transfer_mark_loop m n fuel i k OMX_ErrorNone).2 = OMX_ErrorNone ∧
      ∀ j, (transfer_mark_loop m n fuel i k OMX_ErrorNone).1.port_marks j =
        if i ≤ j ∧ j < n ∧ tizport_dir (port_at k j) = OMX_DirOutput then
          k.port_marks j ++ [passed_mark m]
        else k.port_marks j := by
  intro fuel
  induction fuel with
  | zero =>
    intro i k h
    refine ⟨rfl, fun j => ?_⟩
    have hn : ¬ (i ≤ j ∧ j < n ∧ tizport_dir (port_at k j) = OMX_DirOutput) :=
      fun hc => by omega
    rw [if_neg hn]; rfl
  | succ fuel ih =>
    intro i k h
    rw [transfer_mark_loop]
    by_cases hi : i < n
    · simp only [hi, true_and, if_true]
      by_cases hd : tizport_dir (port_at k i) = OMX_DirOutput
      · simp only [hd, if_true]
        obtain ⟨h1, h2⟩ := ih (i + 1)
          (set_marks k i (tizport_store_mark (k.port_marks i) m false).1) (by omega)
        refine ⟨h1, fun j => ?_⟩
        have hrc : (tizport_store_mark (k.port_marks i) m false).2 = OMX_ErrorNone := rfl
        rw [hrc, h2 j]
        simp only [set_marks_other, set_marks_self, Function.update_apply]
        by_cases hij : j = i
        · subst hij
          simp only [if_true, le_refl, hi, hd, and_self]
          split_ifs with hx
          · omega
          · rfl
        · simp only [hij, if_false]
          by_cases hc : i ≤ j ∧ j < n ∧ tizport_dir (port_at k j) = OMX_DirOutput
          · have hc2 : i + 1 ≤ j ∧ j < n ∧ tizport_dir (port_at k j) = OMX_DirOutput :=
              ⟨by omega, hc.2⟩
            rw [if_pos hc, if_pos hc2]
          · have hc2 : ¬ (i + 1 ≤ j ∧ j < n ∧ tizport_dir (port_at k j) = OMX_DirOutput) :=
              fun h2 => hc ⟨by omega, h2.2⟩
            rw [if_neg hc, if_neg hc2]
      · simp only [hd, if_false]
        obtain ⟨h1, h2⟩ := ih (i + 1) k (by omega)
        refine ⟨h1, fun j => ?_⟩
        rw [h2 j]
        by_cases hij : j = i
        · subst hij
          have hn1 : ¬ (j + 1 ≤ j ∧ j < n ∧ tizport_dir (port_at k j) = OMX_DirOutput) :=
            fun hc => by omega
          have hn2 : ¬ (j ≤ j ∧ j < n ∧ tizport_dir (port_at k j) = OMX_DirOutput) :=
            fun hc => hd hc.2.2
          rw [if_neg hn1, if_neg hn2]
        · by_cases hc : i ≤ j ∧ j < n ∧ tizport_dir (port_at k j) = OMX_DirOutput
          · have hc2 : i + 1 ≤ j ∧ j < n ∧ tizport_dir (port_at k j) = OMX_DirOutput :=
              ⟨by omega, hc.2⟩
            rw [if_pos hc, if_pos hc2]
          · have hc2 : ¬ (i + 1 ≤ j ∧ j < n ∧ tizport_dir (port_at k j) = OMX_DirOutput) :=
              fun h2 => hc ⟨by omega, h2.2⟩
            rw [if_neg hc, if_neg hc2]
    · simp only [hi, false_and, if_false]
      refine ⟨trivial, fun j => ?_⟩
      have hn : ¬ (i ≤ j ∧ j < n ∧ tizport_dir (port_at k j) = OMX_DirOutput) :=
        fun hc => by omega
      rw [if_neg hn]

theorem transfer_mark_marks (k : tizkernel) (m : OMX_MARKTYPE) :
    (transfer_mark k m).2 = OMX_ErrorNone ∧
    ∀ j, (transfer_mark k m).1.port_marks j =
      if j < nports k ∧ tizport_dir (port_at k j) = OMX_DirOutput then
        k.port_marks j ++ [passed_mark m]
      else k.port_marks j := by
  obtain ⟨h1, h2⟩ := transfer_mark_loop_marks m (nports k) (nports k + 1) 0 k (by omega)
  refine ⟨h1, fun j => ?_⟩
  unfold transfer_mark
  rw [h2 j]
  simp

/-- Claim C27.  A header that carries a mark is handled by `process_marks` as
follows.  When the target of the mark is another component and the port is an
input port: the mark is appended, not owned, to the mark queue of every output
port of the kernel and to no other queue, the mark fields of the header are
cleared, and nothing is emitted.  When the target is this component, whatever
the port: exactly one `OMX_EventMark` with the header's `pMarkData` is emitted,
the mark fields are cleared and no mark queue changes. -/
theorem C27_marked_header (k : tizkernel) (p_hdr pid hdl : Nat)
    (hm : (k.heap p_hdr).hMarkTargetComponent ≠ 0) :
    ((k.heap p_hdr).hMarkTargetComponent ≠ hdl →
      tizport_dir (port_at k pid) = OMX_DirInput →
      (∀ j, (process_marks k p_hdr pid hdl).1.port_marks j =
        if j < nports k ∧ tizport_dir (port_at k j) = OMX_DirOutput then
          k.port_marks j ++ [passed_mark (mark_of (k.heap p_hdr))]
        else k.port_marks j) ∧
      (process_marks k p_hdr pid hdl).1.heap =
        Function.update k.heap p_hdr (unmarked (k.heap p_hdr)) ∧
      (process_marks k p_hdr pid hdl).1.trace = k.trace ∧
      (process_marks k p_hdr pid hdl).2 = OMX_ErrorNone) ∧
    ((k.heap p_hdr).hMarkTargetComponent = hdl →
      (process_marks k p_hdr pid hdl).1.trace =
        k.trace ++ [Effect.issue_event OMX_EventMark 0 0 (k.heap p_hdr).pMarkData] ∧
      (process_marks k p_hdr pid hdl).1.heap =
        Function.update k.heap p_hdr (unmarked (k.heap p_hdr)) ∧
      (process_marks k p_hdr pid hdl).1.port_marks = k.port_marks ∧
      (process_marks k p_hdr pid hdl).2 = OMX_ErrorNone) := by
  refine ⟨fun hne hd => ?_, fun he => ?_⟩
  · obtain ⟨t1, t2⟩ := transfer_mark_marks k (mark_of (k.heap p_hdr))
    have ht := transfer_mark_fixed k (mark_of (k.heap p_hdr))
    simp only [marks_fixed, egress_fixed, Prod.mk.injEq] at ht
    unfold process_marks
    simp only [hm, ne_eq, not_false_eq_true, if_true, hne, if_false, hd]
    refine ⟨fun j => ?_, ?_, ?_, t1⟩
    · simp only [set_hdr_other]
      exact t2 j
    · simp only [set_hdr_self]
      have hh : (transfer_mark k (mark_of (k.heap p_hdr))).1.heap = k.heap := ht.2.2.2.2.2
      exact congrArg (fun f => Function.update f p_hdr (unmarked (k.heap p_hdr))) hh
    · simp only [set_hdr_other]
      exact ht.2.2.2.2.1
  · subst he
    unfold process_marks
    simp only [hm, ne_eq, not_false_eq_true, if_true]
    refine ⟨?_, ?_, ?_, trivial⟩
    · simp [tizservant_issue_event]
    · simp [tizservant_issue_event, unmarked]
    · simp [tizservant_issue_event]

/-- Witness of C27 in `marked_input_state`: the mark of header `1` moves to the
queue of the output port `1`, and to it alone. -/
theorem C27_marked_header_witness :
    (marked_input_state.heap 1).hMarkTargetComponent ≠ 0 ∧
    (process_marks marked_input_state 1 0 7).1.port_marks 0 = [] ∧
    (process_marks marked_input_state 1 0 7).1.port_marks 1 = [passed_on_mark] ∧
    ((process_marks marked_input_state 1 0 7).1.heap 1).hMarkTargetComponent = 0 ∧
    (process_marks marked_input_state 1 0 7).1.trace = marked_input_state.trace :=
  ⟨by decide, by decide, by decide, by decide,
    ((C27_marked_header marked_input_state 1 0 7 (by decide)).1 (by decide) (by decide)).2.2.1⟩

/-! ## C28: marks on the way out -/

/-- Claim C28.  A header that carries no mark is handled by `process_marks` as
follows.  On an output port the port stamps it with its next stored mark
(`tizport_mark_buffer`): the header and the mark queue are what that call
gives, the result is `OMX_ErrorNone` whatever the call reports, the trace gains
`CommandComplete (MarkBuffer, pid, OMX_ErrorNone)` when the call reports
`OMX_ErrorNone`, which it does exactly when the queue had a first mark and the
port owned it, and gains nothing otherwise; the FSM is not called and
`cmd_completion_count_` keeps its value.  On a port that is not an output port
nothing happens at all. -/
theorem C28_unmarked_header (k : tizkernel) (p_hdr pid hdl : Nat)
    (hm : (k.heap p_hdr).hMarkTargetComponent = 0) :
    (tizport_dir (port_at k pid) = OMX_DirOutput →
      (process_marks k p_hdr pid hdl).2 = OMX_ErrorNone ∧
      (process_marks k p_hdr pid hdl).1.trace = k.trace ++
        (if (tizport_mark_buffer (k.port_marks pid) (k.heap p_hdr)).2.2 = OMX_ErrorNone then
          [Effect.issue_cmd_event OMX_CommandMarkBuffer pid OMX_ErrorNone]
        else []) ∧
      (process_marks k p_hdr pid hdl).1.port_marks = Function.update k.port_marks pid
        (tizport_mark_buffer (k.port_marks pid) (k.heap p_hdr)).1 ∧
      (process_marks k p_hdr pid hdl).1.heap = Function.update k.heap p_hdr
        (tizport_mark_buffer (k.port_marks pid) (k.heap p_hdr)).2.1 ∧
      (process_marks k p_hdr pid hdl).1.cmd_completion_count_ = k.cmd_completion_count_ ∧
      ((tizport_mark_buffer (k.port_marks pid) (k.heap p_hdr)).2.2 = OMX_ErrorNone ↔
        ∃ m ms, k.port_marks pid = m :: ms ∧ m.owned = true)) ∧
    (tizport_dir (port_at k pid) ≠ OMX_DirOutput →
      process_marks k p_hdr pid hdl = (k, OMX_ErrorNone)) := by
  refine ⟨fun hd => ?_, fun hd => ?_⟩
  · have hrc : (tizport_mark_buffer (k.port_marks pid) (k.heap p_hdr)).2.2 = OMX_ErrorNone ∨
        (tizport_mark_buffer (k.port_marks pid) (k.heap p_hdr)).2.2 = OMX_ErrorNoMore ∨
        (tizport_mark_buffer (k.port_marks pid) (k.heap p_hdr)).2.2 = OMX_ErrorNotReady := by
      unfold tizport_mark_buffer
      split
      · exact Or.inr (Or.inl rfl)
      · rename_i m ms heq
        cases m.owned <;> simp
    have hown : (tizport_mark_buffer (k.port_marks pid) (k.heap p_hdr)).2.2 = OMX_ErrorNone ↔
        ∃ m ms, k.port_marks pid = m :: ms ∧ m.owned = true := by
      unfold tizport_mark_buffer
      split
      · rename_i heq
        simp [heq]
      · rename_i m ms heq
        rw [heq]
        cases ho : m.owned <;> simp [ho]
    unfold process_marks
    simp only [hm, ne_eq, not_true_eq_false, if_false, hd, if_true]
    refine ⟨?_, ?_, ?_, ?_, ?_, hown⟩
    · rcases hrc with h | h | h <;> simp [h]
    · rcases hrc with h | h | h <;>
        simp [h, complete_mark_buffer, tizservant_issue_cmd_event]
    · rcases hrc with h | h | h <;>
        simp [h, complete_mark_buffer, tizservant_issue_cmd_event]
    · rcases hrc with h | h | h <;>
        simp [h, complete_mark_buffer, tizservant_issue_cmd_event]
    · rcases hrc with h | h | h <;>
        simp [h, complete_mark_buffer, tizservant_issue_cmd_event]
  · unfold process_marks
    simp only [hm, ne_eq, not_true_eq_false, if_false, hd]

/-- Witness of C28 in `marked_claim_state`, whose port `0` is an input port: a
header without a mark is left alone. -/
theorem C28_unmarked_header_witness :
    (marked_claim_state.heap 1).hMarkTargetComponent = 0 ∧
    tizport_dir (port_at marked_claim_state 0) ≠ OMX_DirOutput ∧
    process_marks marked_claim_state 1 0 7 = (marked_claim_state, OMX_ErrorNone) :=
  ⟨by decide, by decide,
    (C28_unmarked_header marked_claim_state 1 0 7 (by decide)).2 (by decide)⟩

/-! ## C29: `flush_marks` -/

theorem flush_marks_loop_run (pos : Nat) :
    ∀ (n fuel : Nat) (k : tizkernel) (rc : OMX_ERRORTYPE),
      (k.port_marks pos).length = n → n < fuel →
      (flush_marks_loop fuel pos k rc).2 = OMX_ErrorNoMore ∧
      (flush_marks_loop fuel pos k rc).1.port_marks pos = [] ∧
      (flush_marks_loop fuel pos k rc).1.trace = k.trace ++
        List.replicate ((k.port_marks pos).countP (fun m => m.owned))
          (Effect.issue_cmd_event OMX_CommandMarkBuffer (tizport_index (port_at k pos))
            OMX_ErrorPortUnpopulated) := by
  intro n
  induction n with
  | zero =>
    intro fuel k rc hlen hf
    obtain ⟨f, rfl⟩ : ∃ f, fuel = f + 1 := ⟨fuel - 1, by omega⟩
    have hnil : k.port_marks pos = [] := List.length_eq_zero.mp hlen
    rw [flush_marks_loop]
    simp [hnil, tizport_mark_buffer]
  | succ n ih =>
    intro fuel k rc hlen hf
    obtain ⟨f, rfl⟩ : ∃ f, fuel = f + 1 := ⟨fuel - 1, by omega⟩
    obtain ⟨m, ms, hcons⟩ : ∃ m ms, k.port_marks pos = m :: ms := by
      cases hq : k.port_marks pos with
      | nil => rw [hq] at hlen; simp at hlen
      | cons m ms => exact ⟨m, ms, rfl⟩
    have hms : ms.length = n := by rw [hcons] at hlen; simpa using hlen
    rw [flush_marks_loop]
    cases ho : m.owned
    · simp only [hcons, tizport_mark_buffer, ho, Bool.false_eq_true, if_false, ne_eq,
        reduceCtorEq, not_false_eq_true, if_true]
      obtain ⟨h1, h2, h3⟩ := ih f (set_marks k pos ms) OMX_ErrorNotReady
        (by simp [hms]) (by omega)
      refine ⟨h1, h2, ?_⟩
      rw [h3]
      simp [ho]
    · simp only [hcons, tizport_mark_buffer, ho, if_true, ne_eq, reduceCtorEq,
        not_false_eq_true]
      obtain ⟨h1, h2, h3⟩ := ih f (complete_mark_buffer (set_marks k pos ms)
          (tizport_index (port_at (set_marks k pos ms) pos)) OMX_ErrorPortUnpopulated)
        OMX_ErrorNone
        (by simp [complete_mark_buffer, tizservant_issue_cmd_event, hms]) (by omega)
      refine ⟨h1, h2, ?_⟩
      rw [h3]
      simp [ho, complete_mark_buffer, tizservant_issue_cmd_event, List.replicate_succ]

theorem flush_marks_loop_short (pos : Nat) :
    ∀ (fuel : Nat) (k : tizkernel) (rc : OMX_ERRORTYPE),
      rc ≠ OMX_ErrorNoMore → fuel ≤ (k.port_marks pos).length →
      (flush_marks_loop fuel pos k rc).2 ≠ OMX_ErrorNoMore := by
  intro fuel
  induction fuel with
  | zero => intro k rc hrc _; simpa [flush_marks_loop] using hrc
  | succ fuel ih =>
    intro k rc _ hlen
    obtain ⟨m, ms, hcons⟩ : ∃ m ms, k.port_marks pos = m :: ms := by
      cases hq : k.port_marks pos with
      | nil => rw [hq] at hlen; simp at hlen
      | cons m ms => exact ⟨m, ms, rfl⟩
    have hms : fuel ≤ ms.length := by rw [hcons] at hlen; simpa using hlen
    rw [flush_marks_loop]
    cases ho : m.owned
    · simp only [hcons, tizport_mark_buffer, ho, Bool.false_eq_true, if_false, ne_eq,
        reduceCtorEq, not_false_eq_true, if_true]
      exact ih (set_marks k pos ms) OMX_ErrorNotReady (by simp) (by simpa using hms)
    · simp only [hcons, tizport_mark_buffer, ho, if_true, ne_eq, reduceCtorEq,
        not_false_eq_true]
      exact ih _ OMX_ErrorNone (by simp)
        (by simpa [complete_mark_buffer, tizservant_issue_cmd_event] using hms)

/-- Claim C29.  Let the mark queue of the port at `pos` hold `n` marks.
`flush_marks` ends with `OMX_ErrorNoMore`, which is the result of the call of
`tizport_mark_buffer` number `n + 1`: the loop run for `n` iterations has not
seen `OMX_ErrorNoMore`, and run for any number above `n` it gives what
`flush_marks` gives.  The mark queue is left empty, and the trace gains one
`CommandComplete (MarkBuffer, index, OMX_ErrorPortUnpopulated)` for every owned
mark of the queue and nothing else. -/
theorem C29_flush_marks (k : tizkernel) (pos : Nat) :
    (flush_marks k pos).2 = OMX_ErrorNoMore ∧
    (flush_marks k pos).1.port_marks pos = [] ∧
    (flush_marks k pos).1.trace = k.trace ++
      List.replicate ((k.port_marks pos).countP (fun m => m.owned))
        (Effect.issue_cmd_event OMX_CommandMarkBuffer (tizport_index (port_at k pos))
          OMX_ErrorPortUnpopulated) ∧
    (flush_marks_loop (k.port_marks pos).length pos k OMX_ErrorNone).2 ≠ OMX_ErrorNoMore ∧
    (∀ fuel, (k.port_marks pos).length < fuel →
      (flush_marks_loop fuel pos k OMX_ErrorNone).2 = (flush_marks k pos).2 ∧
      (flush_marks_loop fuel pos k OMX_ErrorNone).1.port_marks pos =
        (flush_marks k pos).1.port_marks pos ∧
      (flush_marks_loop fuel pos k OMX_ErrorNone).1.trace = (flush_marks k pos).1.trace) := by
  obtain ⟨h1, h2, h3⟩ := flush_marks_loop_run pos (k.port_marks pos).length
    ((k.port_marks pos).length + 1) k OMX_ErrorNone rfl (by omega)
  refine ⟨h1, h2, h3, ?_, fun fuel hf => ?_⟩
  · exact flush_marks_loop_short pos _ k OMX_ErrorNone (by simp) (le_refl _)
  · obtain ⟨g1, g2, g3⟩ := flush_marks_loop_run pos (k.port_marks pos).length fuel k
      OMX_ErrorNone rfl hf
    exact ⟨g1.trans h1.symm, g2.trans h2.symm, g3.trans h3.symm⟩

/-- Witness of C29 in `three_marks_state`, whose port `0` holds two owned marks
and one that it does not own: two completions with `OMX_ErrorPortUnpopulated`,
and seven iterations give what `flush_marks` gives. -/
theorem C29_flush_marks_witness :
    (three_marks_state.port_marks 0).length < 7 ∧
    (flush_marks three_marks_state 0).1.trace =
      [Effect.issue_cmd_event OMX_CommandMarkBuffer 0 OMX_ErrorPortUnpopulated,
       Effect.issue_cmd_event OMX_CommandMarkBuffer 0 OMX_ErrorPortUnpopulated] ∧
    (flush_marks_loop 7 0 three_marks_state OMX_ErrorNone).1.trace =
      (flush_marks three_marks_state 0).1.trace :=
  ⟨by decide, by decide,
    ((C29_flush_marks three_marks_state 0).2.2.2.2 7 (by decide)).2.2⟩

/-! ## C25: `flush_egress` with `clear = true` -/

theorem process_marks_heap_other (k : tizkernel) (p_hdr pid hdl a : Nat) (ha : a ≠ p_hdr) :
    (process_marks k p_hdr pid hdl).1.heap a = k.heap a := by
  have ht := transfer_mark_fixed k
  simp only [marks_fixed, egress_fixed, Prod.mk.injEq] at ht
  unfold process_marks
  simp only []
  split_ifs <;>
    simp [ht, tizservant_issue_event, complete_mark_buffer, tizservant_issue_cmd_event,
      Function.update_apply, ha]

theorem process_marks_heap_clear (k : tizkernel) (p_hdr pid hdl a : Nat) :
    tiz_clear_header ((process_marks k p_hdr pid hdl).1.heap a) = tiz_clear_header (k.heap a) := by
  by_cases ha : a = p_hdr
  · subst ha
    have ht := transfer_mark_fixed k
    simp only [marks_fixed, egress_fixed, Prod.mk.injEq] at ht
    unfold process_marks
    simp only []
    split_ifs <;>
      simp [ht, tizservant_issue_event, complete_mark_buffer, tizservant_issue_cmd_event,
        tiz_clear_header, tizport_mark_buffer] <;>
      split <;> simp [stamp]
  · rw [process_marks_heap_other k p_hdr pid hdl a ha]

theorem flush_egress_hdr_heap_clear (pid : Nat) (pdir : OMX_DIRTYPE) (thdl : Nat)
    (p_hdr : Nat) (k : tizkernel) (a : Nat) :
    (flush_egress_hdr pid pdir thdl true p_hdr k).heap a =
      if a = p_hdr then tiz_clear_header (k.heap p_hdr) else k.heap a := by
  have h1 := fun k1 => process_marks_heap_clear k1 p_hdr pid k1.hdl p_hdr
  have h2 := fun k1 (ha : a ≠ p_hdr) => process_marks_heap_other k1 p_hdr pid k1.hdl a ha
  unfold flush_egress_hdr
  simp only [↓reduceIte, set_egress_other, tizservant_issue_buf_callback, emit_other,
    set_hdr_self, Function.update_apply]
  by_cases ha : a = p_hdr
  · simp only [ha, if_true]
    rw [h1]
    split_ifs <;> rfl
  · simp only [ha, if_false]
    rw [h2 _ ha]
    split_ifs <;> rfl

theorem tiz_clear_header_idem (h : OMX_BUFFERHEADERTYPE) :
    tiz_clear_header (tiz_clear_header h) = tiz_clear_header h := rfl

theorem flush_egress_list_heap_clear (pid : Nat) (pdir : OMX_DIRTYPE) (thdl : Nat) :
    ∀ (fuel : Nat) (k : tizkernel), peer_scount k thdl = 0 →
      (egress_at k pid).length ≤ fuel →
      ∀ a, (flush_egress_list pid pdir thdl true fuel k).heap a =
        if a ∈ egress_at k pid then tiz_clear_header (k.heap a) else k.heap a := by
  intro fuel
  induction fuel with
  | zero =>
    intro k _ hl a
    have hnil : egress_at k pid = [] := List.length_eq_zero.mp (Nat.le_zero.mp hl)
    rw [flush_egress_list]
    simp [hnil]
  | succ fuel ih =>
    intro k hs hl a
    rw [flush_egress_list]
    split
    · rename_i hnil
      simp [hnil]
    · rename_i p_hdr rest heq
      simp only [hs, ne_eq, not_true_eq_false, if_false]
      have hlen : pid < k.p_egress_.length := by
        by_contra hc
        rw [egress_at_nil k pid (Nat.le_of_not_lt hc)] at heq
        exact absurd heq (by simp)
      have hfix := flush_egress_hdr_fixed pid pdir thdl true p_hdr k
      simp only [egress_fixed, Prod.mk.injEq] at hfix
      have heg := flush_egress_hdr_egress pid pdir thdl true p_hdr k
      rw [heq] at heg
      simp only [List.eraseIdx_cons_zero] at heg
      have hat : egress_at (flush_egress_hdr pid pdir thdl true p_hdr k) pid = rest := by
        rw [egress_at_of_set heg]; simp [hlen]
      have h1 := ih (flush_egress_hdr pid pdir thdl true p_hdr k)
        (by rw [peer_scount_congr (env_part_fields hfix.2.2.2.2.2).2.2.2.1]; exact hs)
        (by rw [hat]; rw [heq] at hl; simpa using hl) a
      rw [h1, hat, flush_egress_hdr_heap_clear, heq]
      by_cases ha : a = p_hdr
      · subst ha
        simp [tiz_clear_header_idem]
      · simp [ha]

/-- Claim C25 is false as stated.  In `flush_state` the headers `1` and `2` wait
in `egress[0]`; `flush_egress (0, clear = true)` hands both to the buffer
callback and leaves `egress[0]` empty. -/
theorem C25_cleared_headers_leave :
    egress_at flush_state 0 = [1, 2] ∧
    delivered flush_state = [] ∧
    egress_at (flush_egress flush_state 0 true).1 0 = [] ∧
    delivered (flush_egress flush_state 0 true).1 = [(0, 1), (0, 2)] := by
  decide

/-- Claim C25, amended.  For a port `pid` that is not tunnelled,
`flush_egress (pid, clear)` with either value of `clear` hands every header of
`egress[pid]` to the outgoing buffer callback, once, in list order, and leaves
`egress[pid]` empty; with `clear = true` the headers of the list leave with
their metadata zeroed (`tiz_clear_header`) and every other header is as it
was. -/
theorem C25_flush_egress_clear (k : tizkernel) (pid : Nat) (hall : pid ≠ OMX_ALL)
    (hnt : tizport_get_tunnel_comp (port_at k pid) = 0) :
    (∀ c, egress_at (flush_egress k pid c).1 pid = [] ∧
      delivered (flush_egress k pid c).1 =
        delivered k ++ (egress_at k pid).map (fun h => (pid, h))) ∧
    (∀ a, (flush_egress k pid true).1.heap a =
      if a ∈ egress_at k pid then tiz_clear_header (k.heap a) else k.heap a) := by
  have hs : peer_scount k 0 = 0 := by simp [peer_scount]
  refine ⟨fun c => ⟨flush_egress_single_drain k pid c hall hnt, ?_⟩, fun a => ?_⟩
  · rw [flush_egress_single k pid c hall, hnt]
    exact (flush_egress_list_drain pid _ 0 c _ k hs (le_refl _)).2
  · rw [flush_egress_single k pid true hall, hnt]
    exact flush_egress_list_heap_clear pid _ 0 _ k hs (le_refl _) a

/-- Witness of C25 (amended) in `flush_state`: header `1` leaves with
`nFilledLen = 0`. -/
theorem C25_flush_egress_clear_witness :
    (0 : Nat) ≠ OMX_ALL ∧
    tizport_get_tunnel_comp (port_at flush_state 0) = 0 ∧
    (flush_state.heap 1).nFilledLen = 100 ∧
    ((flush_egress flush_state 0 true).1.heap 1).nFilledLen = 0 ∧
    egress_at (flush_egress flush_state 0 true).1 0 = [] :=
  ⟨by decide, by decide, by decide, by decide,
    ((C25_flush_egress_clear flush_state 0 (by decide) (by decide)).1 true).1⟩

/-! ## C26: the order in which headers leave a port -/

theorem schedule_congr {k k1 : tizkernel} (he : k1.p_egress_ = k.p_egress_)
    (hd : delivered k1 = delivered k) (p : Nat) : schedule k1 p = schedule k p := by
  unfold schedule departures egress_at
  rw [he, hd]

theorem flush_egress_hdr_schedule (pid : Nat) (pdir : OMX_DIRTYPE) (thdl : Nat) (c : Bool)
    (p_hdr : Nat) (rest : List Nat) (k : tizkernel) (heq : egress_at k pid = p_hdr :: rest)
    (p : Nat) : schedule (flush_egress_hdr pid pdir thdl c p_hdr k) p = schedule k p := by
  have hlen : pid < k.p_egress_.length := by
    by_contra hc
    rw [egress_at_nil k pid (Nat.le_of_not_lt hc)] at heq
    exact absurd heq (by simp)
  have heg := flush_egress_hdr_egress pid pdir thdl c p_hdr k
  rw [heq] at heg
  simp only [List.eraseIdx_cons_zero] at heg
  unfold schedule departures
  rw [flush_egress_hdr_delivered, egress_at_of_set heg p]
  by_cases hp : pid = p
  · subst hp
    simp [hlen, heq, List.filter_append]
  · simp [hp, List.filter_append]

theorem flush_egress_list_schedule (pid : Nat) (pdir : OMX_DIRTYPE) (thdl : Nat) (c : Bool)
    (p : Nat) :
    ∀ (fuel : Nat) (k : tizkernel),
      schedule (flush_egress_list pid pdir thdl c fuel k) p = schedule k p := by
  intro fuel
  induction fuel with
  | zero => intro k; rfl
  | succ fuel ih =>
    intro k
    rw [flush_egress_list]
    split
    · rfl
    · rename_i p_hdr rest heq
      split_ifs
      · have hq := enqueue_callback_msg_fixed k 0 0 OMX_DirMax
        exact schedule_congr hq.2.1 (by unfold delivered; rw [hq.2.2.1]) p
      · rw [ih, flush_egress_hdr_schedule pid pdir thdl c p_hdr rest k heq]

theorem flush_egress_loop_schedule (a_pid : Nat) (c : Bool) (n : Nat) (p : Nat) :
    ∀ (fuel i : Nat) (k : tizkernel),
      schedule (flush_egress_loop a_pid c n fuel i k) p = schedule k p := by
  intro fuel
  induction fuel with
  | zero => intro i k; rfl
  | succ fuel ih =>
    intro i k
    rw [flush_egress_loop]
    split_ifs <;>
      first
        | exact flush_egress_list_schedule _ _ _ _ _ _ _
        | (rw [ih]; exact flush_egress_list_schedule _ _ _ _ _ _ _)

theorem flush_egress_schedule (k : tizkernel) (a_pid : Nat) (c : Bool) (p : Nat) :
    schedule (flush_egress k a_pid c).1 p = schedule k p :=
  flush_egress_loop_schedule a_pid c _ p _ _ _

/-- Claim C26.  For a port `pid` that is not tunnelled,
`flush_egress (pid, clear = false)` hands to the outgoing buffer callback the
headers of `egress[pid]`, each once, from the front of the list to its back,
and leaves `egress[pid]` empty.  For every port, tunnelled or not, and every
call of `flush_egress`, the departure schedule of the port (what has left,
followed by what waits in the egress list) is unchanged: headers leave from the
front of the list.  A real callback that passes the gate of `dispatch_cb` adds
its header at the end of the schedule of its port and changes no other
schedule: headers leave a port in the order in which their callbacks were
dispatched. -/
theorem C26_egress_order (k : tizkernel) :
    (∀ pid, pid ≠ OMX_ALL → tizport_get_tunnel_comp (port_at k pid) = 0 →
      egress_at (flush_egress k pid false).1 pid = [] ∧
      delivered (flush_egress k pid false).1 =
        delivered k ++ (egress_at k pid).map (fun h => (pid, h))) ∧
    (∀ a_pid c p, schedule (flush_egress k a_pid c).1 p = schedule k p) ∧
    (∀ cb : tizkernel_msg_callback_t,
      (k.fsm_substate ≠ EStatePause ∨ TIZPORT_IS_BEING_FLUSHED (port_at k cb.pid) = true) →
      cb.p_hdr ≠ 0 → cb.pid < k.p_egress_.length → k.vec_oom = false →
      ∀ p, schedule (dispatch_cb k cb).1 p =
        schedule k p ++ if p = cb.pid then [cb.p_hdr] else []) := by
  refine ⟨fun pid hall hnt => ?_, fun a_pid c p => flush_egress_schedule k a_pid c p,
    fun cb hgate hh hle hoom p => ?_⟩
  · refine ⟨flush_egress_single_drain k pid false hall hnt, ?_⟩
    rw [flush_egress_single k pid false hall, hnt]
    exact (flush_egress_list_drain pid _ 0 false _ k (by simp [peer_scount]) (le_refl _)).2
  · have hg : ¬ (k.fsm_substate = EStatePause ∧
        TIZPORT_IS_BEING_FLUSHED (port_at k cb.pid) = false) := by
      rcases hgate with h | h
      · exact fun hc => h hc.1
      · rw [h]; simp
    obtain ⟨r1, r2, _⟩ := dispatch_cb_real_frame k cb hg hh hoom
    rw [schedule_congr r1 r2 p]
    unfold callback_flushed
    rw [flush_egress_schedule]
    unfold schedule
    rw [callback_pushed_egress]
    have hd : departures (callback_pushed k cb) p = departures k p := rfl
    rw [hd]
    by_cases hp : p = cb.pid
    · subst hp
      simp [hle]
    · have hp2 : ¬ cb.pid = p := fun h => hp h.symm
      simp [hp, hp2]

/-- Witness of C26 in `flush_state`: the headers `1` and `2` of `egress[0]`
leave in this order. -/
theorem C26_egress_order_witness :
    (0 : Nat) ≠ OMX_ALL ∧
    tizport_get_tunnel_comp (port_at flush_state 0) = 0 ∧
    egress_at flush_state 0 = [1, 2] ∧
    delivered (flush_egress flush_state 0 false).1 = [(0, 1), (0, 2)] ∧
    egress_at (flush_egress flush_state 0 false).1 0 = [] :=
  ⟨by decide, by decide, by decide, by decide,
    ((C26_egress_order flush_state).1 0 (by decide) (by decide)).1⟩

/-! ## C31: a move that fails -/

/-- Claim C31 fails on the code.  In `oom_merge_state` the append fails:
`move_to_egress (0)` returns `-1`, the egress list is as before and the ingress
list, which held the headers `1` and `2`, is empty; `move_to_ingress (0)`
returns `-1`, the ingress list is as before and the egress list, which held the
header `3`, is empty. -/
theorem C31_failed_move_drops_the_source :
    ingress_at oom_merge_state 0 = [1, 2] ∧ egress_at oom_merge_state 0 = [3] ∧
    (move_to_egress oom_merge_state 0).2 = -1 ∧
    ingress_at (move_to_egress oom_merge_state 0).1 0 = [] ∧
    egress_at (move_to_egress oom_merge_state 0).1 0 = [3] ∧
    (move_to_ingress oom_merge_state 0).2 = -1 ∧
    ingress_at (move_to_ingress oom_merge_state 0).1 0 = [1, 2] ∧
    egress_at (move_to_ingress oom_merge_state 0).1 0 = [] := by
  decide

/-! ## C35: the result of `flush_marks` -/

/-- Claim C35.  `flush_marks` returns `OMX_ErrorNoMore` in every state, and so
does `complete_port_disable`, whose result is that of `flush_marks`.  The loop
of `flush_marks` has a result other than `OMX_ErrorNoMore` only while it has
run for no more iterations than there are marks. -/
theorem C35_flush_marks_result (k : tizkernel) (pos : Nat) (err : OMX_ERRORTYPE) :
    (flush_marks k pos).2 = OMX_ErrorNoMore ∧
    (complete_port_disable k pos err).2 = OMX_ErrorNoMore ∧
    (∀ fuel rc, (flush_marks_loop fuel pos k rc).2 ≠ OMX_ErrorNoMore →
      fuel ≤ (k.port_marks pos).length) := by
  refine ⟨?_, ?_, fun fuel rc h => ?_⟩
  · exact (flush_marks_loop_run pos _ _ k OMX_ErrorNone rfl (by omega)).1
  · unfold complete_port_disable
    exact (flush_marks_loop_run pos _ _ _ OMX_ErrorNone rfl (by omega)).1
  · by_contra hc
    exact h (flush_marks_loop_run pos _ fuel k rc rfl (by omega)).1

/-- Witness of C35 in `last_completion_state`: the disable of port `0` is
completed, the FSM is told, and the result is `OMX_ErrorNoMore`. -/
theorem C35_flush_marks_result_witness :
    (flush_marks_loop 0 0 last_completion_state OMX_ErrorNone).2 ≠ OMX_ErrorNoMore ∧
    (complete_port_disable last_completion_state 0 OMX_ErrorNone).1.trace =
      [Effect.fsm_complete_command OMX_CommandPortDisable 0] ∧
    (complete_port_disable last_completion_state 0 OMX_ErrorNone).2 = OMX_ErrorNoMore ∧
    0 ≤ (last_completion_state.port_marks 0).length :=
  ⟨by decide, by decide, by decide,
    (C35_flush_marks_result last_completion_state 0 OMX_ErrorNone).2.2 0 OMX_ErrorNone
      (by decide)⟩

/-! ## C38: `all_buffers_returned` and the EOS latch -/

/-- Claim C38.  The state that `all_buffers_returned` leaves is the state it was
given with `eos_` set to false when the result is true, and that state itself
when the result is false. -/
theorem C38_all_buffers_returned_eos (k : tizkernel) :
    (all_buffers_returned k).1 =
      { k with eos_ := if (all_buffers_returned k).2 = true then false else k.eos_ } := by
  unfold all_buffers_returned
  split_ifs <;> simp_all [set_eos]

/-! ## C32, C36, C37: `propagate_ingress` -/

theorem propagate_ingress_hdrs_run (pdir : OMX_DIRTYPE) :
    ∀ (l : List Nat) (k : tizkernel),
      (propagate_ingress_hdrs pdir l k).trace = k.trace ++
        l.map (fun h => prc_buffer_call pdir h (tiz_clear_header (k.heap h))) ∧
      (∀ a, (propagate_ingress_hdrs pdir l k).heap a =
        if a ∈ l then tiz_clear_header (k.heap a) else k.heap a) ∧
      (propagate_ingress_hdrs pdir l k).p_ingress_ = k.p_ingress_ ∧
      (propagate_ingress_hdrs pdir l k).p_egress_ = k.p_egress_ ∧
      (propagate_ingress_hdrs pdir l k).p_ports_ = k.p_ports_ := by
  intro l
  induction l with
  | nil => intro k; simp [propagate_ingress_hdrs]
  | cons h rest ih =>
    intro k
    have hk : ∀ k2 : tizkernel,
        k2.heap = Function.update k.heap h (tiz_clear_header (k.heap h)) →
        k2.trace = k.trace ++ [prc_buffer_call pdir h (tiz_clear_header (k.heap h))] →
        (propagate_ingress_hdrs pdir rest k2).trace = k.trace ++
          (h :: rest).map (fun a => prc_buffer_call pdir a (tiz_clear_header (k.heap a))) ∧
        (∀ a, (propagate_ingress_hdrs pdir rest k2).heap a =
          if a ∈ h :: rest then tiz_clear_header (k.heap a) else k.heap a) := by
      intro k2 hh ht
      obtain ⟨i1, i2, _⟩ := ih k2
      have hcl : ∀ a, tiz_clear_header (k2.heap a) = tiz_clear_header (k.heap a) := by
        intro a
        rw [hh, Function.update_apply]
        split_ifs with ha
        · rw [ha]; rfl
        · rfl
      refine ⟨?_, fun a => ?_⟩
      · rw [i1, ht, List.map_cons, List.append_assoc]
        simp only [hcl, List.singleton_append]
      · rw [i2 a, hcl a, hh, Function.update_apply]
        by_cases ha : a = h
        · subst ha; simp [tiz_clear_header_idem]
        · simp [ha]
    rw [propagate_ingress_hdrs]
    by_cases hd : pdir = OMX_DirInput
    · subst hd
      simp only [if_true]
      obtain ⟨_, _, j3, j4, j5⟩ := ih (emit (set_hdr k h (tiz_clear_header (k.heap h)))
        (Effect.prc_EmptyThisBuffer h ((set_hdr k h (tiz_clear_header (k.heap h))).heap h)))
      obtain ⟨g1, g2⟩ := hk (emit (set_hdr k h (tiz_clear_header (k.heap h)))
        (Effect.prc_EmptyThisBuffer h ((set_hdr k h (tiz_clear_header (k.heap h))).heap h)))
        (by simp) (by simp [prc_buffer_call])
      exact ⟨g1, g2, by simpa using j3, by simpa using j4, by simpa using j5⟩
    · simp only [hd, if_false]
      obtain ⟨_, _, j3, j4, j5⟩ := ih (emit (set_hdr k h (tiz_clear_header (k.heap h)))
        (Effect.prc_FillThisBuffer h ((set_hdr k h (tiz_clear_header (k.heap h))).heap h)))
      obtain ⟨g1, g2⟩ := hk (emit (set_hdr k h (tiz_clear_header (k.heap h)))
        (Effect.prc_FillThisBuffer h ((set_hdr k h (tiz_clear_header (k.heap h))).heap h)))
        (by simp) (by simp [prc_buffer_call, hd])
      exact ⟨g1, g2, by simpa using j3, by simpa using j4, by simpa using j5⟩

theorem propagate_ingress_single (k : tizkernel) (pid : Nat) (hall : pid ≠ OMX_ALL) :
    propagate_ingress k pid =
      (propagate_ingress_hdrs (tizport_dir (port_at k pid)) (ingress_at k pid) k,
       OMX_ErrorNone) := by
  have hne : OMX_ALL ≠ pid := fun h => hall h.symm
  unfold propagate_ingress
  rw [propagate_ingress_loop]
  simp only [hne, ne_eq, not_false_eq_true, if_true, false_and, if_false]

theorem prc_buffers_append (k k1 : tizkernel) (pdir : OMX_DIRTYPE) (l : List Nat)
    (f : Nat → OMX_BUFFERHEADERTYPE)
    (h : k1.trace = k.trace ++ l.map (fun a => prc_buffer_call pdir a (f a))) :
    prc_buffers k1 = prc_buffers k ++ l.map (fun a => (decide (pdir = OMX_DirInput), a)) := by
  unfold prc_buffers
  rw [h, List.filter_append, List.map_append]
  congr 1
  clear h
  induction l with
  | nil => rfl
  | cons a rest ih =>
    by_cases hd : pdir = OMX_DirInput <;>
      simp_all [prc_buffer_call, is_prc_buffer, prc_buffer_hdr]

/-- Claim C32.  For a port index `pid` other than `OMX_ALL`, `propagate_ingress
(pid)` succeeds and hands every header of `ingress[pid]` to the processor, once
and in list order, with `EmptyThisBuffer` when the port is an input port and
with `FillThisBuffer` otherwise; it makes no other call, and the ingress and
egress lists of all ports are as before. -/
theorem C32_propagate_ingress (k : tizkernel) (pid : Nat) (hall : pid ≠ OMX_ALL) :
    (propagate_ingress k pid).2 = OMX_ErrorNone ∧
    prc_buffers (propagate_ingress k pid).1 = prc_buffers k ++
      (ingress_at k pid).map
        (fun h => (decide (tizport_dir (port_at k pid) = OMX_DirInput), h)) ∧
    (propagate_ingress k pid).1.trace.filter (fun e => !is_prc_buffer e) =
      k.trace.filter (fun e => !is_prc_buffer e) ∧
    (propagate_ingress k pid).1.p_ingress_ = k.p_ingress_ ∧
    (propagate_ingress k pid).1.p_egress_ = k.p_egress_ := by
  obtain ⟨h1, _, h3, h4, _⟩ := propagate_ingress_hdrs_run (tizport_dir (port_at k pid))
    (ingress_at k pid) k
  rw [propagate_ingress_single k pid hall]
  refine ⟨rfl, prc_buffers_append _ _ _ _ _ h1, ?_, h3, h4⟩
  simp only []
  rw [h1, List.filter_append]
  have hnil : ∀ l : List Nat, (l.map (fun h => prc_buffer_call (tizport_dir (port_at k pid)) h
      (tiz_clear_header (k.heap h)))).filter (fun e => !is_prc_buffer e) = [] := by
    intro l
    induction l with
    | nil => rfl
    | cons a rest ih =>
      by_cases hd : tizport_dir (port_at k pid) = OMX_DirInput <;>
        simp_all [prc_buffer_call, is_prc_buffer]
  rw [hnil, List.append_nil]

/-- Witness of C32 in `two_lists_state`: the header `2` of the output port `1`
goes to the processor with `FillThisBuffer` and stays in `ingress[1]`. -/
theorem C32_propagate_ingress_witness :
    (1 : Nat) ≠ OMX_ALL ∧
    prc_buffers (propagate_ingress two_lists_state 1).1 = [(false, 2)] ∧
    ingress_at (propagate_ingress two_lists_state 1).1 1 = [2] ∧
    (propagate_ingress two_lists_state 1).1.p_ingress_ = two_lists_state.p_ingress_ :=
  ⟨by decide, by decide, by decide,
    (C32_propagate_ingress two_lists_state 1 (by decide)).2.2.2.1⟩

/-- Claim C36.  `propagate_ingress (OMX_ALL)` is `propagate_ingress` of port `0`
alone: the trace gains the calls for the headers of `ingress[0]` and nothing
else, whatever the other ingress lists hold.  `flush_egress (OMX_ALL)`, whose
loop tests its argument, empties the egress list of every port when no port is
tunnelled. -/
theorem C36_propagate_ingress_all (k : tizkernel) :
    propagate_ingress k OMX_ALL =
      (propagate_ingress_hdrs (tizport_dir (port_at k 0)) (ingress_at k 0) k,
       OMX_ErrorNone) ∧
    (propagate_ingress k OMX_ALL).1.trace = k.trace ++
      (ingress_at k 0).map
        (fun h => prc_buffer_call (tizport_dir (port_at k 0)) h (tiz_clear_header (k.heap h))) ∧
    ((∀ j, tizport_get_tunnel_comp (port_at k j) = 0) → 0 < nports k →
      ∀ j, j < nports k → egress_at (flush_egress k OMX_ALL false).1 j = []) := by
  have he : propagate_ingress k OMX_ALL =
      (propagate_ingress_hdrs (tizport_dir (port_at k 0)) (ingress_at k 0) k,
       OMX_ErrorNone) := by
    unfold propagate_ingress
    rw [propagate_ingress_loop]
    have h0 : ¬ OMX_ALL = 0 := by decide
    simp only [ne_eq, not_true_eq_false, if_false, h0, false_and]
  refine ⟨he, ?_, fun hnt hn j hj => ?_⟩
  · rw [he]
    exact (propagate_ingress_hdrs_run _ _ k).1
  · rw [(flush_egress_all_drain k false hnt hn).2.1 j, if_pos hj]

/-- Witness of C36 in `two_lists_state`: with `OMX_ALL` only the header `1` of
port `0` reaches the processor, while `flush_egress (OMX_ALL)` empties the
egress list of port `1` too. -/
theorem C36_propagate_ingress_all_witness :
    (∀ j, tizport_get_tunnel_comp (port_at two_lists_state j) = 0) ∧
    prc_buffers (propagate_ingress two_lists_state OMX_ALL).1 = [(true, 1)] ∧
    ingress_at two_lists_state 1 = [2] ∧
    egress_at two_lists_state 1 = [4] ∧
    egress_at (flush_egress two_lists_state OMX_ALL false).1 1 = [] :=
  ⟨fun j => by
      cases j with
      | zero => rfl
      | succ n => cases n <;> rfl,
    by decide, by decide, by decide,
    (C36_propagate_ingress_all two_lists_state).2.2
      (fun j => by
        cases j with
        | zero => rfl
        | succ n => cases n <;> rfl)
      (by decide) 1 (by decide)⟩

/-- Claim C37.  For a port index `pid` other than `OMX_ALL`, every header that
`propagate_ingress (pid)` hands to the processor is handed over as
`tiz_clear_header` leaves it, whatever the direction of the port, so with
`nFilledLen = 0`; afterwards the headers of `ingress[pid]` are cleared and every
other header is as it was. -/
theorem C37_propagate_ingress_clears (k : tizkernel) (pid : Nat) (hall : pid ≠ OMX_ALL) :
    (propagate_ingress k pid).1.trace = k.trace ++
      (ingress_at k pid).map
        (fun h => prc_buffer_call (tizport_dir (port_at k pid)) h
          (tiz_clear_header (k.heap h))) ∧
    (∀ a, (propagate_ingress k pid).1.heap a =
      if a ∈ ingress_at k pid then tiz_clear_header (k.heap a) else k.heap a) ∧
    (∀ h, (tiz_clear_header h).nFilledLen = 0) := by
  obtain ⟨h1, h2, _⟩ := propagate_ingress_hdrs_run (tizport_dir (port_at k pid))
    (ingress_at k pid) k
  rw [propagate_ingress_single k pid hall]
  exact ⟨h1, h2, fun _ => rfl⟩

/-- Witness of C37 in `two_lists_state`: the header `1` of the input port `0`
has `nFilledLen = 100` and reaches the processor with `nFilledLen = 0`. -/
theorem C37_propagate_ingress_clears_witness :
    (0 : Nat) ≠ OMX_ALL ∧
    (two_lists_state.heap 1).nFilledLen = 100 ∧
    (propagate_ingress two_lists_state 0).1.trace =
      [Effect.prc_EmptyThisBuffer 1 (tiz_clear_header hdr100)] ∧
    ((propagate_ingress two_lists_state 0).1.heap 1).nFilledLen = 0 ∧
    (propagate_ingress two_lists_state 0).1.trace = two_lists_state.trace ++
      (ingress_at two_lists_state 0).map
        (fun h => prc_buffer_call (tizport_dir (port_at two_lists_state 0)) h
          (tiz_clear_header (two_lists_state.heap h))) :=
  ⟨by decide, by decide, by decide, by decide,
    (C37_propagate_ingress_clears two_lists_state 0 (by decide)).1⟩

/-! ## C40: `kernel_stop_and_return` and a move that fails -/

theorem kernel_stop_and_return_body_frame (i : Nat) (k : tizkernel) (rc : OMX_ERRORTYPE) :
    (kernel_stop_and_return_body i k rc).1.p_ports_ = k.p_ports_ ∧
    env_part (kernel_stop_and_return_body i k rc).1 = env_part k := by
  have hi := move_to_ingress_fixed k i
  have he := move_to_egress_fixed k i
  simp only [lists_free, Prod.mk.injEq] at hi he
  have hf := flush_egress_frame (move_to_egress k i).1 i false (fun _ => false)
    (fun _ _ => rfl)
  have hm := flush_marks_frame (flush_egress (move_to_egress k i).1 i false).1 i
    (fun _ => false) (fun _ _ => rfl)
  simp only [buffers_fixed, egress_fixed, Prod.mk.injEq] at hf hm
  unfold kernel_stop_and_return_body
  simp only []
  split_ifs
  · exact ⟨rfl, rfl⟩
  · exact ⟨hi.1, hi.2.2.2.1⟩
  · exact ⟨hi.1, hi.2.2.2.1⟩
  · exact ⟨hm.1.1.1.trans (hf.1.1.trans he.1),
      hm.1.1.2.2.2.2.2.trans (hf.1.2.2.2.2.2.trans he.2.2.2.1)⟩

theorem move_to_ingress_fails (k : tizkernel) (i : Nat) :
    (move_to_ingress k i).2 < 0 ↔ k.vec_oom = true := by
  cases h : k.vec_oom <;> simp [move_to_ingress, tiz_vector_append, h]

theorem move_to_egress_fails (k : tizkernel) (i : Nat) (h : k.vec_oom = true) :
    (move_to_egress k i).2 = -1 := by
  simp [move_to_egress, tiz_vector_append, h]

theorem kernel_stop_and_return_body_rc (i : Nat) (k : tizkernel) :
    ((kernel_stop_and_return_body i k OMX_ErrorNone).2 = OMX_ErrorInsufficientResources ↔
      k.vec_oom = true ∧ holds_tunnel_buffers (port_at k i)) ∧
    ((kernel_stop_and_return_body i k OMX_ErrorNone).2 = OMX_ErrorNone ∨
      (kernel_stop_and_return_body i k OMX_ErrorNone).2 = OMX_ErrorInsufficientResources) := by
  have hmi := move_to_ingress_fails k i
  have hen : TIZPORT_IS_ENABLED_TUNNELED_AND_SUPPLIER (port_at k i) = true →
      TIZPORT_IS_DISABLED (port_at k i) = false := by
    simp only [TIZPORT_IS_ENABLED_TUNNELED_AND_SUPPLIER, TIZPORT_IS_DISABLED,
      TIZPORT_IS_ENABLED, TIZPORT_IS_TUNNELED, TIZPORT_IS_SUPPLIER]
    cases (port_at k i).enabled <;> simp
  unfold kernel_stop_and_return_body holds_tunnel_buffers
  simp only []
  split_ifs with h1 h2 h3
  · refine ⟨⟨fun h => absurd h (by simp), fun h => ?_⟩, Or.inl rfl⟩
    rcases h1 with h1 | h1
    · rw [hen h.2.2] at h1; exact absurd h1 (by simp)
    · exact absurd h1 h.2.1
  · refine ⟨⟨fun _ => ⟨hmi.mp h3, ?_, h2⟩, fun _ => rfl⟩, Or.inr rfl⟩
    exact fun hb => h1 (Or.inr hb)
  · refine ⟨⟨fun h => absurd h (by simp), fun h => absurd (hmi.mpr h.1) h3⟩, Or.inl rfl⟩
  · refine ⟨⟨fun h => ?_, fun h => absurd h.2.2 h2⟩, Or.inl rfl⟩
    rw [flush_egress_rc] at h
    exact absurd h (by simp)

theorem kernel_stop_and_return_loop_stop (n : Nat) (fuel i : Nat) (k : tizkernel)
    (rc : OMX_ERRORTYPE) (h : rc ≠ OMX_ErrorNone) :
    kernel_stop_and_return_loop n fuel i k rc = (k, rc) := by
  cases fuel with
  | zero => rfl
  | succ f => rw [kernel_stop_and_return_loop]; simp [h]

theorem kernel_stop_and_return_loop_rc (n : Nat) :
    ∀ (fuel i : Nat) (k : tizkernel), n ≤ i + fuel →
      ((kernel_stop_and_return_loop n fuel i k OMX_ErrorNone).2 =
          OMX_ErrorInsufficientResources ↔
        k.vec_oom = true ∧ ∃ j, i ≤ j ∧ j < n ∧ holds_tunnel_buffers (port_at k j)) ∧
      ((kernel_stop_and_return_loop n fuel i k OMX_ErrorNone).2 = OMX_ErrorNone ∨
        (kernel_stop_and_return_loop n fuel i k OMX_ErrorNone).2 =
          OMX_ErrorInsufficientResources) := by
  intro fuel
  induction fuel with
  | zero =>
    intro i k h
    refine ⟨⟨fun hc => absurd hc (by simp [kernel_stop_and_return_loop]), ?_⟩, Or.inl rfl⟩
    rintro ⟨_, j, h1, h2, _⟩
    omega
  | succ fuel ih =>
    intro i k h
    rw [kernel_stop_and_return_loop]
    by_cases hi : i < n
    · simp only [hi, true_and, if_true]
      obtain ⟨b1, b2⟩ := kernel_stop_and_return_body_rc i k
      obtain ⟨f1, f2⟩ := kernel_stop_and_return_body_frame i k OMX_ErrorNone
      rcases b2 with hb | hb
      · rw [hb]
        obtain ⟨i1, i2⟩ := ih (i + 1) (kernel_stop_and_return_body i k OMX_ErrorNone).1
          (by omega)
        refine ⟨?_, i2⟩
        rw [i1, (env_part_fields f2).2.2.2.2.1]
        have hnb : ¬ (k.vec_oom = true ∧ holds_tunnel_buffers (port_at k i)) := by
          intro hc
          have := b1.mpr hc
          rw [hb] at this
          exact absurd this (by simp)
        constructor
        · rintro ⟨ho, j, h1, h2, h3⟩
          rw [port_at_congr f1] at h3
          exact ⟨ho, j, by omega, h2, h3⟩
        · rintro ⟨ho, j, h1, h2, h3⟩
          refine ⟨ho, j, ?_, h2, by rw [port_at_congr f1]; exact h3⟩
          by_contra hc
          have hij : j = i := by omega
          rw [hij] at h3
          exact hnb ⟨ho, h3⟩
      · rw [hb, kernel_stop_and_return_loop_stop n fuel (i + 1) _ _ (by simp)]
        have hc := b1.mp hb
        exact ⟨⟨fun _ => ⟨hc.1, i, le_refl _, hi, hc.2⟩, fun _ => rfl⟩, Or.inr rfl⟩
    · simp only [hi, false_and, if_false]
      refine ⟨⟨fun hc => absurd hc (by simp), ?_⟩, by simp⟩
      rintro ⟨_, j, h1, h2, _⟩
      omega

/-- Claim C40.  In `kernel_stop_and_return`, for an enabled port with buffers
that is not a tunnelled supplier the iteration ends with `OMX_ErrorNone` (the
result of `flush_egress`), whatever `move_to_egress` returned, and
`move_to_egress` does return `-1` when the append fails.  The result of
`kernel_stop_and_return` is `OMX_ErrorNone` or
`OMX_ErrorInsufficientResources`, and it is the latter exactly when the append
fails and some port is an enabled tunnelled supplier with buffers, the ports
whose `move_to_ingress` is called. -/
theorem C40_stop_and_return (k : tizkernel) :
    (∀ i rc, TIZPORT_IS_DISABLED (port_at k i) = false →
      tizport_buffer_count (port_at k i) ≠ 0 →
      TIZPORT_IS_ENABLED_TUNNELED_AND_SUPPLIER (port_at k i) = false →
      (kernel_stop_and_return_body i k rc).2 = OMX_ErrorNone ∧
      (k.vec_oom = true → (move_to_egress k i).2 = -1)) ∧
    ((kernel_stop_and_return k).2 = OMX_ErrorInsufficientResources ↔
      k.vec_oom = true ∧ ∃ j, j < nports k ∧ tizport_buffer_count (port_at k j) ≠ 0 ∧
        TIZPORT_IS_ENABLED_TUNNELED_AND_SUPPLIER (port_at k j) = true) ∧
    ((kernel_stop_and_return k).2 = OMX_ErrorNone ∨
      (kernel_stop_and_return k).2 = OMX_ErrorInsufficientResources) := by
  obtain ⟨l1, l2⟩ := kernel_stop_and_return_loop_rc (nports k) (nports k + 1) 0 k (by omega)
  refine ⟨fun i rc hd hb hts => ⟨?_, move_to_egress_fails k i⟩, ?_, l2⟩
  · unfold kernel_stop_and_return_body
    simp only [hd, hb, hts, Bool.false_eq_true, or_self, if_false]
    rfl
  · unfold kernel_stop_and_return
    rw [l1]
    unfold holds_tunnel_buffers
    constructor
    · rintro ⟨ho, j, _, h2, h3⟩
      exact ⟨ho, j, h2, h3⟩
    · rintro ⟨ho, j, h2, h3⟩
      exact ⟨ho, j, Nat.zero_le _, h2, h3⟩

/-- Witness of C40 in `oom_stop_state`: the append fails, `move_to_egress`
returns `-1`, and `kernel_stop_and_return` returns `OMX_ErrorNone`. -/
theorem C40_stop_and_return_witness :
    TIZPORT_IS_DISABLED (port_at oom_stop_state 0) = false ∧
    (move_to_egress oom_stop_state 0).2 = -1 ∧
    (kernel_stop_and_return oom_stop_state).2 = OMX_ErrorNone ∧
    (kernel_stop_and_return_body 0 oom_stop_state OMX_ErrorNone).2 = OMX_ErrorNone :=
  ⟨by decide, by decide, by decide,
    ((C40_stop_and_return oom_stop_state).1 0 OMX_ErrorNone (by decide) (by decide)
      (by decide)).1⟩

/-! ## C39: `kernel_UseBuffer` and `kernel_AllocateBuffer` -/

/-- Claim C39.  With a port index that is not below the number of ports, or on
a tunnelled supplier port, `kernel_UseBuffer` and `kernel_AllocateBuffer`
return `OMX_ErrorBadPortIndex` and leave the state as it was, the port not
being called.  Otherwise the port is called; a failure is returned with the
port record the call left.  After a success the enable of the port is
completed exactly when the port was being enabled before the call and is
populated after it (state `port_call_done`, whose trace is given for
`cmd_completion_count_` positive whenever the enable is completed, as
`complete_port_enable` asserts at line 392); then `kernel_UseBuffer` calls
`tizfsm_complete_transition (OMX_StateIdle)` whenever `all_populated` holds,
and `kernel_AllocateBuffer` only when `all_populated` holds and the substate is
`LoadedToIdle`. -/
theorem C39_use_and_allocate
    (fu : tizport → Nat → Nat → Nat → Nat → Nat → tizport × OMX_ERRORTYPE)
    (fa : tizport → Nat → Nat → Nat → Nat → tizport × OMX_ERRORTYPE)
    (k : tizkernel) (pid priv size buf : Nat) :
    (nports k ≤ pid ∨ TIZPORT_IS_TUNNELED_AND_SUPPLIER (port_at k pid) = true →
      kernel_UseBuffer fu k pid priv size buf = (k, OMX_ErrorBadPortIndex) ∧
      kernel_AllocateBuffer fa k pid priv size = (k, OMX_ErrorBadPortIndex)) ∧
    (pid < nports k → TIZPORT_IS_TUNNELED_AND_SUPPLIER (port_at k pid) = false →
      ((fu (port_at k pid) k.hdl pid priv size buf).2 ≠ OMX_ErrorNone →
        kernel_UseBuffer fu k pid priv size buf =
          (set_port k pid (fu (port_at k pid) k.hdl pid priv size buf).1,
           (fu (port_at k pid) k.hdl pid priv size buf).2)) ∧
      ((fa (port_at k pid) k.hdl pid priv size).2 ≠ OMX_ErrorNone →
        kernel_AllocateBuffer fa k pid priv size =
          (set_port k pid (fa (port_at k pid) k.hdl pid priv size).1,
           (fa (port_at k pid) k.hdl pid priv size).2)) ∧
      ((fu (port_at k pid) k.hdl pid priv size buf).2 = OMX_ErrorNone →
        kernel_UseBuffer fu k pid priv size buf =
          if all_populated
              (port_call_done k pid (fu (port_at k pid) k.hdl pid priv size buf).1) = true then
            tizfsm_complete_transition
              (port_call_done k pid (fu (port_at k pid) k.hdl pid priv size buf).1)
              OMX_StateIdle.toNat
          else (port_call_done k pid (fu (port_at k pid) k.hdl pid priv size buf).1,
                OMX_ErrorNone)) ∧
      ((fa (port_at k pid) k.hdl pid priv size).2 = OMX_ErrorNone →
        kernel_AllocateBuffer fa k pid priv size =
          if all_populated
              (port_call_done k pid (fa (port_at k pid) k.hdl pid priv size).1) = true ∧
              tizfsm_get_substate k = ESubStateLoadedToIdle then
            tizfsm_complete_transition
              (port_call_done k pid (fa (port_at k pid) k.hdl pid priv size).1)
              OMX_StateIdle.toNat
          else (port_call_done k pid (fa (port_at k pid) k.hdl pid priv size).1,
                OMX_ErrorNone)) ∧
      (∀ p,
        (TIZPORT_IS_BEING_ENABLED (port_at k pid) = true ∧ TIZPORT_IS_POPULATED p = true →
          0 < k.cmd_completion_count_) →
        (port_call_done k pid p).trace = k.trace ++
        (if TIZPORT_IS_BEING_ENABLED (port_at k pid) = true ∧
            TIZPORT_IS_POPULATED p = true then
          [if 0 < k.cmd_completion_count_ - 1 then
              Effect.issue_cmd_event OMX_CommandPortEnable pid OMX_ErrorNone
            else Effect.fsm_complete_command OMX_CommandPortEnable pid]
        else []))) := by
  refine ⟨fun hbad => ?_, fun hlt hts => ?_⟩
  · unfold kernel_UseBuffer kernel_AllocateBuffer
    rcases hbad with h | h
    · have hck : check_pid k pid ≠ OMX_ErrorNone := by simp [check_pid, h]
      simp only [hck, ne_eq, not_false_eq_true, if_true, and_self]
    · by_cases hck : check_pid k pid = OMX_ErrorNone
      · simp only [hck, ne_eq, not_true_eq_false, if_false, h, if_true, and_self]
      · simp only [hck, ne_eq, not_false_eq_true, if_true, and_self]
  · have hck : check_pid k pid = OMX_ErrorNone := by
      simp [check_pid, Nat.not_le.mpr hlt]
    refine ⟨fun hr => ?_, fun hr => ?_, fun hr => ?_, fun hr => ?_, fun p _ => ?_⟩
    · unfold kernel_UseBuffer
      simp only [hck, ne_eq, not_true_eq_false, if_false, hts, Bool.false_eq_true, hr,
        not_false_eq_true, if_true]
    · unfold kernel_AllocateBuffer
      simp only [hck, ne_eq, not_true_eq_false, if_false, hts, Bool.false_eq_true, hr,
        not_false_eq_true, if_true]
    · unfold kernel_UseBuffer
      simp only [hck, ne_eq, not_true_eq_false, if_false, hts, Bool.false_eq_true, hr]
    · unfold kernel_AllocateBuffer
      simp only [hck, ne_eq, not_true_eq_false, if_false, hts, Bool.false_eq_true, hr]
      by_cases hs : tizfsm_get_substate k = ESubStateLoadedToIdle
      · have hs2 : ESubStateLoadedToIdle = tizfsm_get_substate k := hs.symm
        simp only [hs, and_true, if_true]
      · have hs2 : ¬ ESubStateLoadedToIdle = tizfsm_get_substate k := fun h => hs h.symm
        simp only [hs, hs2, and_false, if_false, ite_self]
    · have hl : pid < k.p_ports_.length := hlt
      unfold port_call_done
      have hp : port_at (set_port k pid p) pid = p := by simp [hlt]
      simp only [hp]
      split_ifs with hc h1
      · unfold complete_port_enable
        have h2 : ¬ k.cmd_completion_count_ - 1 = 0 := by omega
        simp [h1, h2, tizservant_issue_cmd_event, tizfsm_complete_command]
      · unfold complete_port_enable
        have h2 : k.cmd_completion_count_ - 1 = 0 := by omega
        simp [h2, tizservant_issue_cmd_event, tizfsm_complete_command]
      · simp

/-- Witness of C39 in `populating_state` (substate `Loaded`, one port that the
call leaves populated): `kernel_UseBuffer` signals the transition to
`OMX_StateIdle`, `kernel_AllocateBuffer` does not.  In `enabling_state`, where
the enable of the port is the one completion outstanding, the call that
populates the port completes the command. -/
theorem C39_use_and_allocate_witness :
    0 < nports populating_state ∧
    TIZPORT_IS_TUNNELED_AND_SUPPLIER (port_at populating_state 0) = false ∧
    (kernel_UseBuffer use_last populating_state 0 0 0 0).1.trace =
      [Effect.fsm_complete_transition OMX_StateIdle.toNat] ∧
    (kernel_AllocateBuffer allocate_last populating_state 0 0 0).1.trace = [] ∧
    (port_call_done populating_state 0 (use_last (port_at populating_state 0) 7 0 0 0 0).1).trace
      = [] ∧
    0 < nports enabling_state ∧
    TIZPORT_IS_TUNNELED_AND_SUPPLIER (port_at enabling_state 0) = false ∧
    TIZPORT_IS_BEING_ENABLED (port_at enabling_state 0) = true ∧
    TIZPORT_IS_POPULATED (use_last (port_at enabling_state 0) 7 0 0 0 0).1 = true ∧
    0 < enabling_state.cmd_completion_count_ ∧
    (dispatch_port_enable port_class0
      (set_count (set_port enabling_state 0
        { port_at enabling_state 0 with being_enabled := false }) 0)
      (send_command OMX_CommandPortEnable 0)).1.p_ports_ = enabling_state.p_ports_ ∧
    (dispatch_port_enable port_class0
      (set_count (set_port enabling_state 0
        { port_at enabling_state 0 with being_enabled := false }) 0)
      (send_command OMX_CommandPortEnable 0)).1.cmd_completion_count_ = 1 ∧
    (port_call_done enabling_state 0 (use_last (port_at enabling_state 0) 7 0 0 0 0).1).trace
      = [Effect.fsm_complete_command OMX_CommandPortEnable 0] :=
  ⟨by decide, by decide, by decide, by decide,
    ((C39_use_and_allocate use_last allocate_last populating_state 0 0 0 0).2 (by decide)
      (by decide)).2.2.2.2 (use_last (port_at populating_state 0) 7 0 0 0 0).1
      (fun h => absurd h.1 (by decide)),
    by decide, by decide, by decide, by decide, by decide, by decide, by decide,
    ((C39_use_and_allocate use_last allocate_last enabling_state 0 0 0 0).2 (by decide)
      (by decide)).2.2.2.2 (use_last (port_at enabling_state 0) 7 0 0 0 0).1
      (fun _ => by decide)⟩

/-! ## C33, C34: the port registry -/

theorem register_config_port (dom : tizport → OMX_PORTDOMAINTYPE) (k : tizkernel)
    (p : tizport) :
    (kernel_register_port dom k p true).2 = OMX_ErrorNone ∧
    (kernel_register_port dom k p true).1.p_cport_ =
      some (tizport_set_index p TIZPORT_CONFIG_PORT_INDEX) ∧
    (kernel_register_port dom k p true).1.p_ports_ = k.p_ports_ ∧
    (kernel_register_port dom k p true).1.p_ingress_ = k.p_ingress_ ∧
    (kernel_register_port dom k p true).1.p_egress_ = k.p_egress_ ∧
    (kernel_register_port dom k p true).1.vec_oom = k.vec_oom ∧
    (∀ D, domain_aggregate (kernel_register_port dom k p true).1 D = domain_aggregate k D) :=
  ⟨rfl, rfl, rfl, rfl, rfl, rfl, fun D => by cases D <;> rfl⟩

theorem register_data_port (dom : tizport → OMX_PORTDOMAINTYPE) (k : tizkernel)
    (p : tizport) (hoom : k.vec_oom = false) :
    (kernel_register_port dom k p false).2 = OMX_ErrorNone ∧
    (kernel_register_port dom k p false).1.p_cport_ = k.p_cport_ ∧
    (kernel_register_port dom k p false).1.p_ports_ =
      k.p_ports_ ++ [tizport_set_index p k.p_ports_.length] ∧
    (kernel_register_port dom k p false).1.p_ingress_ = k.p_ingress_ ++ [[]] ∧
    (kernel_register_port dom k p false).1.p_egress_ = k.p_egress_ ++ [[]] ∧
    (kernel_register_port dom k p false).1.vec_oom = false ∧
    (∀ D, D ≠ OMX_PortDomainMax →
      domain_aggregate (kernel_register_port dom k p false).1 D =
        if dom (tizport_set_index p k.p_ports_.length) = D then
          count_in_domain (domain_aggregate k D) k.p_ports_.length
        else domain_aggregate k D) := by
  unfold kernel_register_port
  simp only [Bool.false_eq_true, if_false, tiz_vector_push_back_elem, hoom]
  cases hd : dom (tizport_set_index p k.p_ports_.length) <;>
    refine ⟨?_, ?_, ?_, ?_, ?_, ?_, fun D hD => ?_⟩ <;>
    first
      | trivial
      | exact hoom
      | (cases D <;> simp [domain_aggregate] at hD ⊢)

theorem register_data_port_aggregates (dom : tizport → OMX_PORTDOMAINTYPE) (k : tizkernel)
    (p : tizport) (hoom : k.vec_oom = false) (hok : aggregates_ok dom k) :
    aggregates_ok dom (kernel_register_port dom k p false).1 := by
  obtain ⟨_, _, hp, _, _, _, ha⟩ := register_data_port dom k p hoom
  intro D hD
  obtain ⟨c1, c2⟩ := hok D hD
  rw [ha D hD, hp, List.countP_append, List.findIdx_append]
  by_cases hd : dom (tizport_set_index p k.p_ports_.length) = D
  · simp only [hd, if_true, count_in_domain]
    refine ⟨by simp [c1, hd], fun _ => ?_⟩
    by_cases h0 : 0 = (domain_aggregate k D).nPorts
    · have hz : k.p_ports_.countP (fun p => decide (dom p = D)) = 0 := by omega
      have hnone : ∀ x ∈ k.p_ports_, (fun p => decide (dom p = D)) x = false := by
        intro x hx
        have := (List.countP_eq_zero.mp hz) x hx
        simpa using this
      have hlen := List.findIdx_eq_length.mpr hnone
      simp [h0, hlen, hd, List.findIdx_cons]
    · have hpos : 0 < (domain_aggregate k D).nPorts := by omega
      have hex : ∃ x ∈ k.p_ports_, (fun p => decide (dom p = D)) x = true := by
        rw [c1] at hpos
        exact List.countP_pos_iff.mp hpos
      simp only [h0, if_false, List.findIdx_lt_length_of_exists hex, if_true]
      exact c2 hpos
  · simp only [hd, if_false]
    refine ⟨by simp [c1, hd], fun hpos => ?_⟩
    have hex : ∃ x ∈ k.p_ports_, (fun p => decide (dom p = D)) x = true := by
      rw [c1] at hpos
      exact List.countP_pos_iff.mp hpos
    simp only [List.findIdx_lt_length_of_exists hex, if_true]
    exact c2 hpos

theorem index_from_append (l : List tizport) (p : tizport) :
    ∀ n, index_from n (l ++ [p]) = index_from n l ++ [tizport_set_index p (n + l.length)] := by
  induction l with
  | nil => intro n; simp [index_from]
  | cons a rest ih =>
    intro n
    have hn : n + 1 + rest.length = n + (rest.length + 1) := by omega
    show tizport_set_index a n :: index_from (n + 1) (rest ++ [p]) = _
    rw [ih, hn]
    rfl

theorem index_from_length (l : List tizport) : ∀ n, (index_from n l).length = l.length := by
  induction l with
  | nil => intro n; rfl
  | cons a rest ih => intro n; simp [index_from, ih]

theorem index_from_get (l : List tizport) :
    ∀ n i, (index_from n l)[i]? = (l[i]?).map (fun p => tizport_set_index p (n + i)) := by
  induction l with
  | nil => intro n i; simp [index_from]
  | cons a rest ih =>
    intro n i
    cases i with
    | zero => simp [index_from]
    | succ j =>
      simp only [index_from, List.getElem?_cons_succ, ih]
      rw [show n + 1 + j = n + (j + 1) by omega]

theorem data_ports_cons (r : tizport × Bool) (rest : List (tizport × Bool)) :
    data_ports (r :: rest) = if r.2 = true then data_ports rest else r.1 :: data_ports rest := by
  unfold data_ports
  cases h : r.2 <;> simp [List.filter_cons, h]

/-- A run of registrations from a state whose ports are `index_from 0 l`. -/
theorem register_all_run (dom : tizport → OMX_PORTDOMAINTYPE) :
    ∀ (regs : List (tizport × Bool)) (k : tizkernel) (l : List tizport),
      k.vec_oom = false → aggregates_ok dom k → k.p_ports_ = index_from 0 l →
      (register_all dom regs k).p_ports_ = index_from 0 (l ++ data_ports regs) ∧
      aggregates_ok dom (register_all dom regs k) ∧
      (register_all dom regs k).vec_oom = false := by
  intro regs
  induction regs with
  | nil =>
    intro k l hoom hok hp
    simp only [register_all, data_ports, List.filter_nil, List.map_nil, List.append_nil]
    exact ⟨hp, hok, hoom⟩
  | cons r rest ih =>
    intro k l hoom hok hp
    obtain ⟨p, cfg⟩ := r
    rw [register_all, data_ports_cons]
    cases cfg
    · obtain ⟨_, _, s3, _, _, s6, _⟩ := register_data_port dom k p hoom
      have hagg := register_data_port_aggregates dom k p hoom hok
      have hlen : k.p_ports_.length = l.length := by rw [hp, index_from_length]
      have hp2 : (kernel_register_port dom k p false).1.p_ports_ = index_from 0 (l ++ [p]) := by
        rw [s3, index_from_append, hlen, Nat.zero_add, hp]
      obtain ⟨i1, i2, i3⟩ := ih _ (l ++ [p]) s6 hagg hp2
      refine ⟨?_, i2, i3⟩
      rw [i1]
      simp
    · obtain ⟨_, _, s3, _, _, s6, s7⟩ := register_config_port dom k p
      have hagg : aggregates_ok dom (kernel_register_port dom k p true).1 := by
        intro D hD
        rw [s7 D, s3]
        exact hok D hD
      obtain ⟨i1, i2, i3⟩ := ih _ l (s6.trans hoom) hagg (s3.trans hp)
      refine ⟨?_, i2, i3⟩
      rw [i1]
      simp

theorem kernel_get_port_eq (k : tizkernel) (pid : Nat) :
    kernel_get_port k pid = k.p_ports_[pid]? := by
  unfold kernel_get_port nports port_at
  split_ifs with h
  · exact (List.getElem?_eq_none h).symm
  · have hlt : pid < k.p_ports_.length := Nat.lt_of_not_le h
    rw [List.getD_eq_getElem _ _ hlt, List.getElem?_eq_getElem hlt]

theorem init_aggregates_ok (dom : tizport → OMX_PORTDOMAINTYPE) (k0 : tizkernel) :
    aggregates_ok dom (init_ports_and_lists k0) := by
  intro D hD
  cases D <;> simp [init_ports_and_lists, domain_aggregate] at hD ⊢

/-- Claim C33.  Let a new kernel (`init_ports_and_lists`) register the ports of
`regs` in order, the pushes onto the vectors succeeding.  Then the data ports
of the kernel are the data ports of `regs` in order, the one at position `i`
with index `i`: `kernel_get_port (i)` returns it, and `kernel_get_port (pid)`
returns `NULL` for every `pid` from the number of data ports on.  For each of
the four domains the aggregate counts the data ports of the domain, and when
there is one its start index is the position of the first of them.  The
registration of the config port gives it the index
`TIZPORT_CONFIG_PORT_INDEX` and changes neither the data ports nor an
aggregate. -/
theorem C33_port_registration (dom : tizport → OMX_PORTDOMAINTYPE) (k0 : tizkernel)
    (regs : List (tizport × Bool)) (hoom : k0.vec_oom = false) :
    (∀ i p, (data_ports regs)[i]? = some p →
      kernel_get_port (register_all dom regs (init_ports_and_lists k0)) i =
        some (tizport_set_index p i) ∧
      tizport_index (tizport_set_index p i) = i) ∧
    (∀ pid, (data_ports regs).length ≤ pid →
      kernel_get_port (register_all dom regs (init_ports_and_lists k0)) pid = none) ∧
    nports (register_all dom regs (init_ports_and_lists k0)) = (data_ports regs).length ∧
    (∀ D, D ≠ OMX_PortDomainMax →
      (domain_aggregate (register_all dom regs (init_ports_and_lists k0)) D).nPorts =
        (register_all dom regs (init_ports_and_lists k0)).p_ports_.countP
          (fun p => decide (dom p = D)) ∧
      (0 < (domain_aggregate (register_all dom regs (init_ports_and_lists k0)) D).nPorts →
        (domain_aggregate (register_all dom regs (init_ports_and_lists k0)) D).nStartPortNumber =
          (register_all dom regs (init_ports_and_lists k0)).p_ports_.findIdx
            (fun p => decide (dom p = D)))) ∧
    (∀ k p, (kernel_register_port dom k p true).1.p_cport_ =
        some (tizport_set_index p TIZPORT_CONFIG_PORT_INDEX) ∧
      tizport_index (tizport_set_index p TIZPORT_CONFIG_PORT_INDEX) =
        TIZPORT_CONFIG_PORT_INDEX ∧
      (kernel_register_port dom k p true).1.p_ports_ = k.p_ports_ ∧
      (∀ D, domain_aggregate (kernel_register_port dom k p true).1 D =
        domain_aggregate k D)) := by
  obtain ⟨h1, h2, _⟩ := register_all_run dom regs (init_ports_and_lists k0) []
    hoom (init_aggregates_ok dom k0) rfl
  rw [List.nil_append] at h1
  refine ⟨fun i p hp => ⟨?_, rfl⟩, fun pid hpid => ?_, ?_, h2, fun k p => ?_⟩
  · rw [kernel_get_port_eq, h1, index_from_get, hp]
    simp
  · rw [kernel_get_port_eq, h1]
    exact List.getElem?_eq_none (by rw [index_from_length]; exact hpid)
  · unfold nports
    rw [h1, index_from_length]
  · obtain ⟨_, c2, c3, _, _, _, c7⟩ := register_config_port dom k p
    exact ⟨c2, rfl, c3, c7⟩

/-- Witness of C33 with `four_registrations`: three data ports with the indices
`0`, `1`, `2`; one audio port, at position `1`, and two video ports, from
position `0`. -/
theorem C33_port_registration_witness :
    kernel0.vec_oom = false ∧
    nports (register_all dom_by_dir four_registrations (init_ports_and_lists kernel0)) = 3 ∧
    (register_all dom_by_dir four_registrations (init_ports_and_lists kernel0)).audio_init_ =
      { nPorts := 1, nStartPortNumber := 1 } ∧
    (register_all dom_by_dir four_registrations (init_ports_and_lists kernel0)).video_init_ =
      { nPorts := 2, nStartPortNumber := 0 } ∧
    kernel_get_port (register_all dom_by_dir four_registrations (init_ports_and_lists kernel0)) 3
      = none :=
  ⟨by decide, by decide, by decide, by decide,
    (C33_port_registration dom_by_dir kernel0 four_registrations (by decide)).2.1 3
      (by decide)⟩

theorem pop_all_nil {α : Type} : ∀ (fuel : Nat) (l : List α), l.length ≤ fuel →
    pop_all fuel l = [] := by
  intro fuel
  induction fuel with
  | zero =>
    intro l h
    rw [pop_all]
    exact List.length_eq_zero.mp (Nat.le_zero.mp h)
  | succ fuel ih =>
    intro l h
    rw [pop_all]
    split_ifs with hl
    · exact ih _ (by rw [List.length_dropLast]; omega)
    · exact List.length_eq_zero.mp (by omega)

theorem deregister_eq_init (k : tizkernel) :
    kernel_deregister_all_ports k = init_ports_and_lists k := rfl

theorem four_domains_sum (dom : tizport → OMX_PORTDOMAINTYPE) (l : List tizport) :
    (∀ p ∈ l, dom p ≠ OMX_PortDomainMax) →
    l.countP (fun p => decide (dom p = OMX_PortDomainAudio)) +
      l.countP (fun p => decide (dom p = OMX_PortDomainVideo)) +
      l.countP (fun p => decide (dom p = OMX_PortDomainImage)) +
      l.countP (fun p => decide (dom p = OMX_PortDomainOther)) = l.length := by
  induction l with
  | nil => intro _; rfl
  | cons a rest ih =>
    intro h
    have hr := ih (fun p hp => h p (List.mem_cons_of_mem _ hp))
    have ha := h a (List.mem_cons_self _ _)
    simp only [List.countP_cons, List.length_cons]
    cases hd : dom a <;> simp [hd] at ha ⊢ <;> omega

/-- The invariant of the registry: the pushes succeed, the three vectors have
the same length, the aggregates agree with the data ports, and every data port
has one of the four domains. -/
theorem registry_run_inv (dom : tizport → OMX_PORTDOMAINTYPE) (k : tizkernel)
    (h : registry_run dom k) :
    k.vec_oom = false ∧ k.p_ports_.length = k.p_ingress_.length ∧
    k.p_ingress_.length = k.p_egress_.length ∧ aggregates_ok dom k ∧
    (∀ p ∈ k.p_ports_, dom p ≠ OMX_PortDomainMax) := by
  induction h with
  | ctor k0 hoom =>
    exact ⟨hoom, rfl, rfl, init_aggregates_ok dom k0, fun p hp => by
      simp [init_ports_and_lists] at hp⟩
  | register k p cfg _ hdom ih =>
    obtain ⟨i1, i2, i3, i4, i5⟩ := ih
    cases cfg
    · obtain ⟨_, _, s3, s4, s5, s6, _⟩ := register_data_port dom k p i1
      refine ⟨s6, ?_, ?_, register_data_port_aggregates dom k p i1 i4, fun q hq => ?_⟩
      · rw [s3, s4]; simp [i2]
      · rw [s4, s5]; simp [i3]
      · rw [s3, List.mem_append] at hq
        rcases hq with hq | hq
        · exact i5 q hq
        · rw [List.mem_singleton.mp hq]; exact hdom rfl
    · obtain ⟨_, _, s3, s4, s5, s6, s7⟩ := register_config_port dom k p
      refine ⟨s6.trans i1, by rw [s3, s4]; exact i2, by rw [s4, s5]; exact i3, ?_, ?_⟩
      · intro D hD
        rw [s7 D, s3]
        exact i4 D hD
      · rw [s3]; exact i5
  | deregister k _ ih =>
    rw [deregister_eq_init]
    exact ⟨ih.1, rfl, rfl, init_aggregates_ok dom k, fun p hp => by
      simp [init_ports_and_lists] at hp⟩

/-- Claim C34.  In every state that a kernel reaches from its construction by
`kernel_register_port` and `kernel_deregister_all_ports`, the pushes onto the
vectors succeeding, the vectors of ports, of ingress lists and of egress lists
have the same length and the four domain counts add up to the number of data
ports.  `kernel_deregister_all_ports` leaves the state that the constructor
gives: no config port, no data port, no list, the four aggregates `{0, 0}`,
`eos_` false and `cmd_completion_count_` zero. -/
theorem C34_registry_invariant (dom : tizport → OMX_PORTDOMAINTYPE) (k : tizkernel) :
    (registry_run dom k →
      k.p_ports_.length = k.p_ingress_.length ∧
      k.p_ingress_.length = k.p_egress_.length ∧
      k.audio_init_.nPorts + k.video_init_.nPorts + k.image_init_.nPorts
        + k.other_init_.nPorts = k.p_ports_.length) ∧
    kernel_deregister_all_ports k = init_ports_and_lists k ∧
    (deinit_ports_and_lists k).p_ports_ = [] ∧
    (deinit_ports_and_lists k).p_ingress_ = [] ∧
    (deinit_ports_and_lists k).p_egress_ = [] ∧
    (deinit_ports_and_lists k).p_cport_ = none ∧
    (kernel_deregister_all_ports k).p_cport_ = none ∧
    (kernel_deregister_all_ports k).p_ports_ = [] ∧
    (kernel_deregister_all_ports k).p_ingress_ = [] ∧
    (kernel_deregister_all_ports k).p_egress_ = [] ∧
    (kernel_deregister_all_ports k).audio_init_ = { nPorts := 0, nStartPortNumber := 0 } ∧
    (kernel_deregister_all_ports k).video_init_ = { nPorts := 0, nStartPortNumber := 0 } ∧
    (kernel_deregister_all_ports k).image_init_ = { nPorts := 0, nStartPortNumber := 0 } ∧
    (kernel_deregister_all_ports k).other_init_ = { nPorts := 0, nStartPortNumber := 0 } ∧
    (kernel_deregister_all_ports k).eos_ = false ∧
    (kernel_deregister_all_ports k).cmd_completion_count_ = 0 := by
  refine ⟨fun h => ?_, rfl, pop_all_nil _ _ (le_refl _), pop_all_nil _ _ (le_refl _),
    pop_all_nil _ _ (le_refl _), rfl, rfl, rfl, rfl, rfl, rfl, rfl, rfl, rfl, rfl, rfl⟩
  obtain ⟨_, i2, i3, i4, i5⟩ := registry_run_inv dom k h
  refine ⟨i2, i3, ?_⟩
  have hs := four_domains_sum dom k.p_ports_ i5
  have a1 := (i4 OMX_PortDomainAudio (by decide)).1
  have a2 := (i4 OMX_PortDomainVideo (by decide)).1
  have a3 := (i4 OMX_PortDomainImage (by decide)).1
  have a4 := (i4 OMX_PortDomainOther (by decide)).1
  simp only [domain_aggregate] at a1 a2 a3 a4
  omega

/-- Witness of C34: the kernel that has registered `in_port` as a video port
after its construction has one port, one ingress list and one egress list. -/
theorem C34_registry_invariant_witness :
    registry_run dom_by_dir
      (kernel_register_port dom_by_dir (init_ports_and_lists kernel0) in_port false).1 ∧
    (kernel_register_port dom_by_dir (init_ports_and_lists kernel0) in_port false).1.p_ports_.length
      = (kernel_register_port dom_by_dir (init_ports_and_lists kernel0) in_port
          false).1.p_ingress_.length :=
  ⟨registry_run.register _ _ _ (registry_run.ctor kernel0 (by decide)) (fun _ => by decide),
    ((C34_registry_invariant dom_by_dir _).1
      (registry_run.register _ _ _ (registry_run.ctor kernel0 (by decide))
        (fun _ => by decide))).1⟩

end Tizonia
